import Mathlib

/-!
# One-dimensional flow domain (`StFlow`, `AxiStagnFlow`, `PorousFlow`)

A shallow embedding of `src/include/cantera/oneD/StFlow.h` and
`src/src/oneD/StFlow.cpp`.

Conventions of the embedding:

* `double` is the field `ℚ` of exact rationals (exact arithmetic, no rounding,
  no NaN); `pow(a, n)` with an integral exponent is `a ^ n`.
* `size_t` is `Nat`; where the source relies on unsigned wrap-around the
  arithmetic is written with an explicit `% 2 ^ 64`.
* a `vector_fp` member is a `List ℚ`, read with `vget` and written with
  `List.set`; `std::vector::resize` is `vresize`.
* a raw `double*`/`int*` argument (solution, residual, mask) is a function on
  `Nat`; a store through the pointer is `Function.update`.
* the collaborators (phase, kinetics, transport) are records of functions of
  the phase cursor (temperature, mass fractions, pressure) they were last set to.
* a member function that may throw returns an `Outcome`: the object as the
  throw (or the normal return) leaves it, and the error if one was thrown.
-/

namespace Cantera

/-! ## Basic machine model -/

/-- The constant `npos` of the sources: the largest `size_t`. -/
def npos : Nat := 2 ^ 64 - 1

/-- Unsigned 64-bit addition. -/
def addSz (a b : Nat) : Nat := (a + b) % 2 ^ 64

/-- Unsigned 64-bit subtraction. -/
def subSz (a b : Nat) : Nat := (a + 2 ^ 64 - b % 2 ^ 64) % 2 ^ 64

/-- Read of `v[i]` for a `vector_fp`. -/
def vget (v : List ℚ) (i : Nat) : ℚ := v.getD i 0

/-- Read of `v[i]` for a `std::vector<bool>`. -/
def bget (v : List Bool) (i : Nat) : Bool := v.getD i false

/-- The call `v.resize(n, d)` of `std::vector`. -/
def vresize {α : Type} (v : List α) (n : Nat) (d : α) : List α :=
  v.take n ++ List.replicate (n - v.length) d

/-- The loop `for (j = lo; j < hi; j++) body(j)` over a state. -/
def forRange {σ : Type} (lo hi : Nat) (body : Nat → σ → σ) (s : σ) : σ :=
  (List.range' lo (hi - lo)).foldl (fun acc j => body j acc) s

/-- The loop `for (j = hi - 1; j >= lo; j--) body(j)` over a state. -/
def forDown {σ : Type} (lo hi : Nat) (body : Nat → σ → σ) (s : σ) : σ :=
  (List.range' lo (hi - lo)).foldr (fun j acc => body j acc) s

/-- Result of a member function that may throw: the object afterwards and the
error, if any. -/
structure Outcome (σ : Type) where
  state : σ
  error : Option String

/-- Offset of the axial velocity in the solution array. -/
def c_offset_U : Nat := 0
/-- Offset of the strain rate in the solution array. -/
def c_offset_V : Nat := 1
/-- Offset of the temperature in the solution array. -/
def c_offset_T : Nat := 2
/-- Offset of `(1/r)dP/dr` in the solution array. -/
def c_offset_L : Nat := 3
/-- Offset of the electric potential slot in the solution array. -/
def c_offset_E : Nat := 4
/-- Offset of the first mass fraction in the solution array. -/
def c_offset_Y : Nat := 5

/-! ## Collaborators and base class

`Array2D`, `Domain1D`, the phase, kinetics and transport managers and the
physical constants are declared outside the two source files; they are
modelled by what `StFlow.cpp` uses of them. -/

/-- Modelled from the spec: the class `Array2D` (base/Array.h, not among the
sources), a column-major matrix; `a(i,j)` is `data[nrows*j + i]`. -/
structure Array2D where
  nrows : Nat
  ncols : Nat
  data : List ℚ

/-- The accessor `a(i,j)`. -/
def Array2D.get (a : Array2D) (i j : Nat) : ℚ := vget a.data (a.nrows * j + i)

/-- The store `a(i,j) = v`. -/
def Array2D.set (a : Array2D) (i j : Nat) (v : ℚ) : Array2D :=
  { a with data := a.data.set (a.nrows * j + i) v }

/-- The call `a.resize(n, m, v)`. -/
def Array2D.resize (a : Array2D) (n m : Nat) (v : ℚ) : Array2D :=
  { nrows := n, ncols := m, data := vresize a.data (n * m) v }

/-- The domain type tags of `Domain1D.h` used by the flow classes. -/
inductive DomainType where
  | cFlowType
  | cFreeFlow
  | cAxisymmetricStagnationFlow
  | cPorousType
  deriving DecidableEq, Repr

/-- The dynamic class of a flow object, which selects the virtual overrides. -/
inductive FlowClass where
  | StFlow
  | AxiStagnFlow
  | PorousFlow
  deriving DecidableEq, Repr

/-- The cursor of the phase object: the state it was last set to. -/
structure GasCursor where
  temperature : ℚ
  massFractions : List ℚ
  pressure : ℚ

/-- The phase manager as used by the flow domain. -/
structure IdealGasPhase where
  cursor : GasCursor
  density : GasCursor → ℚ
  meanMolecularWeight : GasCursor → ℚ
  cp_mass : GasCursor → ℚ
  enthalpy_RT_ref : GasCursor → Nat → ℚ
  cp_R_ref : GasCursor → Nat → ℚ
  speciesName : Nat → String
  speciesIndex : String → Nat

/-- The kinetics manager as used by the flow domain. -/
structure Kinetics where
  netProductionRates : GasCursor → Nat → ℚ

/-- The transport manager as used by the flow domain. -/
structure Transport where
  transportType : String
  viscosity : GasCursor → ℚ
  thermalConductivity : GasCursor → ℚ
  multiDiffCoeffs : GasCursor → Nat → ℚ
  mixDiffCoeffs : GasCursor → Nat → ℚ
  thermalDiffCoeffs : GasCursor → Nat → ℚ

/-- Constants and library functions of the headers that are not among the
sources (`ct_defs.h`, `funcs.h`, `<cmath>`), taken as parameters. -/
structure Consts where
  OneAtm : ℚ
  StefanBoltz : ℚ
  GasConstant : ℚ
  Undef : ℚ
  linearInterp : ℚ → List ℚ → List ℚ → ℚ
  powReal : ℚ → ℚ → ℚ
  sqrt : ℚ → ℚ

/-- The flow domain object: the members of `StFlow` together with the members
of its base class `Domain1D` that the sources use. -/
structure StFlow where
  cls : FlowClass
  -- Domain1D
  m_nv : Nat
  m_points : Nat
  m_z : List ℚ
  m_jstart : Nat
  m_iloc : Nat
  m_type : DomainType
  m_slast : Nat → ℚ
  m_force_full_update : Bool
  refinerActive : Nat → Bool
  jacUpdateNeeded : Bool
  dosolid : Int
  -- StFlow
  m_press : ℚ
  m_dz : List ℚ
  m_rho : List ℚ
  m_wtm : List ℚ
  m_wt : List ℚ
  m_cp : List ℚ
  m_visc : List ℚ
  m_tcon : List ℚ
  m_diff : List ℚ
  m_multidiff : List ℚ
  m_dthermal : Array2D
  m_flux : Array2D
  m_wdot : Array2D
  m_nsp : Nat
  m_thermo : IdealGasPhase
  m_kin : Kinetics
  m_trans : Transport
  m_epsilon_left : ℚ
  m_epsilon_right : ℚ
  m_kRadiating : List Nat
  m_do_energy : List Bool
  m_do_soret : Bool
  m_do_species : List Bool
  m_do_multicomponent : Bool
  m_do_radiation : Bool
  m_qdotRadiation : List ℚ
  m_fixedtemp : List ℚ
  m_zfix : List ℚ
  m_tfix : List ℚ
  m_kExcessLeft : Nat
  m_kExcessRight : Nat
  m_dovisc : Bool
  m_zfixed : ℚ
  m_tfixed : ℚ
  m_ybar : List ℚ

namespace StFlow

/-! ## Accessors of `Domain1D` and `StFlow.h` -/

/-- Modelled from the spec: `Domain1D::index(n, j)`, the position of component
`n` at point `j` in the local solution array (the components of one point are
contiguous, as `setGas` reads them at `x + m_nv*j + c_offset_Y`). -/
def index (s : StFlow) (n j : Nat) : Nat := s.m_nv * j + n

/-- The accessor `z(j)` (also `grid(j)`) of `Domain1D`. -/
def z (s : StFlow) (j : Nat) : ℚ := vget s.m_z j

/-- The accessor `prevSoln(n, j)` of `Domain1D`. -/
def prevSoln (s : StFlow) (n j : Nat) : ℚ := s.m_slast (s.m_nv * j + n)

/-- The accessor `firstPoint()` of `Domain1D`. -/
def firstPoint (s : StFlow) : Nat := s.m_jstart

/-- The accessor `lastPoint()` of `Domain1D`. -/
def lastPoint (s : StFlow) : Nat := s.m_jstart + s.m_points - 1

/-- The accessor `loc()` of `Domain1D`. -/
def loc (s : StFlow) : Nat := s.m_iloc

/-- The accessor `domainType()` of `Domain1D`. -/
def domainType (s : StFlow) : DomainType := s.m_type

/-- The accessor `T(x, j)`: the temperature at point `j`. -/
def T (s : StFlow) (x : Nat → ℚ) (j : Nat) : ℚ := x (s.index c_offset_T j)

/-- The accessor `T_prev(j)`. -/
def T_prev (s : StFlow) (j : Nat) : ℚ := s.prevSoln c_offset_T j

/-- The accessor `rho_u(x, j)`: cached density times axial velocity. -/
def rho_u (s : StFlow) (x : Nat → ℚ) (j : Nat) : ℚ :=
  vget s.m_rho j * x (s.index c_offset_U j)

/-- The accessor `u(x, j)`: the axial velocity at point `j`. -/
def u (s : StFlow) (x : Nat → ℚ) (j : Nat) : ℚ := x (s.index c_offset_U j)

/-- The accessor `V(x, j)`: the strain rate at point `j`. -/
def V (s : StFlow) (x : Nat → ℚ) (j : Nat) : ℚ := x (s.index c_offset_V j)

/-- The accessor `V_prev(j)`. -/
def V_prev (s : StFlow) (j : Nat) : ℚ := s.prevSoln c_offset_V j

/-- The accessor `lambda(x, j)`. -/
def lambda (s : StFlow) (x : Nat → ℚ) (j : Nat) : ℚ := x (s.index c_offset_L j)

/-- The accessor `Y(x, k, j)`: the mass fraction of species `k` at point `j`. -/
def Y (s : StFlow) (x : Nat → ℚ) (k j : Nat) : ℚ := x (s.index (c_offset_Y + k) j)

/-- The accessor `Y_prev(k, j)`. -/
def Y_prev (s : StFlow) (k j : Nat) : ℚ := s.prevSoln (c_offset_Y + k) j

/-- The accessor `X(x, k, j)`: the mole fraction from the cached mean molecular weight. -/
def X (s : StFlow) (x : Nat → ℚ) (k j : Nat) : ℚ :=
  vget s.m_wtm j * s.Y x k j / vget s.m_wt k

/-- The accessor `flux(k, j)`. -/
def flux (s : StFlow) (k j : Nat) : ℚ := s.m_flux.get k j

/-- The accessor `wdot(k, j)`. -/
def wdot (s : StFlow) (k j : Nat) : ℚ := s.m_wdot.get k j

/-- The accessor `density(j)`. -/
def density (s : StFlow) (j : Nat) : ℚ := vget s.m_rho j

/-- The accessor `T_fixed(j)`. -/
def T_fixed (s : StFlow) (j : Nat) : ℚ := vget s.m_fixedtemp j

/-- The accessor `doEnergy(j)`. -/
def doEnergy (s : StFlow) (j : Nat) : Bool := bget s.m_do_energy j

/-- The accessor `leftExcessSpecies()`. -/
def leftExcessSpecies (s : StFlow) : Nat := s.m_kExcessLeft

/-- The accessor `rightExcessSpecies()`. -/
def rightExcessSpecies (s : StFlow) : Nat := s.m_kExcessRight

/-- The accessor `leftEmissivity()`. -/
def leftEmissivity (s : StFlow) : ℚ := s.m_epsilon_left

/-- The accessor `rightEmissivity()`. -/
def rightEmissivity (s : StFlow) : ℚ := s.m_epsilon_right

/-- The accessor `radiativeHeatLoss(j)`. -/
def radiativeHeatLoss (s : StFlow) (j : Nat) : ℚ := vget s.m_qdotRadiation j

/-- The accessor `withSoret()`. -/
def withSoret (s : StFlow) : Bool := s.m_do_soret

/-- The setter `enableSoret(withSoret)`. -/
def enableSoret (s : StFlow) (withSoret : Bool) : StFlow :=
  { s with m_do_soret := withSoret }

/-- The setter `enableRadiation(doRadiation)`. -/
def enableRadiation (s : StFlow) (doRadiation : Bool) : StFlow :=
  { s with m_do_radiation := doRadiation }

/-- The index function `mindex(k, j, m)` into `m_multidiff`. -/
def mindex (s : StFlow) (k j m : Nat) : Nat := m * s.m_nsp * s.m_nsp + s.m_nsp * j + k

/-! ### Convective derivatives (upwind differencing) -/

/-- The convective derivative `dVdz(x, j)`. -/
def dVdz (s : StFlow) (x : Nat → ℚ) (j : Nat) : ℚ :=
  let jloc := if s.u x j > 0 then j else j + 1
  (s.V x jloc - s.V x (jloc - 1)) / vget s.m_dz (jloc - 1)

/-- The convective derivative `dYdz(x, k, j)`. -/
def dYdz (s : StFlow) (x : Nat → ℚ) (k j : Nat) : ℚ :=
  let jloc := if s.u x j > 0 then j else j + 1
  (s.Y x k jloc - s.Y x k (jloc - 1)) / vget s.m_dz (jloc - 1)

/-- The convective derivative `dTdz(x, j)`. -/
def dTdz (s : StFlow) (x : Nat → ℚ) (j : Nat) : ℚ :=
  let jloc := if s.u x j > 0 then j else j + 1
  (s.T x jloc - s.T x (jloc - 1)) / vget s.m_dz (jloc - 1)

/-- The viscous term `shear(x, j)`. -/
def shear (s : StFlow) (x : Nat → ℚ) (j : Nat) : ℚ :=
  let c1 := vget s.m_visc (j - 1) * (s.V x j - s.V x (j - 1))
  let c2 := vget s.m_visc j * (s.V x (j + 1) - s.V x j)
  2 * (c2 / (s.z (j + 1) - s.z j) - c1 / (s.z j - s.z (j - 1))) / (s.z (j + 1) - s.z (j - 1))

/-- The conductive term `divHeatFlux(x, j)`. -/
def divHeatFlux (s : StFlow) (x : Nat → ℚ) (j : Nat) : ℚ :=
  let c1 := vget s.m_tcon (j - 1) * (s.T x j - s.T x (j - 1))
  let c2 := vget s.m_tcon j * (s.T x (j + 1) - s.T x j)
  (-2 : ℚ) * (c2 / (s.z (j + 1) - s.z j) - c1 / (s.z j - s.z (j - 1))) / (s.z (j + 1) - s.z (j - 1))

/-! ## Grid set-up -/

/-- Modelled from the spec: `Domain1D::resize` of the base class (`Domain1D.h`
and `Domain1D.cpp` are not among the sources): it records the number of
components and the number of grid points of the domain. -/
def resizeDomain1D (s : StFlow) (nv np : Nat) : StFlow :=
  { s with m_nv := nv, m_points := np }

/-- Member function `StFlow::resize`. -/
def resize (s : StFlow) (ncomponents points : Nat) : StFlow :=
  let s := s.resizeDomain1D ncomponents points
  let s := { s with m_rho := vresize s.m_rho s.m_points 0 }
  let s := { s with m_wtm := vresize s.m_wtm s.m_points 0 }
  let s := { s with m_cp := vresize s.m_cp s.m_points 0 }
  let s := { s with m_visc := vresize s.m_visc s.m_points 0 }
  let s := { s with m_tcon := vresize s.m_tcon s.m_points 0 }
  let s := { s with m_diff := vresize s.m_diff (s.m_nsp * s.m_points) 0 }
  let s :=
    if s.m_do_multicomponent then
      let s := { s with m_multidiff := vresize s.m_multidiff (s.m_nsp * s.m_nsp * s.m_points) 0 }
      { s with m_dthermal := s.m_dthermal.resize s.m_nsp s.m_points 0 }
    else s
  let s := { s with m_flux := s.m_flux.resize s.m_nsp s.m_points 0 }
  let s := { s with m_wdot := s.m_wdot.resize s.m_nsp s.m_points 0 }
  let s := { s with m_do_energy := vresize s.m_do_energy s.m_points false }
  let s := { s with m_qdotRadiation := vresize s.m_qdotRadiation s.m_points 0 }
  let s := { s with m_fixedtemp := vresize s.m_fixedtemp s.m_points 0 }
  let s := { s with m_dz := vresize s.m_dz (s.m_points - 1) 0 }
  { s with m_z := vresize s.m_z s.m_points 0 }

/-- The loop of `StFlow::setupGrid`, from index `j`, with `fuel` iterations
left (`fuel = m_points - j`). -/
def setupGridLoop (zin : Nat → ℚ) : Nat → Nat → StFlow → Outcome StFlow
  | 0, _, s => ⟨s, none⟩
  | fuel + 1, j, s =>
    if zin j ≤ zin (j - 1) then
      ⟨s, some "StFlow::setupGrid: grid points must be monotonically increasing"⟩
    else
      let s := { s with m_z := s.m_z.set j (zin j) }
      let s := { s with m_dz := s.m_dz.set (j - 1) (vget s.m_z j - vget s.m_z (j - 1)) }
      setupGridLoop zin fuel (j + 1) s

/-- Member function `StFlow::setupGrid`. -/
def setupGrid (s : StFlow) (n : Nat) (zin : Nat → ℚ) : Outcome StFlow :=
  let s := s.resize s.m_nv n
  let s := { s with m_z := s.m_z.set 0 (zin 0) }
  setupGridLoop zin (s.m_points - 1) 1 s

/-! ## Boundary emissivities -/

/-- Member function `StFlow::setBoundaryEmissivities`. -/
def setBoundaryEmissivities (s : StFlow) (e_left e_right : ℚ) : Outcome StFlow :=
  if e_left < 0 ∨ e_left > 1 then
    ⟨s, some "StFlow::setBoundaryEmissivities: The left boundary emissivity must be between 0.0 and 1.0!"⟩
  else if e_right < 0 ∨ e_right > 1 then
    ⟨s, some "StFlow::setBoundaryEmissivities: The right boundary emissivity must be between 0.0 and 1.0!"⟩
  else
    ⟨{ { s with m_epsilon_left := e_left } with m_epsilon_right := e_right }, none⟩

/-! ## Energy flags and `_finalize` -/

/-- Member function `StFlow::solveEnergyEqn`; `j = npos` enables the energy equation at every
point. -/
def solveEnergyEqn (s : StFlow) (j : Nat) : StFlow :=
  let changed :=
    if j = npos then (List.range s.m_points).any (fun i => !bget s.m_do_energy i)
    else !bget s.m_do_energy j
  let s :=
    if j = npos then
      forRange 0 s.m_points (fun i s => { s with m_do_energy := s.m_do_energy.set i true }) s
    else { s with m_do_energy := s.m_do_energy.set j true }
  let s := { s with refinerActive := Function.update s.refinerActive c_offset_U true }
  let s := { s with refinerActive := Function.update s.refinerActive c_offset_V true }
  let s := { s with refinerActive := Function.update s.refinerActive c_offset_T true }
  if changed then { s with jacUpdateNeeded := true } else s

/-- Member function `StFlow::fixTemperature`; `j = npos` disables the energy equation at every
point. -/
def fixTemperature (s : StFlow) (j : Nat) : StFlow :=
  let changed :=
    if j = npos then (List.range s.m_points).any (fun i => bget s.m_do_energy i)
    else bget s.m_do_energy j
  let s :=
    if j = npos then
      forRange 0 s.m_points (fun i s => { s with m_do_energy := s.m_do_energy.set i false }) s
    else { s with m_do_energy := s.m_do_energy.set j false }
  let s := { s with refinerActive := Function.update s.refinerActive c_offset_U false }
  let s := { s with refinerActive := Function.update s.refinerActive c_offset_V false }
  let s := { s with refinerActive := Function.update s.refinerActive c_offset_T false }
  if changed then { s with jacUpdateNeeded := true } else s

/-- Member function `StFlow::setTemperature`. -/
def setTemperature (s : StFlow) (j : Nat) (t : ℚ) : StFlow :=
  let s := { s with m_fixedtemp := s.m_fixedtemp.set j t }
  { s with m_do_energy := s.m_do_energy.set j false }

/-- Member function `StFlow::setFixedTempProfile`. -/
def setFixedTempProfile (s : StFlow) (zfixed tfixed : List ℚ) : StFlow :=
  { { s with m_zfix := zfixed } with m_tfix := tfixed }

/-- The last block of `StFlow::_finalize`: re-anchoring of the temperature
fixed point of a free flame. -/
def finalizeFixedPoint (c : Consts) (s : StFlow) (x : Nat → ℚ) : StFlow :=
  if s.domainType = DomainType.cFreeFlow then
    if s.m_tfixed ≠ c.Undef then
      if (List.range s.m_points).any (fun j => decide (s.z j = s.m_zfixed)) then s
      else
        match (List.range (s.m_points - 1)).find?
            (fun j => decide ((s.T x j - s.m_tfixed) * (s.T x (j + 1) - s.m_tfixed) ≤ 0)) with
        | some j =>
          let s1 := { s with m_tfixed := s.T x (j + 1) }
          { s1 with m_zfixed := s1.z (j + 1) }
        | none => s
    else s
  else s

/-- Member function `StFlow::_finalize`. -/
def _finalize (c : Consts) (s : StFlow) (x : Nat → ℚ) : Outcome StFlow :=
  if !s.m_do_multicomponent && s.m_do_soret then
    ⟨s, some ("StFlow::_finalize: Thermal diffusion (the Soret effect) is enabled, and requires "
      ++ "using a multicomponent transport model.")⟩
  else
    let nz := s.m_zfix.length
    let e := bget s.m_do_energy 0
    let s := forRange 0 s.m_points (fun j s =>
      if e || nz == 0 then
        { s with m_fixedtemp := s.m_fixedtemp.set j (s.T x j) }
      else
        let zz := (s.z j - s.z 0) / (s.z (s.m_points - 1) - s.z 0)
        let tt := c.linearInterp zz s.m_zfix s.m_tfix
        { s with m_fixedtemp := s.m_fixedtemp.set j tt }) s
    let s := if e then s.solveEnergyEqn npos else s
    ⟨finalizeFixedPoint c s x, none⟩

/-! ## Continuity rows -/

end StFlow

/-- The residual array and the activity mask handed to an evaluation. -/
structure Resid where
  rsd : Nat → ℚ
  diag : Nat → Int

/-- The store `rsd[i] = v`. -/
def Resid.setRsd (r : Resid) (i : Nat) (v : ℚ) : Resid :=
  { r with rsd := Function.update r.rsd i v }

/-- The store `diag[i] = d`. -/
def Resid.setDiag (r : Resid) (i : Nat) (d : Int) : Resid :=
  { r with diag := Function.update r.diag i d }

namespace StFlow

/-- Member function `StFlow::evalContinuity`. -/
def evalContinuity (s : StFlow) (j : Nat) (x : Nat → ℚ) (r : Resid) (_rdt : ℚ) : Resid :=
  let r := r.setDiag (s.index c_offset_U j) 0
  if s.domainType = DomainType.cAxisymmetricStagnationFlow then
    r.setRsd (s.index c_offset_U j)
      (-(s.rho_u x (j + 1) - s.rho_u x j) / vget s.m_dz j
        - (s.density (j + 1) * s.V x (j + 1) + s.density j * s.V x j))
  else if s.domainType = DomainType.cFreeFlow then
    if s.z j > s.m_zfixed then
      r.setRsd (s.index c_offset_U j)
        (-(s.rho_u x j - s.rho_u x (j - 1)) / vget s.m_dz (j - 1)
          - (s.density (j - 1) * s.V x (j - 1) + s.density j * s.V x j))
    else if s.z j = s.m_zfixed then
      if bget s.m_do_energy j then
        r.setRsd (s.index c_offset_U j) (s.T x j - s.m_tfixed)
      else
        r.setRsd (s.index c_offset_U j) (s.rho_u x j - vget s.m_rho 0 * (3 / 10))
    else if s.z j < s.m_zfixed then
      r.setRsd (s.index c_offset_U j)
        (-(s.rho_u x (j + 1) - s.rho_u x j) / vget s.m_dz j
          - (s.density (j + 1) * s.V x (j + 1) + s.density j * s.V x j))
    else r
  else r

/-- Member function `AxiStagnFlow::evalContinuity`. -/
def evalContinuityAxiStagn (s : StFlow) (j : Nat) (x : Nat → ℚ) (r : Resid) (_rdt : ℚ) : Resid :=
  let r := r.setRsd (s.index c_offset_U j)
    (-(s.rho_u x (j + 1) - s.rho_u x j) / vget s.m_dz j
      - (s.density (j + 1) * s.V x (j + 1) + s.density j * s.V x j))
  r.setDiag (s.index c_offset_U j) 0

/-- The virtual call `evalContinuity(...)`, dispatched on the class of the
object (`PorousFlow` inherits the override of `AxiStagnFlow`). -/
def evalContinuityVirtual (s : StFlow) (j : Nat) (x : Nat → ℚ) (r : Resid) (rdt : ℚ) : Resid :=
  match s.cls with
  | FlowClass.StFlow => s.evalContinuity j x r rdt
  | FlowClass.AxiStagnFlow => s.evalContinuityAxiStagn j x r rdt
  | FlowClass.PorousFlow => s.evalContinuityAxiStagn j x r rdt

/-! ## Property update -/

/-- Member function `StFlow::setTransport`. -/
def setTransport (s : StFlow) (trans : Transport) : StFlow :=
  let s := { s with m_trans := trans }
  let multi := s.m_trans.transportType == "Multi" || s.m_trans.transportType == "CK_Multi"
  let s := { s with m_do_multicomponent := multi }
  let s := { s with m_diff := vresize s.m_diff (s.m_nsp * s.m_points) 0 }
  if s.m_do_multicomponent then
    let s := { s with m_multidiff := vresize s.m_multidiff (s.m_nsp * s.m_nsp * s.m_points) 0 }
    { s with m_dthermal := s.m_dthermal.resize s.m_nsp s.m_points 0 }
  else s

/-- The phase object after `setTemperature`, `setMassFractions_NoNorm` (which
copies `nsp` values) and `setPressure`. -/
def setCursor (ph : IdealGasPhase) (t : ℚ) (nsp : Nat) (yy : Nat → ℚ) (p : ℚ) : IdealGasPhase :=
  { ph with cursor := { temperature := t, massFractions := (List.range nsp).map yy, pressure := p } }

/-- Member function `StFlow::setGas`. -/
def setGas (s : StFlow) (x : Nat → ℚ) (j : Nat) : StFlow :=
  let ph := setCursor s.m_thermo (s.T x j) s.m_nsp (fun k => x (s.m_nv * j + c_offset_Y + k)) s.m_press
  { s with m_thermo := ph }

/-- Member function `StFlow::setGasAtMidpoint`. -/
def setGasAtMidpoint (s : StFlow) (x : Nat → ℚ) (j : Nat) : StFlow :=
  let s := forRange 0 s.m_nsp (fun k s =>
    let v := 1 / 2 * (x (s.m_nv * j + c_offset_Y + k) + x (s.m_nv * (j + 1) + c_offset_Y + k))
    { s with m_ybar := s.m_ybar.set k v }) s
  let ph := setCursor s.m_thermo (1 / 2 * (s.T x j + s.T x (j + 1))) s.m_nsp
    (fun k => vget s.m_ybar k) s.m_press
  { s with m_thermo := ph }

/-- A collaborator call that writes `n` values `f 0, ..., f (n-1)` through a
pointer to `v[off]`. -/
def writeBlock (v : List ℚ) (off n : Nat) (f : Nat → ℚ) : List ℚ :=
  forRange 0 n (fun i v => v.set (off + i) (f i)) v

/-- Member function `StFlow::getWdot`. -/
def getWdot (s : StFlow) (x : Nat → ℚ) (j : Nat) : StFlow :=
  let s := s.setGas x j
  let d := writeBlock s.m_wdot.data (s.m_wdot.nrows * j + 0) s.m_nsp
    (s.m_kin.netProductionRates s.m_thermo.cursor)
  { s with m_wdot := { s.m_wdot with data := d } }

/-- Member function `StFlow::updateThermo`: points `j0` to `j1` inclusive. -/
def updateThermo (s : StFlow) (x : Nat → ℚ) (j0 j1 : Nat) : StFlow :=
  forRange j0 (j1 + 1) (fun j s =>
    let s := s.setGas x j
    let s := { s with m_rho := s.m_rho.set j (s.m_thermo.density s.m_thermo.cursor) }
    let s := { s with m_wtm := s.m_wtm.set j (s.m_thermo.meanMolecularWeight s.m_thermo.cursor) }
    { s with m_cp := s.m_cp.set j (s.m_thermo.cp_mass s.m_thermo.cursor) }) s

/-- Member function `StFlow::updateTransport`. -/
def updateTransport (s : StFlow) (x : Nat → ℚ) (j0 j1 : Nat) : StFlow :=
  if s.m_do_multicomponent then
    forRange j0 j1 (fun j s =>
      let s := s.setGasAtMidpoint x j
      let wtm := s.m_thermo.meanMolecularWeight s.m_thermo.cursor
      let rho := s.m_thermo.density s.m_thermo.cursor
      let visc := if s.m_dovisc then s.m_trans.viscosity s.m_thermo.cursor else 0
      let s := { s with m_visc := s.m_visc.set j visc }
      let md := writeBlock s.m_multidiff (s.mindex 0 0 j) (s.m_nsp * s.m_nsp)
        (s.m_trans.multiDiffCoeffs s.m_thermo.cursor)
      let s := { s with m_multidiff := md }
      let s := forRange 0 s.m_nsp (fun k s =>
        { s with m_diff := s.m_diff.set (k + j * s.m_nsp) (vget s.m_wt k * rho / (wtm * wtm)) }) s
      let s := { s with m_tcon := s.m_tcon.set j (s.m_trans.thermalConductivity s.m_thermo.cursor) }
      if s.m_do_soret then
        let d := writeBlock s.m_dthermal.data (s.m_dthermal.nrows * 0 + j * s.m_nsp) s.m_nsp
          (s.m_trans.thermalDiffCoeffs s.m_thermo.cursor)
        { s with m_dthermal := { s.m_dthermal with data := d } }
      else s) s
  else
    forRange j0 j1 (fun j s =>
      let s := s.setGasAtMidpoint x j
      let visc := if s.m_dovisc then s.m_trans.viscosity s.m_thermo.cursor else 0
      let s := { s with m_visc := s.m_visc.set j visc }
      let d := writeBlock s.m_diff (j * s.m_nsp) s.m_nsp (s.m_trans.mixDiffCoeffs s.m_thermo.cursor)
      let s := { s with m_diff := d }
      { s with m_tcon := s.m_tcon.set j (s.m_trans.thermalConductivity s.m_thermo.cursor) }) s

/-- The multicomponent branch of `StFlow::updateDiffFluxes` at face `j`; only
`m_flux` is written, the object `s` is read. -/
def diffFluxMultiFace (s : StFlow) (x : Nat → ℚ) (j : Nat) (fl : Array2D) : Array2D :=
  let dz := s.z (j + 1) - s.z j
  forRange 0 s.m_nsp (fun k fl =>
    let sum := forRange 0 s.m_nsp (fun m sum =>
      sum + vget s.m_wt m * vget s.m_multidiff (s.mindex k m j) * (s.X x m (j + 1) - s.X x m j)) 0
    fl.set k j (sum * vget s.m_diff (k + j * s.m_nsp) / dz)) fl

/-- The body of the first species loop of the mixture-averaged branch at face
`j`, on the flux array and the running `sum`. -/
def diffFluxMixFickStep (s : StFlow) (x : Nat → ℚ) (j k : Nat) (p : Array2D × ℚ) : Array2D × ℚ :=
  let wtm := vget s.m_wtm j
  let rho := s.density j
  let dz := s.z (j + 1) - s.z j
  let fl := p.1.set k j (vget s.m_wt k * (rho * vget s.m_diff (k + s.m_nsp * j) / wtm))
  let fl := fl.set k j (fl.get k j * ((s.X x k j - s.X x k (j + 1)) / dz))
  (fl, p.2 - fl.get k j)

/-- The first species loop of the mixture-averaged branch at face `j`: the
Fickian fluxes and the running `sum`. -/
def diffFluxMixFick (s : StFlow) (x : Nat → ℚ) (j : Nat) (fl : Array2D) : Array2D × ℚ :=
  forRange 0 s.m_nsp (diffFluxMixFickStep s x j) (fl, 0)

/-- The mixture-averaged branch of `StFlow::updateDiffFluxes` at face `j`. -/
def diffFluxMixFace (s : StFlow) (x : Nat → ℚ) (j : Nat) (fl : Array2D) : Array2D :=
  let p := diffFluxMixFick s x j fl
  forRange 0 s.m_nsp (fun k fl => fl.set k j (fl.get k j + p.2 * s.Y x k j)) p.1

/-- The Soret block of `StFlow::updateDiffFluxes` at face `m`. -/
def diffFluxSoretFace (s : StFlow) (x : Nat → ℚ) (m : Nat) (fl : Array2D) : Array2D :=
  let gradlogT := 2 * (s.T x (m + 1) - s.T x m) / ((s.T x (m + 1) + s.T x m) * (s.z (m + 1) - s.z m))
  forRange 0 s.m_nsp (fun k fl => fl.set k m (fl.get k m - s.m_dthermal.get k m * gradlogT)) fl

/-- Member function `StFlow::updateDiffFluxes`. -/
def updateDiffFluxes (s : StFlow) (x : Nat → ℚ) (j0 j1 : Nat) : StFlow :=
  let fl :=
    if s.m_do_multicomponent then forRange j0 j1 (fun j fl => diffFluxMultiFace s x j fl) s.m_flux
    else forRange j0 j1 (fun j fl => diffFluxMixFace s x j fl) s.m_flux
  let fl :=
    if s.m_do_soret then forRange j0 j1 (fun m fl => diffFluxSoretFace s x m fl) fl
    else fl
  { s with m_flux := fl }

/-- The call `distance(first, max_element(first, first + n))` of `<algorithm>`:
the index of the first largest of `f 0, ..., f (n-1)`. -/
def maxElementIndex (f : Nat → ℚ) (n : Nat) : Nat :=
  forRange 1 n (fun i largest => if f largest < f i then i else largest) 0

/-- Member function `StFlow::updateProperties`. -/
def updateProperties (s : StFlow) (jg : Nat) (x : Nat → ℚ) (jmin jmax : Nat) : StFlow :=
  let j0 := max jmin 1 - 1
  let j1 := min (addSz jmax 1) (subSz s.m_points 1)
  let s := s.updateThermo x j0 j1
  let s := if jg = npos ∨ s.m_force_full_update = true then s.updateTransport x j0 j1 else s
  let s :=
    if jg = npos then
      let kl := maxElementIndex (fun k => x (s.index c_offset_Y jmin + k)) s.m_nsp
      let s := { s with m_kExcessLeft := kl }
      let kr := maxElementIndex (fun k => x (s.index c_offset_Y jmax + k)) s.m_nsp
      { s with m_kExcessRight := kr }
    else s
  s.updateDiffFluxes x j0 j1

/-! ## Residual evaluation -/

/-- Member function `StFlow::evalRightBoundary`. -/
def evalRightBoundary (s : StFlow) (x : Nat → ℚ) (r : Resid) (_rdt : ℚ) : Resid :=
  let j := s.m_points - 1
  let r := r.setRsd (s.index c_offset_V j) (s.V x j)
  let r := r.setRsd (s.index c_offset_L j) (s.lambda x j - s.lambda x (j - 1))
  let r := r.setDiag (s.index c_offset_L j) 0
  let p := forRange 0 s.m_nsp (fun k (p : Resid × ℚ) =>
    (p.1.setRsd (s.index (k + c_offset_Y) j) (s.m_flux.get k (j - 1) + s.rho_u x j * s.Y x k j),
      p.2 + s.Y x k j)) (r, 0)
  let r := p.1.setRsd (s.index (c_offset_Y + s.rightExcessSpecies) j) (1 - p.2)
  let r := r.setDiag (s.index (c_offset_Y + s.rightExcessSpecies) j) 0
  if s.domainType = DomainType.cAxisymmetricStagnationFlow then
    let r := r.setRsd (s.index c_offset_U j) (s.rho_u x j)
    if bget s.m_do_energy j then r.setRsd (s.index c_offset_T j) (s.T x j)
    else r.setRsd (s.index c_offset_T j) (s.T x j - s.T_fixed j)
  else if s.domainType = DomainType.cFreeFlow then
    let r := r.setRsd (s.index c_offset_U j) (s.rho_u x j - s.rho_u x (j - 1))
    r.setRsd (s.index c_offset_T j) (s.T x j - s.T x (j - 1))
  else r

/-- Member function `AxiStagnFlow::evalRightBoundary`. -/
def evalRightBoundaryAxiStagn (s : StFlow) (x : Nat → ℚ) (r : Resid) (_rdt : ℚ) : Resid :=
  let j := s.m_points - 1
  let r := r.setRsd (s.index 0 j) (s.rho_u x j)
  let r := r.setRsd (s.index 1 j) (s.V x j)
  let r := r.setRsd (s.index 2 j) (s.T x j)
  let r := r.setRsd (s.index c_offset_L j) (s.lambda x j - s.lambda x (j - 1))
  let r := r.setDiag (s.index c_offset_L j) 0
  let p := forRange 0 s.m_nsp (fun k (p : Resid × ℚ) =>
    (p.1.setRsd (s.index (k + 4) j) (s.m_flux.get k (j - 1) + s.rho_u x j * s.Y x k j),
      p.2 + s.Y x k j)) (r, 0)
  let r := p.1.setRsd (s.index 4 j) (1 - p.2)
  r.setDiag (s.index 4 j) 0

/-- The virtual call `evalRightBoundary(...)`, dispatched on the class of the
object. -/
def evalRightBoundaryVirtual (s : StFlow) (x : Nat → ℚ) (r : Resid) (rdt : ℚ) : Resid :=
  match s.cls with
  | FlowClass.StFlow => s.evalRightBoundary x r rdt
  | FlowClass.AxiStagnFlow => s.evalRightBoundaryAxiStagn x r rdt
  | FlowClass.PorousFlow => s.evalRightBoundaryAxiStagn x r rdt

/-- Polynomial coefficients of the Planck mean absorption coefficient of H2O. -/
def c_H2O : List ℚ :=
  [-23093 / 100000, -112390 / 100000, 941530 / 100000, -299880 / 100000, 51382 / 100000,
    -186840 / 10000000000]

/-- Polynomial coefficients of the Planck mean absorption coefficient of CO2. -/
def c_CO2 : List ℚ :=
  [18741 / 1000, -121310 / 1000, 273500 / 1000, -194050 / 1000, 56310 / 1000, -58169 / 10000]

/-- Read of `m_kRadiating[i]`. -/
def kRadiating (s : StFlow) (i : Nat) : Nat := s.m_kRadiating.getD i npos

/-- The body of the loop over grid points in the radiation block of
`StFlow::evalResidual`: the value stored in `m_qdotRadiation[j]`. -/
def radiativeHeatLossAt (c : Consts) (s : StFlow) (x : Nat → ℚ) (j : Nat) : ℚ :=
  let k_P_ref := 1 * c.OneAtm
  let boundary_Rad_left := s.m_epsilon_left * c.StefanBoltz * (s.T x 0) ^ 4
  let boundary_Rad_right := s.m_epsilon_right * c.StefanBoltz * (s.T x (s.m_points - 1)) ^ 4
  let k_P : ℚ := 0
  let k_P :=
    if s.kRadiating 1 ≠ npos then
      let k_P_H2O := forRange 0 6 (fun n acc => acc + vget c_H2O n * (1000 / s.T x j) ^ n) 0
      let k_P_H2O := k_P_H2O / k_P_ref
      k_P + s.m_press * s.X x (s.kRadiating 1) j * k_P_H2O
    else k_P
  let k_P :=
    if s.kRadiating 0 ≠ npos then
      let k_P_CO2 := forRange 0 6 (fun n acc => acc + vget c_CO2 n * (1000 / s.T x j) ^ n) 0
      let k_P_CO2 := k_P_CO2 / k_P_ref
      k_P + s.m_press * s.X x (s.kRadiating 0) j * k_P_CO2
    else k_P
  2 * k_P * (2 * c.StefanBoltz * (s.T x j) ^ 4 - boundary_Rad_left - boundary_Rad_right)

/-- The radiation block of `StFlow::evalResidual`; only `m_qdotRadiation` is
written, the object `s` is read. -/
def evalRadiation (c : Consts) (s : StFlow) (x : Nat → ℚ) (jmin jmax : Nat) : StFlow :=
  if s.m_do_radiation then
    let q := forRange jmin jmax (fun j q => q.set j (radiativeHeatLossAt c s x j)) s.m_qdotRadiation
    { s with m_qdotRadiation := q }
  else s

end StFlow

/-- The object and the local residual arrays during an evaluation. -/
structure EvalState where
  dom : StFlow
  res : Resid

namespace StFlow

/-- The left-boundary rows (`j == 0`) of `StFlow::evalResidual`. -/
def evalLeftBoundary (s : StFlow) (x : Nat → ℚ) (r : Resid) : Resid :=
  let r := r.setRsd (s.index c_offset_U 0)
    (-(s.rho_u x 1 - s.rho_u x 0) / vget s.m_dz 0
      - (s.density 1 * s.V x 1 + s.density 0 * s.V x 0))
  let r := r.setRsd (s.index c_offset_V 0) (s.V x 0)
  let r :=
    if s.doEnergy 0 then r.setRsd (s.index c_offset_T 0) (s.T x 0)
    else r.setRsd (s.index c_offset_T 0) (s.T x 0 - s.T_fixed 0)
  let r := r.setRsd (s.index c_offset_L 0) (-s.rho_u x 0)
  let p := forRange 0 s.m_nsp (fun k (p : Resid × ℚ) =>
    (p.1.setRsd (s.index (c_offset_Y + k) 0) (-(s.m_flux.get k 0 + s.rho_u x 0 * s.Y x k 0)),
      p.2 + s.Y x k 0)) (r, 0)
  let r := p.1.setRsd (s.index (c_offset_Y + s.leftExcessSpecies) 0) (1 - p.2)
  r.setRsd (s.index c_offset_E 0) (x (s.index c_offset_E 0))

/-- The energy row of an interior point of `StFlow::evalResidual`. -/
def evalEnergyRow (c : Consts) (e : EvalState) (x : Nat → ℚ) (rdt : ℚ) (j : Nat) : EvalState :=
  if bget e.dom.m_do_energy j then
    let s := e.dom.setGas x j
    let h_RT := s.m_thermo.enthalpy_RT_ref s.m_thermo.cursor
    let cp_R := s.m_thermo.cp_R_ref s.m_thermo.cursor
    let sums := forRange 0 s.m_nsp (fun k (p : ℚ × ℚ) =>
      let flxk := 1 / 2 * (s.m_flux.get k (j - 1) + s.m_flux.get k j)
      (p.1 + s.wdot k j * h_RT k, p.2 + flxk * cp_R k / vget s.m_wt k)) (0, 0)
    let sum := sums.1 * (c.GasConstant * s.T x j)
    let dtdzj := s.dTdz x j
    let sum2 := sums.2 * (c.GasConstant * dtdzj)
    let i := s.index c_offset_T j
    let r := e.res.setRsd i (-vget s.m_cp j * s.rho_u x j * dtdzj - s.divHeatFlux x j - sum - sum2)
    let r := r.setRsd i (r.rsd i / (vget s.m_rho j * vget s.m_cp j))
    let r := r.setRsd i (r.rsd i - rdt * (s.T x j - s.T_prev j))
    let r := r.setRsd i (r.rsd i - vget s.m_qdotRadiation j / (vget s.m_rho j * vget s.m_cp j))
    ⟨s, r.setDiag i 1⟩
  else
    let s := e.dom
    let r := e.res.setRsd (s.index c_offset_T j) (s.T x j - s.T_fixed j)
    ⟨s, r.setDiag (s.index c_offset_T j) 0⟩

/-- The rows of an interior point of `StFlow::evalResidual`. -/
def evalInterior (c : Consts) (e : EvalState) (x : Nat → ℚ) (rdt : ℚ) (j : Nat) : EvalState :=
  let s := e.dom
  let r := s.evalContinuityVirtual j x e.res rdt
  let r := r.setRsd (s.index c_offset_E j) (x (s.index c_offset_E j))
  let r := r.setRsd (s.index c_offset_V j)
    ((s.shear x j - s.lambda x j - s.rho_u x j * s.dVdz x j
        - vget s.m_rho j * s.V x j * s.V x j) / vget s.m_rho j
      - rdt * (s.V x j - s.V_prev j))
  let r := r.setDiag (s.index c_offset_V j) 1
  let s := s.getWdot x j
  let r := forRange 0 s.m_nsp (fun k (r : Resid) =>
    let convec := s.rho_u x j * s.dYdz x k j
    let diffus := 2 * (s.m_flux.get k j - s.m_flux.get k (j - 1)) / (s.z (j + 1) - s.z (j - 1))
    let r := r.setRsd (s.index (c_offset_Y + k) j)
      ((vget s.m_wt k * s.wdot k j - convec - diffus) / vget s.m_rho j
        - rdt * (s.Y x k j - s.Y_prev k j))
    r.setDiag (s.index (c_offset_Y + k) j) 1) r
  let e := evalEnergyRow c ⟨s, r⟩ x rdt j
  let r := e.res.setRsd (e.dom.index c_offset_L j) (e.dom.lambda x j - e.dom.lambda x (j - 1))
  ⟨e.dom, r.setDiag (e.dom.index c_offset_L j) 0⟩

/-- The body of the loop over grid points of `StFlow::evalResidual`. -/
def evalPoint (c : Consts) (x : Nat → ℚ) (rdt : ℚ) (j : Nat) (e : EvalState) : EvalState :=
  if j = 0 then
    ⟨e.dom, e.dom.evalLeftBoundary x e.res⟩
  else if j = e.dom.m_points - 1 then
    let r := e.dom.evalRightBoundaryVirtual x e.res rdt
    ⟨e.dom, r.setRsd (e.dom.index c_offset_E j) (x (e.dom.index c_offset_E j))⟩
  else evalInterior c e x rdt j

/-- Member function `StFlow::evalResidual`. -/
def evalResidual (c : Consts) (s : StFlow) (x : Nat → ℚ) (r : Resid) (rdt : ℚ)
    (jmin jmax : Nat) : EvalState :=
  let s := evalRadiation c s x jmin jmax
  forRange jmin (jmax + 1) (evalPoint c x rdt) ⟨s, r⟩

end StFlow

/-- The object and the global residual arrays after `eval`. -/
structure GlobalState where
  dom : StFlow
  rg : Nat → ℚ
  diagg : Nat → Int

/-- The array `p + off` for a pointer `p` into a global array. -/
def shiftPtr {α : Type} (p : Nat → α) (off : Nat) : Nat → α := fun i => p (off + i)

/-- The global array after the stores made through the pointer `p + off` left
it with the local contents `q`. -/
def unshiftPtr {α : Type} (p : Nat → α) (off : Nat) (q : Nat → α) : Nat → α :=
  fun i => if off ≤ i then q (i - off) else p i

namespace StFlow

/-- Member function `StFlow::eval`.  No statement on its path throws, so the error of the
outcome is always `none`. -/
def eval (c : Consts) (s : StFlow) (jg : Nat) (xg rg : Nat → ℚ) (diagg : Nat → Int)
    (rdt : ℚ) : Outcome GlobalState :=
  if jg ≠ npos ∧ (addSz jg 1 < s.firstPoint ∨ jg > addSz s.lastPoint 1) then
    ⟨⟨s, rg, diagg⟩, none⟩
  else
    let x := shiftPtr xg s.loc
    let rsd := shiftPtr rg s.loc
    let diag := shiftPtr diagg s.loc
    let jpt := if jg = 0 then 0 else subSz jg s.firstPoint
    let jmin := if jg = npos then 0 else max jpt 1 - 1
    let jmax := if jg = npos then subSz s.m_points 1 else min (addSz jpt 1) (subSz s.m_points 1)
    let s := s.updateProperties jg x jmin jmax
    let e := evalResidual c s x ⟨rsd, diag⟩ rdt jmin jmax
    ⟨⟨e.dom, unshiftPtr rg s.loc e.res.rsd, unshiftPtr diagg s.loc e.res.diag⟩, none⟩

end StFlow

/-! ## Porous flow -/

/-- The object of class `PorousFlow`: the members of `StFlow` and the solid
phase members; `log` collects the messages passed to `writelog`. -/
structure PorousFlow extends StFlow where
  pore1 : ℚ
  pore2 : ℚ
  diam1 : ℚ
  diam2 : ℚ
  scond1 : ℚ
  scond2 : ℚ
  Omega1 : ℚ
  Omega2 : ℚ
  srho : ℚ
  sCp : ℚ
  m_zmid : ℚ
  m_dzmid : ℚ
  m_porea : ℚ
  m_poreb : ℚ
  m_porec : ℚ
  m_pored : ℚ
  m_diama : ℚ
  m_diamb : ℚ
  m_diamc : ℚ
  m_diamd : ℚ
  geometry : Int
  dq : List ℚ
  Tw : List ℚ
  pore : List ℚ
  diam : List ℚ
  scond : List ℚ
  Twprev : List ℚ
  Twprev1 : List ℚ
  zprev : List ℚ
  hconv : List ℚ
  m_adapt : Int
  log : List String

/-- A `while (cond) body` loop that is cut after `fuel` iterations. -/
def whileLoop {σ : Type} (cond : σ → Bool) (body : σ → σ) : Nat → σ → σ
  | 0, s => s
  | fuel + 1, s => if cond s then whileLoop cond body fuel (body s) else s

/-- The local vectors of `PorousFlow::eval`. -/
structure PorousLocals where
  Omega : List ℚ
  Cmult : List ℚ
  mpow : List ℚ
  RK : List ℚ

/-- The variables of the two-flux iteration of `PorousFlow::solid`. -/
structure RadState where
  qplus : List ℚ
  qpnew : List ℚ
  qminus : List ℚ
  qmnew : List ℚ
  change2 : ℚ
  count : Int
  fail : Int

/-- The variables of the outer iteration of `PorousFlow::solid`. -/
structure SolidState where
  Tw : List ℚ
  dq : List ℚ
  edia : List ℚ
  fdia : List ℚ
  gdia : List ℚ
  rhs : List ℚ
  dqnew : List ℚ
  change1 : ℚ
  T0 : ℚ
  T1 : ℚ
  count1 : Int
  fail1 : Int
  log : List String

namespace PorousFlow

/-- The constant `sigma` of `PorousFlow::solid`. -/
def sigma : ℚ := 567 / 10000000000

/-- Assembly of the tridiagonal system in `PorousFlow::solid`. -/
def solidAssemble (p : PorousFlow) (x : Nat → ℚ) (hconv scond : List ℚ) (rdt : ℚ)
    (st : SolidState) : SolidState :=
  let length := p.m_points
  let s := p.toStFlow
  forRange 0 length (fun i st =>
    if i = 0 then
      let st := { st with edia := st.edia.set i 0 }
      let st := { st with fdia := st.fdia.set i 1 }
      let st := { st with gdia := st.gdia.set i (-1) }
      { st with rhs := st.rhs.set i 0 }
    else if i = length - 1 then
      let st := { st with edia := st.edia.set i (-1) }
      let st := { st with fdia := st.fdia.set i 1 }
      let st := { st with gdia := st.gdia.set i 0 }
      { st with rhs := st.rhs.set i 0 }
    else
      let e := 2 * vget scond i / ((s.z i - s.z (i - 1)) * (s.z (i + 1) - s.z (i - 1)))
      let st := { st with edia := st.edia.set i e }
      let f := -(2 * vget scond i) / ((s.z (i + 1) - s.z i) * (s.z (i + 1) - s.z (i - 1)))
        - 2 * vget scond i / ((s.z i - s.z (i - 1)) * (s.z (i + 1) - s.z (i - 1)))
        - vget hconv i - p.srho * p.sCp * rdt
      let st := { st with fdia := st.fdia.set i f }
      let g := 2 * vget scond i / ((s.z (i + 1) - s.z i) * (s.z (i + 1) - s.z (i - 1)))
      let st := { st with gdia := st.gdia.set i g }
      let b := -vget hconv i * s.T x i + vget st.dq i - p.srho * p.sCp * rdt * vget p.Twprev i
      { st with rhs := st.rhs.set i b }) st

/-- Decomposition, forward substitution and back substitution in
`PorousFlow::solid`. -/
def solidTridiag (p : PorousFlow) (st : SolidState) : SolidState :=
  let length := p.m_points
  let st := forRange 1 length (fun i st =>
    let st := { st with edia := st.edia.set i (vget st.edia i / vget st.fdia (i - 1)) }
    { st with fdia := st.fdia.set i (vget st.fdia i - vget st.edia i * vget st.gdia (i - 1)) }) st
  let st := forRange 1 length (fun i st =>
    { st with rhs := st.rhs.set i (vget st.rhs i - vget st.edia i * vget st.rhs (i - 1)) }) st
  let st := { st with Tw := st.Tw.set (length - 1) (vget st.rhs (length - 1) / vget st.fdia (length - 1)) }
  let st := forDown 0 (length - 1) (fun i st =>
    { st with Tw := st.Tw.set i ((vget st.rhs i - vget st.gdia i * vget st.Tw (i + 1)) / vget st.fdia i) }) st
  let st := { st with T0 := vget st.Tw 0 }
  { st with T1 := vget st.Tw (length - 1) }

/-- Initial values of the flux vectors of the two-flux iteration. -/
def radInit (p : PorousFlow) (x : Nat → ℚ) : RadState :=
  let length := p.m_points
  let temp2 := p.toStFlow.T x 0
  let zero := List.replicate length (0 : ℚ)
  let r : RadState := ⟨zero, zero, zero, zero, 1, 0, 0⟩
  let r := forRange 0 length (fun i r =>
    if i = 0 then
      let r := { r with qplus := r.qplus.set i (sigma * temp2 ^ 4) }
      let r := { r with qpnew := r.qpnew.set i (sigma * temp2 ^ 4) }
      let r := { r with qminus := r.qminus.set i 0 }
      { r with qmnew := r.qmnew.set i 0 }
    else if i = length - 1 then
      let r := { r with qplus := r.qplus.set i 0 }
      let r := { r with qpnew := r.qpnew.set i 0 }
      let r := { r with qminus := r.qminus.set i (sigma * temp2 ^ 4) }
      { r with qmnew := r.qmnew.set i (sigma * temp2 ^ 4) }
    else
      let r := { r with qplus := r.qplus.set i 0 }
      let r := { r with qpnew := r.qpnew.set i 0 }
      let r := { r with qminus := r.qminus.set i 0 }
      { r with qmnew := r.qmnew.set i 0 }) r
  r

/-- The body of the two-flux (`S2`) loop of `PorousFlow::solid`. -/
def radStep (c : Consts) (p : PorousFlow) (Tw RK Omega : List ℚ) (r : RadState) : RadState :=
  let length := p.m_points
  let s := p.toStFlow
  let r := { r with count := r.count + 1 }
  let r := forRange 1 length (fun i r =>
    let temp := vget Tw i
    let v := (vget r.qpnew (i - 1) + vget RK i * (s.z i - s.z (i - 1)) * vget Omega i * vget r.qminus i
        + 2 * vget RK i * (s.z i - s.z (i - 1)) * (1 - vget Omega i) * sigma * temp ^ 4)
      / (1 + (s.z i - s.z (i - 1)) * vget RK i * (2 - vget Omega i))
    { r with qpnew := r.qpnew.set i v }) r
  let r := forDown 0 (length - 1) (fun i r =>
    let temp := vget Tw i
    let v := (vget r.qmnew (i + 1) + vget RK i * (s.z (i + 1) - s.z i) * vget Omega i * vget r.qpnew i
        + 2 * vget RK i * (s.z (i + 1) - s.z i) * (1 - vget Omega i) * sigma * temp ^ 4)
      / (1 + (s.z (i + 1) - s.z i) * vget RK i * (2 - vget Omega i))
    { r with qmnew := r.qmnew.set i v }) r
  let q := forRange 0 length (fun i (q : RadState × ℚ × ℚ) =>
    let norm1 := q.2.1 + (vget q.1.qpnew i - vget q.1.qplus i) * (vget q.1.qpnew i - vget q.1.qplus i)
    let norm2 := q.2.2 + (vget q.1.qmnew i - vget q.1.qminus i) * (vget q.1.qmnew i - vget q.1.qminus i)
    let r := { q.1 with qplus := q.1.qplus.set i (vget q.1.qpnew i) }
    let r := { r with qminus := r.qminus.set i (vget r.qmnew i) }
    (r, norm1, norm2)) (r, 0, 0)
  let r := q.1
  let norm1 := c.sqrt q.2.1
  let norm2 := c.sqrt q.2.2
  if r.count > 100 then
    let r := { r with change2 := 0 }
    { r with fail := 1 }
  else
    { r with change2 := max norm1 norm2 }

/-- The body of the outer loop of `PorousFlow::solid`. -/
def solidStep (c : Consts) (p : PorousFlow) (x : Nat → ℚ) (hconv scond RK Omega : List ℚ)
    (rdt : ℚ) (st : SolidState) : SolidState :=
  let length := p.m_points
  let st := { st with count1 := st.count1 + 1 }
  let st := solidAssemble p x hconv scond rdt st
  let st := solidTridiag p st
  let r := whileLoop (fun r => decide (r.change2 > 1 / 1000000)) (radStep c p st.Tw RK Omega) 101
    (radInit p x)
  let st :=
    if r.fail = 1 then
      let st := forRange 0 length (fun i st => { st with dqnew := st.dqnew.set i (vget st.dq i) }) st
      { st with log := st.log ++ ["Rad Stall"] }
    else
      forRange 0 length (fun i st =>
        let temp := vget st.Tw i
        let v := 4 * vget RK i * (1 - vget Omega i)
          * (sigma * temp ^ 4 - 1 / 2 * vget r.qplus i - 1 / 2 * vget r.qminus i)
        { st with dqnew := st.dqnew.set i v }) st
  let a : ℚ := 1 / 10
  let q := forRange 0 length (fun i (q : SolidState × ℚ) =>
    let norm := q.2 + (vget q.1.dqnew i - vget q.1.dq i) * (vget q.1.dqnew i - vget q.1.dq i)
    ({ q.1 with dq := q.1.dq.set i (a * vget q.1.dqnew i + (1 - a) * vget q.1.dq i) }, norm)) (st, 0)
  let st := q.1
  if st.count1 > 400 then
    let st := { st with fail1 := 1 }
    { st with change1 := 0 }
  else
    { st with change1 := c.sqrt q.2 }

/-- Member function `PorousFlow::solid`; `hconv` and `scond` are the members passed by
reference, `RK` and `Omega` the local vectors of `eval`.  The closing call
`refiner().setExtraVar(Tw.data())` hands the refiner a pointer and leaves the
object as it is. -/
def solid (c : Consts) (p : PorousFlow) (x : Nat → ℚ) (RK Omega : List ℚ) (rdt : ℚ) : PorousFlow :=
  let length := p.m_points
  let p := { p with Twprev := p.Tw }
  let zero := List.replicate length (0 : ℚ)
  let dq0 := forRange 0 length (fun i dq => dq.set i 0) p.dq
  let st : SolidState := ⟨p.Tw, dq0, zero, zero, zero, zero, zero, 1, 300, 300, 0, 0, p.log⟩
  let st := whileLoop (fun st => decide (st.change1 > 1 / 1000000))
    (solidStep c p x p.hconv p.scond RK Omega rdt) 401 st
  let st :=
    if st.fail1 = 1 then
      let st := forRange 0 length (fun i st => { st with Tw := st.Tw.set i (vget p.Twprev i) }) st
      { st with log := st.log ++ ["Rad not Converged"] }
    else st
  { { { p with Tw := st.Tw } with dq := st.dq } with log := st.log }

/-- The two loops of `PorousFlow::eval` that fill the solid property vectors. -/
def solidProperties (p : PorousFlow) : PorousFlow × PorousLocals :=
  let length := p.m_points
  let p := { p with hconv := vresize p.hconv length 0 }
  let p := { p with pore := vresize p.pore length 0 }
  let p := { p with diam := vresize p.diam length 0 }
  let p := { p with scond := vresize p.scond length 0 }
  let zero := List.replicate length (0 : ℚ)
  let l : PorousLocals := ⟨zero, zero, zero, zero⟩
  let q := forRange 0 length (fun i (q : PorousFlow × PorousLocals) =>
    let p := q.1
    let zi := p.toStFlow.z i
    let p :=
      if zi < p.m_zmid - p.m_dzmid then
        let p := { p with pore := p.pore.set i p.pore1 }
        { p with diam := p.diam.set i p.diam1 }
      else if zi > p.m_zmid + p.m_dzmid then
        let p := { p with pore := p.pore.set i p.pore2 }
        { p with diam := p.diam.set i p.diam2 }
      else
        let pv := ((p.pore2 - p.pore1) / (2 * p.m_dzmid)) * (zi - (p.m_zmid - p.m_dzmid)) + p.pore1
        let p := { p with pore := p.pore.set i pv }
        let dv := ((p.diam2 - p.diam1) / (2 * p.m_dzmid)) * (zi - (p.m_zmid - p.m_dzmid)) + p.diam1
        { p with diam := p.diam.set i dv }
    let l := q.2
    let l := { l with RK := l.RK.set i (3 * (1 - vget p.pore i) / vget p.diam i) }
    let l := { l with Cmult := l.Cmult.set i (-400 * vget p.diam i + 687 / 1000) }
    let l := { l with mpow := l.mpow.set i (4437 / 10 * vget p.diam i + 361 / 1000) }
    (p, l)) (p, l)
  forRange 0 length (fun i (q : PorousFlow × PorousLocals) =>
    if q.1.toStFlow.z i < q.1.m_zmid then
      ({ q.1 with scond := q.1.scond.set i q.1.scond1 }, { q.2 with Omega := q.2.Omega.set i q.1.Omega1 })
    else
      ({ q.1 with scond := q.1.scond.set i q.1.scond2 }, { q.2 with Omega := q.2.Omega.set i q.1.Omega2 })) q

/-- The block of `PorousFlow::eval` that computes the convective coefficient
and runs the solid solver when the container asks for it. -/
def solidCoupling (c : Consts) (p : PorousFlow) (l : PorousLocals) (x : Nat → ℚ) (rdt : ℚ)
    (jmin jmax : Nat) : PorousFlow :=
  let _solidenergy : Int := forRange jmin (jmax + 1)
    (fun j acc => acc + (if bget p.m_do_energy j then 1 else 0)) 0
  let solidenergy : Int := 1
  if solidenergy ≠ 0 then
    let p := forRange jmin (jmax + 1) (fun j p =>
      let lam := vget p.m_tcon j
      let visc := vget p.m_visc j
      let Re := (p.toStFlow.rho_u x j * vget p.pore j * vget p.diam j) / visc
      let nusselt := vget l.Cmult j * c.powReal Re (vget l.mpow j)
      { p with hconv := p.hconv.set j ((lam * nusselt) / (vget p.diam j) ^ 2) }) p
    if p.dosolid = 1 then
      let p := solid c p x l.RK l.Omega rdt
      { p with dosolid := 0 }
    else p
  else p

end PorousFlow

/-- The object and the local residual arrays during `PorousFlow::eval`. -/
structure PorousEvalState where
  dom : PorousFlow
  res : Resid

/-- The object and the global residual arrays after `PorousFlow::eval`. -/
structure PorousGlobalState where
  dom : PorousFlow
  rg : Nat → ℚ
  diagg : Nat → Int

namespace PorousFlow

/-- The left-boundary rows (`j == 0`) of `PorousFlow::eval`. -/
def evalLeftBoundary (p : PorousFlow) (x : Nat → ℚ) (r : Resid) : Resid :=
  let s := p.toStFlow
  let r := r.setRsd (s.index c_offset_U 0)
    (-(s.rho_u x 1 - s.rho_u x 0) / vget s.m_dz 0
      - (s.density 1 * s.V x 1 + s.density 0 * s.V x 0))
  let r := r.setRsd (s.index c_offset_V 0) (s.V x 0)
  let r := r.setRsd (s.index c_offset_T 0) (s.T x 0)
  let r := r.setRsd (s.index c_offset_L 0) (-s.rho_u x 0)
  let q := forRange 0 s.m_nsp (fun k (q : Resid × ℚ) =>
    (q.1.setRsd (s.index (c_offset_Y + k) 0) (-(s.m_flux.get k 0 + s.rho_u x 0 * s.Y x k 0)),
      q.2 + s.Y x k 0)) (r, 0)
  let r := q.1.setRsd (s.index c_offset_Y 0) (1 - q.2)
  r.setRsd (s.index c_offset_E 0) (x (s.index c_offset_E 0))

/-- The energy row of an interior point of `PorousFlow::eval`. -/
def evalEnergyRow (c : Consts) (e : PorousEvalState) (x : Nat → ℚ) (rdt : ℚ) (j : Nat) :
    PorousEvalState :=
  if bget e.dom.m_do_energy j then
    let p := { e.dom with toStFlow := e.dom.toStFlow.setGas x j }
    let s := p.toStFlow
    let h_RT := s.m_thermo.enthalpy_RT_ref s.m_thermo.cursor
    let cp_R := s.m_thermo.cp_R_ref s.m_thermo.cursor
    let sums := forRange 0 s.m_nsp (fun k (q : ℚ × ℚ) =>
      let flxk := 1 / 2 * (s.m_flux.get k (j - 1) + s.m_flux.get k j)
      (q.1 + s.wdot k j * h_RT k, q.2 + flxk * cp_R k / vget s.m_wt k)) (0, 0)
    let sum := sums.1 * (c.GasConstant * s.T x j)
    let dtdzj := s.dTdz x j
    let sum2 := sums.2 * (c.GasConstant * dtdzj)
    let i := s.index c_offset_T j
    let r := e.res.setRsd i (-vget s.m_cp j * s.rho_u x j * dtdzj - s.divHeatFlux x j - sum - sum2)
    let r := r.setRsd i (r.rsd i - (vget p.hconv j * (s.T x j - vget p.Tw j)) / vget p.pore j)
    let r := r.setRsd i (r.rsd i / (vget s.m_rho j * vget s.m_cp j))
    let r := r.setRsd i (r.rsd i - rdt * (s.T x j - s.T_prev j))
    ⟨p, r.setDiag i 1⟩
  else
    let s := e.dom.toStFlow
    let r := e.res.setRsd (s.index c_offset_T j) (s.T x j - s.T_fixed j)
    ⟨e.dom, r.setDiag (s.index c_offset_T j) 0⟩

/-- The rows of an interior point of `PorousFlow::eval`. -/
def evalInterior (c : Consts) (e : PorousEvalState) (x : Nat → ℚ) (rdt : ℚ) (j : Nat) :
    PorousEvalState :=
  let p := e.dom
  let s := p.toStFlow
  let r := e.res.setRsd (s.index c_offset_E j) (x (s.index c_offset_E j))
  let r := r.setRsd (s.index c_offset_U j)
    (-(s.rho_u x (j + 1) * vget p.pore (j + 1) - s.rho_u x j * vget p.pore j) / vget s.m_dz j
      - (s.density (j + 1) * s.V x (j + 1) + s.density j * s.V x j))
  let r := r.setDiag (s.index c_offset_U j) 0
  let r := r.setRsd (s.index c_offset_V j)
    ((s.shear x j - s.lambda x j - s.rho_u x j * s.dVdz x j
        - vget s.m_rho j * s.V x j * s.V x j) / vget s.m_rho j
      - rdt * (s.V x j - s.V_prev j))
  let r := r.setDiag (s.index c_offset_V j) 1
  let p := { p with toStFlow := s.getWdot x j }
  let s := p.toStFlow
  let r := forRange 0 s.m_nsp (fun k (r : Resid) =>
    let convec := s.rho_u x j * s.dYdz x k j * vget p.pore j
    let diffus := 2 * (s.m_flux.get k j * vget p.pore j - s.m_flux.get k (j - 1) * vget p.pore (j - 1))
      / (s.z (j + 1) - s.z (j - 1))
    let r := r.setRsd (s.index (c_offset_Y + k) j)
      ((vget s.m_wt k * (s.wdot k j * vget p.pore j) - convec - diffus) / (vget s.m_rho j * vget p.pore j)
        - rdt * (s.Y x k j - s.Y_prev k j))
    r.setDiag (s.index (c_offset_Y + k) j) 1) r
  let e := evalEnergyRow c ⟨p, r⟩ x rdt j
  let s := e.dom.toStFlow
  let r := e.res.setRsd (s.index c_offset_L j) (s.lambda x j - s.lambda x (j - 1))
  ⟨e.dom, r.setDiag (s.index c_offset_L j) 0⟩

/-- The body of the loop over grid points of `PorousFlow::eval`; the virtual
call `evalRightBoundary` of a `PorousFlow` object runs the override inherited
from `AxiStagnFlow`. -/
def evalPoint (c : Consts) (x : Nat → ℚ) (rdt : ℚ) (j : Nat) (e : PorousEvalState) :
    PorousEvalState :=
  if j = 0 then
    ⟨e.dom, e.dom.evalLeftBoundary x e.res⟩
  else if j = e.dom.m_points - 1 then
    let r := e.dom.toStFlow.evalRightBoundaryAxiStagn x e.res rdt
    ⟨e.dom, r.setRsd (e.dom.toStFlow.index c_offset_E j) (x (e.dom.toStFlow.index c_offset_E j))⟩
  else evalInterior c e x rdt j

/-- Member function `PorousFlow::eval`.  No statement on its path throws, so the error of the
outcome is always `none`. -/
def eval (c : Consts) (p : PorousFlow) (jg : Nat) (xg rg : Nat → ℚ) (diagg : Nat → Int)
    (rdt : ℚ) : Outcome PorousGlobalState :=
  if jg ≠ npos ∧ (addSz jg 1 < p.toStFlow.firstPoint ∨ jg > addSz p.toStFlow.lastPoint 1) then
    ⟨⟨p, rg, diagg⟩, none⟩
  else
    let rdt := if jg ≠ npos then 0 else rdt
    let loc := p.toStFlow.loc
    let x := shiftPtr xg loc
    let rsd := shiftPtr rg loc
    let diag := shiftPtr diagg loc
    let jpt := if jg = 0 then 0 else subSz jg p.toStFlow.firstPoint
    let jmin := if jg = npos then 0 else max jpt 1 - 1
    let jmax := if jg = npos then subSz p.m_points 1 else min (addSz jpt 1) (subSz p.m_points 1)
    let j0 := max jmin 1 - 1
    let j1 := min (addSz jmax 1) (subSz p.m_points 1)
    let p := { p with m_dovisc := true }
    let p := { p with toStFlow := p.toStFlow.updateThermo x j0 j1 }
    let p := if jg = npos then { p with toStFlow := p.toStFlow.updateTransport x j0 j1 } else p
    let p := { p with toStFlow := p.toStFlow.updateDiffFluxes x j0 j1 }
    let q := solidProperties p
    let p := solidCoupling c q.1 q.2 x rdt jmin jmax
    let e := forRange jmin (jmax + 1) (evalPoint c x rdt) ⟨p, ⟨rsd, diag⟩⟩
    ⟨⟨e.dom, unshiftPtr rg loc e.res.rsd, unshiftPtr diagg loc e.res.diag⟩, none⟩

end PorousFlow

/-! ## Component names and activity -/

namespace StFlow

/-- Member function `StFlow::componentName`. -/
def componentName (s : StFlow) (n : Nat) : String :=
  if n = 0 then "velocity"
  else if n = 1 then "spread_rate"
  else if n = 2 then "T"
  else if n = 3 then "lambda"
  else if n = 4 then "eField"
  else if n ≥ c_offset_Y ∧ n < addSz c_offset_Y s.m_nsp then
    s.m_thermo.speciesName (subSz n c_offset_Y)
  else "<unknown>"

/-- The search loop of `StFlow::componentIndex`, from component `n`, with
`fuel` iterations left: the first component whose name is `name`, if any. -/
def componentIndexLoop (s : StFlow) (name : String) : Nat → Nat → Option Nat
  | 0, _ => none
  | fuel + 1, n => if s.componentName n = name then some n else componentIndexLoop s name fuel (n + 1)

/-- Member function `StFlow::componentIndex`. -/
def componentIndex (s : StFlow) (name : String) : Except String Nat :=
  if name = "velocity" then Except.ok 0
  else if name = "spread_rate" then Except.ok 1
  else if name = "T" then Except.ok 2
  else if name = "lambda" then Except.ok 3
  else if name = "eField" then Except.ok 4
  else
    match componentIndexLoop s name (addSz s.m_nsp c_offset_Y - c_offset_Y) c_offset_Y with
    | some n => Except.ok n
    | none => Except.error ("StFlow1D::componentIndex: no component named " ++ name)

/-- Member function `StFlow::componentActive`. -/
def componentActive (s : StFlow) (n : Nat) : Bool :=
  if n = c_offset_V then decide (s.m_type ≠ DomainType.cFreeFlow)
  else if n = c_offset_L then decide (s.m_type ≠ DomainType.cFreeFlow)
  else if n = c_offset_E then false
  else true

end StFlow

/-! ## Grid set-up of the porous domain -/

/-- The variables of the loop of `PorousFlow::setupGrid`: the vectors `Tw` and `dq` being
filled, the cursor `j` into the old grid, and whether `throw 10` was reached. -/
structure RemapState where
  Tw : List ℚ
  dq : List ℚ
  j : Nat
  thrown : Bool

namespace PorousFlow

/-- The loop `while (z[i] > m_z[j+1]) { j++; if (j+1 > m_points-1) throw 10; }` of
`PorousFlow::setupGrid` from the cursor `j`, with `fuel` iterations left: the cursor it ends
with, and whether it threw. -/
def remapSearch (p : PorousFlow) (zi : ℚ) : Nat → Nat → Nat × Bool
  | 0, j => (j, false)
  | fuel + 1, j =>
    if zi > vget p.m_z (addSz j 1) then
      if addSz (addSz j 1) 1 > subSz p.m_points 1 then (addSz j 1, true)
      else remapSearch p zi fuel (addSz j 1)
    else (j, false)

/-- The body of the loop over the new grid points of `PorousFlow::setupGrid`; once `throw 10`
was reached nothing more is executed.  The search loop moves the cursor at most `m_points`
times before it throws, which is the fuel it gets. -/
def remapStep (p : PorousFlow) (zin : Nat → ℚ) (TwTmp dqTmp : List ℚ) (i : Nat)
    (st : RemapState) : RemapState :=
  if st.thrown then st
  else if zin i ≤ vget p.m_z 0 then
    { { st with Tw := st.Tw.set i (vget TwTmp 0) } with dq := st.dq.set i (vget dqTmp 0) }
  else if zin i ≥ vget p.m_z (subSz p.m_points 1) then
    let st := { st with Tw := st.Tw.set i (vget TwTmp (subSz p.m_points 1)) }
    { st with dq := st.dq.set i (vget dqTmp (subSz p.m_points 1)) }
  else
    let found := remapSearch p (zin i) p.m_points st.j
    if found.2 then { { st with j := found.1 } with thrown := true }
    else
      let j := found.1
      let tmp := (zin i - vget p.m_z j) / (vget p.m_z (addSz j 1) - vget p.m_z j)
      let st := { st with j := j }
      let st := { st with Tw := st.Tw.set i ((1 - tmp) * vget TwTmp j + tmp * vget TwTmp (addSz j 1)) }
      { st with dq := st.dq.set i ((1 - tmp) * vget dqTmp j + tmp * vget dqTmp (addSz j 1)) }

/-- Member function `PorousFlow::setupGrid`.  The closing call `AxiStagnFlow::setupGrid(n, z)`
runs `StFlow::setupGrid`, which `AxiStagnFlow` inherits; the integer thrown by `throw 10` is
recorded as the error `"10"`. -/
def setupGrid (p : PorousFlow) (n : Nat) (zin : Nat → ℚ) : Outcome PorousFlow :=
  let TwTmp := p.Tw
  let dqTmp := p.dq
  let st := forRange 0 n (remapStep p zin TwTmp dqTmp) ⟨vresize p.Tw n 0, vresize p.dq n 0, 0, false⟩
  let p := { { p with Tw := st.Tw } with dq := st.dq }
  if st.thrown then ⟨p, some "10"⟩
  else
    let o := p.toStFlow.setupGrid n zin
    ⟨{ p with toStFlow := o.state }, o.error⟩

end PorousFlow

/-! ## State export and import -/

/-- Modelled from the spec: a scalar held by an `AnyValue` (`AnyMap.h` is not among the
sources): a double, a boolean, an integer or a string. -/
inductive AnyScalar where
  | double (x : ℚ)
  | bool (b : Bool)
  | int (n : Int)
  | str (s : String)
  deriving DecidableEq, Repr

/-- Modelled from the spec: the values of an `AnyMap` that the flow domain writes and reads:
a scalar, a vector of doubles, a vector of booleans, or a nested map of scalars. -/
inductive AnyValue where
  | scalar (s : AnyScalar)
  | vecDouble (v : List ℚ)
  | vecBool (v : List Bool)
  | map (m : List (String × AnyScalar))
  deriving DecidableEq, Repr

/-- Modelled from the spec: an `AnyMap` as the list of its stores, latest first; the value of
a key is the one of its latest store. -/
structure AnyMap where
  entries : List (String × AnyValue)
  deriving DecidableEq, Repr

namespace AnyMap

/-- The value of the key `k`, if the map has the key. -/
def get? (m : AnyMap) (k : String) : Option AnyValue := m.entries.lookup k

/-- Modelled from the spec: `AnyMap::hasKey`. -/
def hasKey (m : AnyMap) (k : String) : Bool := (m.get? k).isSome

/-- Modelled from the spec: the store `m[k] = v`. -/
def put (m : AnyMap) (k : String) (v : AnyValue) : AnyMap := ⟨(k, v) :: m.entries⟩

/-- The stores of the inner map that `m[k]` holds; none when `m[k]` does not hold a map. -/
def inner (m : AnyMap) (k : String) : List (String × AnyScalar) :=
  match m.get? k with
  | some (AnyValue.map sub) => sub
  | _ => []

/-- Modelled from the spec: the nested store `m[k1][k2] = v`, which creates the inner map when
`m[k1]` does not hold one yet. -/
def putIn (m : AnyMap) (k1 k2 : String) (v : AnyScalar) : AnyMap :=
  m.put k1 (AnyValue.map ((k2, v) :: m.inner k1))

/-- Modelled from the spec: the read `m[k]` of a constant map, which throws when the key is
missing. -/
def getValue (m : AnyMap) (k : String) : Except String AnyValue :=
  match m.get? k with
  | some v => Except.ok v
  | none => Except.error ("AnyMap::operator[]: key not found: " ++ k)

end AnyMap

namespace AnyValue

/-- Modelled from the spec: `AnyValue::isScalar`. -/
def isScalar : AnyValue → Bool
  | scalar _ => true
  | _ => false

/-- Modelled from the spec: `AnyValue::asDouble`, which also converts an integer. -/
def asDouble : AnyValue → Except String ℚ
  | scalar (AnyScalar.double x) => Except.ok x
  | scalar (AnyScalar.int n) => Except.ok n
  | _ => Except.error "AnyValue::asDouble: the value is not a double"

/-- Modelled from the spec: `AnyValue::asBool`. -/
def asBool : AnyValue → Except String Bool
  | scalar (AnyScalar.bool b) => Except.ok b
  | _ => Except.error "AnyValue::asBool: the value is not a boolean"

/-- Modelled from the spec: `AnyValue::asInt`. -/
def asInt : AnyValue → Except String Int
  | scalar (AnyScalar.int n) => Except.ok n
  | _ => Except.error "AnyValue::asInt: the value is not an integer"

/-- Modelled from the spec: `AnyValue::asVector<double>(n)`, which throws unless the value is
a vector of `n` doubles. -/
def asVectorDouble (v : AnyValue) (n : Nat) : Except String (List ℚ) :=
  match v with
  | vecDouble l =>
    if l.length = n then Except.ok l
    else Except.error "AnyValue::asVector: the vector has the wrong size"
  | _ => Except.error "AnyValue::asVector: the value is not a vector of doubles"

/-- Modelled from the spec: `AnyValue::asVector<bool>(n)`, which throws unless the value is a
vector of `n` booleans. -/
def asVectorBool (v : AnyValue) (n : Nat) : Except String (List Bool) :=
  match v with
  | vecBool l =>
    if l.length = n then Except.ok l
    else Except.error "AnyValue::asVector: the vector has the wrong size"
  | _ => Except.error "AnyValue::asVector: the value is not a vector of booleans"

/-- Modelled from the spec: `AnyValue::as<AnyMap>`. -/
def asMap : AnyValue → Except String (List (String × AnyScalar))
  | map m => Except.ok m
  | _ => Except.error "AnyValue::as: the value is not a map"

end AnyValue

/-- Modelled from the spec: the criteria held by the grid refiner of the domain (`refine.h`
is not among the sources), as its getters `maxRatio`, `maxDelta`, `maxSlope`, `prune`,
`gridMin` and `maxPoints` return them. -/
structure Refiner where
  maxRatio : ℚ
  maxDelta : ℚ
  maxSlope : ℚ
  prune : ℚ
  gridMin : ℚ
  maxPoints : Nat
  deriving DecidableEq, Repr

namespace Refiner

/-- Modelled from the spec: `Refiner::setCriteria(ratio, slope, curve, prune)`, which rejects a
ratio below 2, a slope or a curve outside `[0, 1]`, and a prune above the slope or the curve. -/
def setCriteria (r : Refiner) (ratio slope curve prune : ℚ) : Except String Refiner :=
  if ratio < 2 then Except.error "Refiner::setCriteria: 'ratio' must be greater than 2.0"
  else if slope < 0 ∨ slope > 1 then
    Except.error "Refiner::setCriteria: 'slope' must be between 0.0 and 1.0"
  else if curve < 0 ∨ curve > 1 then
    Except.error "Refiner::setCriteria: 'curve' must be between 0.0 and 1.0"
  else if prune > curve ∨ prune > slope then
    Except.error "Refiner::setCriteria: 'prune' must be less than 'curve' and 'slope'"
  else
    let r := { { r with maxRatio := ratio } with maxDelta := slope }
    Except.ok { { r with maxSlope := curve } with prune := prune }

end Refiner

namespace StFlow

/-- Member function `StFlow::flowType() const` of the header. -/
def flowType (s : StFlow) : Except String String :=
  if s.m_type = DomainType.cFreeFlow then Except.ok "Free Flame"
  else if s.m_type = DomainType.cAxisymmetricStagnationFlow then Except.ok "Axisymmetric Stagnation"
  else if s.m_type = DomainType.cPorousType then Except.ok "Porous Flow"
  else Except.error "StFlow::flowType: Unknown value for 'm_type'"

/-- Modelled from the spec: `Domain1D::serialize` of the base class (not among the sources),
which records the number of grid points. -/
def serializeDomain1D (s : StFlow) (_soln : Nat → ℚ) : AnyMap :=
  ⟨[("points", AnyValue.scalar (AnyScalar.int s.m_points))]⟩

/-- Modelled from the spec: `Domain1D::restore` of the base class (not among the sources),
which reads settings of the base class that are not among the members kept here. -/
def restoreDomain1D (s : StFlow) (_state : AnyMap) (_soln : Nat → ℚ) (_loglevel : Int) : StFlow := s

/-- The size of the `std::set<bool>` built from a vector of flags. -/
def flagSetSize (l : List Bool) : Nat := l.eraseDups.length

/-- The part of `StFlow::serialize` before its loop over the components; `t` is the value of
`flowType()`, `phaseName` the value of `m_thermo->name()` and `phaseSource` the file name in
the metadata of the phase object, if it has one. -/
def serializeSettings (c : Consts) (s : StFlow) (rf : Refiner) (t phaseName : String)
    (phaseSource : Option String) (soln : Nat → ℚ) : AnyMap :=
  let state := s.serializeDomain1D soln
  let state := state.put "type" (AnyValue.scalar (AnyScalar.str t))
  let state := state.put "pressure" (AnyValue.scalar (AnyScalar.double s.m_press))
  let state := state.putIn "phase" "name" (AnyScalar.str phaseName)
  let state := state.putIn "phase" "source" (AnyScalar.str (phaseSource.getD "<unknown>"))
  let state := state.put "radiation-enabled" (AnyValue.scalar (AnyScalar.bool s.m_do_radiation))
  let state :=
    if s.m_do_radiation then
      let state := state.put "radiative-heat-loss" (AnyValue.vecDouble s.m_qdotRadiation)
      let state := state.put "emissivity-left" (AnyValue.scalar (AnyScalar.double s.m_epsilon_left))
      state.put "emissivity-right" (AnyValue.scalar (AnyScalar.double s.m_epsilon_right))
    else state
  let state :=
    if flagSetSize s.m_do_energy = 1 then
      state.put "energy-enabled" (AnyValue.scalar (AnyScalar.bool (bget s.m_do_energy 0)))
    else state.put "energy-enabled" (AnyValue.vecBool s.m_do_energy)
  let state := state.put "Soret-enabled" (AnyValue.scalar (AnyScalar.bool s.m_do_soret))
  let state :=
    if flagSetSize s.m_do_species = 1 then
      state.put "species-enabled" (AnyValue.scalar (AnyScalar.bool (bget s.m_do_species 0)))
    else
      forRange 0 s.m_nsp (fun k (state : AnyMap) =>
        state.putIn "species-enabled" (s.m_thermo.speciesName k)
          (AnyScalar.bool (bget s.m_do_species k))) state
  let state := state.putIn "refine-criteria" "ratio" (AnyScalar.double rf.maxRatio)
  let state := state.putIn "refine-criteria" "slope" (AnyScalar.double rf.maxDelta)
  let state := state.putIn "refine-criteria" "curve" (AnyScalar.double rf.maxSlope)
  let state := state.putIn "refine-criteria" "prune" (AnyScalar.double rf.prune)
  let state := state.putIn "refine-criteria" "grid-min" (AnyScalar.double rf.gridMin)
  let state := state.putIn "refine-criteria" "max-points" (AnyScalar.int rf.maxPoints)
  let state :=
    if s.m_zfixed ≠ c.Undef then
      let state := state.putIn "fixed-point" "location" (AnyScalar.double s.m_zfixed)
      state.putIn "fixed-point" "temperature" (AnyScalar.double s.m_tfixed)
    else state
  state.put "grid" (AnyValue.vecDouble s.m_z)

/-- Member function `StFlow::serialize`; `rf` holds the criteria of the refiner of the domain. -/
def serialize (c : Consts) (s : StFlow) (rf : Refiner) (phaseName : String)
    (phaseSource : Option String) (soln : Nat → ℚ) : Except String AnyMap :=
  match s.flowType with
  | Except.error e => Except.error e
  | Except.ok t =>
    let state := serializeSettings c s rf t phaseName phaseSource soln
    Except.ok (forRange 0 s.m_nv (fun i (state : AnyMap) =>
      if s.componentActive i then
        state.put (s.componentName i)
          (AnyValue.vecDouble ((List.range s.m_points).map (fun j => soln (s.index i j))))
      else state) state)

/-- The first statements of `StFlow::restore(const AnyMap&)`: the pressure and the grid.  The
virtual call `setupGrid` is the one of an object that is not a `PorousFlow`. -/
def restoreGrid (s : StFlow) (state : AnyMap) : Except String StFlow := do
  let pv ← state.getValue "pressure"
  let press ← pv.asDouble
  let s := { s with m_press := press }
  let gv ← state.getValue "grid"
  let grid ← gv.asVectorDouble s.m_points
  let o := s.setupGrid s.m_points (fun i => vget grid i)
  match o.error with
  | some e => Except.error e
  | none => Except.ok o.state

/-- The loop over the components of `StFlow::restore(const AnyMap&)`, which copies the saved
values into the solution array; the warning for a missing component changes nothing. -/
def restoreComponents (s : StFlow) (state : AnyMap) (soln : Nat → ℚ) : Except String (Nat → ℚ) :=
  forRange 0 s.m_nv (fun i (acc : Except String (Nat → ℚ)) =>
    match acc with
    | Except.error e => Except.error e
    | Except.ok soln =>
      if s.componentActive i then
        if state.hasKey (s.componentName i) then
          match state.getValue (s.componentName i) with
          | Except.error e => Except.error e
          | Except.ok v =>
            match v.asVectorDouble s.m_points with
            | Except.error e => Except.error e
            | Except.ok data =>
              Except.ok (forRange 0 s.m_points
                (fun j soln => Function.update soln (s.index i j) (vget data j)) soln)
        else Except.ok soln
      else Except.ok soln) (Except.ok soln)

/-- The blocks of `StFlow::restore(const AnyMap&)` for the keys `energy-enabled`,
`Soret-enabled` and `species-enabled`; `m_nsp` is the value of `m_thermo->nSpecies()`. -/
def restoreFlags (s : StFlow) (state : AnyMap) : Except String StFlow := do
  let s ←
    if state.hasKey "energy-enabled" then do
      let ee ← state.getValue "energy-enabled"
      if ee.isScalar then do
        let b ← ee.asBool
        pure { s with m_do_energy := List.replicate s.m_points b }
      else do
        let v ← ee.asVectorBool s.m_points
        pure { s with m_do_energy := v }
    else pure s
  let s ←
    if state.hasKey "Soret-enabled" then do
      let sv ← state.getValue "Soret-enabled"
      let b ← sv.asBool
      pure { s with m_do_soret := b }
    else pure s
  if state.hasKey "species-enabled" then do
    let se ← state.getValue "species-enabled"
    if se.isScalar then do
      let b ← se.asBool
      pure { s with m_do_species := List.replicate s.m_nsp b }
    else do
      let v ← se.asVectorBool s.m_nsp
      pure { s with m_do_species := v }
  else pure s

/-- The block of `StFlow::restore(const AnyMap&)` for the key `radiation-enabled`. -/
def restoreRadiation (s : StFlow) (state : AnyMap) : Except String StFlow :=
  if state.hasKey "radiation-enabled" then do
    let rv ← state.getValue "radiation-enabled"
    let b ← rv.asBool
    let s := { s with m_do_radiation := b }
    if s.m_do_radiation then do
      let lv ← state.getValue "emissivity-left"
      let el ← lv.asDouble
      let s := { s with m_epsilon_left := el }
      let rv ← state.getValue "emissivity-right"
      let er ← rv.asDouble
      pure { s with m_epsilon_right := er }
    else pure s
  else pure s

/-- Modelled from the spec: `AnyMap::getDouble(key, default)` on a nested map. -/
def getDouble (m : List (String × AnyScalar)) (k : String) (d : ℚ) : Except String ℚ :=
  match m.lookup k with
  | some v => (AnyValue.scalar v).asDouble
  | none => Except.ok d

/-- Modelled from the spec: the read `m[k]` on a nested map. -/
def scalarAt (m : List (String × AnyScalar)) (k : String) : Except String AnyValue :=
  match m.lookup k with
  | some v => Except.ok (AnyValue.scalar v)
  | none => Except.error ("AnyMap::operator[]: key not found: " ++ k)

/-- The block of `StFlow::restore(const AnyMap&)` for the key `refine-criteria`, on the
criteria of the refiner of the domain. -/
def restoreCriteria (rf : Refiner) (state : AnyMap) : Except String Refiner :=
  if state.hasKey "refine-criteria" then do
    let cv ← state.getValue "refine-criteria"
    let criteria ← cv.asMap
    let ratio ← getDouble criteria "ratio" rf.maxRatio
    let slope ← getDouble criteria "slope" rf.maxDelta
    let curve ← getDouble criteria "curve" rf.maxSlope
    let prune ← getDouble criteria "prune" rf.prune
    let rf ← rf.setCriteria ratio slope curve prune
    let rf ←
      if (criteria.lookup "grid-min").isSome then do
        let gv ← scalarAt criteria "grid-min"
        let g ← gv.asDouble
        pure { rf with gridMin := g }
      else pure rf
    if (criteria.lookup "max-points").isSome then do
      let mv ← scalarAt criteria "max-points"
      let n ← mv.asInt
      pure { rf with maxPoints := n.toNat }
    else pure rf
  else pure rf

/-- The block of `StFlow::restore(const AnyMap&)` for the key `fixed-point`. -/
def restoreFixedPoint (s : StFlow) (state : AnyMap) : Except String StFlow :=
  if state.hasKey "fixed-point" then do
    let fv ← state.getValue "fixed-point"
    let fp ← fv.asMap
    let lv ← scalarAt fp "location"
    let z ← lv.asDouble
    let s := { s with m_zfixed := z }
    let tv ← scalarAt fp "temperature"
    let t ← tv.asDouble
    pure { s with m_tfixed := t }
  else pure s

/-- Member function `StFlow::restore(const AnyMap&, double*, int)`: the object, the criteria
of its refiner and the solution array after the call, or the error it throws. -/
def restore (s : StFlow) (rf : Refiner) (state : AnyMap) (soln : Nat → ℚ) (loglevel : Int) :
    Except String (StFlow × Refiner × (Nat → ℚ)) := do
  let s := s.restoreDomain1D state soln loglevel
  let s ← restoreGrid s state
  let soln ← restoreComponents s state soln
  let s ← restoreFlags s state
  let s ← restoreRadiation s state
  let rf ← restoreCriteria rf state
  let s ← restoreFixedPoint s state
  pure (s, rf, soln)

end StFlow

/-! ## The solid block of the XML state file -/

/-- Modelled from the spec: an `XML_Node` as the solid block uses it: its float children and its
named float arrays, in the order they were added. -/
structure XmlNode where
  floats : List (String × ℚ)
  arrays : List (String × List ℚ)
deriving DecidableEq

/-- Modelled from the spec: the node of a domain in the state file, as far as `PorousFlow::save` and
`PorousFlow::restore` touch it: its named children, in the order they were added. -/
structure XmlDomainNode where
  children : List (String × XmlNode)
deriving DecidableEq

/-- Modelled from the spec: `node.hasChild(name)` together with `node.child(name)`, the first child
of that name. -/
def XmlDomainNode.child? (dom : XmlDomainNode) (name : String) : Option XmlNode :=
  dom.children.lookup name

/-- Modelled from the spec: `addFloat(node, name, v)` appends a float child. -/
def addFloat (node : XmlNode) (name : String) (v : ℚ) : XmlNode :=
  { node with floats := node.floats ++ [(name, v)] }

/-- Modelled from the spec: `addNamedFloatArray(node, name, n, vals)` appends a child that holds
`vals[0], ..., vals[n-1]`. -/
def addNamedFloatArray (node : XmlNode) (name : String) (n : Nat) (vals : List ℚ) : XmlNode :=
  { node with arrays := node.arrays ++ [(name, (List.range n).map (fun i => vget vals i))] }

/-- Modelled from the spec: `getFloat(node, name)` reads the first float child of that name. -/
def getFloat (node : XmlNode) (name : String) : ℚ := (node.floats.lookup name).getD 0

/-- Modelled from the spec: `getFloatArray(node, x, false, "", name)` reads the first array child of
that name into `x` and throws when there is none. -/
def getFloatArray (node : XmlNode) (name : String) : Except String (List ℚ) :=
  match node.arrays.lookup name with
  | some x => Except.ok x
  | none => Except.error "getFloatArray"

namespace PorousFlow

/-- The part of `PorousFlow::save` that follows the call of `AxiStagnFlow::save`, whose result is
`flow`: the child `Solid` with twelve scalars and six arrays, each array copied through the one
buffer `values`. -/
def save (p : PorousFlow) (flow : XmlDomainNode) : XmlDomainNode :=
  let n := p.toStFlow.m_points
  let values : List ℚ := List.replicate n 0
  let solid : XmlNode := ⟨[], []⟩
  let solid := addFloat solid "pore1" p.pore1
  let solid := addFloat solid "pore2" p.pore2
  let solid := addFloat solid "diam1" p.diam1
  let solid := addFloat solid "diam2" p.diam2
  let solid := addFloat solid "scond1" p.scond1
  let solid := addFloat solid "scond2" p.scond2
  let solid := addFloat solid "Omega1" p.Omega1
  let solid := addFloat solid "Omega2" p.Omega2
  let solid := addFloat solid "rho" p.srho
  let solid := addFloat solid "Cp" p.sCp
  let solid := addFloat solid "zmid" p.m_zmid
  let solid := addFloat solid "dzmid" p.m_dzmid
  let values := forRange 0 n (fun i v => v.set i (vget p.Tw i)) values
  let solid := addNamedFloatArray solid "Tsolid" n values
  let values := forRange 0 n (fun i v => v.set i (vget p.dq i)) values
  let solid := addNamedFloatArray solid "Radiation" n values
  let values := forRange 0 n (fun i v => v.set i (vget p.pore i)) values
  let solid := addNamedFloatArray solid "Porosity" n values
  let values := forRange 0 n (fun i v => v.set i (vget p.diam i)) values
  let solid := addNamedFloatArray solid "Diameter" n values
  let values := forRange 0 n (fun i v => v.set i (vget p.scond i)) values
  let solid := addNamedFloatArray solid "SolidConductivity" n values
  let values := forRange 0 (subSz n 1) (fun i v => v.set i (vget p.hconv i)) values
  let solid := addNamedFloatArray solid "Hconv" n values
  { flow with children := flow.children ++ [("Solid", solid)] }

/-- The block that `PorousFlow::restore` repeats for each array: the member `dst` is resized to
`n = nPoints()`; when the array `x` read from the file has `n` entries, the entries below `cnt` are
copied; a non-empty array of another length is an error. -/
def restoreArray (dst x : List ℚ) (n cnt : Nat) (what : String) : Except String (List ℚ) :=
  let dst := vresize dst n 0
  if x.length = n then
    Except.ok (forRange 0 cnt (fun i d => d.set i (vget x i)) dst)
  else if ¬ x.isEmpty then
    Except.error (what ++ " is of length" ++ toString x.length ++ "but should be length"
      ++ toString n)
  else Except.ok dst

/-- The part of `PorousFlow::restore` that follows the call of `AxiStagnFlow::restore`; `p` is the
domain as that call left it. The copy loop of `Hconv` stops at `x.size() - 1`. -/
def restore (p : PorousFlow) (dom : XmlDomainNode) : Except String PorousFlow :=
  match dom.child? "Solid" with
  | none => Except.ok p
  | some ref => do
    let p := { p with pore1 := getFloat ref "pore1" }
    let p := { p with pore2 := getFloat ref "pore2" }
    let p := { p with diam1 := getFloat ref "diam1" }
    let p := { p with diam2 := getFloat ref "diam2" }
    let p := { p with scond1 := getFloat ref "scond1" }
    let p := { p with scond2 := getFloat ref "scond2" }
    let p := { p with Omega1 := getFloat ref "Omega1" }
    let p := { p with Omega2 := getFloat ref "Omega2" }
    let p := { p with srho := getFloat ref "rho" }
    let p := { p with sCp := getFloat ref "Cp" }
    let p := { p with m_zmid := getFloat ref "zmid" }
    let p := { p with m_dzmid := getFloat ref "dzmid" }
    let x ← getFloatArray ref "Tsolid"
    let tw ← restoreArray p.Tw x p.toStFlow.m_points x.length "Tw"
    let p := { p with Tw := tw }
    let x ← getFloatArray ref "Radiation"
    let dq ← restoreArray p.dq x p.toStFlow.m_points x.length "dq"
    let p := { p with dq := dq }
    let x ← getFloatArray ref "Porosity"
    let pore ← restoreArray p.pore x p.toStFlow.m_points x.length "Porosity"
    let p := { p with pore := pore }
    let x ← getFloatArray ref "Diameter"
    let diam ← restoreArray p.diam x p.toStFlow.m_points x.length "diam"
    let p := { p with diam := diam }
    let x ← getFloatArray ref "SolidConductivity"
    let scond ← restoreArray p.scond x p.toStFlow.m_points x.length "scond"
    let p := { p with scond := scond }
    let x ← getFloatArray ref "Hconv"
    let hconv ← restoreArray p.hconv x p.toStFlow.m_points (subSz x.length 1) "hconv"
    pure { p with hconv := hconv }

end PorousFlow

/-! ## A concrete domain

Four grid points `z = 0, 1, 2, 4`, two species (H2O with index 0, CO2 with
index 1), seven components per point. -/

/-- A phase object with constant properties. -/
def demoPhase : IdealGasPhase where
  cursor := ⟨300, [1 / 2, 1 / 2], 101325⟩
  density := fun _ => 1
  meanMolecularWeight := fun _ => 20
  cp_mass := fun _ => 1000
  enthalpy_RT_ref := fun _ _ => 0
  cp_R_ref := fun _ _ => 4
  speciesName := fun k => if k = 0 then "H2O" else "CO2"
  speciesIndex := fun n => if n = "H2O" then 0 else if n = "CO2" then 1 else npos

/-- A kinetics object without reactions. -/
def demoKinetics : Kinetics where
  netProductionRates := fun _ _ => 0

/-- A mixture-averaged transport object with constant coefficients. -/
def demoTransport : Transport where
  transportType := "Mix"
  viscosity := fun _ => 1
  thermalConductivity := fun _ => 1
  multiDiffCoeffs := fun _ i => if i = 1 then 1 else 0
  mixDiffCoeffs := fun _ _ => 1
  thermalDiffCoeffs := fun _ _ => 0

/-- Values for the constants of the headers. -/
def demoConsts : Consts where
  OneAtm := 101325
  StefanBoltz := 567 / 10000000000
  GasConstant := 8314
  Undef := -9991234 / 10000
  linearInterp := fun _ _ f => vget f 0
  powReal := fun a _ => a
  sqrt := fun a => a

/-- A four-point, two-species axisymmetric stagnation flow domain, bound to the
mixture-averaged transport object; `m_multidiff` and `m_dthermal` have the
sizes and hold the values that an earlier multicomponent binding left. -/
def demoFlow : StFlow where
  cls := FlowClass.StFlow
  m_nv := 7
  m_points := 4
  m_z := [0, 1, 2, 4]
  m_jstart := 1
  m_iloc := 3
  m_type := DomainType.cAxisymmetricStagnationFlow
  m_slast := fun _ => 0
  m_force_full_update := false
  refinerActive := fun _ => false
  jacUpdateNeeded := false
  dosolid := 0
  m_press := 101325
  m_dz := [1, 1, 2]
  m_rho := [1, 1, 1, 1]
  m_wtm := [20, 20, 20, 20]
  m_wt := [18, 44]
  m_cp := [1000, 1000, 1000, 1000]
  m_visc := [1, 1, 1, 1]
  m_tcon := [1, 1, 1, 1]
  m_diff := [1, 1, 1, 1, 1, 1, 1, 1]
  m_multidiff := [0, 1, 1, 0, 0, 1, 1, 0, 0, 1, 1, 0, 0, 1, 1, 0]
  m_dthermal := ⟨2, 4, [1, 0, 1, 0, 1, 0, 1, 0]⟩
  m_flux := ⟨2, 4, [0, 0, 0, 0, 0, 0, 0, 0]⟩
  m_wdot := ⟨2, 4, [0, 0, 0, 0, 0, 0, 0, 0]⟩
  m_nsp := 2
  m_thermo := demoPhase
  m_kin := demoKinetics
  m_trans := demoTransport
  m_epsilon_left := 0
  m_epsilon_right := 0
  m_kRadiating := [1, 0]
  m_do_energy := [false, false, false, false]
  m_do_soret := false
  m_do_species := [true, true]
  m_do_multicomponent := false
  m_do_radiation := false
  m_qdotRadiation := [0, 0, 0, 0]
  m_fixedtemp := [300, 400, 600, 700]
  m_zfix := []
  m_tfix := []
  m_kExcessLeft := 0
  m_kExcessRight := 0
  m_dovisc := true
  m_zfixed := -9991234 / 10000
  m_tfixed := -1
  m_ybar := [0, 0]

/-- A local solution array for `demoFlow`: per point `u, V, T, lambda, E, Y0, Y1`. -/
def demoX : Nat → ℚ := fun i => vget
  [1, 0, 300, -1, 0, 1 / 2, 1 / 2,
   2, 1, 400, -1, 0, 1 / 2, 1 / 4,
   -1, 3, 600, -1, 0, 1 / 4, 3 / 4,
   -2, 6, 700, -1, 0, 1 / 8, 7 / 8] i

/-- A local solution array for `demoFlow` with `rho*u = z` and `V = 0`. -/
def demoXlin : Nat → ℚ := fun i => vget
  [0, 0, 300, -1, 0, 1 / 2, 1 / 2,
   1, 0, 400, -1, 0, 1 / 2, 1 / 2,
   2, 0, 600, -1, 0, 1 / 2, 1 / 2,
   4, 0, 700, -1, 0, 1 / 2, 1 / 2] i

/-- An empty residual array and mask. -/
def demoResid : Resid := ⟨fun _ => 0, fun _ => 0⟩

/-- The global solution array of which `demoX` is the part of `demoFlow`,
whose local arrays start at `loc() = 3`. -/
def demoXg : Nat → ℚ := fun i => if 3 ≤ i then demoX (i - 3) else 0

/-- A strictly increasing coordinate array. -/
def demoGridGood : Nat → ℚ := fun i => vget [5, 6, 8] i

/-- A coordinate array whose third entry repeats the second. -/
def demoGridBad : Nat → ℚ := fun i => vget [5, 6, 6] i

/-- A multicomponent transport object with constant coefficients. -/
def demoTransportMulti : Transport where
  transportType := "Multi"
  viscosity := fun _ => 1
  thermalConductivity := fun _ => 1
  multiDiffCoeffs := fun _ i => if i = 1 then 1 else if i = 2 then 2 else 0
  mixDiffCoeffs := fun _ _ => 1
  thermalDiffCoeffs := fun _ _ => 0

/-- The concrete domain bound to the multicomponent transport object, with the
transport properties of the faces 0, 1, 2 refreshed from it. -/
def demoFlowMulti : StFlow :=
  (demoFlow.setTransport demoTransportMulti).updateTransport demoX 0 3

/-- The concrete domain after `enableSoret(true)`: Soret diffusion with the
mixture-averaged closure. -/
def demoFlowSoret : StFlow := demoFlow.enableSoret true

/-- The concrete domain after `enableRadiation(true)`; both boundary
emissivities are zero. -/
def demoFlowRad : StFlow := demoFlow.enableRadiation true

/-- A global residual array filled with the value 9. -/
def demoRg : Nat → ℚ := fun _ => 9

/-- A global activity mask filled with the value 7. -/
def demoDiagg : Nat → Int := fun _ => 7

/-- The concrete domain as a `PorousFlow` object, with the solid parameters of
the constructor. -/
def demoPorous : PorousFlow where
  toStFlow := { { demoFlow with cls := FlowClass.PorousFlow } with m_type := DomainType.cPorousType }
  pore1 := 835 / 1000
  pore2 := 87 / 100
  diam1 := 29 / 100000
  diam2 := 152 / 100000
  scond1 := 13 / 10
  scond2 := 1771 / 1000
  Omega1 := 8 / 10
  Omega2 := 8 / 10
  srho := 510
  sCp := 824
  m_zmid := 35 / 1000
  m_dzmid := 2 / 1000
  m_porea := 1 / 10
  m_poreb := 1 / 10
  m_porec := 1 / 10
  m_pored := 1 / 10
  m_diama := 1 / 10
  m_diamb := 1 / 10
  m_diamc := 1 / 10
  m_diamd := 1 / 10
  geometry := 0
  dq := [0, 0, 0, 0]
  Tw := [300, 300, 300, 300]
  pore := []
  diam := []
  scond := []
  Twprev := []
  Twprev1 := []
  zprev := []
  hconv := [0, 0, 0, 0]
  m_adapt := 0
  log := []

/-- The concrete domain as a free flame on the uniform grid `z = 0, 1, 2, 3`,
with the fixed point at `z = 2` and the fixed temperature 500. -/
def demoFlowFree : StFlow :=
  let s := { demoFlow with m_type := DomainType.cFreeFlow }
  let s := { { s with m_z := [0, 1, 2, 3] } with m_dz := [1, 1, 1] }
  { { s with m_zfixed := 2 } with m_tfixed := 500 }

/-- The free flame with the fixed point moved to `z = 1`. -/
def demoFlowFreeLow : StFlow := { demoFlowFree with m_zfixed := 1 }

/-- The free flame with the energy equation enabled at every point. -/
def demoFlowFreeEnergy : StFlow := { demoFlowFree with m_do_energy := [true, true, true, true] }

/-- A local solution array for `demoFlowFree` in which `u` and `T` are linear
in `z` and not constant. -/
def demoXfree : Nat → ℚ := fun i => vget
  [1, 0, 300, -1, 0, 1 / 2, 1 / 2,
   2, 1, 400, -1, 0, 1 / 2, 1 / 4,
   3, 3, 500, -1, 0, 1 / 4, 3 / 4,
   4, 6, 600, -1, 0, 1 / 8, 7 / 8] i

/-- A residual array filled with the value 9 and a mask filled with 7. -/
def demoResidNine : Resid := ⟨fun _ => 9, fun _ => 7⟩

/-- The porous domain with the trigger of the solid solver set by the container. -/
def demoPorousTriggered : PorousFlow := { demoPorous with dosolid := 1 }

/-- The porous domain with the energy equation enabled at every point. -/
def demoPorousEnergy : PorousFlow := { demoPorous with m_do_energy := [true, true, true, true] }

/-- The porous domain with a solid temperature and a radiative divergence that vary along
the grid `z = 0, 1, 2, 4`. -/
def demoPorousWarm : PorousFlow :=
  { { demoPorous with Tw := [300, 400, 600, 900] } with dq := [1, 2, 3, 4] }

/-- A five-point grid that starts before and ends beyond the grid of the concrete domain. -/
def demoGridRefined : Nat → ℚ := fun i => vget [-1, 1 / 2, 1, 3, 5] i

/-- Criteria of a grid refiner. -/
def demoRefiner : Refiner := ⟨10, 8 / 10, 8 / 10, -1 / 10, 1 / 10000000000, 1000⟩

/-- The concrete domain with radiation enabled and the boundary emissivities 1/2 and 1/4. -/
def demoFlowGlow : StFlow :=
  { { demoFlowRad with m_epsilon_left := 1 / 2 } with m_epsilon_right := 1 / 4 }

/-- The concrete domain with radiation disabled and the boundary emissivities 1/2 and 1/4. -/
def demoFlowDim : StFlow :=
  { { demoFlow with m_epsilon_left := 1 / 2 } with m_epsilon_right := 1 / 4 }

/-- The porous domain as an evaluation leaves it: all solid fields sized to the four grid points,
with a convective coefficient that differs from point to point. -/
def demoPorousSaved : PorousFlow :=
  { { { { demoPorousWarm with pore := [835 / 1000, 835 / 1000, 87 / 100, 87 / 100] } with
    diam := [29 / 100000, 29 / 100000, 152 / 100000, 152 / 100000] } with
    scond := [13 / 10, 13 / 10, 1771 / 1000, 1771 / 1000] } with
    hconv := [1, 2, 3, 5] }

/-! ## Definitions used to state the properties -/

/-- The arrays `r2` differ from the arrays `r1` at most at the indices that
satisfy `W`: every other residual entry and mask entry is the same. -/
def writesIn (W : Nat → Prop) (r1 r2 : Resid) : Prop :=
  ∀ i, ¬ W i → r2.rsd i = r1.rsd i ∧ r2.diag i = r1.diag i

/-- The local index `i` belongs to the rows of grid point `j` when a point
has `nv` components. -/
def inRows (nv j i : Nat) : Prop := nv * j ≤ i ∧ i < nv * (j + 1)

namespace StFlow

/-- The object `t` with the caches written by `updateThermo` blanked: the
state of the phase object, `m_rho`, `m_wtm` and `m_cp`. -/
def eraseThermo (t : StFlow) : StFlow :=
  let ph := { t.m_thermo with cursor := ⟨0, [], 0⟩ }
  { { { { t with m_thermo := ph } with m_rho := [] } with m_wtm := [] } with m_cp := [] }

/-- The object `t` with the caches written by `updateTransport` blanked: the
state of the phase object, `m_ybar`, `m_visc`, `m_tcon`, `m_diff`,
`m_multidiff` and `m_dthermal`. -/
def eraseTransport (t : StFlow) : StFlow :=
  let ph := { t.m_thermo with cursor := ⟨0, [], 0⟩ }
  let t := { { { t with m_thermo := ph } with m_ybar := [] } with m_visc := [] }
  let t := { { { t with m_tcon := [] } with m_diff := [] } with m_multidiff := [] }
  { t with m_dthermal := ⟨0, 0, []⟩ }

/-- The object `t` with everything an evaluation may write blanked: the phase
object, the property caches, the fluxes, the production rates, the radiative
loss and the two excess-species indices. What is left is the configuration. -/
def eraseCaches (t : StFlow) : StFlow :=
  let t := { (eraseTransport (eraseThermo t)) with m_thermo := demoPhase }
  let t := { { t with m_flux := ⟨0, 0, []⟩ } with m_wdot := ⟨0, 0, []⟩ }
  { { { t with m_qdotRadiation := [] } with m_kExcessLeft := 0 } with m_kExcessRight := 0 }

/-- The state that `setGasAtMidpoint` gives the phase object at face `j`:
the mean of the temperatures and of the mass fractions of points `j` and
`j+1`, at the pressure of the domain. -/
def midCursor (s : StFlow) (x : Nat → ℚ) (j : Nat) : GasCursor :=
  ⟨1 / 2 * (s.T x j + s.T x (j + 1)),
    (List.range s.m_nsp).map (fun k =>
      1 / 2 * (x (s.m_nv * j + c_offset_Y + k) + x (s.m_nv * (j + 1) + c_offset_Y + k))),
    s.m_press⟩

/-- The first face `j0 = max(jmin,1)-1` of a property update. -/
def faceLo (jmin : Nat) : Nat := max jmin 1 - 1

/-- The face bound `j1 = min(jmax+1, N-1)` of a property update. -/
def faceHi (s : StFlow) (jmax : Nat) : Nat := min (addSz jmax 1) (subSz s.m_points 1)

/-- The body of the loop over the faces in the mixture-averaged branch of
`StFlow::updateTransport`. -/
def transportFaceMix (x : Nat → ℚ) (j : Nat) (s : StFlow) : StFlow :=
  let s := s.setGasAtMidpoint x j
  let visc := if s.m_dovisc then s.m_trans.viscosity s.m_thermo.cursor else 0
  let s := { s with m_visc := s.m_visc.set j visc }
  let d := writeBlock s.m_diff (j * s.m_nsp) s.m_nsp (s.m_trans.mixDiffCoeffs s.m_thermo.cursor)
  let s := { s with m_diff := d }
  { s with m_tcon := s.m_tcon.set j (s.m_trans.thermalConductivity s.m_thermo.cursor) }

/-- The body of the loop over the faces in the multicomponent branch of
`StFlow::updateTransport`. -/
def transportFaceMulti (x : Nat → ℚ) (j : Nat) (s : StFlow) : StFlow :=
  let s := s.setGasAtMidpoint x j
  let wtm := s.m_thermo.meanMolecularWeight s.m_thermo.cursor
  let rho := s.m_thermo.density s.m_thermo.cursor
  let visc := if s.m_dovisc then s.m_trans.viscosity s.m_thermo.cursor else 0
  let s := { s with m_visc := s.m_visc.set j visc }
  let md := writeBlock s.m_multidiff (s.mindex 0 0 j) (s.m_nsp * s.m_nsp)
    (s.m_trans.multiDiffCoeffs s.m_thermo.cursor)
  let s := { s with m_multidiff := md }
  let s := forRange 0 s.m_nsp (fun k s =>
    { s with m_diff := s.m_diff.set (k + j * s.m_nsp) (vget s.m_wt k * rho / (wtm * wtm)) }) s
  let s := { s with m_tcon := s.m_tcon.set j (s.m_trans.thermalConductivity s.m_thermo.cursor) }
  if s.m_do_soret then
    let d := writeBlock s.m_dthermal.data (s.m_dthermal.nrows * 0 + j * s.m_nsp) s.m_nsp
      (s.m_trans.thermalDiffCoeffs s.m_thermo.cursor)
    { s with m_dthermal := { s.m_dthermal with data := d } }
  else s

/-- The object `t` with the scratch array `m_ybar`, the state of the phase
object and the transport caches replaced. -/
def withTransport (t : StFlow) (yb : List ℚ) (cur : GasCursor) (visc tcon diff mdiff dth : List ℚ) :
    StFlow :=
  let ph := { t.m_thermo with cursor := cur }
  let dt := { t.m_dthermal with data := dth }
  let t := { { { t with m_ybar := yb } with m_thermo := ph } with m_visc := visc }
  let t := { { { t with m_tcon := tcon } with m_diff := diff } with m_multidiff := mdiff }
  { t with m_dthermal := dt }

/-- The mass fraction of species `k` at face `j` as `setGasAtMidpoint`
computes it: the mean of the values at points `j` and `j+1`. -/
def ybarAt (s : StFlow) (x : Nat → ℚ) (j k : Nat) : ℚ :=
  1 / 2 * (x (s.m_nv * j + c_offset_Y + k) + x (s.m_nv * (j + 1) + c_offset_Y + k))

/-- The viscosity that `updateTransport` stores for face `j`. -/
def viscAt (s : StFlow) (x : Nat → ℚ) (j : Nat) : ℚ :=
  if s.m_dovisc then s.m_trans.viscosity (midCursor s x j) else 0

/-- The diffusion coefficient that the multicomponent branch of
`updateTransport` stores in `m_diff` for species `k` at face `j`. -/
def multiDiffAt (s : StFlow) (x : Nat → ℚ) (j k : Nat) : ℚ :=
  vget s.m_wt k * s.m_thermo.density (midCursor s x j)
    / (s.m_thermo.meanMolecularWeight (midCursor s x j)
        * s.m_thermo.meanMolecularWeight (midCursor s x j))

/-- The object after the first two steps of `updateProperties`: the call of
`updateThermo` and, for a full evaluation or a forced update, the call of
`updateTransport`. -/
def propsStage (s : StFlow) (jg : Nat) (x : Nat → ℚ) (jmin jmax : Nat) : StFlow :=
  let s1 := s.updateThermo x (faceLo jmin) (faceHi s jmax)
  if jg = npos ∨ s1.m_force_full_update = true then
    s1.updateTransport x (faceLo jmin) (faceHi s jmax)
  else s1

/-- The cached transport properties of the object: viscosity, thermal
conductivity, diffusion coefficients, multicomponent diffusion coefficients
and thermal-diffusion coefficients. -/
def transportCaches (t : StFlow) : List ℚ × List ℚ × List ℚ × List ℚ × Array2D :=
  (t.m_visc, t.m_tcon, t.m_diff, t.m_multidiff, t.m_dthermal)

/-- The first local point `jmin` that `eval` evaluates for the global index `jg`. -/
def evalJmin (s : StFlow) (jg : Nat) : Nat :=
  if jg = npos then 0 else max (if jg = 0 then 0 else subSz jg s.firstPoint) 1 - 1

/-- The last local point `jmax` that `eval` evaluates for the global index `jg`. -/
def evalJmax (s : StFlow) (jg : Nat) : Nat :=
  if jg = npos then subSz s.m_points 1
  else min (addSz (if jg = 0 then 0 else subSz jg s.firstPoint) 1) (subSz s.m_points 1)

/-- The object `s` with the grid arrays replaced. -/
def withGrid (s : StFlow) (mz mdz : List ℚ) : StFlow :=
  { { s with m_z := mz } with m_dz := mdz }

/-- The object `s` with the phase object and the production rates replaced. -/
def withThermoWdot (s : StFlow) (th : IdealGasPhase) (wd : Array2D) : StFlow :=
  { { s with m_thermo := th } with m_wdot := wd }

/-- The Planck mean absorption coefficient `k_P` at point `j` as claim C4
writes it: `(P/1atm) * (X_H2O * sum_n c_H2O[n]*(1000/T)^n
+ X_CO2 * sum_n c_CO2[n]*(1000/T)^n)`, a species that is absent from the
mixture (index `npos`) contributing zero. -/
def planckMeanClaimed (c : Consts) (s : StFlow) (x : Nat → ℚ) (j : Nat) : ℚ :=
  (s.m_press / c.OneAtm) *
    ((if s.kRadiating 1 ≠ npos then
        s.X x (s.kRadiating 1) j * ∑ n in Finset.range 6, vget c_H2O n * (1000 / s.T x j) ^ n
      else 0)
    + (if s.kRadiating 0 ≠ npos then
        s.X x (s.kRadiating 0) j * ∑ n in Finset.range 6, vget c_CO2 n * (1000 / s.T x j) ^ n
      else 0))

/-- The gradient of the logarithm of the temperature at face `m`, as the Soret
block of `updateDiffFluxes` computes it. -/
def gradLogT (s : StFlow) (x : Nat → ℚ) (m : Nat) : ℚ :=
  2 * (s.T x (m + 1) - s.T x m) / ((s.T x (m + 1) + s.T x m) * (s.z (m + 1) - s.z m))

/-- The Fickian flux `Mw_k*rho*D_k/Wtm*(X_k[j] - X_k[j+1])/dz` of species `k`
at face `j`, from the cached properties of `s`. -/
def fickFlux (s : StFlow) (x : Nat → ℚ) (j k : Nat) : ℚ :=
  vget s.m_wt k * (s.density j * vget s.m_diff (k + s.m_nsp * j) / vget s.m_wtm j)
    * ((s.X x k j - s.X x k (j + 1)) / (s.z (j + 1) - s.z j))

/-- The transport caches `tc` hold, for every face `j` with `j0 <= j < j1`
that the arrays of the object `u` have room for, what `updateTransport`
computes from `u` at the face: the viscosity, the thermal conductivity and the
diffusion coefficients of the closure in use; the multicomponent coefficients
under the multicomponent closure only, the thermal-diffusion coefficients
under the multicomponent closure with Soret diffusion only, and otherwise the
previous content of these two arrays. -/
def transportRefreshed (u : StFlow) (x : Nat → ℚ) (j0 j1 : Nat)
    (tc : List ℚ × List ℚ × List ℚ × List ℚ × Array2D) : Prop :=
  (∀ j, j0 ≤ j → j < j1 →
    (j < u.m_visc.length → vget tc.1 j = viscAt u x j)
    ∧ (j < u.m_tcon.length → vget tc.2.1 j = u.m_trans.thermalConductivity (midCursor u x j))
    ∧ (u.m_do_multicomponent = false → ∀ k, k < u.m_nsp → j * u.m_nsp + k < u.m_diff.length →
        vget tc.2.2.1 (j * u.m_nsp + k) = u.m_trans.mixDiffCoeffs (midCursor u x j) k)
    ∧ (u.m_do_multicomponent = true →
        (∀ k, k < u.m_nsp → j * u.m_nsp + k < u.m_diff.length →
          vget tc.2.2.1 (j * u.m_nsp + k) = multiDiffAt u x j k)
        ∧ (∀ i, i < u.m_nsp * u.m_nsp → j * (u.m_nsp * u.m_nsp) + i < u.m_multidiff.length →
          vget tc.2.2.2.1 (j * (u.m_nsp * u.m_nsp) + i)
            = u.m_trans.multiDiffCoeffs (midCursor u x j) i))
    ∧ (u.m_do_multicomponent = true → u.m_do_soret = true →
        ∀ k, k < u.m_nsp → j * u.m_nsp + k < u.m_dthermal.data.length →
          vget tc.2.2.2.2.data (j * u.m_nsp + k) = u.m_trans.thermalDiffCoeffs (midCursor u x j) k))
  ∧ (u.m_do_multicomponent = false → tc.2.2.2.1 = u.m_multidiff ∧ tc.2.2.2.2 = u.m_dthermal)
  ∧ (u.m_do_soret = false → tc.2.2.2.2 = u.m_dthermal)

/-- The object after the call of `updateProperties` that `eval` makes for the
global index `jg`. -/
def evalProps (s : StFlow) (jg : Nat) (xg : Nat → ℚ) : StFlow :=
  s.updateProperties jg (shiftPtr xg s.loc) (evalJmin s jg) (evalJmax s jg)

/-- The object and the local arrays after the call of `evalResidual` that
`eval` makes for the global index `jg`. -/
def evalLocal (c : Consts) (s : StFlow) (jg : Nat) (xg rg : Nat → ℚ) (diagg : Nat → Int)
    (rdt : ℚ) : EvalState :=
  evalResidual c (evalProps s jg xg) (shiftPtr xg s.loc)
    ⟨shiftPtr rg s.loc, shiftPtr diagg s.loc⟩ rdt (evalJmin s jg) (evalJmax s jg)

end StFlow

namespace PorousFlow

/-- The object `p` with the solid property vectors that every call of `eval` recomputes
blanked: `hconv`, `pore`, `diam` and `scond`. -/
def eraseSolidProps (p : PorousFlow) : PorousFlow :=
  { { { { p with hconv := [] } with pore := [] } with diam := [] } with scond := [] }

/-- The object `p` with the members of its base class replaced by those of `s`: what is left
of `p` is the solid phase. -/
def withGas (p : PorousFlow) (s : StFlow) : PorousFlow := { p with toStFlow := s }

/-- The pseudo-transient factor that `PorousFlow::eval` works with for the global index `jg`. -/
def evalRdt (jg : Nat) (rdt : ℚ) : ℚ := if jg ≠ npos then 0 else rdt

/-- The object after the gas property updates that `PorousFlow::eval` makes for the global
index `jg`. -/
def evalGas (p : PorousFlow) (jg : Nat) (xg : Nat → ℚ) : PorousFlow :=
  let x := shiftPtr xg p.toStFlow.loc
  let j0 := StFlow.faceLo (StFlow.evalJmin p.toStFlow jg)
  let j1 := StFlow.faceHi p.toStFlow (StFlow.evalJmax p.toStFlow jg)
  let p := { p with m_dovisc := true }
  let p := { p with toStFlow := p.toStFlow.updateThermo x j0 j1 }
  let p := if jg = npos then { p with toStFlow := p.toStFlow.updateTransport x j0 j1 } else p
  { p with toStFlow := p.toStFlow.updateDiffFluxes x j0 j1 }

/-- The loop of `PorousFlow::eval` that fills `hconv` over the points `jmin` to `jmax`. -/
def hconvLoop (c : Consts) (p : PorousFlow) (l : PorousLocals) (x : Nat → ℚ) (jmin jmax : Nat) :
    PorousFlow :=
  forRange jmin (jmax + 1) (fun j p =>
    let lam := vget p.m_tcon j
    let visc := vget p.m_visc j
    let Re := (p.toStFlow.rho_u x j * vget p.pore j * vget p.diam j) / visc
    let nusselt := vget l.Cmult j * c.powReal Re (vget l.mpow j)
    { p with hconv := p.hconv.set j ((lam * nusselt) / (vget p.diam j) ^ 2) }) p

/-- The object at the moment `PorousFlow::eval` tests the trigger `dosolid`: after the gas
property updates, the solid property loops and the loop that fills `hconv`. -/
def evalCoupled (c : Consts) (p : PorousFlow) (jg : Nat) (xg : Nat → ℚ) : PorousFlow :=
  hconvLoop c (solidProperties (evalGas p jg xg)).1 (solidProperties (evalGas p jg xg)).2
    (shiftPtr xg p.toStFlow.loc) (StFlow.evalJmin p.toStFlow jg) (StFlow.evalJmax p.toStFlow jg)

/-- The object when `PorousFlow::eval` enters its loop over the grid points. -/
def evalPre (c : Consts) (p : PorousFlow) (jg : Nat) (xg : Nat → ℚ) (rdt : ℚ) : PorousFlow :=
  solidCoupling c (solidProperties (evalGas p jg xg)).1 (solidProperties (evalGas p jg xg)).2
    (shiftPtr xg p.toStFlow.loc) (evalRdt jg rdt)
    (StFlow.evalJmin p.toStFlow jg) (StFlow.evalJmax p.toStFlow jg)

/-- The object and the local arrays when the loop over the grid points of `PorousFlow::eval`
reaches point `j`. -/
def evalReach (c : Consts) (p : PorousFlow) (jg : Nat) (xg rg : Nat → ℚ) (diagg : Nat → Int)
    (rdt : ℚ) (j : Nat) : PorousEvalState :=
  forRange (StFlow.evalJmin p.toStFlow jg) j
    (evalPoint c (shiftPtr xg p.toStFlow.loc) (evalRdt jg rdt))
    ⟨evalPre c p jg xg rdt, ⟨shiftPtr rg p.toStFlow.loc, shiftPtr diagg p.toStFlow.loc⟩⟩

/-- The object and the local arrays after the loop over the grid points of
`PorousFlow::eval`. -/
def evalLocal (c : Consts) (p : PorousFlow) (jg : Nat) (xg rg : Nat → ℚ) (diagg : Nat → Int)
    (rdt : ℚ) : PorousEvalState :=
  evalReach c p jg xg rg diagg rdt (StFlow.evalJmax p.toStFlow jg + 1)

end PorousFlow

namespace StFlow

/-- The object `t` with everything a call of `PorousFlow::eval` may write in the members of
the base class blanked: the caches, the flag `m_dovisc` and the trigger `dosolid`. -/
def eraseRun (t : StFlow) : StFlow :=
  { { eraseCaches t with m_dovisc := false } with dosolid := 0 }

end StFlow

/-- The value `v` is the value at `z` of the piecewise-linear interpolant of the field `f`
over the first `N` points of the grid `g`, with the end values of `f` used at or beyond the
end coordinates: `f[0]` for `z ≤ g[0]`, `f[N-1]` for `z ≥ g[N-1]`, and on every interval
`g[k] ≤ z ≤ g[k+1]` the value `f[k] + (z - g[k])/(g[k+1] - g[k]) * (f[k+1] - f[k])`. -/
def isInterpolantAt (g f : List ℚ) (N : Nat) (z v : ℚ) : Prop :=
  (z ≤ vget g 0 → v = vget f 0)
    ∧ (vget g (N - 1) ≤ z → v = vget f (N - 1))
    ∧ ∀ k, k + 1 < N → vget g k ≤ z → z ≤ vget g (k + 1) →
        v = vget f k + (z - vget g k) / (vget g (k + 1) - vget g k) * (vget f (k + 1) - vget f k)

/-- The keys that `StFlow::serialize` writes besides the names of the components. -/
def reservedKeys : List String :=
  ["points", "type", "pressure", "phase", "radiation-enabled", "radiative-heat-loss",
    "emissivity-left", "emissivity-right", "energy-enabled", "Soret-enabled", "species-enabled",
    "refine-criteria", "fixed-point", "grid"]

namespace PorousFlow

/-- The variables of the loop of `PorousFlow::setupGrid(n, z)` after its first `m` points. -/
def remapReach (p : PorousFlow) (n : Nat) (zin : Nat → ℚ) (m : Nat) : RemapState :=
  forRange 0 m (remapStep p zin p.Tw p.dq) ⟨vresize p.Tw n 0, vresize p.dq n 0, 0, false⟩

end PorousFlow

/-- The concrete domain placed after two global points of other domains. -/
def demoFlowSecond : StFlow := { demoFlow with m_jstart := 2 }

/-- A count of the executions of the body of a `while (cond) body` loop that is cut after `fuel`
iterations. -/
def whileCount {σ : Type} (cond : σ → Bool) (body : σ → σ) : Nat → σ → Nat
  | 0, _ => 0
  | fuel + 1, s => if cond s then whileCount cond body fuel (body s) + 1 else 0

namespace PorousFlow

/-- The two-flux loop of `PorousFlow::solid` for the solid temperature `Tw`, cut after `fuel`
iterations. -/
def radLoop (c : Consts) (p : PorousFlow) (x : Nat → ℚ) (Tw RK Omega : List ℚ) (fuel : Nat) :
    RadState :=
  whileLoop (fun r => decide (r.change2 > 1 / 1000000)) (radStep c p Tw RK Omega) fuel
    (radInit p x)

/-- The variables of the outer loop of `PorousFlow::solid` when the loop is entered. -/
def solidStart (p : PorousFlow) : SolidState :=
  let zero := List.replicate p.m_points (0 : ℚ)
  ⟨p.Tw, forRange 0 p.m_points (fun i dq => dq.set i 0) p.dq, zero, zero, zero, zero, zero,
    1, 300, 300, 0, 0, p.log⟩

/-- The body of the outer loop of `PorousFlow::solid` as `solid` runs it: on the object with
`Twprev = Tw`, with the members `hconv` and `scond`. -/
def solidBody (c : Consts) (p : PorousFlow) (x : Nat → ℚ) (RK Omega : List ℚ) (rdt : ℚ)
    (st : SolidState) : SolidState :=
  solidStep c { p with Twprev := p.Tw } x p.hconv p.scond RK Omega rdt st

/-- The outer loop of `PorousFlow::solid`, cut after `fuel` iterations. -/
def solidLoop (c : Consts) (p : PorousFlow) (x : Nat → ℚ) (RK Omega : List ℚ) (rdt : ℚ)
    (fuel : Nat) : SolidState :=
  whileLoop (fun st => decide (st.change1 > 1 / 1000000)) (solidBody c p x RK Omega rdt) fuel
    (solidStart p)

/-- The solid temperature that one outer iteration of `PorousFlow::solid` solves for, entered
with the variables `st`: after the assembly and the tridiagonal solve. -/
def solidSolved (p : PorousFlow) (x : Nat → ℚ) (rdt : ℚ) (st : SolidState) : SolidState :=
  solidTridiag { p with Twprev := p.Tw }
    (solidAssemble { p with Twprev := p.Tw } x p.hconv p.scond rdt
      { st with count1 := st.count1 + 1 })

end PorousFlow

namespace PorousFlow

/-- The three loops of the body of the two-flux loop of `PorousFlow::solid`, after `count` was
incremented: the new fluxes and the two sums of squares. -/
def radSweep (p : PorousFlow) (Tw RK Omega : List ℚ) (r : RadState) : RadState × ℚ × ℚ :=
  let length := p.m_points
  let s := p.toStFlow
  let r := { r with count := r.count + 1 }
  let r := forRange 1 length (fun i r =>
    let temp := vget Tw i
    let v := (vget r.qpnew (i - 1) + vget RK i * (s.z i - s.z (i - 1)) * vget Omega i * vget r.qminus i
        + 2 * vget RK i * (s.z i - s.z (i - 1)) * (1 - vget Omega i) * sigma * temp ^ 4)
      / (1 + (s.z i - s.z (i - 1)) * vget RK i * (2 - vget Omega i))
    { r with qpnew := r.qpnew.set i v }) r
  let r := forDown 0 (length - 1) (fun i r =>
    let temp := vget Tw i
    let v := (vget r.qmnew (i + 1) + vget RK i * (s.z (i + 1) - s.z i) * vget Omega i * vget r.qpnew i
        + 2 * vget RK i * (s.z (i + 1) - s.z i) * (1 - vget Omega i) * sigma * temp ^ 4)
      / (1 + (s.z (i + 1) - s.z i) * vget RK i * (2 - vget Omega i))
    { r with qmnew := r.qmnew.set i v }) r
  forRange 0 length (fun i (q : RadState × ℚ × ℚ) =>
    let norm1 := q.2.1 + (vget q.1.qpnew i - vget q.1.qplus i) * (vget q.1.qpnew i - vget q.1.qplus i)
    let norm2 := q.2.2 + (vget q.1.qmnew i - vget q.1.qminus i) * (vget q.1.qmnew i - vget q.1.qminus i)
    let r := { q.1 with qplus := q.1.qplus.set i (vget q.1.qpnew i) }
    let r := { r with qminus := r.qminus.set i (vget r.qmnew i) }
    (r, norm1, norm2)) (r, 0, 0)

/-- The end of the body of the two-flux loop: the test of the iteration cap. -/
def radClose (c : Consts) (q : RadState × ℚ × ℚ) : RadState :=
  if q.1.count > 100 then { { q.1 with change2 := 0 } with fail := 1 }
  else { q.1 with change2 := max (c.sqrt q.2.1) (c.sqrt q.2.2) }

/-- The part of an outer iteration of `PorousFlow::solid` that sets the new estimate `dqnew`
from the result `r` of the two-flux loop. -/
def solidEstimate (p : PorousFlow) (RK Omega : List ℚ) (r : RadState) (st : SolidState) :
    SolidState :=
  if r.fail = 1 then
    let st := forRange 0 p.m_points (fun i st => { st with dqnew := st.dqnew.set i (vget st.dq i) }) st
    { st with log := st.log ++ ["Rad Stall"] }
  else
    forRange 0 p.m_points (fun i st =>
      let temp := vget st.Tw i
      let v := 4 * vget RK i * (1 - vget Omega i)
        * (sigma * temp ^ 4 - 1 / 2 * vget r.qplus i - 1 / 2 * vget r.qminus i)
      { st with dqnew := st.dqnew.set i v }) st

/-- The relaxation loop of an outer iteration of `PorousFlow::solid`: the relaxed `dq` and the
sum of squares `norm`. -/
def solidRelax (p : PorousFlow) (st : SolidState) : SolidState × ℚ :=
  forRange 0 p.m_points (fun i (q : SolidState × ℚ) =>
    let norm := q.2 + (vget q.1.dqnew i - vget q.1.dq i) * (vget q.1.dqnew i - vget q.1.dq i)
    ({ q.1 with dq := q.1.dq.set i (1 / 10 * vget q.1.dqnew i + (1 - 1 / 10) * vget q.1.dq i) },
      norm)) (st, 0)

/-- The end of an outer iteration of `PorousFlow::solid`: the test of the iteration cap. -/
def solidClose (c : Consts) (q : SolidState × ℚ) : SolidState :=
  if q.1.count1 > 400 then { { q.1 with fail1 := 1 } with change1 := 0 }
  else { q.1 with change1 := c.sqrt q.2 }

/-- The end of `PorousFlow::solid`, on the variables `st` the outer loop ends with: the solid
temperature is put back when the loop failed. -/
def solidFinish (p : PorousFlow) (st : SolidState) : SolidState :=
  if st.fail1 = 1 then
    let st := forRange 0 p.m_points (fun i st => { st with Tw := st.Tw.set i (vget p.Tw i) }) st
    { st with log := st.log ++ ["Rad not Converged"] }
  else st

end PorousFlow

/-- A porous domain of a single grid point, with solid temperature 300. -/
def demoPorousPoint : PorousFlow :=
  { { { { { demoPorous with toStFlow := { demoPorous.toStFlow with m_points := 1 } } with
    Tw := [300] } with dq := [0] } with hconv := [1] } with scond := [13 / 10] }

namespace PorousFlow

/-- The variables of the outer loop of `PorousFlow::solid` after `n` executions of its body. -/
def solidIter (c : Consts) (p : PorousFlow) (x : Nat → ℚ) (RK Omega : List ℚ) (rdt : ℚ)
    (n : Nat) : SolidState :=
  (solidBody c p x RK Omega rdt)^[n] (solidStart p)

/-- The result of the two-flux loop in the outer iteration of `PorousFlow::solid` that is
entered with the variables `st`. -/
def solidRad (c : Consts) (p : PorousFlow) (x : Nat → ℚ) (RK Omega : List ℚ) (rdt : ℚ)
    (st : SolidState) : RadState :=
  radLoop c { p with Twprev := p.Tw } x (solidSolved p x rdt st).Tw RK Omega 101

end PorousFlow

namespace StFlow

/-- The accessor `radiationEnabled()`. -/
def radiationEnabled (s : StFlow) : Bool := s.m_do_radiation

end StFlow

namespace StFlow

/-- The object `s` with the contents of the caches of density, mean molecular
weight and specific heat and the entries of the flux array replaced. -/
def withCaches (s : StFlow) (rho wtm cp fl : List ℚ) : StFlow :=
  { { { { s with m_rho := rho } with m_wtm := wtm } with m_cp := cp } with
    m_flux := { s.m_flux with data := fl } }

/-- The object `t` is the object `s` up to the contents of the caches of
density, mean molecular weight, specific heat and flux, which have the same
sizes in both; the first three agree at the points that satisfy `P` and the
flux entries agree at the positions that satisfy `Q`. -/
def cachesAgree (P Q : Nat → Prop) (s t : StFlow) : Prop :=
  ∃ r w c f, t = s.withCaches r w c f
    ∧ r.length = s.m_rho.length ∧ w.length = s.m_wtm.length ∧ c.length = s.m_cp.length
    ∧ f.length = s.m_flux.data.length
    ∧ (∀ j, P j → vget r j = vget s.m_rho j ∧ vget w j = vget s.m_wtm j
        ∧ vget c j = vget s.m_cp j)
    ∧ (∀ n, Q n → vget f n = vget s.m_flux.data n)

end StFlow

/-- The flux arrays `A` and `B` have the same shape and size and the same
entries at the positions that satisfy `I`. -/
def fluxAgree (I : Nat → Prop) (A B : Array2D) : Prop :=
  B.nrows = A.nrows ∧ B.ncols = A.ncols ∧ B.data.length = A.data.length
    ∧ ∀ n, I n → vget B.data n = vget A.data n

namespace StFlow

/-- The flux array that `updateDiffFluxes(x, j0, j1)` computes from the flux
array `fl`: the multicomponent or mixture-averaged fluxes of the faces
`j0..j1-1`, followed by the Soret block when it is enabled. -/
def diffFluxFaces (s : StFlow) (x : Nat → ℚ) (j0 j1 : Nat) (fl : Array2D) : Array2D :=
  let fl :=
    if s.m_do_multicomponent then forRange j0 j1 (fun j fl => diffFluxMultiFace s x j fl) fl
    else forRange j0 j1 (fun j fl => diffFluxMixFace s x j fl) fl
  if s.m_do_soret then forRange j0 j1 (fun m fl => diffFluxSoretFace s x m fl) fl
  else fl

end StFlow

/-! ## Auxiliary lemmas -/

theorem vget_set_eq (v : List ℚ) (i : Nat) (a : ℚ) (h : i < v.length) :
    vget (v.set i a) i = a := by
  simp [vget, List.getElem?_set, h]

/-- Reading another entry than the one just stored. -/
theorem vget_set_ne (v : List ℚ) (i j : Nat) (a : ℚ) (h : i ≠ j) :
    vget (v.set i a) j = vget v j := by
  simp [vget, List.getElem?_set, h]

/-- The size after `resize`. -/
theorem length_vresize {α : Type} (v : List α) (n : Nat) (d : α) :
    (vresize v n d).length = n := by
  simp [vresize]; omega

/-- The last iteration of a loop. -/
theorem forRange_succ {σ : Type} (lo hi : Nat) (body : Nat → σ → σ) (s : σ) (h : lo ≤ hi) :
    forRange lo (hi + 1) body s = body hi (forRange lo hi body s) := by
  unfold forRange
  have h1 : hi + 1 - lo = (hi - lo) + 1 := by omega
  rw [h1, List.range'_concat, List.foldl_append]
  simp
  congr 1
  omega

/-- A loop over an empty range does nothing. -/
theorem forRange_empty {σ : Type} (lo hi : Nat) (body : Nat → σ → σ) (s : σ) (h : hi ≤ lo) :
    forRange lo hi body s = s := by
  unfold forRange
  have h1 : hi - lo = 0 := by omega
  simp [h1]

/-- Loop invariant rule for `forRange`. -/
theorem forRange_induction {σ : Type} (P : σ → Prop) (lo hi : Nat) (body : Nat → σ → σ) (s : σ)
    (h0 : P s) (hstep : ∀ j t, lo ≤ j → j < hi → P t → P (body j t)) :
    P (forRange lo hi body s) := by
  induction hi with
  | zero =>
    rw [forRange_empty _ _ _ _ (Nat.zero_le _)]
    exact h0
  | succ hi ih =>
    by_cases h : lo ≤ hi
    · rw [forRange_succ _ _ _ _ h]
      exact hstep hi _ h (Nat.lt_succ_self hi)
        (ih (fun j t h1 h2 hp => hstep j t h1 (by omega) hp))
    · rw [forRange_empty _ _ _ _ (by omega)]
      exact h0

/-- A loop that stores `f j` in `q[j]` for `lo <= j < hi` keeps the length of
`q`, stores `f j` at every `j` of the range that is inside `q`, and leaves the
other entries as they were. -/
theorem forRange_set_spec (f : Nat → ℚ) (lo hi : Nat) (q : List ℚ) :
    (forRange lo hi (fun j q => q.set j (f j)) q).length = q.length ∧
    (∀ j, lo ≤ j → j < hi → j < q.length →
      vget (forRange lo hi (fun j q => q.set j (f j)) q) j = f j) ∧
    (∀ j, (j < lo ∨ hi ≤ j) →
      vget (forRange lo hi (fun j q => q.set j (f j)) q) j = vget q j) := by
  induction hi with
  | zero =>
    rw [forRange_empty _ _ _ _ (Nat.zero_le _)]
    exact ⟨rfl, fun j _ h _ => absurd h (Nat.not_lt_zero j), fun _ _ => rfl⟩
  | succ hi ih =>
    by_cases h : lo ≤ hi
    · rw [forRange_succ _ _ _ _ h]
      obtain ⟨i1, i2, i3⟩ := ih
      refine ⟨by simp [i1], ?_, ?_⟩
      · intro j hlo hhi hlen
        by_cases hj : j = hi
        · subst hj
          exact vget_set_eq _ _ _ (by rw [i1]; exact hlen)
        · rw [vget_set_ne _ _ _ _ (Ne.symm hj)]
          exact i2 j hlo (by omega) hlen
      · intro j hj
        have hne : hi ≠ j := by omega
        rw [vget_set_ne _ _ _ _ hne]
        exact i3 j (by omega)
    · rw [forRange_empty _ _ _ _ (by omega)]
      exact ⟨rfl, fun j h1 h2 _ => by omega, fun _ _ => rfl⟩

/-- The stored entry of `a(i,j) = v`. -/
theorem Array2D.data_set_eq (a : Array2D) (i j : Nat) (v : ℚ)
    (h : a.nrows * j + i < a.data.length) :
    vget (a.set i j v).data (a.nrows * j + i) = v :=
  vget_set_eq _ _ _ h

/-- The other entries after `a(i,j) = v`. -/
theorem Array2D.data_set_ne (a : Array2D) (i j : Nat) (v : ℚ) (idx : Nat)
    (h : idx ≠ a.nrows * j + i) :
    vget (a.set i j v).data idx = vget a.data idx :=
  vget_set_ne _ _ _ _ (Ne.symm h)

/-- The store `a(i,j) = v` keeps the shape. -/
theorem Array2D.set_shape (a : Array2D) (i j : Nat) (v : ℚ) :
    (a.set i j v).nrows = a.nrows ∧ (a.set i j v).data.length = a.data.length := by
  simp [Array2D.set]

/-- A loop over the rows `k < n` of column `j` that replaces each entry `v` by
`h k v`: shape kept, the entries of the column that are inside the array
updated, every other entry untouched. -/
theorem Array2D.column_loop_spec (a : Array2D) (j : Nat) (h : Nat → ℚ → ℚ) (n : Nat)
    (hb : ∀ k, k < n → a.nrows * j + k < a.data.length) :
    (forRange 0 n (fun k fl => fl.set k j (h k (fl.get k j))) a).nrows = a.nrows ∧
    (forRange 0 n (fun k fl => fl.set k j (h k (fl.get k j))) a).data.length = a.data.length ∧
    (∀ k, k < n → (forRange 0 n (fun k fl => fl.set k j (h k (fl.get k j))) a).get k j
      = h k (a.get k j)) ∧
    (∀ idx, (∀ k, k < n → idx ≠ a.nrows * j + k) →
      vget (forRange 0 n (fun k fl => fl.set k j (h k (fl.get k j))) a).data idx
        = vget a.data idx) := by
  induction n with
  | zero =>
    rw [forRange_empty _ _ _ _ (Nat.zero_le _)]
    exact ⟨rfl, rfl, fun k hk => absurd hk (Nat.not_lt_zero k), fun _ _ => rfl⟩
  | succ n ih =>
    rw [forRange_succ _ _ _ _ (Nat.zero_le n)]
    obtain ⟨i1, i2, i3, i4⟩ := ih (fun k hk => hb k (by omega))
    generalize forRange 0 n (fun k fl => fl.set k j (h k (fl.get k j))) a = r at i1 i2 i3 i4
    have hcur : r.get n j = a.get n j := by
      unfold Array2D.get
      rw [i1]
      exact i4 _ (fun k hk => by omega)
    refine ⟨by rw [(Array2D.set_shape _ _ _ _).1, i1], by rw [(Array2D.set_shape _ _ _ _).2, i2],
      ?_, ?_⟩
    · intro k hk
      by_cases hkn : k = n
      · subst hkn
        rw [hcur]
        unfold Array2D.get
        rw [(Array2D.set_shape _ _ _ _).1]
        exact Array2D.data_set_eq _ _ _ _ (by rw [i1, i2]; exact hb k (by omega))
      · have hlt : k < n := by omega
        rw [← i3 k hlt]
        unfold Array2D.get
        rw [(Array2D.set_shape _ _ _ _).1]
        exact Array2D.data_set_ne _ _ _ _ _ (by rw [i1]; omega)
    · intro idx hidx
      rw [Array2D.data_set_ne _ _ _ _ _ (by rw [i1]; exact hidx n (by omega))]
      exact i4 idx (fun k hk => hidx k (by omega))

/-! ## Convective derivatives and continuity -/

namespace StFlow

/-- Claim C2 (as amended): at an interior point `j` the convective derivatives
`dVdz`, `dYdz` and `dTdz` are the backward difference
`(f[j] - f[j-1])/dz[j-1]` when `u(j) > 0`, and the forward difference
`(f[j+1] - f[j])/dz[j]` when `u(j) <= 0`. -/
theorem upwind_difference (s : StFlow) (x : Nat → ℚ) (j k : Nat)
    (hj : 1 ≤ j) (hN : j + 1 < s.m_points) :
    (0 < s.u x j →
      s.dVdz x j = (s.V x j - s.V x (j - 1)) / vget s.m_dz (j - 1) ∧
      s.dYdz x k j = (s.Y x k j - s.Y x k (j - 1)) / vget s.m_dz (j - 1) ∧
      s.dTdz x j = (s.T x j - s.T x (j - 1)) / vget s.m_dz (j - 1)) ∧
    (s.u x j ≤ 0 →
      s.dVdz x j = (s.V x (j + 1) - s.V x j) / vget s.m_dz j ∧
      s.dYdz x k j = (s.Y x k (j + 1) - s.Y x k j) / vget s.m_dz j ∧
      s.dTdz x j = (s.T x (j + 1) - s.T x j) / vget s.m_dz j) := by
  have _ := hj
  have _ := hN
  constructor
  · intro hu
    simp [dVdz, dYdz, dTdz, hu]
  · intro hu
    have hu' : ¬ (0 < s.u x j) := not_lt.mpr hu
    simp [dVdz, dYdz, dTdz, hu']

/-- Witness for `upwind_difference`: point 1 of the concrete domain has
positive velocity and `dVdz` there is the backward difference. -/
theorem upwind_difference_witness :
    (1 ≤ 1 ∧ 1 + 1 < demoFlow.m_points ∧ 0 < demoFlow.u demoX 1) ∧
    demoFlow.dVdz demoX 1 = (demoFlow.V demoX 1 - demoFlow.V demoX (1 - 1)) / vget demoFlow.m_dz (1 - 1) :=
  ⟨⟨le_refl 1, by decide, by norm_num [u, index, demoFlow, demoX, vget, c_offset_U]⟩,
    ((upwind_difference demoFlow demoX 1 0 (le_refl 1) (by decide)).1
      (by norm_num [u, index, demoFlow, demoX, vget, c_offset_U])).1⟩

/-- Counterexample to claim C2 as stated: at interior point 1 the velocity is
positive and none of `dVdz`, `dYdz`, `dTdz` is the forward difference; at
interior point 2 the velocity is negative and none of them is the backward
difference. -/
theorem upwind_forward_for_positive_fails :
    (0 < demoFlow.u demoX 1 ∧
      demoFlow.dVdz demoX 1 ≠ (demoFlow.V demoX 2 - demoFlow.V demoX 1) / vget demoFlow.m_dz 1 ∧
      demoFlow.dYdz demoX 1 1 ≠ (demoFlow.Y demoX 1 2 - demoFlow.Y demoX 1 1) / vget demoFlow.m_dz 1 ∧
      demoFlow.dTdz demoX 1 ≠ (demoFlow.T demoX 2 - demoFlow.T demoX 1) / vget demoFlow.m_dz 1) ∧
    (demoFlow.u demoX 2 < 0 ∧
      demoFlow.dVdz demoX 2 ≠ (demoFlow.V demoX 2 - demoFlow.V demoX 1) / vget demoFlow.m_dz 1 ∧
      demoFlow.dYdz demoX 1 2 ≠ (demoFlow.Y demoX 1 2 - demoFlow.Y demoX 1 1) / vget demoFlow.m_dz 1 ∧
      demoFlow.dTdz demoX 2 ≠ (demoFlow.T demoX 2 - demoFlow.T demoX 1) / vget demoFlow.m_dz 1) := by
  norm_num [dVdz, dYdz, dTdz, u, V, Y, T, index, demoFlow, demoX, vget, c_offset_U, c_offset_V,
    c_offset_T, c_offset_Y]

/-- The continuity residual written by both `evalContinuity` bodies for an
affine mass flux and zero strain rate. -/
theorem continuity_value_affine (s : StFlow) (x : Nat → ℚ) (j : Nat) (a b : ℚ)
    (hdz : vget s.m_dz j = s.z (j + 1) - s.z j) (hinc : s.z j < s.z (j + 1))
    (h0 : s.rho_u x j = a * s.z j + b) (h1 : s.rho_u x (j + 1) = a * s.z (j + 1) + b)
    (hV0 : s.V x j = 0) (hV1 : s.V x (j + 1) = 0) :
    -(s.rho_u x (j + 1) - s.rho_u x j) / vget s.m_dz j
      - (s.density (j + 1) * s.V x (j + 1) + s.density j * s.V x j) = -a := by
  have hne : s.z (j + 1) - s.z j ≠ 0 := sub_ne_zero.mpr (ne_of_gt hinc)
  rw [hdz, h0, h1, hV0, hV1]
  field_simp
  ring

/-- Claim C3 (as amended): for domain type AxisymmetricStagnation, on a
strictly increasing grid with `rho*u = a*z + b` and `V = 0` at every point,
`StFlow::evalContinuity` and `AxiStagnFlow::evalContinuity` write the
continuity residual `-a` at every interior point; the residual is zero exactly
when the slope `a` is zero, that is when `rho*u` is uniform. -/
theorem continuity_affine_profile (s : StFlow) (x : Nat → ℚ) (r : Resid) (rdt : ℚ)
    (j : Nat) (a b : ℚ)
    (htype : s.domainType = DomainType.cAxisymmetricStagnationFlow)
    (hgrid : ∀ i, i + 1 < s.m_points → vget s.m_dz i = s.z (i + 1) - s.z i ∧ s.z i < s.z (i + 1))
    (hlin : ∀ i, i < s.m_points → s.rho_u x i = a * s.z i + b)
    (hV : ∀ i, i < s.m_points → s.V x i = 0)
    (hj : 1 ≤ j) (hN : j + 1 < s.m_points) :
    (s.evalContinuity j x r rdt).rsd (s.index c_offset_U j) = -a ∧
    (s.evalContinuityAxiStagn j x r rdt).rsd (s.index c_offset_U j) = -a ∧
    ((s.evalContinuity j x r rdt).rsd (s.index c_offset_U j) = 0 ↔ a = 0) := by
  have _ := hj
  have hval := continuity_value_affine s x j a b (hgrid j hN).1 (hgrid j hN).2
    (hlin j (by omega)) (hlin (j + 1) hN) (hV j (by omega)) (hV (j + 1) hN)
  have h1 : (s.evalContinuity j x r rdt).rsd (s.index c_offset_U j) = -a := by
    simp only [evalContinuity, htype, if_true, Resid.setRsd, Resid.setDiag, Function.update_same]
    exact hval
  have h2 : (s.evalContinuityAxiStagn j x r rdt).rsd (s.index c_offset_U j) = -a := by
    simp only [evalContinuityAxiStagn, Resid.setRsd, Resid.setDiag, Function.update_same]
    exact hval
  refine ⟨h1, h2, ?_⟩
  rw [h1]
  exact neg_eq_zero

/-- The concrete domain with the solution `demoXlin` satisfies the hypotheses
of `continuity_affine_profile` with slope 1. -/
theorem demoXlin_affine :
    (∀ i, i + 1 < demoFlow.m_points →
      vget demoFlow.m_dz i = demoFlow.z (i + 1) - demoFlow.z i ∧ demoFlow.z i < demoFlow.z (i + 1)) ∧
    (∀ i, i < demoFlow.m_points → demoFlow.rho_u demoXlin i = 1 * demoFlow.z i + 0) ∧
    (∀ i, i < demoFlow.m_points → demoFlow.V demoXlin i = 0) := by
  refine ⟨?_, ?_, ?_⟩
  · intro i hi
    have hi' : i < 3 := by
      simp [demoFlow] at hi
      omega
    interval_cases i <;> norm_num [demoFlow, z, vget]
  · intro i hi
    have hi' : i < 4 := by simpa [demoFlow] using hi
    interval_cases i <;> norm_num [demoFlow, demoXlin, rho_u, z, index, vget, c_offset_U]
  · intro i hi
    have hi' : i < 4 := by simpa [demoFlow] using hi
    interval_cases i <;> norm_num [demoFlow, demoXlin, V, index, vget, c_offset_V]

/-- Witness for `continuity_affine_profile`: the concrete domain with
`rho*u = z` has continuity residual `-1` at interior point 1. -/
theorem continuity_affine_profile_witness :
    demoFlow.domainType = DomainType.cAxisymmetricStagnationFlow ∧
    (demoFlow.evalContinuity 1 demoXlin demoResid 0).rsd (demoFlow.index c_offset_U 1) = -1 :=
  ⟨rfl, (continuity_affine_profile demoFlow demoXlin demoResid 0 1 1 0 rfl
    demoXlin_affine.1 demoXlin_affine.2.1 demoXlin_affine.2.2 (le_refl 1) (by decide)).1⟩

/-- Counterexample to claim C3 as stated: the concrete domain is of type
AxisymmetricStagnation, `rho*u = z` is linear in the axial coordinate and `V`
is zero at every point, yet the continuity residual at interior point 1 is
`-1`, not zero, for both `evalContinuity` bodies. -/
theorem continuity_linear_profile_nonzero :
    demoFlow.domainType = DomainType.cAxisymmetricStagnationFlow ∧
    (∀ i, i < demoFlow.m_points → demoFlow.rho_u demoXlin i = 1 * demoFlow.z i + 0) ∧
    (∀ i, i < demoFlow.m_points → demoFlow.V demoXlin i = 0) ∧
    (demoFlow.evalContinuity 1 demoXlin demoResid 0).rsd (demoFlow.index c_offset_U 1) ≠ 0 ∧
    (demoFlow.evalContinuityAxiStagn 1 demoXlin demoResid 0).rsd (demoFlow.index c_offset_U 1) ≠ 0 := by
  refine ⟨rfl, demoXlin_affine.2.1, demoXlin_affine.2.2, ?_, ?_⟩
  · norm_num [evalContinuity, Resid.setRsd, Resid.setDiag, domainType, demoFlow, demoXlin,
      demoResid, rho_u, density, V, index, vget, c_offset_U, c_offset_V]
  · norm_num [evalContinuityAxiStagn, Resid.setRsd, Resid.setDiag, demoFlow, demoXlin,
      demoResid, rho_u, density, V, index, vget, c_offset_U, c_offset_V]

/-! ## Grid set-up -/

/-- The loop of `setupGrid`, started at `j` with the entries below `j` already
stored, on a coordinate array that increases strictly up to `jv` and either
ends there or breaks the order there: it succeeds exactly when `jv` is the end,
stores the coordinates and widths below `jv`, and touches nothing else. -/
theorem setupGridLoop_spec (zin : Nat → ℚ) :
    ∀ (fuel j : Nat) (s : StFlow) (jv : Nat),
      1 ≤ j → j ≤ jv → jv ≤ j + fuel →
      s.m_z.length = j + fuel → s.m_dz.length = j + fuel - 1 →
      (∀ i, i < j → vget s.m_z i = zin i) →
      (∀ i, i + 1 < j → vget s.m_dz i = zin (i + 1) - zin i) →
      (∀ i, j ≤ i → i < jv → zin (i - 1) < zin i) →
      (jv = j + fuel ∨ zin jv ≤ zin (jv - 1)) →
      ((setupGridLoop zin fuel j s).error = none ↔ jv = j + fuel) ∧
      (∀ i, i < jv → vget (setupGridLoop zin fuel j s).state.m_z i = zin i) ∧
      (∀ i, i + 1 < jv → vget (setupGridLoop zin fuel j s).state.m_dz i = zin (i + 1) - zin i) ∧
      (setupGridLoop zin fuel j s).state = withGrid s (setupGridLoop zin fuel j s).state.m_z
        (setupGridLoop zin fuel j s).state.m_dz ∧
      (setupGridLoop zin fuel j s).state.m_z.length = s.m_z.length ∧
      (setupGridLoop zin fuel j s).state.m_dz.length = s.m_dz.length := by
  intro fuel
  induction fuel with
  | zero =>
    intro j s jv _ h2 h3 _ _ hz hdz _ _
    have hjv : jv = j := by omega
    subst hjv
    have hunf : setupGridLoop zin 0 jv s = ⟨s, none⟩ := rfl
    rw [hunf]
    exact ⟨by simp, hz, hdz, rfl, rfl, rfl⟩
  | succ fuel ih =>
    intro j s jv h1 h2 h3 hlz hldz hz hdz hinc hstop
    by_cases hv : zin j ≤ zin (j - 1)
    · have hjv : jv = j := by
        by_contra hne
        have hlt : j < jv := lt_of_le_of_ne h2 (Ne.symm hne)
        exact absurd (hinc j (le_refl j) hlt) (not_lt.mpr hv)
      subst hjv
      have hunf : (setupGridLoop zin (fuel + 1) jv s).state = s ∧
          (setupGridLoop zin (fuel + 1) jv s).error ≠ none := by
        simp only [setupGridLoop, hv, if_true]
        exact ⟨trivial, by simp⟩
      rw [hunf.1]
      refine ⟨?_, hz, hdz, rfl, rfl, rfl⟩
      constructor
      · intro h; exact absurd h hunf.2
      · intro h; omega
    · have hlt : zin (j - 1) < zin j := not_le.mp hv
      have hjv : j + 1 ≤ jv := by
        rcases hstop with h | h
        · omega
        · by_contra hne
          have : jv = j := by omega
          subst this
          exact hv h
      have hjlen : j < s.m_z.length := by omega
      have hjm : j - 1 < s.m_dz.length := by omega
      have hne1 : j ≠ j - 1 := by omega
      have hzj : vget (s.m_z.set j (zin j)) j = zin j := vget_set_eq _ _ _ hjlen
      have hzj1 : vget (s.m_z.set j (zin j)) (j - 1) = zin (j - 1) := by
        rw [vget_set_ne _ _ _ _ hne1]
        exact hz (j - 1) (by omega)
      have key := ih (j + 1)
        (withGrid s (s.m_z.set j (zin j))
          (s.m_dz.set (j - 1) (vget (s.m_z.set j (zin j)) j - vget (s.m_z.set j (zin j)) (j - 1))))
        jv (by omega) hjv (by omega)
        (by simp [withGrid]; omega) (by simp [withGrid]; omega)
        (by
          intro i hi
          by_cases hij : i = j
          · subst hij; exact hzj
          · show vget (s.m_z.set j (zin j)) i = zin i
            rw [vget_set_ne _ _ _ _ (Ne.symm hij)]
            exact hz i (by omega))
        (by
          intro i hi
          by_cases hij : i = j - 1
          · subst hij
            show vget (s.m_dz.set (j - 1) _) (j - 1) = _
            rw [vget_set_eq _ _ _ hjm, hzj, hzj1]
            have : j - 1 + 1 = j := by omega
            rw [this]
          · show vget (s.m_dz.set (j - 1) _) i = _
            rw [vget_set_ne _ _ _ _ (Ne.symm hij)]
            exact hdz i (by omega))
        (by intro i hi1 hi2; exact hinc i (by omega) hi2)
        (by rcases hstop with h | h
            · left; omega
            · right; exact h)
      have hunf : setupGridLoop zin (fuel + 1) j s = setupGridLoop zin fuel (j + 1)
          (withGrid s (s.m_z.set j (zin j))
            (s.m_dz.set (j - 1) (vget (s.m_z.set j (zin j)) j - vget (s.m_z.set j (zin j)) (j - 1)))) := by
        simp only [setupGridLoop, hv, if_false]
        rfl
      rw [hunf]
      obtain ⟨k1, k2, k3, k4, k5, k6⟩ := key
      refine ⟨?_, k2, k3, ?_, ?_, ?_⟩
      · rw [k1]; omega
      · rw [k4]; rfl
      · rw [k5]; simp [withGrid]
      · rw [k6]; simp [withGrid]

/-- The object handed to the loop of `setupGrid`: resized, with `m_z[0]` set. -/
theorem resize_lengths (s : StFlow) (nv n : Nat) :
    (s.resize nv n).m_points = n ∧ (s.resize nv n).m_z.length = n ∧
    (s.resize nv n).m_dz.length = n - 1 ∧
    (s.resize nv n).m_rho.length = n ∧ (s.resize nv n).m_wtm.length = n ∧
    (s.resize nv n).m_cp.length = n ∧ (s.resize nv n).m_visc.length = n ∧
    (s.resize nv n).m_tcon.length = n ∧ (s.resize nv n).m_diff.length = s.m_nsp * n ∧
    (s.resize nv n).m_flux.data.length = s.m_nsp * n ∧
    (s.resize nv n).m_wdot.data.length = s.m_nsp * n ∧
    (s.resize nv n).m_do_energy.length = n ∧ (s.resize nv n).m_qdotRadiation.length = n ∧
    (s.resize nv n).m_fixedtemp.length = n := by
  cases h : s.m_do_multicomponent <;>
    simp [resize, resizeDomain1D, length_vresize, Array2D.resize, h]

/-- The call `setupGrid(n, z)` as its loop on the resized object. -/
theorem setupGrid_unfold (s : StFlow) (n : Nat) (zin : Nat → ℚ) :
    s.setupGrid n zin = setupGridLoop zin (n - 1) 1
      (withGrid (s.resize s.m_nv n) ((s.resize s.m_nv n).m_z.set 0 (zin 0)) (s.resize s.m_nv n).m_dz) := by
  have h : s.setupGrid n zin = setupGridLoop zin ((s.resize s.m_nv n).m_points - 1) 1
      (withGrid (s.resize s.m_nv n) ((s.resize s.m_nv n).m_z.set 0 (zin 0))
        (s.resize s.m_nv n).m_dz) := rfl
  rw [h, (resize_lengths s s.m_nv n).1]

/-- The facts about `setupGrid` on a coordinate array that increases strictly
up to `jv` and either ends there or breaks the order there. -/
theorem setupGrid_spec (s : StFlow) (n : Nat) (zin : Nat → ℚ) (jv : Nat)
    (hn : 1 ≤ n) (hjv1 : 1 ≤ jv) (hjvn : jv ≤ n)
    (hinc : ∀ i, 1 ≤ i → i < jv → zin (i - 1) < zin i)
    (hstop : jv = n ∨ zin jv ≤ zin (jv - 1)) :
    ((s.setupGrid n zin).error = none ↔ jv = n) ∧
    (∀ i, i < jv → vget (s.setupGrid n zin).state.m_z i = zin i) ∧
    (∀ i, i + 1 < jv → vget (s.setupGrid n zin).state.m_dz i = zin (i + 1) - zin i) ∧
    (s.setupGrid n zin).state = withGrid (s.resize s.m_nv n) (s.setupGrid n zin).state.m_z
      (s.setupGrid n zin).state.m_dz ∧
    (s.setupGrid n zin).state.m_z.length = n ∧
    (s.setupGrid n zin).state.m_dz.length = n - 1 := by
  obtain ⟨_, r2, r3, _⟩ := resize_lengths s s.m_nv n
  have key := setupGridLoop_spec zin (n - 1) 1
    (withGrid (s.resize s.m_nv n) ((s.resize s.m_nv n).m_z.set 0 (zin 0)) (s.resize s.m_nv n).m_dz)
    jv (le_refl 1) hjv1 (by omega)
    (by simp [withGrid, r2]; omega) (by simp [withGrid, r3])
    (by
      intro i hi
      have : i = 0 := by omega
      subst this
      show vget ((s.resize s.m_nv n).m_z.set 0 (zin 0)) 0 = zin 0
      exact vget_set_eq _ _ _ (by omega))
    (by intro i hi; omega)
    hinc
    (by rcases hstop with h | h
        · left; omega
        · right; exact h)
  rw [setupGrid_unfold]
  obtain ⟨k1, k2, k3, k4, k5, k6⟩ := key
  refine ⟨?_, k2, k3, ?_, ?_, ?_⟩
  · rw [k1]; omega
  · rw [k4]; rfl
  · rw [k5]; simp [withGrid, r2]
  · rw [k6]; simp [withGrid, r3]

/-- Claim C5: for `n >= 1`, `StFlow::setupGrid(n, z)` succeeds if and only if
`z[j] > z[j-1]` for every `1 <= j < n`; on success `m_z[j] = z[j]` for all
`j < n` and `m_dz[j] = z[j+1] - z[j]` for all `j < n-1`. -/
theorem setupGrid_succeeds_iff_increasing (s : StFlow) (n : Nat) (zin : Nat → ℚ) (hn : 1 ≤ n) :
    ((s.setupGrid n zin).error = none ↔ ∀ j, 1 ≤ j → j < n → zin (j - 1) < zin j) ∧
    ((s.setupGrid n zin).error = none →
      (∀ j, j < n → vget (s.setupGrid n zin).state.m_z j = zin j) ∧
      (∀ j, j + 1 < n → vget (s.setupGrid n zin).state.m_dz j = zin (j + 1) - zin j)) := by
  have hiff : (s.setupGrid n zin).error = none ↔ ∀ j, 1 ≤ j → j < n → zin (j - 1) < zin j := by
    by_cases hall : ∀ j, 1 ≤ j → j < n → zin (j - 1) < zin j
    · have key := setupGrid_spec s n zin n hn hn (le_refl n) hall (Or.inl rfl)
      exact ⟨fun _ => hall, fun _ => key.1.mpr rfl⟩
    · have hex : ∃ j, 1 ≤ j ∧ j < n ∧ zin j ≤ zin (j - 1) := by
        by_contra hno
        apply hall
        intro j hj1 hjn
        by_contra hnot
        exact hno ⟨j, hj1, hjn, not_lt.mp hnot⟩
      obtain ⟨hf1, hfn, hfv⟩ := Nat.find_spec hex
      have key := setupGrid_spec s n zin (Nat.find hex) hn hf1 (le_of_lt hfn)
        (by
          intro i hi1 hi2
          by_contra hnot
          exact Nat.find_min hex hi2 ⟨hi1, by omega, not_lt.mp hnot⟩)
        (Or.inr hfv)
      constructor
      · intro h
        have := key.1.mp h
        omega
      · intro h; exact absurd h hall
  refine ⟨hiff, ?_⟩
  intro h
  have hall := hiff.mp h
  have key := setupGrid_spec s n zin n hn hn (le_refl n) hall (Or.inl rfl)
  exact ⟨key.2.1, key.2.2.1⟩

/-- Witness for `setupGrid_succeeds_iff_increasing`: a strictly increasing
grid of three points is accepted and stored. -/
theorem setupGrid_succeeds_iff_increasing_witness :
    (demoFlow.setupGrid 3 demoGridGood).error = none ∧
    vget (demoFlow.setupGrid 3 demoGridGood).state.m_z 2 = demoGridGood 2 ∧
    vget (demoFlow.setupGrid 3 demoGridGood).state.m_dz 1 = demoGridGood 2 - demoGridGood 1 :=
  have hok : (demoFlow.setupGrid 3 demoGridGood).error = none :=
    (setupGrid_succeeds_iff_increasing demoFlow 3 demoGridGood (by decide)).1.mpr (by
      intro j h1 h3
      interval_cases j <;> norm_num [demoGridGood, vget])
  ⟨hok,
    ((setupGrid_succeeds_iff_increasing demoFlow 3 demoGridGood (by decide)).2 hok).1 2 (by decide),
    ((setupGrid_succeeds_iff_increasing demoFlow 3 demoGridGood (by decide)).2 hok).2 1 (by decide)⟩

/-- Claim C6 (as amended): when `setupGrid(n, z)` is called with a grid whose
first violation of strict increase is at index `jv`, it fails, but not without
effect: the object has already been resized to `n` points (point count, grid
and every per-point cache have their new sizes, exactly as `resize` leaves
them) and the coordinates and widths below `jv` have been overwritten with the
new ones. -/
theorem setupGrid_failure_leaves_resized (s : StFlow) (n : Nat) (zin : Nat → ℚ) (jv : Nat)
    (hjv1 : 1 ≤ jv) (hjvn : jv < n)
    (hinc : ∀ i, 1 ≤ i → i < jv → zin (i - 1) < zin i)
    (hviol : zin jv ≤ zin (jv - 1)) :
    (s.setupGrid n zin).error ≠ none ∧
    (s.setupGrid n zin).state = withGrid (s.resize s.m_nv n) (s.setupGrid n zin).state.m_z
      (s.setupGrid n zin).state.m_dz ∧
    (s.setupGrid n zin).state.m_points = n ∧
    (s.setupGrid n zin).state.m_z.length = n ∧
    (s.setupGrid n zin).state.m_dz.length = n - 1 ∧
    (s.setupGrid n zin).state.m_rho.length = n ∧
    (s.setupGrid n zin).state.m_wtm.length = n ∧
    (s.setupGrid n zin).state.m_cp.length = n ∧
    (s.setupGrid n zin).state.m_visc.length = n ∧
    (s.setupGrid n zin).state.m_tcon.length = n ∧
    (s.setupGrid n zin).state.m_diff.length = s.m_nsp * n ∧
    (s.setupGrid n zin).state.m_flux.data.length = s.m_nsp * n ∧
    (s.setupGrid n zin).state.m_wdot.data.length = s.m_nsp * n ∧
    (s.setupGrid n zin).state.m_do_energy.length = n ∧
    (s.setupGrid n zin).state.m_qdotRadiation.length = n ∧
    (s.setupGrid n zin).state.m_fixedtemp.length = n ∧
    (∀ i, i < jv → vget (s.setupGrid n zin).state.m_z i = zin i) ∧
    (∀ i, i + 1 < jv → vget (s.setupGrid n zin).state.m_dz i = zin (i + 1) - zin i) := by
  have key := setupGrid_spec s n zin jv (by omega) hjv1 (le_of_lt hjvn) hinc (Or.inr hviol)
  obtain ⟨k1, k2, k3, k4, k5, k6⟩ := key
  have herr : (s.setupGrid n zin).error ≠ none := by
    intro h
    have := k1.mp h
    omega
  obtain ⟨r1, _, _, r4, r5, r6, r7, r8, r9, r10, r11, r12, r13, r14⟩ := resize_lengths s s.m_nv n
  refine ⟨herr, k4, ?_, k5, k6, ?_, ?_, ?_, ?_, ?_, ?_, ?_, ?_, ?_, ?_, ?_, k2, k3⟩
  all_goals rw [k4]
  · exact r1
  · exact r4
  · exact r5
  · exact r6
  · exact r7
  · exact r8
  · exact r9
  · exact r10
  · exact r11
  · exact r12
  · exact r13
  · exact r14

/-- Witness for `setupGrid_failure_leaves_resized`: the four-point domain
given the three coordinates `5, 6, 6` fails at index 2 and is left with three
points and the first two new coordinates. -/
theorem setupGrid_failure_leaves_resized_witness :
    (1 ≤ 2 ∧ 2 < 3 ∧ demoGridBad 2 ≤ demoGridBad (2 - 1)) ∧
    (demoFlow.setupGrid 3 demoGridBad).error ≠ none ∧
    (demoFlow.setupGrid 3 demoGridBad).state.m_points = 3 ∧
    vget (demoFlow.setupGrid 3 demoGridBad).state.m_z 1 = demoGridBad 1 :=
  have h := setupGrid_failure_leaves_resized demoFlow 3 demoGridBad 2 (by decide) (by decide)
    (by
      intro i h1 h2
      interval_cases i
      norm_num [demoGridBad, vget])
    (by norm_num [demoGridBad, vget])
  ⟨⟨by decide, by decide, by norm_num [demoGridBad, vget]⟩, h.1, h.2.2.1,
    h.2.2.2.2.2.2.2.2.2.2.2.2.2.2.2.2.1 1 (by decide)⟩

/-- Counterexample to claim C6 as stated: `setupGrid` on the four-point domain
with the non-monotonic coordinates `5, 6, 6` fails, and afterwards the point
count, the stored coordinates, the stored widths and the size of the density
cache all differ from their values before the call. -/
theorem setupGrid_failure_not_transactional :
    (demoFlow.setupGrid 3 demoGridBad).error ≠ none ∧
    (demoFlow.setupGrid 3 demoGridBad).state.m_points ≠ demoFlow.m_points ∧
    (demoFlow.setupGrid 3 demoGridBad).state.m_z ≠ demoFlow.m_z ∧
    (demoFlow.setupGrid 3 demoGridBad).state.m_dz ≠ demoFlow.m_dz ∧
    (demoFlow.setupGrid 3 demoGridBad).state.m_rho.length ≠ demoFlow.m_rho.length ∧
    (demoFlow.setupGrid 3 demoGridBad).state.m_z = [5, 6, 2] ∧
    (demoFlow.setupGrid 3 demoGridBad).state.m_dz = [1, 1] := by
  norm_num [setupGrid, setupGridLoop, resize, resizeDomain1D, vresize, Array2D.resize,
    demoFlow, demoGridBad, vget]
  exact fun h => Option.noConfusion h

end StFlow

/-! ## Boundary emissivities and `_finalize` -/

namespace StFlow

/-- Claim C7: `setBoundaryEmissivities(e_left, e_right)` fails if and only if
`e_left` or `e_right` lies outside `[0,1]`; on failure the object, and so both
stored emissivities, is unchanged (also when only the right value is invalid);
on success `leftEmissivity() = e_left` and `rightEmissivity() = e_right`. -/
theorem setBoundaryEmissivities_spec (s : StFlow) (e_left e_right : ℚ) :
    ((s.setBoundaryEmissivities e_left e_right).error ≠ none ↔
      (¬ (0 ≤ e_left ∧ e_left ≤ 1) ∨ ¬ (0 ≤ e_right ∧ e_right ≤ 1))) ∧
    ((s.setBoundaryEmissivities e_left e_right).error ≠ none →
      (s.setBoundaryEmissivities e_left e_right).state = s ∧
      (s.setBoundaryEmissivities e_left e_right).state.leftEmissivity = s.leftEmissivity ∧
      (s.setBoundaryEmissivities e_left e_right).state.rightEmissivity = s.rightEmissivity) ∧
    ((s.setBoundaryEmissivities e_left e_right).error = none →
      (s.setBoundaryEmissivities e_left e_right).state.leftEmissivity = e_left ∧
      (s.setBoundaryEmissivities e_left e_right).state.rightEmissivity = e_right) := by
  unfold setBoundaryEmissivities
  by_cases hl : e_left < 0 ∨ e_left > 1
  · simp only [hl, if_true]
    refine ⟨?_, ?_, ?_⟩
    · constructor
      · intro _
        left
        rcases hl with h | h
        · intro hh; exact absurd hh.1 (not_le.mpr h)
        · intro hh; exact absurd hh.2 (not_le.mpr h)
      · intro _; simp
    · intro _; simp
    · intro h; simp at h
  · simp only [hl, if_false]
    have hl' : 0 ≤ e_left ∧ e_left ≤ 1 := by
      constructor
      · exact not_lt.mp (fun h => hl (Or.inl h))
      · exact not_lt.mp (fun h => hl (Or.inr h))
    by_cases hr : e_right < 0 ∨ e_right > 1
    · simp only [hr, if_true]
      refine ⟨?_, ?_, ?_⟩
      · constructor
        · intro _
          right
          rcases hr with h | h
          · intro hh; exact absurd hh.1 (not_le.mpr h)
          · intro hh; exact absurd hh.2 (not_le.mpr h)
        · intro _; simp
      · intro _; simp
      · intro h; simp at h
    · simp only [hr, if_false]
      have hr' : 0 ≤ e_right ∧ e_right ≤ 1 := by
        constructor
        · exact not_lt.mp (fun h => hr (Or.inl h))
        · exact not_lt.mp (fun h => hr (Or.inr h))
      refine ⟨?_, ?_, ?_⟩
      · constructor
        · intro h; exact absurd rfl h
        · intro h
          rcases h with h | h
          · exact absurd hl' h
          · exact absurd hr' h
      · intro h; exact absurd rfl h
      · intro _; exact ⟨rfl, rfl⟩

/-- Witness for `setBoundaryEmissivities_spec`: a valid left value with an
invalid right value is rejected and leaves both emissivities as they were; a
valid pair is stored. -/
theorem setBoundaryEmissivities_spec_witness :
    ((demoFlow.setBoundaryEmissivities (1 / 2) 2).error ≠ none ∧
      (demoFlow.setBoundaryEmissivities (1 / 2) 2).state.leftEmissivity = demoFlow.leftEmissivity) ∧
    ((demoFlow.setBoundaryEmissivities (1 / 2) (1 / 4)).error = none ∧
      (demoFlow.setBoundaryEmissivities (1 / 2) (1 / 4)).state.rightEmissivity = 1 / 4) :=
  have hbad : (demoFlow.setBoundaryEmissivities (1 / 2) 2).error ≠ none :=
    ((setBoundaryEmissivities_spec demoFlow (1 / 2) 2).1).mpr (Or.inr (by norm_num))
  have hgood : (demoFlow.setBoundaryEmissivities (1 / 2) (1 / 4)).error = none := by
    norm_num [setBoundaryEmissivities]
  ⟨⟨hbad, ((setBoundaryEmissivities_spec demoFlow (1 / 2) 2).2.1 hbad).2.1⟩,
    ⟨hgood, ((setBoundaryEmissivities_spec demoFlow (1 / 2) (1 / 4)).2.2 hgood).2⟩⟩

/-- Claim C8: `StFlow::_finalize` fails exactly when Soret diffusion is
enabled and the transport closure is not multicomponent; in that case it
returns the object unchanged, so the fixed-temperature values, the energy
flags and the fixed point are as before the call. -/
theorem finalize_soret_check (c : Consts) (s : StFlow) (x : Nat → ℚ) :
    ((s._finalize c x).error ≠ none ↔
      (s.m_do_soret = true ∧ s.m_do_multicomponent = false)) ∧
    ((s._finalize c x).error ≠ none →
      (s._finalize c x).state = s ∧
      (s._finalize c x).state.m_fixedtemp = s.m_fixedtemp ∧
      (s._finalize c x).state.m_do_energy = s.m_do_energy ∧
      (s._finalize c x).state.m_zfixed = s.m_zfixed ∧
      (s._finalize c x).state.m_tfixed = s.m_tfixed) := by
  unfold _finalize
  by_cases h : (!s.m_do_multicomponent && s.m_do_soret) = true
  · simp only [h, if_true]
    refine ⟨?_, ?_⟩
    · constructor
      · intro _
        simpa [and_comm] using h
      · intro _; simp
    · intro _; simp
  · simp only [h, if_false]
    refine ⟨?_, ?_⟩
    · constructor
      · intro h'; exact absurd rfl h'
      · intro h'
        exact absurd (by simpa [and_comm] using h') h
    · intro h'; exact absurd rfl h'

/-- Witness for `finalize_soret_check`: the concrete mixture-averaged domain
with Soret diffusion enabled is rejected and left unchanged. -/
theorem finalize_soret_check_witness :
    (demoFlow.enableSoret true).m_do_soret = true ∧
    (demoFlow.enableSoret true).m_do_multicomponent = false ∧
    ((demoFlow.enableSoret true)._finalize demoConsts demoX).error ≠ none ∧
    ((demoFlow.enableSoret true)._finalize demoConsts demoX).state = demoFlow.enableSoret true :=
  have hbad : ((demoFlow.enableSoret true)._finalize demoConsts demoX).error ≠ none :=
    ((finalize_soret_check demoConsts (demoFlow.enableSoret true) demoX).1).mpr ⟨rfl, rfl⟩
  ⟨rfl, rfl, hbad,
    ((finalize_soret_check demoConsts (demoFlow.enableSoret true) demoX).2 hbad).1⟩

/-! ## Diffusive fluxes -/

/-- The first species loop of the mixture-averaged branch, run over the
species `k < n`: it stores the Fickian fluxes in column `j`, accumulates minus
their sum, and leaves the rest of the array untouched. -/
theorem diffFluxMixFick_loop_spec (s : StFlow) (x : Nat → ℚ) (j : Nat) (fl : Array2D) (n : Nat)
    (hb : ∀ k, k < n → fl.nrows * j + k < fl.data.length) :
    (forRange 0 n (diffFluxMixFickStep s x j) (fl, 0)).1.nrows = fl.nrows ∧
    (forRange 0 n (diffFluxMixFickStep s x j) (fl, 0)).1.data.length = fl.data.length ∧
    (∀ k, k < n → (forRange 0 n (diffFluxMixFickStep s x j) (fl, 0)).1.get k j = fickFlux s x j k) ∧
    (∀ idx, (∀ k, k < n → idx ≠ fl.nrows * j + k) →
      vget (forRange 0 n (diffFluxMixFickStep s x j) (fl, 0)).1.data idx = vget fl.data idx) ∧
    (forRange 0 n (diffFluxMixFickStep s x j) (fl, 0)).2
      = -(∑ k in Finset.range n, fickFlux s x j k) := by
  induction n with
  | zero =>
    rw [forRange_empty _ _ _ _ (Nat.zero_le _)]
    exact ⟨rfl, rfl, fun k hk => absurd hk (Nat.not_lt_zero k), fun _ _ => rfl, by simp⟩
  | succ n ih =>
    rw [forRange_succ _ _ _ _ (Nat.zero_le n)]
    obtain ⟨i1, i2, i3, i4, i5⟩ := ih (fun k hk => hb k (by omega))
    generalize forRange 0 n (diffFluxMixFickStep s x j) (fl, 0) = p at i1 i2 i3 i4 i5
    have hin : p.1.nrows * j + n < p.1.data.length := by
      rw [i1, i2]; exact hb n (by omega)
    -- the entry written by the two stores of the step
    have hval : (diffFluxMixFickStep s x j n p).1.get n j = fickFlux s x j n := by
      have e2 : ∀ (a : Array2D) (v : ℚ), a.nrows * j + n < a.data.length →
          (a.set n j v).get n j = v := by
        intro a v h
        unfold Array2D.get
        rw [(Array2D.set_shape _ _ _ _).1]
        exact Array2D.data_set_eq _ _ _ _ h
      unfold diffFluxMixFickStep fickFlux
      dsimp only
      generalize vget s.m_wt n * (s.density j * vget s.m_diff (n + s.m_nsp * j) / vget s.m_wtm j) = A
      generalize (s.X x n j - s.X x n (j + 1)) / (s.z (j + 1) - s.z j) = B
      rw [e2 (p.1.set n j A) _ (by
        rw [(Array2D.set_shape _ _ _ _).1, (Array2D.set_shape _ _ _ _).2]; exact hin)]
      rw [e2 p.1 A hin]
    have hshape : (diffFluxMixFickStep s x j n p).1.nrows = p.1.nrows ∧
        (diffFluxMixFickStep s x j n p).1.data.length = p.1.data.length := by
      unfold diffFluxMixFickStep
      dsimp only
      simp [Array2D.set]
    have hframe : ∀ idx, idx ≠ p.1.nrows * j + n →
        vget (diffFluxMixFickStep s x j n p).1.data idx = vget p.1.data idx := by
      intro idx hidx
      unfold diffFluxMixFickStep
      dsimp only
      rw [Array2D.data_set_ne _ _ _ _ _ (by rw [(Array2D.set_shape _ _ _ _).1]; exact hidx)]
      exact Array2D.data_set_ne _ _ _ _ _ hidx
    have hsum : (diffFluxMixFickStep s x j n p).2
        = p.2 - (diffFluxMixFickStep s x j n p).1.get n j := by
      unfold diffFluxMixFickStep
      rfl
    refine ⟨by rw [hshape.1, i1], by rw [hshape.2, i2], ?_, ?_, ?_⟩
    · intro k hk
      by_cases hkn : k = n
      · subst hkn; exact hval
      · have hlt : k < n := by omega
        rw [← i3 k hlt]
        unfold Array2D.get
        rw [hshape.1]
        exact hframe _ (by omega)
    · intro idx hidx
      rw [hframe idx (by rw [i1]; exact hidx n (by omega))]
      exact i4 idx (fun k hk => hidx k (by omega))
    · rw [hsum, hval, i5, Finset.sum_range_succ]
      ring

/-- The mixture-averaged branch at face `j`: every species flux of the face is
the Fickian flux minus `Y_k[j]` times the sum of the Fickian fluxes; the rest
of the array is untouched. -/
theorem diffFluxMixFace_spec (s : StFlow) (x : Nat → ℚ) (j : Nat) (fl : Array2D)
    (hb : ∀ k, k < s.m_nsp → fl.nrows * j + k < fl.data.length) :
    (diffFluxMixFace s x j fl).nrows = fl.nrows ∧
    (diffFluxMixFace s x j fl).data.length = fl.data.length ∧
    (∀ k, k < s.m_nsp → (diffFluxMixFace s x j fl).get k j
      = fickFlux s x j k + -(∑ m in Finset.range s.m_nsp, fickFlux s x j m) * s.Y x k j) ∧
    (∀ idx, (∀ k, k < s.m_nsp → idx ≠ fl.nrows * j + k) →
      vget (diffFluxMixFace s x j fl).data idx = vget fl.data idx) := by
  obtain ⟨f1, f2, f3, f4, f5⟩ := diffFluxMixFick_loop_spec s x j fl s.m_nsp hb
  have hcol := Array2D.column_loop_spec (diffFluxMixFick s x j fl).1 j
    (fun k v => v + (diffFluxMixFick s x j fl).2 * s.Y x k j) s.m_nsp
    (by
      intro k hk
      unfold diffFluxMixFick
      rw [f1, f2]
      exact hb k hk)
  obtain ⟨c1, c2, c3, c4⟩ := hcol
  have hunf : diffFluxMixFace s x j fl = forRange 0 s.m_nsp
      (fun k fl' => fl'.set k j (fl'.get k j + (diffFluxMixFick s x j fl).2 * s.Y x k j))
      (diffFluxMixFick s x j fl).1 := rfl
  rw [hunf]
  have g1 : (diffFluxMixFick s x j fl).1.nrows = fl.nrows := f1
  have g2 : (diffFluxMixFick s x j fl).1.data.length = fl.data.length := f2
  have g5 : (diffFluxMixFick s x j fl).2 = -(∑ m in Finset.range s.m_nsp, fickFlux s x j m) := f5
  refine ⟨by rw [c1, g1], by rw [c2, g2], ?_, ?_⟩
  · intro k hk
    rw [c3 k hk]
    have : (diffFluxMixFick s x j fl).1.get k j = fickFlux s x j k := f3 k hk
    rw [this, g5]
  · intro idx hidx
    rw [c4 idx (by rw [g1]; exact hidx)]
    exact f4 idx hidx

/-- Indices of distinct columns of a matrix with `n` rows are distinct. -/
theorem column_index_ne (n j j' k k' : Nat) (hk : k < n) (hk' : k' < n) (hj : j ≠ j') :
    n * j + k ≠ n * j' + k' := by
  intro h
  have h1 : (n * j + k) / n = j := by
    rw [Nat.mul_add_div (by omega : n > 0), Nat.div_eq_of_lt hk]; rfl
  have h2 : (n * j' + k') / n = j' := by
    rw [Nat.mul_add_div (by omega : n > 0), Nat.div_eq_of_lt hk']; rfl
  rw [h] at h1
  exact hj (h1.symm.trans h2)

/-- The loop over the faces `j0 <= j < j1` of the mixture-averaged branch. -/
theorem diffFluxMix_faces_spec (s : StFlow) (x : Nat → ℚ) (j0 j1 : Nat) (fl : Array2D)
    (hrows : fl.nrows = s.m_nsp)
    (hb : ∀ j, j < j1 → ∀ k, k < s.m_nsp → fl.nrows * j + k < fl.data.length) :
    (forRange j0 j1 (fun j fl => diffFluxMixFace s x j fl) fl).nrows = fl.nrows ∧
    (forRange j0 j1 (fun j fl => diffFluxMixFace s x j fl) fl).data.length = fl.data.length ∧
    (∀ j, j0 ≤ j → j < j1 → ∀ k, k < s.m_nsp →
      (forRange j0 j1 (fun j fl => diffFluxMixFace s x j fl) fl).get k j
        = fickFlux s x j k + -(∑ m in Finset.range s.m_nsp, fickFlux s x j m) * s.Y x k j) := by
  induction j1 with
  | zero =>
    rw [forRange_empty _ _ _ _ (Nat.zero_le _)]
    exact ⟨rfl, rfl, fun j _ h => absurd h (Nat.not_lt_zero j)⟩
  | succ j1 ih =>
    by_cases h : j0 ≤ j1
    · rw [forRange_succ _ _ _ _ h]
      obtain ⟨i1, i2, i3⟩ := ih (fun j hj => hb j (by omega))
      generalize forRange j0 j1 (fun j fl => diffFluxMixFace s x j fl) fl = r at i1 i2 i3
      obtain ⟨f1, f2, f3, f4⟩ := diffFluxMixFace_spec s x j1 r
        (by intro k hk; rw [i1, i2]; exact hb j1 (by omega) k hk)
      refine ⟨by rw [f1, i1], by rw [f2, i2], ?_⟩
      intro j hj0 hj1 k hk
      by_cases hj : j = j1
      · subst hj
        exact f3 k hk
      · rw [← i3 j hj0 (by omega) k hk]
        unfold Array2D.get
        rw [f1]
        apply f4
        intro k' hk'
        rw [i1, hrows]
        exact column_index_ne s.m_nsp j j1 k k' hk hk' hj
    · rw [forRange_empty _ _ _ _ (by omega)]
      exact ⟨rfl, rfl, fun j h1 h2 => by omega⟩

/-- A loop over the faces `j0 <= j < j1` whose body rewrites the entries of
column `j` only, entry `(k, j)` from `v` to `val j k v`: afterwards every entry
of a face of the range holds `val` of its old value, the other columns are
as before. -/
theorem faces_loop_spec (F : Nat → Array2D → Array2D) (val : Nat → Nat → ℚ → ℚ) (nsp j0 : Nat)
    (fl : Array2D) (hrows : fl.nrows = nsp) (j1 : Nat)
    (hF : ∀ j a, a.nrows = fl.nrows → a.data.length = fl.data.length → j < j1 →
      (F j a).nrows = a.nrows ∧ (F j a).data.length = a.data.length ∧
      (∀ k, k < nsp → (F j a).get k j = val j k (a.get k j)) ∧
      (∀ idx, (∀ k, k < nsp → idx ≠ a.nrows * j + k) → vget (F j a).data idx = vget a.data idx)) :
    (forRange j0 j1 F fl).nrows = fl.nrows ∧
    (forRange j0 j1 F fl).data.length = fl.data.length ∧
    (∀ j, j0 ≤ j → j < j1 → ∀ k, k < nsp →
      (forRange j0 j1 F fl).get k j = val j k (fl.get k j)) ∧
    (∀ j, (j < j0 ∨ j1 ≤ j) → ∀ k, k < nsp → (forRange j0 j1 F fl).get k j = fl.get k j) := by
  induction j1 with
  | zero =>
    rw [forRange_empty _ _ _ _ (Nat.zero_le _)]
    exact ⟨rfl, rfl, fun j _ h => absurd h (Nat.not_lt_zero j), fun _ _ _ _ => rfl⟩
  | succ j1 ih =>
    by_cases h : j0 ≤ j1
    · rw [forRange_succ _ _ _ _ h]
      obtain ⟨i1, i2, i3, i4⟩ := ih (fun j a h1 h2 h3 => hF j a h1 h2 (by omega))
      generalize forRange j0 j1 F fl = r at i1 i2 i3 i4
      obtain ⟨f1, f2, f3, f4⟩ := hF j1 r i1 i2 (by omega)
      have hother : ∀ j, j ≠ j1 → ∀ k, k < nsp → (F j1 r).get k j = r.get k j := by
        intro j hj k hk
        unfold Array2D.get
        rw [f1]
        apply f4
        intro k' hk'
        rw [i1, hrows]
        exact column_index_ne nsp j j1 k k' hk hk' hj
      refine ⟨by rw [f1, i1], by rw [f2, i2], ?_, ?_⟩
      · intro j hj0 hj1 k hk
        by_cases hj : j = j1
        · subst hj
          rw [f3 k hk, i4 j (Or.inr (le_refl j)) k hk]
        · rw [hother j hj k hk]
          exact i3 j hj0 (by omega) k hk
      · intro j hj k hk
        rw [hother j (by omega) k hk]
        exact i4 j (by omega) k hk
    · rw [forRange_empty _ _ _ _ (by omega)]
      exact ⟨rfl, rfl, fun j h1 h2 => by omega, fun _ _ _ _ => rfl⟩

/-- The Soret block at face `m`: a column loop that subtracts the
thermal-diffusion term from every species flux of the face. -/
theorem diffFluxSoretFace_spec (s : StFlow) (x : Nat → ℚ) (m : Nat) (fl : Array2D)
    (hb : ∀ k, k < s.m_nsp → fl.nrows * m + k < fl.data.length) :
    (diffFluxSoretFace s x m fl).nrows = fl.nrows ∧
    (diffFluxSoretFace s x m fl).data.length = fl.data.length ∧
    (∀ k, k < s.m_nsp → (diffFluxSoretFace s x m fl).get k m
      = fl.get k m - s.m_dthermal.get k m * gradLogT s x m) ∧
    (∀ idx, (∀ k, k < s.m_nsp → idx ≠ fl.nrows * m + k) →
      vget (diffFluxSoretFace s x m fl).data idx = vget fl.data idx) :=
  Array2D.column_loop_spec fl m (fun k v => v - s.m_dthermal.get k m * gradLogT s x m) s.m_nsp hb

/-- The species fluxes left by `updateDiffFluxes` when Soret diffusion is
enabled with the mixture-averaged closure: the corrected mixture-averaged flux
less the cached thermal-diffusion coefficient times the gradient of the
logarithm of the temperature. -/
theorem updateDiffFluxes_mix_soret_value (s : StFlow) (x : Nat → ℚ) (j0 j1 j k : Nat)
    (hmix : s.m_do_multicomponent = false) (hsoret : s.m_do_soret = true)
    (hrows : s.m_flux.nrows = s.m_nsp)
    (hlen : s.m_nsp * j1 ≤ s.m_flux.data.length)
    (hj0 : j0 ≤ j) (hj1 : j < j1) (hk : k < s.m_nsp) :
    (s.updateDiffFluxes x j0 j1).flux k j
      = fickFlux s x j k + -(∑ m in Finset.range s.m_nsp, fickFlux s x j m) * s.Y x k j
        - s.m_dthermal.get k j * gradLogT s x j := by
  have hb : ∀ j, j < j1 → ∀ k, k < s.m_nsp → s.m_flux.nrows * j + k < s.m_flux.data.length := by
    intro j' hj' k hk
    rw [hrows]
    have h1 : s.m_nsp * j' + k < s.m_nsp * (j' + 1) := by
      rw [Nat.mul_succ]; omega
    have h2 : s.m_nsp * (j' + 1) ≤ s.m_nsp * j1 := Nat.mul_le_mul_left _ (by omega)
    omega
  obtain ⟨m1, m2, m3⟩ := diffFluxMix_faces_spec s x j0 j1 s.m_flux hrows hb
  have hunf : (s.updateDiffFluxes x j0 j1).m_flux
      = forRange j0 j1 (fun m fl => diffFluxSoretFace s x m fl)
          (forRange j0 j1 (fun j fl => diffFluxMixFace s x j fl) s.m_flux) := by
    simp [updateDiffFluxes, hmix, hsoret]
  obtain ⟨_, _, s3, _⟩ := faces_loop_spec (fun m fl => diffFluxSoretFace s x m fl)
    (fun m k v => v - s.m_dthermal.get k m * gradLogT s x m) s.m_nsp j0
    (forRange j0 j1 (fun j fl => diffFluxMixFace s x j fl) s.m_flux) (by rw [m1, hrows]) j1
    (by
      intro j' a ha1 ha2 hj'
      exact diffFluxSoretFace_spec s x j' a (by
        intro k' hk'
        rw [ha1, ha2, m1, m2]
        exact hb j' hj' k' hk'))
  unfold flux
  rw [hunf, s3 j hj0 hj1 k hk, m3 j hj0 hj1 k hk]

/-- The species fluxes of a face left by the mixture-averaged branch without
the Soret term sum to `(1 - sum_k Y_k[j])` times the sum of the Fickian
fluxes. -/
theorem updateDiffFluxes_mix_sum (s : StFlow) (x : Nat → ℚ) (j0 j1 j : Nat)
    (hmix : s.m_do_multicomponent = false) (hsoret : s.m_do_soret = false)
    (hrows : s.m_flux.nrows = s.m_nsp)
    (hlen : s.m_nsp * j1 ≤ s.m_flux.data.length)
    (hj0 : j0 ≤ j) (hj1 : j < j1) :
    ∑ k in Finset.range s.m_nsp, (s.updateDiffFluxes x j0 j1).flux k j
      = (1 - ∑ k in Finset.range s.m_nsp, s.Y x k j)
        * ∑ k in Finset.range s.m_nsp, fickFlux s x j k := by
  have hb : ∀ j, j < j1 → ∀ k, k < s.m_nsp → s.m_flux.nrows * j + k < s.m_flux.data.length := by
    intro j' hj' k hk
    rw [hrows]
    have h1 : s.m_nsp * j' + k < s.m_nsp * (j' + 1) := by
      rw [Nat.mul_succ]; omega
    have h2 : s.m_nsp * (j' + 1) ≤ s.m_nsp * j1 := Nat.mul_le_mul_left _ (by omega)
    omega
  obtain ⟨_, _, h3⟩ := diffFluxMix_faces_spec s x j0 j1 s.m_flux hrows hb
  have hunf : (s.updateDiffFluxes x j0 j1).m_flux
      = forRange j0 j1 (fun j fl => diffFluxMixFace s x j fl) s.m_flux := by
    simp [updateDiffFluxes, hmix, hsoret]
  have hterm : ∀ k ∈ Finset.range s.m_nsp, (s.updateDiffFluxes x j0 j1).flux k j
      = fickFlux s x j k + -(∑ m in Finset.range s.m_nsp, fickFlux s x j m) * s.Y x k j := by
    intro k hk
    unfold flux
    rw [hunf]
    exact h3 j hj0 hj1 k (Finset.mem_range.mp hk)
  rw [Finset.sum_congr rfl hterm, Finset.sum_add_distrib, ← Finset.mul_sum]
  ring

/-- Claim C1 (as amended): under the mixture-averaged closure with Soret
diffusion disabled, for every face `j` with `j0 <= j < j1` at which the mass
fractions of point `j` sum to one, the species diffusive fluxes `m_flux(k,j)`
left by `updateDiffFluxes` sum to exactly zero over all species (exact
arithmetic, arbitrary diffusion coefficients and temperatures). -/
theorem updateDiffFluxes_mix_sum_zero (s : StFlow) (x : Nat → ℚ) (j0 j1 j : Nat)
    (hmix : s.m_do_multicomponent = false) (hsoret : s.m_do_soret = false)
    (hrows : s.m_flux.nrows = s.m_nsp)
    (hlen : s.m_nsp * j1 ≤ s.m_flux.data.length)
    (hj0 : j0 ≤ j) (hj1 : j < j1)
    (hY : ∑ k in Finset.range s.m_nsp, s.Y x k j = 1) :
    ∑ k in Finset.range s.m_nsp, (s.updateDiffFluxes x j0 j1).flux k j = 0 := by
  rw [updateDiffFluxes_mix_sum s x j0 j1 j hmix hsoret hrows hlen hj0 hj1, hY]
  ring

/-- Witness for `updateDiffFluxes_mix_sum_zero`: at face 2 of the concrete
domain the mass fractions of point 2 sum to one, the fluxes are not zero, and
they sum to zero. -/
theorem updateDiffFluxes_mix_sum_zero_witness :
    (∑ k in Finset.range demoFlow.m_nsp, demoFlow.Y demoX k 2 = 1) ∧
    (demoFlow.updateDiffFluxes demoX 0 3).flux 0 2 = 1 / 16 ∧
    ∑ k in Finset.range demoFlow.m_nsp, (demoFlow.updateDiffFluxes demoX 0 3).flux k 2 = 0 :=
  ⟨by decide!, by decide!,
    updateDiffFluxes_mix_sum_zero demoFlow demoX 0 3 2 rfl rfl rfl (by decide) (by decide)
      (by decide) (by decide!)⟩

/-- Counterexample to claim C1 as stated: at the internal face 1 of the
concrete domain the fluxes left by `updateDiffFluxes` sum to `-1/16` under the
mixture-averaged closure (the mass fractions of point 1 sum to `3/4`), and to
`7/20` under the multicomponent closure with the coefficients returned by the
transport object. -/
theorem diffusive_fluxes_sum_nonzero :
    (demoFlow.m_do_multicomponent = false ∧ demoFlow.m_do_soret = false ∧
      ∑ k in Finset.range demoFlow.m_nsp, (demoFlow.updateDiffFluxes demoX 0 3).flux k 1
        = -1 / 16) ∧
    (demoFlowMulti.m_do_multicomponent = true ∧ demoFlowMulti.m_do_soret = false ∧
      ∑ k in Finset.range demoFlowMulti.m_nsp, (demoFlowMulti.updateDiffFluxes demoX 0 3).flux k 1
        = 7 / 20) := by
  refine ⟨⟨rfl, rfl, ?_⟩, ⟨?_, ?_, ?_⟩⟩ <;> decide!

/-! ## Radiation -/

/-- An accumulation loop is the sum of its terms. -/
theorem forRange_sum (f : Nat → ℚ) (n : Nat) :
    forRange 0 n (fun i acc => acc + f i) 0 = ∑ i in Finset.range n, f i := by
  induction n with
  | zero => rw [forRange_empty _ _ _ _ (Nat.zero_le _)]; simp
  | succ n ih => rw [forRange_succ _ _ _ _ (Nat.zero_le n), ih, Finset.sum_range_succ]

/-- The rows of one grid point change nothing of the object but the cursor of
the phase object and the production rates. -/
theorem evalPoint_dom (c : Consts) (x : Nat → ℚ) (rdt : ℚ) (j : Nat) (e : EvalState) :
    ∃ th wd, (evalPoint c x rdt j e).dom = withThermoWdot e.dom th wd := by
  unfold evalPoint
  by_cases h0 : j = 0
  · rw [if_pos h0]
    exact ⟨e.dom.m_thermo, e.dom.m_wdot, rfl⟩
  · by_cases h1 : j = e.dom.m_points - 1
    · rw [if_neg h0, if_pos h1]
      exact ⟨e.dom.m_thermo, e.dom.m_wdot, rfl⟩
    · rw [if_neg h0, if_neg h1]
      unfold evalInterior evalEnergyRow
      by_cases he : bget (e.dom.getWdot x j).m_do_energy j = true
      · exact ⟨((e.dom.getWdot x j).setGas x j).m_thermo, (e.dom.getWdot x j).m_wdot, by
          simp only [he, if_true]
          rfl⟩
      · exact ⟨(e.dom.getWdot x j).m_thermo, (e.dom.getWdot x j).m_wdot, by
          simp only [he, if_false]
          rfl⟩

/-- The loop over the grid points of `evalResidual` changes nothing of the
object but the cursor of the phase object and the production rates. -/
theorem evalPoints_dom (c : Consts) (x : Nat → ℚ) (rdt : ℚ) (lo hi : Nat) (e : EvalState) :
    ∃ th wd, (forRange lo hi (evalPoint c x rdt) e).dom = withThermoWdot e.dom th wd := by
  refine forRange_induction (fun t => ∃ th wd, t.dom = withThermoWdot e.dom th wd) lo hi _ e ?_ ?_
  · exact ⟨e.dom.m_thermo, e.dom.m_wdot, rfl⟩
  · intro j t _ _ ht
    obtain ⟨th, wd, h⟩ := ht
    obtain ⟨th', wd', h'⟩ := evalPoint_dom c x rdt j t
    exact ⟨th', wd', by rw [h', h]; rfl⟩

/-- The value stored by the radiation loop when both boundary emissivities are
zero. -/
theorem radiativeHeatLossAt_zero_emissivity (c : Consts) (s : StFlow) (x : Nat → ℚ) (j : Nat)
    (hl : s.m_epsilon_left = 0) (hr : s.m_epsilon_right = 0) :
    radiativeHeatLossAt c s x j
      = 4 * planckMeanClaimed c s x j * c.StefanBoltz * (s.T x j) ^ 4 := by
  unfold radiativeHeatLossAt planckMeanClaimed
  simp only [forRange_sum, hl, hr]
  split_ifs <;> ring

/-- Claim C4: with radiation enabled and both boundary emissivities equal to
zero, for every point `j` whose radiative loss `evalResidual` computes
(`jmin <= j < jmax`, inside the loss vector), `m_qdotRadiation[j]` is
`4 * k_P * sigma * T(j)^4` with the Planck mean absorption coefficient `k_P` of
`planckMeanClaimed`. -/
theorem radiative_loss_zero_emissivity (c : Consts) (s : StFlow) (x : Nat → ℚ) (r : Resid)
    (rdt : ℚ) (jmin jmax j : Nat)
    (hrad : s.m_do_radiation = true)
    (hl : s.m_epsilon_left = 0) (hr : s.m_epsilon_right = 0)
    (hmin : jmin ≤ j) (hmax : j < jmax) (hlen : j < s.m_qdotRadiation.length) :
    (evalResidual c s x r rdt jmin jmax).dom.radiativeHeatLoss j
      = 4 * planckMeanClaimed c s x j * c.StefanBoltz * (s.T x j) ^ 4 := by
  obtain ⟨th, wd, hdom⟩ := evalPoints_dom c x rdt jmin (jmax + 1)
    ⟨evalRadiation c s x jmin jmax, r⟩
  have h1 : (evalResidual c s x r rdt jmin jmax).dom
      = withThermoWdot (evalRadiation c s x jmin jmax) th wd := hdom
  have h2 : (evalResidual c s x r rdt jmin jmax).dom.m_qdotRadiation
      = forRange jmin jmax (fun j q => q.set j (radiativeHeatLossAt c s x j)) s.m_qdotRadiation := by
    rw [h1]
    simp [withThermoWdot, evalRadiation, hrad]
  unfold radiativeHeatLoss
  rw [h2, (forRange_set_spec _ jmin jmax s.m_qdotRadiation).2.1 j hmin hmax hlen]
  exact radiativeHeatLossAt_zero_emissivity c s x j hl hr

/-- Witness for `radiative_loss_zero_emissivity`: the concrete domain with
radiation enabled; the loss at point 1 is positive and has the claimed value. -/
theorem radiative_loss_zero_emissivity_witness :
    demoFlowRad.m_do_radiation = true ∧ demoFlowRad.m_epsilon_left = 0 ∧
    demoFlowRad.m_epsilon_right = 0 ∧
    0 < (evalResidual demoConsts demoFlowRad demoX demoResid 0 0 3).dom.radiativeHeatLoss 1 ∧
    (evalResidual demoConsts demoFlowRad demoX demoResid 0 0 3).dom.radiativeHeatLoss 1
      = 4 * planckMeanClaimed demoConsts demoFlowRad demoX 1 * demoConsts.StefanBoltz
        * (demoFlowRad.T demoX 1) ^ 4 :=
  ⟨rfl, rfl, rfl, by decide!,
    radiative_loss_zero_emissivity demoConsts demoFlowRad demoX demoResid 0 0 3 1 rfl rfl rfl
      (by decide) (by decide) (by decide)⟩

/-! ## Evaluation entry points -/

/-- Claim C9 (as amended): Soret diffusion enabled together with a closure
that is not multicomponent is rejected by `StFlow::_finalize`, not by
`StFlow::eval`: `eval` has no such check and returns without an error for
every input, and `updateDiffFluxes` leaves, at every face `j0 <= j < j1` and
species `k`, the corrected mixture-averaged flux less the thermal-diffusion
term `m_dthermal(k,j)*gradlogT`. -/
theorem soret_mixture_rejected_by_finalize_only (c : Consts) (s : StFlow) (x : Nat → ℚ)
    (jg : Nat) (xg rg : Nat → ℚ) (diagg : Nat → Int) (rdt : ℚ) (j0 j1 j k : Nat)
    (hs : s.m_do_soret = true) (hm : s.m_do_multicomponent = false)
    (hrows : s.m_flux.nrows = s.m_nsp) (hlen : s.m_nsp * j1 ≤ s.m_flux.data.length)
    (hj0 : j0 ≤ j) (hj1 : j < j1) (hk : k < s.m_nsp) :
    (s._finalize c x).error ≠ none ∧
    (s.eval c jg xg rg diagg rdt).error = none ∧
    (s.updateDiffFluxes x j0 j1).flux k j
      = fickFlux s x j k + -(∑ m in Finset.range s.m_nsp, fickFlux s x j m) * s.Y x k j
        - s.m_dthermal.get k j * gradLogT s x j := by
  refine ⟨?_, ?_, updateDiffFluxes_mix_soret_value s x j0 j1 j k hm hs hrows hlen hj0 hj1 hk⟩
  · unfold _finalize
    simp [hs, hm]
  · unfold eval
    split <;> rfl

/-- Witness for `soret_mixture_rejected_by_finalize_only`: the concrete
mixture-averaged domain with Soret diffusion enabled, face 1, species 0. -/
theorem soret_mixture_rejected_by_finalize_only_witness :
    demoFlowSoret.m_do_soret = true ∧ demoFlowSoret.m_do_multicomponent = false ∧
    (demoFlowSoret._finalize demoConsts demoX).error ≠ none ∧
    (demoFlowSoret.eval demoConsts npos demoXg demoRg demoDiagg 0).error = none ∧
    (demoFlowSoret.updateDiffFluxes demoX 0 3).flux 0 1 = -1 / 40 :=
  have h := soret_mixture_rejected_by_finalize_only demoConsts demoFlowSoret demoX npos demoXg
    demoRg demoDiagg 0 0 3 1 0 rfl rfl rfl (by decide) (by decide) (by decide) (by decide)
  ⟨rfl, rfl, h.1, h.2.1, by decide!⟩

/-- Counterexample to claim C9 as stated: on the concrete domain with Soret
diffusion enabled and the mixture-averaged transport object bound, a full
evaluation returns without an error and has produced diffusive fluxes (at face
1 the mixture-averaged fluxes `3/8` and `-7/16` less the thermal-diffusion term)
and a residual (the continuity row of point 1 is `-1`, its mask entry 0). -/
theorem eval_soret_mixture_not_rejected :
    demoFlowSoret.m_do_soret = true ∧ demoFlowSoret.m_do_multicomponent = false ∧
    demoFlowSoret.m_trans.transportType = "Mix" ∧
    (demoFlowSoret.eval demoConsts npos demoXg demoRg demoDiagg 0).error = none ∧
    (demoFlowSoret.eval demoConsts npos demoXg demoRg demoDiagg 0).state.dom.flux 0 1 = -1 / 40 ∧
    (demoFlowSoret.eval demoConsts npos demoXg demoRg demoDiagg 0).state.dom.flux 1 1 = -7 / 16 ∧
    (demoFlowSoret.eval demoConsts npos demoXg demoRg demoDiagg 0).state.rg 10 = -1 ∧
    (demoFlowSoret.eval demoConsts npos demoXg demoRg demoDiagg 0).state.diagg 10 = 0 := by
  refine ⟨rfl, rfl, rfl, ?_, ?_, ?_, ?_, ?_⟩ <;> decide!

end StFlow

/-- Claim C10: for every windowed call (`jg != npos`) with
`jg + 1 < firstPoint()` or `jg > lastPoint() + 1` (unsigned arithmetic),
`StFlow::eval` and `PorousFlow::eval` return without an error and leave the
object (every property, flux and solid-state cache), the residual vector and
the activity mask exactly as they were. -/
theorem eval_outside_domain_returns_unchanged (c : Consts) (s : StFlow) (p : PorousFlow)
    (jg : Nat) (xg rg : Nat → ℚ) (diagg : Nat → Int) (rdt : ℚ)
    (hjg : jg ≠ npos)
    (hs : addSz jg 1 < s.firstPoint ∨ jg > addSz s.lastPoint 1)
    (hp : addSz jg 1 < p.toStFlow.firstPoint ∨ jg > addSz p.toStFlow.lastPoint 1) :
    ((s.eval c jg xg rg diagg rdt).error = none ∧
      (s.eval c jg xg rg diagg rdt).state.dom = s ∧
      (s.eval c jg xg rg diagg rdt).state.rg = rg ∧
      (s.eval c jg xg rg diagg rdt).state.diagg = diagg) ∧
    ((p.eval c jg xg rg diagg rdt).error = none ∧
      (p.eval c jg xg rg diagg rdt).state.dom = p ∧
      (p.eval c jg xg rg diagg rdt).state.rg = rg ∧
      (p.eval c jg xg rg diagg rdt).state.diagg = diagg) := by
  constructor
  · unfold StFlow.eval
    rw [if_pos ⟨hjg, hs⟩]
    exact ⟨rfl, rfl, rfl, rfl⟩
  · unfold PorousFlow.eval
    rw [if_pos ⟨hjg, hp⟩]
    exact ⟨rfl, rfl, rfl, rfl⟩

/-- Witness for `eval_outside_domain_returns_unchanged`: the concrete domains
hold the global points 1 to 4; a windowed call at global point 6 changes
nothing. -/
theorem eval_outside_domain_returns_unchanged_witness :
    (6 ≠ npos ∧ 6 > addSz demoFlow.lastPoint 1 ∧ 6 > addSz demoPorous.toStFlow.lastPoint 1) ∧
    (demoFlow.eval demoConsts 6 demoXg demoRg demoDiagg 1).state.rg = demoRg ∧
    (demoPorous.eval demoConsts 6 demoXg demoRg demoDiagg 1).state.dom = demoPorous :=
  have h := eval_outside_domain_returns_unchanged demoConsts demoFlow demoPorous 6 demoXg demoRg
    demoDiagg 1 (by decide) (Or.inr (by decide)) (Or.inr (by decide))
  ⟨⟨by decide, by decide, by decide⟩, h.1.2.2.1, h.2.2.1⟩

/-! ## Stores into the residual arrays -/

theorem setRsd_rsd_eq (r : Resid) (i : Nat) (v : ℚ) : (r.setRsd i v).rsd i = v := by
  simp [Resid.setRsd]

theorem setRsd_rsd_ne (r : Resid) (i k : Nat) (v : ℚ) (h : k ≠ i) :
    (r.setRsd i v).rsd k = r.rsd k := by
  simp [Resid.setRsd, Function.update, h]

theorem setRsd_diag (r : Resid) (i : Nat) (v : ℚ) : (r.setRsd i v).diag = r.diag := rfl

theorem setDiag_rsd (r : Resid) (i : Nat) (d : Int) : (r.setDiag i d).rsd = r.rsd := rfl

theorem setDiag_diag_eq (r : Resid) (i : Nat) (d : Int) : (r.setDiag i d).diag i = d := by
  simp [Resid.setDiag]

theorem setDiag_diag_ne (r : Resid) (i k : Nat) (d : Int) (h : k ≠ i) :
    (r.setDiag i d).diag k = r.diag k := by
  simp [Resid.setDiag, Function.update, h]

/-- A loop that stores one residual row per species and accumulates a sum:
the sum, the untouched mask, the rows written and the rows left alone. -/
theorem speciesRows_spec (idx : Nat → Nat) (val y : Nat → ℚ) (r : Resid) (n : Nat)
    (hinj : ∀ a b, a < n → b < n → idx a = idx b → a = b) :
    (forRange 0 n (fun k (p : Resid × ℚ) => (p.1.setRsd (idx k) (val k), p.2 + y k)) (r, 0)).2
        = ∑ k in Finset.range n, y k
      ∧ (forRange 0 n (fun k (p : Resid × ℚ) => (p.1.setRsd (idx k) (val k), p.2 + y k)) (r, 0)).1.diag
        = r.diag
      ∧ (∀ k, k < n →
          (forRange 0 n (fun k (p : Resid × ℚ) => (p.1.setRsd (idx k) (val k), p.2 + y k)) (r, 0)).1.rsd (idx k)
            = val k)
      ∧ (∀ i, (∀ k, k < n → i ≠ idx k) →
          (forRange 0 n (fun k (p : Resid × ℚ) => (p.1.setRsd (idx k) (val k), p.2 + y k)) (r, 0)).1.rsd i
            = r.rsd i) := by
  induction n with
  | zero => simp [forRange_empty]
  | succ n ih =>
    rw [forRange_succ _ _ _ _ (Nat.zero_le n)]
    obtain ⟨h1, h2, h3, h4⟩ := ih (fun a b ha hb => hinj a b (by omega) (by omega))
    refine ⟨?_, ?_, ?_, ?_⟩
    · simp only [h1, Finset.sum_range_succ]
    · simp only [setRsd_diag, h2]
    · intro k hk
      by_cases hkn : k = n
      · subst hkn; exact setRsd_rsd_eq _ _ _
      · have : idx k ≠ idx n := fun h => hkn (hinj k n hk (by omega) h)
        simp only []
        rw [setRsd_rsd_ne _ _ _ _ this]
        exact h3 k (by omega)
    · intro i hi
      simp only []
      rw [setRsd_rsd_ne _ _ _ _ (hi n (by omega))]
      exact h4 i (fun k hk => hi k (by omega))

namespace StFlow

/-- The species rows that `evalLeftBoundary` leaves. -/
theorem evalLeftBoundary_species (s : StFlow) (x : Nat → ℚ) (r : Resid) :
    (s.evalLeftBoundary x r).rsd (s.index (c_offset_Y + s.leftExcessSpecies) 0)
        = 1 - ∑ k in Finset.range s.m_nsp, s.Y x k 0
      ∧ ∀ k, k < s.m_nsp → k ≠ s.leftExcessSpecies →
        (s.evalLeftBoundary x r).rsd (s.index (c_offset_Y + k) 0)
          = -(s.flux k 0 + s.rho_u x 0 * s.Y x k 0) := by
  have key := fun r0 => speciesRows_spec (fun k => s.index (c_offset_Y + k) 0)
    (fun k => -(s.m_flux.get k 0 + s.rho_u x 0 * s.Y x k 0)) (fun k => s.Y x k 0) r0 s.m_nsp
    (fun a b _ _ h => by simp only [index] at h; omega)
  beta_reduce at key
  have hE : ∀ k, s.index (c_offset_Y + k) 0 ≠ s.index c_offset_E 0 := by
    intro k; simp only [index, c_offset_Y, c_offset_E]; omega
  unfold evalLeftBoundary
  simp only []
  refine ⟨?_, ?_⟩
  · rw [setRsd_rsd_ne _ _ _ _ (hE _), setRsd_rsd_eq, (key _).1]
  · intro k hk hne
    have hne2 : s.index (c_offset_Y + k) 0 ≠ s.index (c_offset_Y + s.leftExcessSpecies) 0 := by
      simp only [index]; omega
    rw [setRsd_rsd_ne _ _ _ _ (hE _), setRsd_rsd_ne _ _ _ _ hne2, (key _).2.2.1 k hk]
    rfl

/-- The species rows that `evalRightBoundary` leaves. -/
theorem evalRightBoundary_species (s : StFlow) (x : Nat → ℚ) (r : Resid) (rdt : ℚ) :
    (s.evalRightBoundary x r rdt).rsd (s.index (c_offset_Y + s.rightExcessSpecies) (s.m_points - 1))
        = 1 - ∑ k in Finset.range s.m_nsp, s.Y x k (s.m_points - 1)
      ∧ ∀ k, k < s.m_nsp → k ≠ s.rightExcessSpecies →
        (s.evalRightBoundary x r rdt).rsd (s.index (c_offset_Y + k) (s.m_points - 1))
          = s.flux k (s.m_points - 1 - 1) + s.rho_u x (s.m_points - 1) * s.Y x k (s.m_points - 1) := by
  have key := fun r0 => speciesRows_spec (fun k => s.index (k + c_offset_Y) (s.m_points - 1))
    (fun k => s.m_flux.get k (s.m_points - 1 - 1) + s.rho_u x (s.m_points - 1) * s.Y x k (s.m_points - 1))
    (fun k => s.Y x k (s.m_points - 1)) r0 s.m_nsp
    (fun a b _ _ h => by simp only [index] at h; omega)
  beta_reduce at key
  have hU : ∀ k, s.index (c_offset_Y + k) (s.m_points - 1) ≠ s.index c_offset_U (s.m_points - 1) := by
    intro k; simp only [index, c_offset_Y, c_offset_U]; omega
  have hT : ∀ k, s.index (c_offset_Y + k) (s.m_points - 1) ≠ s.index c_offset_T (s.m_points - 1) := by
    intro k; simp only [index, c_offset_Y, c_offset_T]; omega
  have hc : ∀ k, s.index (c_offset_Y + k) (s.m_points - 1) = s.index (k + c_offset_Y) (s.m_points - 1) := by
    intro k; rw [Nat.add_comm]
  unfold evalRightBoundary
  simp only []
  refine ⟨?_, ?_⟩
  · split_ifs <;>
      simp only [setRsd_rsd_ne _ _ _ _ (hU _), setRsd_rsd_ne _ _ _ _ (hT _), setDiag_rsd,
        setRsd_rsd_eq, (key _).1]
  · intro k hk hne
    have hne2 : s.index (c_offset_Y + k) (s.m_points - 1)
        ≠ s.index (c_offset_Y + s.rightExcessSpecies) (s.m_points - 1) := by
      simp only [index]; omega
    have hv := fun r0 => (key r0).2.2.1 k hk
    rw [← hc] at hv
    split_ifs <;>
      simp only [setRsd_rsd_ne _ _ _ _ (hU _), setRsd_rsd_ne _ _ _ _ (hT _), setDiag_rsd,
        setRsd_rsd_ne _ _ _ _ hne2, hv] <;> rfl

end StFlow

/-! ## Boundary rows, free-flame rows and the pseudo-transient terms -/
namespace StFlow

/-- C16: in `StFlow` (the `j == 0` branch of `evalResidual` and
`StFlow::evalRightBoundary` at `j = N-1`) the species row of the excess
species of the boundary holds `1 - sum_k Y_k` at that boundary point, the row
of every other species `k` holds the zero-flux condition of the same species,
`-(m_flux(k,0) + rho_u(0)*Y_k(0))` on the left and
`m_flux(k,N-2) + rho_u(N-1)*Y_k(N-1)` on the right, and the excess row
vanishes exactly when the boundary mass fractions sum to one. -/
theorem boundary_species_rows (c : Consts) (e : EvalState) (x : Nat → ℚ) (rdt : ℚ) :
    ((evalPoint c x rdt 0 e).res.rsd (e.dom.index (c_offset_Y + e.dom.leftExcessSpecies) 0)
        = 1 - ∑ k in Finset.range e.dom.m_nsp, e.dom.Y x k 0
      ∧ (∀ k, k < e.dom.m_nsp → k ≠ e.dom.leftExcessSpecies →
          (evalPoint c x rdt 0 e).res.rsd (e.dom.index (c_offset_Y + k) 0)
            = -(e.dom.flux k 0 + e.dom.rho_u x 0 * e.dom.Y x k 0))
      ∧ ((evalPoint c x rdt 0 e).res.rsd (e.dom.index (c_offset_Y + e.dom.leftExcessSpecies) 0) = 0
          ↔ ∑ k in Finset.range e.dom.m_nsp, e.dom.Y x k 0 = 1))
    ∧ ((e.dom.evalRightBoundary x e.res rdt).rsd
          (e.dom.index (c_offset_Y + e.dom.rightExcessSpecies) (e.dom.m_points - 1))
        = 1 - ∑ k in Finset.range e.dom.m_nsp, e.dom.Y x k (e.dom.m_points - 1)
      ∧ (∀ k, k < e.dom.m_nsp → k ≠ e.dom.rightExcessSpecies →
          (e.dom.evalRightBoundary x e.res rdt).rsd (e.dom.index (c_offset_Y + k) (e.dom.m_points - 1))
            = e.dom.flux k (e.dom.m_points - 1 - 1)
              + e.dom.rho_u x (e.dom.m_points - 1) * e.dom.Y x k (e.dom.m_points - 1))
      ∧ ((e.dom.evalRightBoundary x e.res rdt).rsd
            (e.dom.index (c_offset_Y + e.dom.rightExcessSpecies) (e.dom.m_points - 1)) = 0
          ↔ ∑ k in Finset.range e.dom.m_nsp, e.dom.Y x k (e.dom.m_points - 1) = 1)) := by
  have hL : (evalPoint c x rdt 0 e).res = e.dom.evalLeftBoundary x e.res := by
    unfold evalPoint; rw [if_pos rfl]
  obtain ⟨l1, l2⟩ := evalLeftBoundary_species e.dom x e.res
  obtain ⟨r1, r2⟩ := evalRightBoundary_species e.dom x e.res rdt
  rw [hL]
  refine ⟨⟨l1, l2, ?_⟩, ⟨r1, r2, ?_⟩⟩
  · rw [l1]; constructor <;> intro h <;> linarith
  · rw [r1]; constructor <;> intro h <;> linarith

/-- Witness for `boundary_species_rows`: species 1 of the concrete domain,
whose excess species is species 0 at both boundaries. -/
theorem boundary_species_rows_witness :
    (evalPoint demoConsts demoX 1 0 ⟨demoFlow, demoResid⟩).res.rsd (demoFlow.index (c_offset_Y + 1) 0)
        = -(demoFlow.flux 1 0 + demoFlow.rho_u demoX 0 * demoFlow.Y demoX 1 0)
      ∧ (demoFlow.evalRightBoundary demoX demoResid 1).rsd (demoFlow.index (c_offset_Y + 1) 3)
        = demoFlow.flux 1 2 + demoFlow.rho_u demoX 3 * demoFlow.Y demoX 1 3 :=
  ⟨(boundary_species_rows demoConsts ⟨demoFlow, demoResid⟩ demoX 1).1.2.1 1 (by decide) (by decide),
   (boundary_species_rows demoConsts ⟨demoFlow, demoResid⟩ demoX 1).2.2.1 1 (by decide) (by decide)⟩

/-- Counterexample to C18 as stated: on the uniform grid of the free flame
`rho*u` and `T` are linear in `z`, so both second differences vanish, yet the
right-boundary rows of `evalRightBoundary` hold 1 and 100. -/
theorem freeflow_right_rows_not_second_difference :
    demoFlowFree.domainType = DomainType.cFreeFlow
      ∧ demoFlowFree.m_dz = [1, 1, 1]
      ∧ demoFlowFree.rho_u demoXfree 3 - 2 * demoFlowFree.rho_u demoXfree 2
          + demoFlowFree.rho_u demoXfree 1 = 0
      ∧ demoFlowFree.T demoXfree 3 - 2 * demoFlowFree.T demoXfree 2 + demoFlowFree.T demoXfree 1 = 0
      ∧ (demoFlowFree.evalRightBoundary demoXfree demoResid 0).rsd (demoFlowFree.index c_offset_U 3) = 1
      ∧ (demoFlowFree.evalRightBoundary demoXfree demoResid 0).rsd (demoFlowFree.index c_offset_T 3) = 100 := by
  decide!

/-- C18, amended: for domain type FreeFlow the right-boundary rows written
by `StFlow::evalRightBoundary` for the axial velocity and the temperature are
zero-gradient conditions, `rho_u(N-1) - rho_u(N-2)` and `T(N-1) - T(N-2)`;
each vanishes exactly when the value at point `N-1` equals the value at point
`N-2`. -/
theorem freeflow_right_rows_zero_gradient (s : StFlow) (x : Nat → ℚ) (r : Resid) (rdt : ℚ)
    (h : s.domainType = DomainType.cFreeFlow) :
    (s.evalRightBoundary x r rdt).rsd (s.index c_offset_U (s.m_points - 1))
        = s.rho_u x (s.m_points - 1) - s.rho_u x (s.m_points - 1 - 1)
      ∧ (s.evalRightBoundary x r rdt).rsd (s.index c_offset_T (s.m_points - 1))
        = s.T x (s.m_points - 1) - s.T x (s.m_points - 1 - 1)
      ∧ ((s.evalRightBoundary x r rdt).rsd (s.index c_offset_U (s.m_points - 1)) = 0
          ↔ s.rho_u x (s.m_points - 1) = s.rho_u x (s.m_points - 1 - 1))
      ∧ ((s.evalRightBoundary x r rdt).rsd (s.index c_offset_T (s.m_points - 1)) = 0
          ↔ s.T x (s.m_points - 1) = s.T x (s.m_points - 1 - 1)) := by
  have hne : DomainType.cFreeFlow ≠ DomainType.cAxisymmetricStagnationFlow := by decide
  have hUT : s.index c_offset_U (s.m_points - 1) ≠ s.index c_offset_T (s.m_points - 1) := by
    simp only [index, c_offset_U, c_offset_T]; omega
  have e1 : (s.evalRightBoundary x r rdt).rsd (s.index c_offset_U (s.m_points - 1))
      = s.rho_u x (s.m_points - 1) - s.rho_u x (s.m_points - 1 - 1) := by
    unfold evalRightBoundary
    simp only []
    rw [h, if_neg hne, if_pos rfl, setRsd_rsd_ne _ _ _ _ hUT, setRsd_rsd_eq]
  have e2 : (s.evalRightBoundary x r rdt).rsd (s.index c_offset_T (s.m_points - 1))
      = s.T x (s.m_points - 1) - s.T x (s.m_points - 1 - 1) := by
    unfold evalRightBoundary
    simp only []
    rw [h, if_neg hne, if_pos rfl, setRsd_rsd_eq]
  refine ⟨e1, e2, ?_, ?_⟩
  · rw [e1]; exact sub_eq_zero
  · rw [e2]; exact sub_eq_zero

/-- Witness for `freeflow_right_rows_zero_gradient` on the free flame. -/
theorem freeflow_right_rows_zero_gradient_witness :
    demoFlowFree.domainType = DomainType.cFreeFlow
      ∧ (demoFlowFree.evalRightBoundary demoXfree demoResid 0).rsd (demoFlowFree.index c_offset_T 3)
        = demoFlowFree.T demoXfree 3 - demoFlowFree.T demoXfree 2 :=
  ⟨by decide, (freeflow_right_rows_zero_gradient demoFlowFree demoXfree demoResid 0 (by decide)).2.1⟩

end StFlow
namespace StFlow

/-- C19: for domain type FreeFlow, if `z(j)` is greater than `m_zfixed` the
continuity residual written by `evalContinuity` is
`-(rho_u(j) - rho_u(j-1))/dz[j-1] - (rho(j-1)V(j-1) + rho(j)V(j))` and is the
same for every solution array that agrees at points `j-1` and `j`; if `z(j)`
is less than `m_zfixed` it is
`-(rho_u(j+1) - rho_u(j))/dz[j] - (rho(j+1)V(j+1) + rho(j)V(j))` and is the
same for every solution array that agrees at points `j` and `j+1`. -/
theorem freeflow_continuity_direction (s : StFlow) (j : Nat) (x : Nat → ℚ) (r : Resid) (rdt : ℚ)
    (h : s.domainType = DomainType.cFreeFlow) :
    (s.z j > s.m_zfixed →
      (s.evalContinuity j x r rdt).rsd (s.index c_offset_U j)
          = -(s.rho_u x j - s.rho_u x (j - 1)) / vget s.m_dz (j - 1)
            - (s.density (j - 1) * s.V x (j - 1) + s.density j * s.V x j)
        ∧ ∀ y : Nat → ℚ, (∀ n, y (s.index n (j - 1)) = x (s.index n (j - 1))) →
            (∀ n, y (s.index n j) = x (s.index n j)) →
            (s.evalContinuity j y r rdt).rsd (s.index c_offset_U j)
              = (s.evalContinuity j x r rdt).rsd (s.index c_offset_U j))
    ∧ (s.z j < s.m_zfixed →
      (s.evalContinuity j x r rdt).rsd (s.index c_offset_U j)
          = -(s.rho_u x (j + 1) - s.rho_u x j) / vget s.m_dz j
            - (s.density (j + 1) * s.V x (j + 1) + s.density j * s.V x j)
        ∧ ∀ y : Nat → ℚ, (∀ n, y (s.index n j) = x (s.index n j)) →
            (∀ n, y (s.index n (j + 1)) = x (s.index n (j + 1))) →
            (s.evalContinuity j y r rdt).rsd (s.index c_offset_U j)
              = (s.evalContinuity j x r rdt).rsd (s.index c_offset_U j)) := by
  have hne : DomainType.cFreeFlow ≠ DomainType.cAxisymmetricStagnationFlow := by decide
  have hgt : ∀ y : Nat → ℚ, s.z j > s.m_zfixed →
      (s.evalContinuity j y r rdt).rsd (s.index c_offset_U j)
        = -(s.rho_u y j - s.rho_u y (j - 1)) / vget s.m_dz (j - 1)
          - (s.density (j - 1) * s.V y (j - 1) + s.density j * s.V y j) := by
    intro y hz
    unfold evalContinuity
    simp only []
    rw [h, if_neg hne, if_pos rfl, if_pos hz, setRsd_rsd_eq]
  have hlt : ∀ y : Nat → ℚ, s.z j < s.m_zfixed →
      (s.evalContinuity j y r rdt).rsd (s.index c_offset_U j)
        = -(s.rho_u y (j + 1) - s.rho_u y j) / vget s.m_dz j
          - (s.density (j + 1) * s.V y (j + 1) + s.density j * s.V y j) := by
    intro y hz
    unfold evalContinuity
    simp only []
    rw [h, if_neg hne, if_pos rfl, if_neg (not_lt.mpr (le_of_lt hz)), if_neg (ne_of_lt hz),
      if_pos hz, setRsd_rsd_eq]
  refine ⟨fun hz => ⟨hgt x hz, fun y h1 h2 => ?_⟩, fun hz => ⟨hlt x hz, fun y h1 h2 => ?_⟩⟩
  · rw [hgt y hz, hgt x hz]
    simp only [rho_u, V, h1, h2]
  · rw [hlt y hz, hlt x hz]
    simp only [rho_u, V, h1, h2]

/-- Witness for `freeflow_continuity_direction`: point 2 of the free flame
with the fixed point at `z = 1`, and point 1 with the fixed point at `z = 2`. -/
theorem freeflow_continuity_direction_witness :
    (demoFlowFreeLow.z 2 > demoFlowFreeLow.m_zfixed ∧
      (demoFlowFreeLow.evalContinuity 2 demoXfree demoResid 0).rsd (demoFlowFreeLow.index c_offset_U 2)
        = -(demoFlowFreeLow.rho_u demoXfree 2 - demoFlowFreeLow.rho_u demoXfree 1) / vget demoFlowFreeLow.m_dz 1
          - (demoFlowFreeLow.density 1 * demoFlowFreeLow.V demoXfree 1
              + demoFlowFreeLow.density 2 * demoFlowFreeLow.V demoXfree 2))
    ∧ (demoFlowFree.z 1 < demoFlowFree.m_zfixed ∧
      (demoFlowFree.evalContinuity 1 demoXfree demoResid 0).rsd (demoFlowFree.index c_offset_U 1)
        = -(demoFlowFree.rho_u demoXfree 2 - demoFlowFree.rho_u demoXfree 1) / vget demoFlowFree.m_dz 1
          - (demoFlowFree.density 2 * demoFlowFree.V demoXfree 2
              + demoFlowFree.density 1 * demoFlowFree.V demoXfree 1)) :=
  ⟨⟨by decide!, ((freeflow_continuity_direction demoFlowFreeLow 2 demoXfree demoResid 0 (by decide)).1
      (by decide!)).1⟩,
   ⟨by decide!, ((freeflow_continuity_direction demoFlowFree 1 demoXfree demoResid 0 (by decide)).2
      (by decide!)).1⟩⟩

/-- C20: for domain type FreeFlow and a point `j` with `z(j)` equal to
`m_zfixed`, the continuity row written by `evalContinuity` is
`T(j) - m_tfixed` when the energy equation is enabled at `j` and
`rho_u(j) - 0.3*rho(0)` when it is not, and its mask entry is 0. -/
theorem freeflow_fixed_point_row (s : StFlow) (j : Nat) (x : Nat → ℚ) (r : Resid) (rdt : ℚ)
    (h : s.domainType = DomainType.cFreeFlow) (hz : s.z j = s.m_zfixed) :
    (s.evalContinuity j x r rdt).rsd (s.index c_offset_U j)
        = (if s.doEnergy j = true then s.T x j - s.m_tfixed
           else s.rho_u x j - s.density 0 * (3 / 10))
      ∧ (s.evalContinuity j x r rdt).diag (s.index c_offset_U j) = 0 := by
  have hne : DomainType.cFreeFlow ≠ DomainType.cAxisymmetricStagnationFlow := by decide
  unfold evalContinuity
  simp only []
  rw [h, if_neg hne, if_pos rfl, if_neg (not_lt.mpr (le_of_eq hz)), if_pos hz]
  constructor
  · unfold doEnergy density
    split_ifs <;> rw [setRsd_rsd_eq]
  · split_ifs <;> rw [setRsd_diag, setDiag_diag_eq]

/-- Witness for `freeflow_fixed_point_row`: point 2 of the free flame, with
the energy equation disabled and enabled. -/
theorem freeflow_fixed_point_row_witness :
    (demoFlowFree.domainType = DomainType.cFreeFlow ∧ demoFlowFree.z 2 = demoFlowFree.m_zfixed)
      ∧ (demoFlowFree.evalContinuity 2 demoXfree demoResidNine 0).rsd (demoFlowFree.index c_offset_U 2)
          = demoFlowFree.rho_u demoXfree 2 - demoFlowFree.density 0 * (3 / 10)
      ∧ (demoFlowFreeEnergy.evalContinuity 2 demoXfree demoResidNine 0).rsd
            (demoFlowFreeEnergy.index c_offset_U 2)
          = demoFlowFreeEnergy.T demoXfree 2 - demoFlowFreeEnergy.m_tfixed
      ∧ (demoFlowFree.evalContinuity 2 demoXfree demoResidNine 0).diag (demoFlowFree.index c_offset_U 2) = 0 :=
  ⟨⟨by decide, by decide!⟩,
    (freeflow_fixed_point_row demoFlowFree 2 demoXfree demoResidNine 0 (by decide) (by decide!)).1,
    (freeflow_fixed_point_row demoFlowFreeEnergy 2 demoXfree demoResidNine 0 (by decide) (by decide!)).1,
    (freeflow_fixed_point_row demoFlowFree 2 demoXfree demoResidNine 0 (by decide) (by decide!)).2⟩

end StFlow

/-- C13: in windowed mode (`jg != npos`) `PorousFlow::eval` gives, for every
solution buffer and every `rdt`, the result it gives for `rdt = 0`: the same
residual rows, mask entries and object. -/
theorem porous_windowed_suppresses_transient (c : Consts) (p : PorousFlow) (jg : Nat)
    (xg rg : Nat → ℚ) (diagg : Nat → Int) (rdt : ℚ) (hjg : jg ≠ npos) :
    p.eval c jg xg rg diagg rdt = p.eval c jg xg rg diagg 0 := by
  unfold PorousFlow.eval
  simp only [if_pos hjg]

/-- Witness for `porous_windowed_suppresses_transient`: global point 2 of
the porous domain. -/
theorem porous_windowed_suppresses_transient_witness :
    (2 : Nat) ≠ npos ∧ demoPorous.toStFlow.firstPoint ≤ 2 ∧ 2 ≤ demoPorous.toStFlow.lastPoint
      ∧ demoPorous.eval demoConsts 2 demoXg demoRg demoDiagg 1
        = demoPorous.eval demoConsts 2 demoXg demoRg demoDiagg 0 :=
  ⟨by decide, by decide, by decide,
    porous_windowed_suppresses_transient demoConsts demoPorous 2 demoXg demoRg demoDiagg 1 (by decide)⟩


/-- C12 fails on the code: a windowed call of `StFlow::eval` at global point
2 of the concrete domain (inside the domain) writes -2 into the strain-rate
row of local point 1 for `rdt = 1` and -1 for `rdt = 0`, whereas the override
`PorousFlow::eval` writes the same value for both. -/
theorem stflow_windowed_residual_depends_on_rdt :
    (2 : Nat) ≠ npos ∧ demoFlow.firstPoint ≤ 2 ∧ 2 ≤ demoFlow.lastPoint
      ∧ (demoFlow.eval demoConsts 2 demoXg demoRg demoDiagg 1).state.rg 11 = -2
      ∧ (demoFlow.eval demoConsts 2 demoXg demoRg demoDiagg 0).state.rg 11 = -1
      ∧ (demoPorous.eval demoConsts 2 demoXg demoRg demoDiagg 1).state.rg 11
        = (demoPorous.eval demoConsts 2 demoXg demoRg demoDiagg 0).state.rg 11 := by
  decide!

/-- C17 fails on the code: after a full evaluation of the porous domain the
row of species 1 at the right boundary (global entry 30) still holds the old
content of the residual array, and the row of species 0 (global entry 29)
holds the zero-flux condition of species 1, `m_flux(1,2) + rho_u(3)*Y_1(3)`;
`StFlow::eval` on the same data writes the condition of species 0 and the
normalization into these two rows. -/
theorem porous_right_boundary_rows_shifted :
    demoPorous.toStFlow.index (c_offset_Y + 0) 3 + demoPorous.toStFlow.loc = 29
      ∧ demoPorous.toStFlow.index (c_offset_Y + 1) 3 + demoPorous.toStFlow.loc = 30
      ∧ (demoPorous.eval demoConsts npos demoXg demoRg demoDiagg 0).state.rg 30 = demoRg 30
      ∧ (demoPorous.eval demoConsts npos demoXg demoRg demoDiagg 0).state.rg 29
        = (demoPorous.eval demoConsts npos demoXg demoRg demoDiagg 0).state.dom.flux 1 2
          + demoPorous.toStFlow.rho_u (shiftPtr demoXg 3) 3 * demoPorous.toStFlow.Y (shiftPtr demoXg 3) 1 3
      ∧ (demoPorous.eval demoConsts npos demoXg demoRg demoDiagg 0).state.rg 29 = -29 / 16
      ∧ (demoFlow.eval demoConsts npos demoXg demoRg demoDiagg 0).state.rg 29 = -3 / 16
      ∧ (demoFlow.eval demoConsts npos demoXg demoRg demoDiagg 0).state.rg 30 = 0 := by
  decide!

/-! ## What a property update leaves alone -/

namespace StFlow

/-- The member function `updateThermo` writes nothing but the state of the
phase object and the caches `m_rho`, `m_wtm`, `m_cp`. -/
theorem eraseThermo_updateThermo (s : StFlow) (x : Nat → ℚ) (j0 j1 : Nat) :
    eraseThermo (s.updateThermo x j0 j1) = eraseThermo s := by
  unfold updateThermo
  refine forRange_induction (fun t => eraseThermo t = eraseThermo s) j0 (j1 + 1) _ s rfl ?_
  intro j t _ _ ht
  exact (rfl : eraseThermo _ = eraseThermo t).trans ht

/-- The member function `setGasAtMidpoint` writes nothing but `m_ybar` and
the state of the phase object. -/
theorem eraseTransport_setGasAtMidpoint (t : StFlow) (x : Nat → ℚ) (j : Nat) :
    eraseTransport (t.setGasAtMidpoint x j) = eraseTransport t := by
  have h : eraseTransport (forRange 0 t.m_nsp (fun k s =>
      let v := 1 / 2 * (x (s.m_nv * j + c_offset_Y + k) + x (s.m_nv * (j + 1) + c_offset_Y + k))
      { s with m_ybar := s.m_ybar.set k v }) t) = eraseTransport t := by
    refine forRange_induction (fun u => eraseTransport u = eraseTransport t) 0 t.m_nsp _ t rfl ?_
    intro k u _ _ hu
    exact (rfl : eraseTransport _ = eraseTransport u).trans hu
  exact (rfl : eraseTransport (t.setGasAtMidpoint x j) = eraseTransport _).trans h

/-- The member function `updateTransport` writes nothing but `m_ybar`, the
state of the phase object and the transport caches. -/
theorem eraseTransport_updateTransport (s : StFlow) (x : Nat → ℚ) (j0 j1 : Nat) :
    eraseTransport (s.updateTransport x j0 j1) = eraseTransport s := by
  unfold updateTransport
  split_ifs with hm
  · refine forRange_induction (fun t => eraseTransport t = eraseTransport s) j0 j1 _ s rfl ?_
    intro j t _ _ ht
    beta_reduce
    lift_lets
    extract_lets s1 wtm rho visc s2 md s3 s4 s5
    have h4 : eraseTransport s4 = eraseTransport s3 := by
      refine forRange_induction (fun u => eraseTransport u = eraseTransport s3) 0 s3.m_nsp _ s3 rfl ?_
      intro k u _ _ hu
      exact (rfl : eraseTransport _ = eraseTransport u).trans hu
    have h3 : eraseTransport s3 = eraseTransport s1 := rfl
    have h1 : eraseTransport s1 = eraseTransport t := eraseTransport_setGasAtMidpoint t x j
    have h5 : eraseTransport s5 = eraseTransport s4 := rfl
    refine Eq.trans ?_ (h5.trans (h4.trans (h3.trans (h1.trans ht))))
    split_ifs
    · rfl
    · rfl
  · refine forRange_induction (fun t => eraseTransport t = eraseTransport s) j0 j1 _ s rfl ?_
    intro j t _ _ ht
    exact (rfl : eraseTransport _ = eraseTransport (t.setGasAtMidpoint x j)).trans
      ((eraseTransport_setGasAtMidpoint t x j).trans ht)

end StFlow

namespace StFlow

/-- Objects that agree up to the thermodynamic caches agree up to all caches. -/
theorem eraseCaches_of_eraseThermo (t s : StFlow) (h : eraseThermo t = eraseThermo s) :
    eraseCaches t = eraseCaches s :=
  (rfl : eraseCaches t = eraseCaches (eraseThermo t)).trans
    ((congrArg eraseCaches h).trans (rfl : eraseCaches (eraseThermo s) = eraseCaches s))

/-- Objects that agree up to the transport caches agree up to all caches. -/
theorem eraseCaches_of_eraseTransport (t s : StFlow) (h : eraseTransport t = eraseTransport s) :
    eraseCaches t = eraseCaches s :=
  (rfl : eraseCaches t = eraseCaches (eraseTransport t)).trans
    ((congrArg eraseCaches h).trans (rfl : eraseCaches (eraseTransport s) = eraseCaches s))

/-- The member function `updateDiffFluxes` writes `m_flux` only. -/
theorem eraseCaches_updateDiffFluxes (s : StFlow) (x : Nat → ℚ) (j0 j1 : Nat) :
    eraseCaches (s.updateDiffFluxes x j0 j1) = eraseCaches s := rfl

/-- The member function `updateProperties` leaves the configuration alone. -/
theorem eraseCaches_updateProperties (s : StFlow) (jg : Nat) (x : Nat → ℚ) (jmin jmax : Nat) :
    eraseCaches (s.updateProperties jg x jmin jmax) = eraseCaches s := by
  have h1 : eraseCaches (s.updateThermo x (faceLo jmin) (faceHi s jmax)) = eraseCaches s :=
    eraseCaches_of_eraseThermo _ _ (eraseThermo_updateThermo s x _ _)
  have h2 : ∀ t : StFlow, eraseCaches (if jg = npos ∨ t.m_force_full_update = true
      then t.updateTransport x (faceLo jmin) (faceHi s jmax) else t) = eraseCaches t := by
    intro t
    split_ifs
    · exact eraseCaches_of_eraseTransport _ _ (eraseTransport_updateTransport t x _ _)
    · rfl
  have h3 : ∀ t : StFlow, eraseCaches (if jg = npos then
      { { t with m_kExcessLeft := maxElementIndex (fun k => x (t.index c_offset_Y jmin + k)) t.m_nsp }
        with m_kExcessRight := maxElementIndex (fun k => x (t.index c_offset_Y jmax + k)) t.m_nsp }
      else t) = eraseCaches t := by
    intro t
    split_ifs
    · rfl
    · rfl
  exact (eraseCaches_updateDiffFluxes _ x _ _).trans ((h3 _).trans ((h2 _).trans h1))

/-- The radiation block leaves the configuration alone. -/
theorem eraseCaches_evalRadiation (c : Consts) (s : StFlow) (x : Nat → ℚ) (jmin jmax : Nat) :
    eraseCaches (evalRadiation c s x jmin jmax) = eraseCaches s := by
  unfold evalRadiation
  split_ifs
  · rfl
  · rfl

/-- The member function `evalResidual` leaves the configuration alone. -/
theorem eraseCaches_evalResidual (c : Consts) (s : StFlow) (x : Nat → ℚ) (r : Resid) (rdt : ℚ)
    (jmin jmax : Nat) :
    eraseCaches (evalResidual c s x r rdt jmin jmax).dom = eraseCaches s := by
  obtain ⟨th, wd, h⟩ := evalPoints_dom c x rdt jmin (jmax + 1) ⟨evalRadiation c s x jmin jmax, r⟩
  have h0 : (evalResidual c s x r rdt jmin jmax).dom
      = withThermoWdot (evalRadiation c s x jmin jmax) th wd := h
  have h2 : eraseCaches (withThermoWdot (evalRadiation c s x jmin jmax) th wd)
      = eraseCaches (evalRadiation c s x jmin jmax) := rfl
  rw [h0, h2]
  exact eraseCaches_evalRadiation c s x jmin jmax

/-- The member function `StFlow::eval` leaves the configuration alone. -/
theorem eraseCaches_eval (c : Consts) (s : StFlow) (jg : Nat) (xg rg : Nat → ℚ)
    (diagg : Nat → Int) (rdt : ℚ) :
    eraseCaches (s.eval c jg xg rg diagg rdt).state.dom = eraseCaches s := by
  unfold eval
  by_cases hg : jg ≠ npos ∧ (addSz jg 1 < s.firstPoint ∨ jg > addSz s.lastPoint 1)
  · rw [if_pos hg]
  · rw [if_neg hg]
    exact (eraseCaches_evalResidual _ _ _ _ _ _ _).trans (eraseCaches_updateProperties _ _ _ _ _)

end StFlow

/-! ## Which residual entries an evaluation writes -/

theorem writesIn_refl (W : Nat → Prop) (r : Resid) : writesIn W r r :=
  fun _ _ => ⟨rfl, rfl⟩

theorem writesIn_trans (W : Nat → Prop) (r1 r2 r3 : Resid) (h12 : writesIn W r1 r2)
    (h23 : writesIn W r2 r3) : writesIn W r1 r3 :=
  fun i hi => ⟨((h23 i hi).1).trans (h12 i hi).1, ((h23 i hi).2).trans (h12 i hi).2⟩

theorem writesIn_setRsd (W : Nat → Prop) (r r2 : Resid) (i : Nat) (v : ℚ) (hW : W i)
    (h : writesIn W r r2) : writesIn W r (r2.setRsd i v) := by
  intro k hk
  have hne : k ≠ i := fun e => hk (e ▸ hW)
  exact ⟨(setRsd_rsd_ne r2 i k v hne).trans (h k hk).1, (h k hk).2⟩

theorem writesIn_setDiag (W : Nat → Prop) (r r2 : Resid) (i : Nat) (d : Int) (hW : W i)
    (h : writesIn W r r2) : writesIn W r (r2.setDiag i d) := by
  intro k hk
  have hne : k ≠ i := fun e => hk (e ▸ hW)
  exact ⟨(h k hk).1, (setDiag_diag_ne r2 i k d hne).trans (h k hk).2⟩

theorem writesIn_speciesSum (W : Nat → Prop) (idx : Nat → Nat) (val y : Nat → ℚ) (n : Nat)
    (r r0 : Resid) (hW : ∀ k, k < n → W (idx k)) (h : writesIn W r r0) :
    writesIn W r
      (forRange 0 n (fun k (p : Resid × ℚ) => (p.1.setRsd (idx k) (val k), p.2 + y k)) (r0, 0)).1 := by
  refine forRange_induction (fun p : Resid × ℚ => writesIn W r p.1) 0 n _ (r0, 0) h ?_
  intro k p _ hk hp
  exact writesIn_setRsd W r p.1 (idx k) (val k) (hW k hk) hp

theorem writesIn_speciesLoop (W : Nat → Prop) (idx : Nat → Nat) (val : Nat → ℚ) (d : Int)
    (n : Nat) (r r0 : Resid) (hW : ∀ k, k < n → W (idx k)) (h : writesIn W r r0) :
    writesIn W r (forRange 0 n (fun k (q : Resid) => (q.setRsd (idx k) (val k)).setDiag (idx k) d) r0) := by
  refine forRange_induction (fun q : Resid => writesIn W r q) 0 n _ r0 h ?_
  intro k q _ hk hq
  exact writesIn_setDiag W r _ (idx k) d (hW k hk) (writesIn_setRsd W r q (idx k) (val k) (hW k hk) hq)

theorem inRows_index (nv j n : Nat) (h : n < nv) : inRows nv j (nv * j + n) := by
  unfold inRows
  rw [Nat.mul_succ]
  omega

theorem forRange_induction_idx {σ : Type} (P : Nat → σ → Prop) (lo hi : Nat) (body : Nat → σ → σ)
    (s : σ) (hle : lo ≤ hi) (h0 : P lo s)
    (hstep : ∀ j t, lo ≤ j → j < hi → P j t → P (j + 1) (body j t)) :
    P hi (forRange lo hi body s) := by
  induction hi with
  | zero =>
    have : lo = 0 := by omega
    subst this
    rw [forRange_empty _ _ _ _ (Nat.le_refl _)]
    exact h0
  | succ hi ih =>
    by_cases h : lo ≤ hi
    · rw [forRange_succ _ _ _ _ h]
      exact hstep hi _ h (Nat.lt_succ_self hi)
        (ih h (fun j t h1 h2 hp => hstep j t h1 (by omega) hp))
    · have : lo = hi + 1 := by omega
      subst this
      rw [forRange_empty _ _ _ _ (Nat.le_refl _)]
      exact h0

namespace StFlow

theorem writesIn_evalContinuityVirtual (W : Nat → Prop) (s : StFlow) (j : Nat) (x : Nat → ℚ)
    (r r0 : Resid) (rdt : ℚ) (hW : W (s.index c_offset_U j)) (h : writesIn W r r0) :
    writesIn W r (s.evalContinuityVirtual j x r0 rdt) := by
  have hS : writesIn W r (s.evalContinuity j x r0 rdt) := by
    unfold evalContinuity
    simp only []
    split_ifs <;>
      first
        | exact writesIn_setRsd W r _ _ _ hW (writesIn_setDiag W r _ _ _ hW h)
        | exact writesIn_setDiag W r _ _ _ hW h
  have hA : writesIn W r (s.evalContinuityAxiStagn j x r0 rdt) :=
    writesIn_setDiag W r _ _ _ hW (writesIn_setRsd W r _ _ _ hW h)
  unfold evalContinuityVirtual
  cases s.cls
  · exact hS
  · exact hA
  · exact hA

theorem evalEnergyRow_nv (c : Consts) (e : EvalState) (x : Nat → ℚ) (rdt : ℚ) (j : Nat) :
    (evalEnergyRow c e x rdt j).dom.m_nv = e.dom.m_nv := by
  unfold evalEnergyRow
  split_ifs
  · rfl
  · rfl

theorem writesIn_evalEnergyRow (W : Nat → Prop) (c : Consts) (e : EvalState) (x : Nat → ℚ)
    (rdt : ℚ) (j : Nat) (r : Resid) (hW : W (e.dom.index c_offset_T j)) (h : writesIn W r e.res) :
    writesIn W r (evalEnergyRow c e x rdt j).res := by
  unfold evalEnergyRow
  split_ifs
  · exact writesIn_setDiag W r _ _ _ hW (writesIn_setRsd W r _ _ _ hW
      (writesIn_setRsd W r _ _ _ hW (writesIn_setRsd W r _ _ _ hW
        (writesIn_setRsd W r _ _ _ hW h))))
  · exact writesIn_setDiag W r _ _ _ hW (writesIn_setRsd W r _ _ _ hW h)

end StFlow

namespace StFlow

theorem writesIn_evalInterior (W : Nat → Prop) (c : Consts) (e : EvalState) (x : Nat → ℚ)
    (rdt : ℚ) (j : Nat) (r : Resid)
    (hW : ∀ n, n < c_offset_Y + e.dom.m_nsp → W (e.dom.m_nv * j + n))
    (h : writesIn W r e.res) :
    writesIn W r (evalInterior c e x rdt j).res := by
  have h5 : c_offset_Y = 5 := rfl
  have hU : W (e.dom.index c_offset_U j) := hW c_offset_U (by simp only [c_offset_U]; omega)
  have hV : W (e.dom.index c_offset_V j) := hW c_offset_V (by simp only [c_offset_V]; omega)
  have hT : W (e.dom.index c_offset_T j) := hW c_offset_T (by simp only [c_offset_T]; omega)
  have hL : W (e.dom.index c_offset_L j) := hW c_offset_L (by simp only [c_offset_L]; omega)
  have hE : W (e.dom.index c_offset_E j) := hW c_offset_E (by simp only [c_offset_E]; omega)
  have hY : ∀ k, k < (e.dom.getWdot x j).m_nsp → W ((e.dom.getWdot x j).index (c_offset_Y + k) j) :=
    fun k hk => hW (c_offset_Y + k) (Nat.add_lt_add_left hk _)
  unfold evalInterior
  simp only []
  refine writesIn_setDiag W r _ _ _ ?_ (writesIn_setRsd W r _ _ _ ?_
    (writesIn_evalEnergyRow W c _ x rdt j r hT
      (writesIn_speciesLoop W _ _ 1 _ r _ hY
        (writesIn_setDiag W r _ _ _ hV (writesIn_setRsd W r _ _ _ hV
          (writesIn_setRsd W r _ _ _ hE
            (writesIn_evalContinuityVirtual W _ j x r _ rdt hU h)))))))
  · unfold index
    rw [evalEnergyRow_nv]
    exact hL
  · unfold index
    rw [evalEnergyRow_nv]
    exact hL

theorem writesIn_evalLeftBoundary (W : Nat → Prop) (s : StFlow) (x : Nat → ℚ) (r r0 : Resid)
    (hk : s.m_kExcessLeft < s.m_nsp)
    (hW : ∀ n, n < c_offset_Y + s.m_nsp → W (s.m_nv * 0 + n))
    (h : writesIn W r r0) :
    writesIn W r (s.evalLeftBoundary x r0) := by
  have h5 : c_offset_Y = 5 := rfl
  have hU : W (s.index c_offset_U 0) := hW c_offset_U (by simp only [c_offset_U]; omega)
  have hV : W (s.index c_offset_V 0) := hW c_offset_V (by simp only [c_offset_V]; omega)
  have hT : W (s.index c_offset_T 0) := hW c_offset_T (by simp only [c_offset_T]; omega)
  have hL : W (s.index c_offset_L 0) := hW c_offset_L (by simp only [c_offset_L]; omega)
  have hE : W (s.index c_offset_E 0) := hW c_offset_E (by simp only [c_offset_E]; omega)
  have hY : ∀ k, k < s.m_nsp → W (s.index (c_offset_Y + k) 0) :=
    fun k hk => hW (c_offset_Y + k) (Nat.add_lt_add_left hk _)
  unfold evalLeftBoundary
  simp only []
  refine writesIn_setRsd W r _ _ _ hE (writesIn_setRsd W r _ _ _ (hY _ hk)
    (writesIn_speciesSum W _ _ _ _ r _ hY (writesIn_setRsd W r _ _ _ hL ?_)))
  split_ifs
  · exact writesIn_setRsd W r _ _ _ hT (writesIn_setRsd W r _ _ _ hV (writesIn_setRsd W r _ _ _ hU h))
  · exact writesIn_setRsd W r _ _ _ hT (writesIn_setRsd W r _ _ _ hV (writesIn_setRsd W r _ _ _ hU h))

theorem writesIn_evalRightBoundaryVirtual (W : Nat → Prop) (s : StFlow) (x : Nat → ℚ)
    (r r0 : Resid) (rdt : ℚ) (hk : s.m_kExcessRight < s.m_nsp)
    (hW : ∀ n, n < c_offset_Y + s.m_nsp → W (s.m_nv * (s.m_points - 1) + n))
    (h : writesIn W r r0) :
    writesIn W r (s.evalRightBoundaryVirtual x r0 rdt) := by
  have h5 : c_offset_Y = 5 := rfl
  have hU : W (s.index c_offset_U (s.m_points - 1)) := hW c_offset_U (by simp only [c_offset_U]; omega)
  have hV : W (s.index c_offset_V (s.m_points - 1)) := hW c_offset_V (by simp only [c_offset_V]; omega)
  have hT : W (s.index c_offset_T (s.m_points - 1)) := hW c_offset_T (by simp only [c_offset_T]; omega)
  have hL : W (s.index c_offset_L (s.m_points - 1)) := hW c_offset_L (by simp only [c_offset_L]; omega)
  have hY : ∀ k, k < s.m_nsp → W (s.index (k + c_offset_Y) (s.m_points - 1)) :=
    fun k hk => hW (k + c_offset_Y) (by omega)
  have hY4 : ∀ k, k < s.m_nsp → W (s.index (k + 4) (s.m_points - 1)) :=
    fun k hk => hW (k + 4) (by omega)
  have hS : writesIn W r (s.evalRightBoundary x r0 rdt) := by
    unfold evalRightBoundary
    simp only []
    have hYe : W (s.index (c_offset_Y + s.rightExcessSpecies) (s.m_points - 1)) :=
      hW (c_offset_Y + s.rightExcessSpecies) (Nat.add_lt_add_left hk _)
    split_ifs
    all_goals first
      | exact writesIn_setRsd W r _ _ _ hT (writesIn_setRsd W r _ _ _ hU
          (writesIn_setDiag W r _ _ _ hYe (writesIn_setRsd W r _ _ _ hYe
            (writesIn_speciesSum W _ _ _ _ r _ hY
              (writesIn_setDiag W r _ _ _ hL (writesIn_setRsd W r _ _ _ hL
                (writesIn_setRsd W r _ _ _ hV h)))))))
      | exact writesIn_setDiag W r _ _ _ hYe (writesIn_setRsd W r _ _ _ hYe
          (writesIn_speciesSum W _ _ _ _ r _ hY
            (writesIn_setDiag W r _ _ _ hL (writesIn_setRsd W r _ _ _ hL
              (writesIn_setRsd W r _ _ _ hV h)))))
  have hA : writesIn W r (s.evalRightBoundaryAxiStagn x r0 rdt) := by
    unfold evalRightBoundaryAxiStagn
    simp only []
    exact writesIn_setDiag W r _ _ _ (hW 4 (by omega)) (writesIn_setRsd W r _ _ _ (hW 4 (by omega))
      (writesIn_speciesSum W _ _ _ _ r _ hY4
        (writesIn_setDiag W r _ _ _ hL (writesIn_setRsd W r _ _ _ hL
          (writesIn_setRsd W r _ _ _ (hW 2 (by omega)) (writesIn_setRsd W r _ _ _ (hW 1 (by omega))
            (writesIn_setRsd W r _ _ _ (hW 0 (by omega)) h)))))))
  unfold evalRightBoundaryVirtual
  cases s.cls
  · exact hS
  · exact hA
  · exact hA


theorem writesIn_evalPoint (W : Nat → Prop) (c : Consts) (x : Nat → ℚ) (rdt : ℚ) (j : Nat)
    (e : EvalState) (r : Resid)
    (hkl : e.dom.m_kExcessLeft < e.dom.m_nsp) (hkr : e.dom.m_kExcessRight < e.dom.m_nsp)
    (hW : ∀ n, n < c_offset_Y + e.dom.m_nsp → W (e.dom.m_nv * j + n))
    (h : writesIn W r e.res) :
    writesIn W r (evalPoint c x rdt j e).res := by
  unfold evalPoint
  by_cases h0 : j = 0
  · rw [if_pos h0]
    subst h0
    exact writesIn_evalLeftBoundary W e.dom x r e.res hkl hW h
  · rw [if_neg h0]
    by_cases h1 : j = e.dom.m_points - 1
    · rw [if_pos h1]
      subst h1
      exact writesIn_setRsd W r _ _ _ (hW c_offset_E (by simp only [c_offset_E, c_offset_Y]; omega))
        (writesIn_evalRightBoundaryVirtual W e.dom x r e.res rdt hkr hW h)
    · rw [if_neg h1]
      exact writesIn_evalInterior W c e x rdt j r hW h

theorem evalPoint_E (c : Consts) (x : Nat → ℚ) (rdt : ℚ) (j : Nat) (e : EvalState) :
    (evalPoint c x rdt j e).res.rsd (e.dom.m_nv * j + c_offset_E)
      = x (e.dom.m_nv * j + c_offset_E) := by
  unfold evalPoint
  by_cases h0 : j = 0
  · rw [if_pos h0]
    subst h0
    exact setRsd_rsd_eq _ _ _
  · rw [if_neg h0]
    by_cases h1 : j = e.dom.m_points - 1
    · rw [if_pos h1]
      exact setRsd_rsd_eq _ _ _
    · rw [if_neg h1]
      have hV : e.dom.index c_offset_V j ≠ e.dom.m_nv * j + c_offset_E := by
        simp only [index, c_offset_V, c_offset_E]; omega
      have hT : e.dom.index c_offset_T j ≠ e.dom.m_nv * j + c_offset_E := by
        simp only [index, c_offset_T, c_offset_E]; omega
      have hL : e.dom.index c_offset_L j ≠ e.dom.m_nv * j + c_offset_E := by
        simp only [index, c_offset_L, c_offset_E]; omega
      have hY : ∀ k, k < (e.dom.getWdot x j).m_nsp →
          (e.dom.getWdot x j).index (c_offset_Y + k) j ≠ e.dom.m_nv * j + c_offset_E := by
        intro k _
        show e.dom.m_nv * j + (c_offset_Y + k) ≠ e.dom.m_nv * j + c_offset_E
        simp only [c_offset_Y, c_offset_E]; omega
      have key : writesIn (fun i => i ≠ e.dom.m_nv * j + c_offset_E)
          ((e.dom.evalContinuityVirtual j x e.res rdt).setRsd (e.dom.index c_offset_E j)
            (x (e.dom.index c_offset_E j)))
          (evalInterior c e x rdt j).res := by
        unfold evalInterior
        simp only []
        refine writesIn_setDiag _ _ _ _ _ ?_ (writesIn_setRsd _ _ _ _ _ ?_
          (writesIn_evalEnergyRow _ c _ x rdt j _ hT
            (writesIn_speciesLoop _ _ _ 1 _ _ _ hY
              (writesIn_setDiag _ _ _ _ _ hV (writesIn_setRsd _ _ _ _ _ hV
                (writesIn_refl _ _))))))
        · unfold index
          rw [evalEnergyRow_nv]
          exact hL
        · unfold index
          rw [evalEnergyRow_nv]
          exact hL
      rw [(key _ (fun hne => hne rfl)).1]
      exact setRsd_rsd_eq _ _ _

end StFlow


theorem writesIn_mono (W W2 : Nat → Prop) (r r2 : Resid) (hsub : ∀ i, W i → W2 i)
    (h : writesIn W r r2) : writesIn W2 r r2 :=
  fun i hi => h i (fun hw => hi (hsub i hw))

theorem rows_lt (nv j h n : Nat) (hn : n < nv) (hj : j < h) : nv * j + n < nv * h := by
  have := Nat.mul_le_mul_left nv (Nat.succ_le_of_lt hj)
  rw [Nat.mul_succ] at this
  omega

theorem rows_ge (nv lo j n : Nat) (hj : lo ≤ j) : nv * lo ≤ nv * j + n := by
  have := Nat.mul_le_mul_left nv hj
  omega

namespace StFlow

theorem evalPoints_rows (c : Consts) (x : Nat → ℚ) (rdt : ℚ) (lo hi : Nat) (e0 : EvalState)
    (hle : lo ≤ hi) (hnv : c_offset_Y + e0.dom.m_nsp ≤ e0.dom.m_nv)
    (hkl : e0.dom.m_kExcessLeft < e0.dom.m_nsp) (hkr : e0.dom.m_kExcessRight < e0.dom.m_nsp) :
    writesIn (fun i => e0.dom.m_nv * lo ≤ i ∧ i < e0.dom.m_nv * hi) e0.res
        (forRange lo hi (evalPoint c x rdt) e0).res
      ∧ ∀ j, lo ≤ j → j < hi →
          (forRange lo hi (evalPoint c x rdt) e0).res.rsd (e0.dom.m_nv * j + c_offset_E)
            = x (e0.dom.m_nv * j + c_offset_E) := by
  have h5 : c_offset_Y = 5 := rfl
  have h4 : c_offset_E = 4 := rfl
  have key := forRange_induction_idx
    (fun h (t : EvalState) => (∃ th wd, t.dom = withThermoWdot e0.dom th wd)
      ∧ writesIn (fun i => e0.dom.m_nv * lo ≤ i ∧ i < e0.dom.m_nv * h) e0.res t.res
      ∧ ∀ j, lo ≤ j → j < h → t.res.rsd (e0.dom.m_nv * j + c_offset_E)
          = x (e0.dom.m_nv * j + c_offset_E))
    lo hi (evalPoint c x rdt) e0 hle
    ⟨⟨e0.dom.m_thermo, e0.dom.m_wdot, rfl⟩, writesIn_refl _ _, fun j h1 h2 => absurd h2 (by omega)⟩
    (by
      intro h t hlo hhi ht
      obtain ⟨⟨th, wd, hd⟩, hw, hE⟩ := ht
      have e1 : t.dom.m_nv = e0.dom.m_nv := by rw [hd]; rfl
      have e2 : t.dom.m_nsp = e0.dom.m_nsp := by rw [hd]; rfl
      have e3 : t.dom.m_kExcessLeft = e0.dom.m_kExcessLeft := by rw [hd]; rfl
      have e4 : t.dom.m_kExcessRight = e0.dom.m_kExcessRight := by rw [hd]; rfl
      obtain ⟨th2, wd2, hd2⟩ := evalPoint_dom c x rdt h t
      have hrow : writesIn (inRows e0.dom.m_nv h) t.res (evalPoint c x rdt h t).res :=
        writesIn_evalPoint _ c x rdt h t t.res (by rw [e3, e2]; exact hkl) (by rw [e4, e2]; exact hkr)
          (fun n hn => by
            rw [e1]
            exact inRows_index _ _ _ (by rw [e2] at hn; omega))
          (writesIn_refl _ _)
      refine ⟨⟨th2, wd2, by rw [hd2, hd]; rfl⟩, ?_, ?_⟩
      · refine writesIn_trans _ _ _ _ (writesIn_mono _ _ _ _ ?_ hw) (writesIn_mono _ _ _ _ ?_ hrow)
        · intro i hi
          have := Nat.mul_le_mul_left e0.dom.m_nv (Nat.le_add_right h 1)
          exact ⟨hi.1, by omega⟩
        · intro i hi
          have := Nat.mul_le_mul_left e0.dom.m_nv hlo
          exact ⟨by unfold inRows at hi; omega, hi.2⟩
      · intro j hj1 hj2
        by_cases hjh : j = h
        · subst hjh
          have := evalPoint_E c x rdt j t
          rw [e1] at this
          exact this
        · have hlt : j < h := by omega
          have hnot : ¬ inRows e0.dom.m_nv h (e0.dom.m_nv * j + c_offset_E) := by
            unfold inRows
            have := rows_lt e0.dom.m_nv j h c_offset_E (by omega) hlt
            omega
          rw [(hrow _ hnot).1]
          exact hE j hj1 hlt)
  exact ⟨key.2.1, key.2.2⟩

end StFlow

/-! ## The steps of `eval` -/


namespace StFlow

/-- The index returned by `maxElementIndex` is in range, holds a largest
value and is the first index that does. -/
theorem maxElementIndex_spec (f : Nat → ℚ) (n : Nat) (hn : 1 ≤ n) :
    maxElementIndex f n < n ∧ (∀ m, m < n → f m ≤ f (maxElementIndex f n))
      ∧ ∀ m, m < maxElementIndex f n → f m < f (maxElementIndex f n) := by
  unfold maxElementIndex
  refine forRange_induction_idx
    (fun h r => r < h ∧ (∀ m, m < h → f m ≤ f r) ∧ ∀ m, m < r → f m < f r) 1 n _ 0 hn
    ⟨by omega, fun m hm => by have : m = 0 := by omega
                              subst this; exact le_refl _, fun m hm => absurd hm (by omega)⟩ ?_
  intro j r _ _ hr
  obtain ⟨h1, h2, h3⟩ := hr
  by_cases hlt : f r < f j
  · simp only [if_pos hlt]
    refine ⟨by omega, fun m hm => ?_, fun m hm => lt_of_le_of_lt (h2 m hm) hlt⟩
    by_cases hmj : m = j
    · subst hmj; exact le_refl _
    · exact le_of_lt (lt_of_le_of_lt (h2 m (by omega)) hlt)
  · simp only [if_neg hlt]
    refine ⟨by omega, fun m hm => ?_, h3⟩
    by_cases hmj : m = j
    · subst hmj; exact not_lt.mp hlt
    · exact h2 m (by omega)


/-- The member function `updateProperties` as its first two steps followed by
the choice of the excess species and the flux update. -/
theorem updateProperties_eq (s : StFlow) (jg : Nat) (x : Nat → ℚ) (jmin jmax : Nat) :
    s.updateProperties jg x jmin jmax
      = (if jg = npos then
          { { (propsStage s jg x jmin jmax) with
              m_kExcessLeft := maxElementIndex
                (fun k => x ((propsStage s jg x jmin jmax).index c_offset_Y jmin + k))
                (propsStage s jg x jmin jmax).m_nsp } with
            m_kExcessRight := maxElementIndex
              (fun k => x ((propsStage s jg x jmin jmax).index c_offset_Y jmax + k))
              (propsStage s jg x jmin jmax).m_nsp }
        else propsStage s jg x jmin jmax).updateDiffFluxes x (faceLo jmin) (faceHi s jmax) := rfl

/-- The first two steps of `updateProperties` write the caches only. -/
theorem propsStage_config (s : StFlow) (jg : Nat) (x : Nat → ℚ) (jmin jmax : Nat) :
    eraseTransport (eraseThermo (propsStage s jg x jmin jmax)) = eraseTransport (eraseThermo s) := by
  have h1 := eraseThermo_updateThermo s x (faceLo jmin) (faceHi s jmax)
  have c1 : ∀ t : StFlow, eraseTransport (eraseThermo t) = eraseThermo (eraseTransport t) :=
    fun _ => rfl
  unfold propsStage
  simp only []
  split_ifs
  · rw [c1, eraseTransport_updateTransport, ← c1, h1]
  · rw [h1]

/-- A field that the erasers keep is the same before and after the first two steps of `updateProperties`. -/
theorem propsStage_field {α : Type} (f : StFlow → α)
    (hf : ∀ u, f (eraseTransport (eraseThermo u)) = f u)
    (s : StFlow) (jg : Nat) (x : Nat → ℚ) (jmin jmax : Nat) :
    f (propsStage s jg x jmin jmax) = f s := by
  rw [← hf (propsStage s jg x jmin jmax), propsStage_config, hf]

/-- The excess species after `updateProperties`. -/
theorem updateProperties_kExcess (s : StFlow) (jg : Nat) (x : Nat → ℚ) (jmin jmax : Nat) :
    (s.updateProperties jg x jmin jmax).m_kExcessLeft
        = (if jg = npos then maxElementIndex (fun k => x (s.index c_offset_Y jmin + k)) s.m_nsp
           else s.m_kExcessLeft)
      ∧ (s.updateProperties jg x jmin jmax).m_kExcessRight
        = (if jg = npos then maxElementIndex (fun k => x (s.index c_offset_Y jmax + k)) s.m_nsp
           else s.m_kExcessRight) := by
  have hnv : (propsStage s jg x jmin jmax).m_nv = s.m_nv :=
    propsStage_field (fun u => u.m_nv) (fun _ => rfl) s jg x jmin jmax
  have hnsp : (propsStage s jg x jmin jmax).m_nsp = s.m_nsp :=
    propsStage_field (fun u => u.m_nsp) (fun _ => rfl) s jg x jmin jmax
  have hl : (propsStage s jg x jmin jmax).m_kExcessLeft = s.m_kExcessLeft :=
    propsStage_field (fun u => u.m_kExcessLeft) (fun _ => rfl) s jg x jmin jmax
  have hr : (propsStage s jg x jmin jmax).m_kExcessRight = s.m_kExcessRight :=
    propsStage_field (fun u => u.m_kExcessRight) (fun _ => rfl) s jg x jmin jmax
  rw [updateProperties_eq]
  by_cases hjg : jg = npos
  · simp only [if_pos hjg]
    constructor
    · show maxElementIndex (fun k => x ((propsStage s jg x jmin jmax).m_nv * jmin + c_offset_Y + k))
        (propsStage s jg x jmin jmax).m_nsp = maxElementIndex (fun k => x (s.m_nv * jmin + c_offset_Y + k)) s.m_nsp
      rw [hnv, hnsp]
    · show maxElementIndex (fun k => x ((propsStage s jg x jmin jmax).m_nv * jmax + c_offset_Y + k))
        (propsStage s jg x jmin jmax).m_nsp = maxElementIndex (fun k => x (s.m_nv * jmax + c_offset_Y + k)) s.m_nsp
      rw [hnv, hnsp]
  · simp only [if_neg hjg]
    exact ⟨hl, hr⟩

/-- The member function `evalResidual` keeps the excess species and the
transport caches. -/
theorem evalResidual_dom (c : Consts) (s : StFlow) (x : Nat → ℚ) (r : Resid) (rdt : ℚ)
    (jmin jmax : Nat) :
    (evalResidual c s x r rdt jmin jmax).dom.m_kExcessLeft = s.m_kExcessLeft
      ∧ (evalResidual c s x r rdt jmin jmax).dom.m_kExcessRight = s.m_kExcessRight
      ∧ transportCaches (evalResidual c s x r rdt jmin jmax).dom = transportCaches s := by
  obtain ⟨th, wd, h⟩ := evalPoints_dom c x rdt jmin (jmax + 1) ⟨evalRadiation c s x jmin jmax, r⟩
  have h0 : (evalResidual c s x r rdt jmin jmax).dom
      = withThermoWdot (evalRadiation c s x jmin jmax) th wd := h
  rw [h0]
  unfold evalRadiation
  split_ifs
  · exact ⟨rfl, rfl, rfl⟩
  · exact ⟨rfl, rfl, rfl⟩

/-- A field that `eraseCaches` keeps is the same in two objects that agree up
to the caches. -/
theorem eraseCaches_field {α : Type} (f : StFlow → α) (hf : ∀ u, f (eraseCaches u) = f u)
    (t s : StFlow) (h : eraseCaches t = eraseCaches s) : f t = f s := by
  rw [← hf t, h, hf]

/-- The result of `eval` when the guard at its top does not return. -/
theorem eval_inside (c : Consts) (s : StFlow) (jg : Nat) (xg rg : Nat → ℚ) (diagg : Nat → Int)
    (rdt : ℚ) (hg : ¬ (jg ≠ npos ∧ (addSz jg 1 < s.firstPoint ∨ jg > addSz s.lastPoint 1))) :
    (s.eval c jg xg rg diagg rdt).state.dom = (evalLocal c s jg xg rg diagg rdt).dom
      ∧ (s.eval c jg xg rg diagg rdt).state.rg
          = unshiftPtr rg s.loc (evalLocal c s jg xg rg diagg rdt).res.rsd
      ∧ (s.eval c jg xg rg diagg rdt).state.diagg
          = unshiftPtr diagg s.loc (evalLocal c s jg xg rg diagg rdt).res.diag := by
  have hloc : (evalProps s jg xg).loc = s.loc :=
    eraseCaches_field (fun u => u.loc) (fun _ => rfl) _ _ (eraseCaches_updateProperties s jg _ _ _)
  have h : (s.eval c jg xg rg diagg rdt).state
      = ⟨(evalLocal c s jg xg rg diagg rdt).dom,
          unshiftPtr rg (evalProps s jg xg).loc (evalLocal c s jg xg rg diagg rdt).res.rsd,
          unshiftPtr diagg (evalProps s jg xg).loc (evalLocal c s jg xg rg diagg rdt).res.diag⟩ := by
    unfold eval
    rw [if_neg hg]
    rfl
  rw [h, hloc]
  exact ⟨rfl, rfl, rfl⟩

end StFlow


/-- An index between the rows of point `lo` and the rows of point `hi` is a
component of a point between them. -/
theorem rows_decompose (nv lo hi i : Nat) (hnv : 0 < nv) (h1 : nv * lo ≤ i) (h2 : i < nv * hi) :
    ∃ j n, lo ≤ j ∧ j < hi ∧ n < nv ∧ i = nv * j + n :=
  ⟨i / nv, i % nv, (Nat.le_div_iff_mul_le hnv).mpr (by rw [Nat.mul_comm]; exact h1),
    (Nat.div_lt_iff_lt_mul hnv).mpr (by rw [Nat.mul_comm]; exact h2), Nat.mod_lt _ hnv,
    (Nat.div_add_mod i nv).symm⟩

namespace StFlow

/-- The window of a call of `eval` at a global point inside the domain. -/
theorem evalWindow_inside (s : StFlow) (jg : Nat) (hN : 1 ≤ s.m_points)
    (hfit : s.m_jstart + s.m_points < 2 ^ 64) (hlo : s.firstPoint ≤ jg) (hhi : jg ≤ s.lastPoint) :
    jg ≠ npos ∧ ¬ (jg ≠ npos ∧ (addSz jg 1 < s.firstPoint ∨ jg > addSz s.lastPoint 1))
      ∧ evalJmin s jg = max (jg - s.firstPoint) 1 - 1
      ∧ evalJmax s jg = min (jg - s.firstPoint + 1) (s.m_points - 1) := by
  unfold evalJmin evalJmax
  unfold firstPoint lastPoint at *
  unfold addSz subSz npos
  have h64 : (2 : Nat) ^ 64 = 18446744073709551616 := by norm_num
  rw [h64] at hfit ⊢
  refine ⟨by omega, ?_, ?_, ?_⟩
  · rintro ⟨_, h | h⟩
    · omega
    · omega
  · split_ifs <;> omega
  · split_ifs <;> omega

/-- The window of a full evaluation. -/
theorem evalWindow_full (s : StFlow) (jg : Nat) (hjg : jg = npos) (hN : 1 ≤ s.m_points)
    (hfit : s.m_points < 2 ^ 64) :
    ¬ (jg ≠ npos ∧ (addSz jg 1 < s.firstPoint ∨ jg > addSz s.lastPoint 1))
      ∧ evalJmin s jg = 0 ∧ evalJmax s jg = s.m_points - 1 := by
  unfold evalJmin evalJmax
  refine ⟨fun h => h.1 hjg, if_pos hjg, ?_⟩
  rw [if_pos hjg]
  unfold subSz
  have h64 : (2 : Nat) ^ 64 = 18446744073709551616 := by norm_num
  rw [h64] at hfit ⊢
  omega

/-- The call of `evalResidual` made by `eval` writes only rows of the points
of its window, and leaves in the row of the electric field of each of them
the value of the solution array. -/
theorem evalLocal_rows (c : Consts) (s : StFlow) (jg : Nat) (xg rg : Nat → ℚ) (diagg : Nat → Int)
    (rdt : ℚ) (hnv : c_offset_Y + s.m_nsp ≤ s.m_nv) (hnsp : 1 ≤ s.m_nsp)
    (hkl : s.m_kExcessLeft < s.m_nsp) (hkr : s.m_kExcessRight < s.m_nsp)
    (hle : evalJmin s jg ≤ evalJmax s jg + 1) :
    writesIn (fun i => s.m_nv * evalJmin s jg ≤ i ∧ i < s.m_nv * (evalJmax s jg + 1))
        ⟨shiftPtr rg s.loc, shiftPtr diagg s.loc⟩ (evalLocal c s jg xg rg diagg rdt).res
      ∧ ∀ j, evalJmin s jg ≤ j → j < evalJmax s jg + 1 →
          (evalLocal c s jg xg rg diagg rdt).res.rsd (s.m_nv * j + c_offset_E)
            = shiftPtr xg s.loc (s.m_nv * j + c_offset_E) := by
  have hc : eraseCaches (evalRadiation c (evalProps s jg xg) (shiftPtr xg s.loc)
      (evalJmin s jg) (evalJmax s jg)) = eraseCaches s :=
    (eraseCaches_evalRadiation _ _ _ _ _).trans (eraseCaches_updateProperties _ _ _ _ _)
  have e1 : (evalRadiation c (evalProps s jg xg) (shiftPtr xg s.loc)
      (evalJmin s jg) (evalJmax s jg)).m_nv = s.m_nv :=
    eraseCaches_field (fun u => u.m_nv) (fun _ => rfl) _ _ hc
  have e2 : (evalRadiation c (evalProps s jg xg) (shiftPtr xg s.loc)
      (evalJmin s jg) (evalJmax s jg)).m_nsp = s.m_nsp :=
    eraseCaches_field (fun u => u.m_nsp) (fun _ => rfl) _ _ hc
  have hk := updateProperties_kExcess s jg (shiftPtr xg s.loc) (evalJmin s jg) (evalJmax s jg)
  have hkl2 : (evalRadiation c (evalProps s jg xg) (shiftPtr xg s.loc)
      (evalJmin s jg) (evalJmax s jg)).m_kExcessLeft < s.m_nsp := by
    have : (evalRadiation c (evalProps s jg xg) (shiftPtr xg s.loc)
        (evalJmin s jg) (evalJmax s jg)).m_kExcessLeft = (evalProps s jg xg).m_kExcessLeft := by
      unfold evalRadiation; split_ifs <;> rfl
    rw [this]
    unfold evalProps
    rw [hk.1]
    split_ifs
    · exact (maxElementIndex_spec _ _ hnsp).1
    · exact hkl
  have hkr2 : (evalRadiation c (evalProps s jg xg) (shiftPtr xg s.loc)
      (evalJmin s jg) (evalJmax s jg)).m_kExcessRight < s.m_nsp := by
    have : (evalRadiation c (evalProps s jg xg) (shiftPtr xg s.loc)
        (evalJmin s jg) (evalJmax s jg)).m_kExcessRight = (evalProps s jg xg).m_kExcessRight := by
      unfold evalRadiation; split_ifs <;> rfl
    rw [this]
    unfold evalProps
    rw [hk.2]
    split_ifs
    · exact (maxElementIndex_spec _ _ hnsp).1
    · exact hkr
  have key := evalPoints_rows c (shiftPtr xg s.loc) rdt (evalJmin s jg) (evalJmax s jg + 1)
    ⟨evalRadiation c (evalProps s jg xg) (shiftPtr xg s.loc) (evalJmin s jg) (evalJmax s jg),
      ⟨shiftPtr rg s.loc, shiftPtr diagg s.loc⟩⟩ hle
    (by show c_offset_Y + (evalRadiation c (evalProps s jg xg) (shiftPtr xg s.loc)
          (evalJmin s jg) (evalJmax s jg)).m_nsp ≤ (evalRadiation c (evalProps s jg xg) (shiftPtr xg s.loc)
          (evalJmin s jg) (evalJmax s jg)).m_nv
        rw [e1, e2]; exact hnv)
    (by show (evalRadiation c (evalProps s jg xg) (shiftPtr xg s.loc)
          (evalJmin s jg) (evalJmax s jg)).m_kExcessLeft < (evalRadiation c (evalProps s jg xg)
          (shiftPtr xg s.loc) (evalJmin s jg) (evalJmax s jg)).m_nsp
        rw [e2]; exact hkl2)
    (by show (evalRadiation c (evalProps s jg xg) (shiftPtr xg s.loc)
          (evalJmin s jg) (evalJmax s jg)).m_kExcessRight < (evalRadiation c (evalProps s jg xg)
          (shiftPtr xg s.loc) (evalJmin s jg) (evalJmax s jg)).m_nsp
        rw [e2]; exact hkr2)
  simp only [] at key
  rw [e1] at key
  exact key

end StFlow

/-! ## The evaluation window and the excess species -/

namespace StFlow

/-- Reading the global array at an entry of the domain. -/
theorem unshiftPtr_at {α : Type} (p q : Nat → α) (off i : Nat) :
    unshiftPtr p off q (off + i) = q i := by
  unfold unshiftPtr
  rw [if_pos (Nat.le_add_right off i), Nat.add_sub_cancel_left]

/-- A full evaluation leaves in the electric-field row of every point the
value of the solution array. -/
theorem eval_full_E_rows (c : Consts) (s : StFlow) (jg : Nat) (xg rg : Nat → ℚ)
    (diagg : Nat → Int) (rdt : ℚ) (hjg : jg = npos)
    (hnv : c_offset_Y + s.m_nsp ≤ s.m_nv) (hnsp : 1 ≤ s.m_nsp)
    (hkl : s.m_kExcessLeft < s.m_nsp) (hkr : s.m_kExcessRight < s.m_nsp)
    (hN : 1 ≤ s.m_points) (hfit : s.m_points < 2 ^ 64) (j : Nat) (hj : j < s.m_points) :
    (s.eval c jg xg rg diagg rdt).state.rg (s.loc + s.index c_offset_E j)
      = xg (s.loc + s.index c_offset_E j) := by
  obtain ⟨hg, hmin, hmax⟩ := evalWindow_full s jg hjg hN hfit
  have hle : evalJmin s jg ≤ evalJmax s jg + 1 := by rw [hmin]; omega
  obtain ⟨_, hE⟩ := evalLocal_rows c s jg xg rg diagg rdt hnv hnsp hkl hkr hle
  obtain ⟨_, hrg, _⟩ := eval_inside c s jg xg rg diagg rdt hg
  rw [hmin, hmax] at hE
  rw [hrg, unshiftPtr_at]
  have hj2 : j < s.m_points - 1 + 1 := by omega
  exact hE j (Nat.zero_le j) hj2

/-- C11: on a well-formed object (at least `c_offset_Y + nsp` components per
point, at least one species and one point, excess-species indices below
`nsp`, point indices that fit `size_t`), a windowed call of `StFlow::eval`
with `firstPoint() <= jg <= lastPoint()` and `jpt = jg - firstPoint()` leaves
unchanged every entry of the global residual array that is not a component of
a local point `j` with `max(jpt,1)-1 <= j <= min(jpt+1, N-1)`; these points
are exactly those of `jpt-1`, `jpt`, `jpt+1` that exist, and each of them is
evaluated (its electric-field row holds the value of the solution array);
with `jg = npos` every point `0..N-1` is evaluated. -/
theorem eval_writes_stencil_rows_only (c : Consts) (s : StFlow) (jg : Nat) (xg rg : Nat → ℚ)
    (diagg : Nat → Int) (rdt : ℚ)
    (hnv : c_offset_Y + s.m_nsp ≤ s.m_nv) (hnsp : 1 ≤ s.m_nsp)
    (hkl : s.m_kExcessLeft < s.m_nsp) (hkr : s.m_kExcessRight < s.m_nsp)
    (hN : 1 ≤ s.m_points) (hfit : s.m_jstart + s.m_points < 2 ^ 64) :
    (s.firstPoint ≤ jg → jg ≤ s.lastPoint →
      (∀ g, (∀ j n, max (jg - s.firstPoint) 1 - 1 ≤ j →
              j ≤ min (jg - s.firstPoint + 1) (s.m_points - 1) → n < s.m_nv →
              g ≠ s.loc + s.index n j) →
          (s.eval c jg xg rg diagg rdt).state.rg g = rg g)
      ∧ (∀ j, max (jg - s.firstPoint) 1 - 1 ≤ j →
            j ≤ min (jg - s.firstPoint + 1) (s.m_points - 1) →
          (s.eval c jg xg rg diagg rdt).state.rg (s.loc + s.index c_offset_E j)
            = xg (s.loc + s.index c_offset_E j))
      ∧ (∀ j, (max (jg - s.firstPoint) 1 - 1 ≤ j
              ∧ j ≤ min (jg - s.firstPoint + 1) (s.m_points - 1))
          ↔ (j < s.m_points
              ∧ (j + 1 = jg - s.firstPoint ∨ j = jg - s.firstPoint
                  ∨ j = jg - s.firstPoint + 1))))
    ∧ (∀ j, j < s.m_points →
        (s.eval c npos xg rg diagg rdt).state.rg (s.loc + s.index c_offset_E j)
          = xg (s.loc + s.index c_offset_E j)) := by
  have h5 : c_offset_Y = 5 := rfl
  constructor
  · intro hlo hhi
    obtain ⟨_, hg, hmin, hmax⟩ := evalWindow_inside s jg hN hfit hlo hhi
    have hle : evalJmin s jg ≤ evalJmax s jg + 1 := by
      rw [hmin, hmax]
      unfold firstPoint lastPoint at *
      omega
    obtain ⟨hw, hE⟩ := evalLocal_rows c s jg xg rg diagg rdt hnv hnsp hkl hkr hle
    obtain ⟨_, hrg, _⟩ := eval_inside c s jg xg rg diagg rdt hg
    rw [hmin, hmax] at hw hE
    refine ⟨?_, ?_, ?_⟩
    · intro g hgout
      rw [hrg]
      unfold unshiftPtr
      by_cases hloc : s.loc ≤ g
      · rw [if_pos hloc]
        have hnot : ¬ (s.m_nv * (max (jg - s.firstPoint) 1 - 1) ≤ g - s.loc
            ∧ g - s.loc < s.m_nv * (min (jg - s.firstPoint + 1) (s.m_points - 1) + 1)) := by
          rintro ⟨h1, h2⟩
          obtain ⟨j, n, hj1, hj2, hn, hi⟩ := rows_decompose _ _ _ _ (by omega) h1 h2
          exact hgout j n hj1 (by omega) hn (by unfold index; omega)
        rw [(hw _ hnot).1]
        show rg (s.loc + (g - s.loc)) = rg g
        rw [Nat.add_sub_cancel' hloc]
      · rw [if_neg hloc]
    · intro j hj1 hj2
      rw [hrg, unshiftPtr_at]
      exact hE j hj1 (by omega)
    · intro j
      unfold firstPoint lastPoint at *
      omega
  · intro j hj
    exact eval_full_E_rows c s npos xg rg diagg rdt rfl hnv hnsp hkl hkr hN
      (lt_of_le_of_lt (Nat.le_add_left _ _) hfit) j hj

/-- Witness for `eval_writes_stencil_rows_only`: a windowed call at global
point 2 of the concrete domain (local points 0 to 2) leaves entry 24, a row of
local point 3, alone and evaluates local point 2; a full evaluation evaluates
local point 3. -/
theorem eval_writes_stencil_rows_only_witness :
    (demoFlow.eval demoConsts 2 demoXg demoRg demoDiagg 1).state.rg 24 = demoRg 24
      ∧ (demoFlow.eval demoConsts 2 demoXg demoRg demoDiagg 1).state.rg
          (demoFlow.loc + demoFlow.index c_offset_E 2) = demoXg (demoFlow.loc + demoFlow.index c_offset_E 2)
      ∧ (demoFlow.eval demoConsts npos demoXg demoRg demoDiagg 1).state.rg
          (demoFlow.loc + demoFlow.index c_offset_E 3) = demoXg (demoFlow.loc + demoFlow.index c_offset_E 3) :=
  have h := eval_writes_stencil_rows_only demoConsts demoFlow 2 demoXg demoRg demoDiagg 1
    (by decide) (by decide) (by decide) (by decide) (by decide)
    (by rw [show demoFlow.m_jstart + demoFlow.m_points = 5 from rfl]; norm_num)
  have hf := eval_writes_stencil_rows_only demoConsts demoFlow npos demoXg demoRg demoDiagg 1
    (by decide) (by decide) (by decide) (by decide) (by decide)
    (by rw [show demoFlow.m_jstart + demoFlow.m_points = 5 from rfl]; norm_num)
  ⟨(h.1 (by decide) (by decide)).1 24 (fun j n h1 h2 h3 => by
      have e1 : demoFlow.firstPoint = 1 := rfl
      have e2 : demoFlow.m_points = 4 := rfl
      have e3 : demoFlow.m_nv = 7 := rfl
      have e4 : demoFlow.loc = 3 := rfl
      unfold index
      rw [e3] at h3 ⊢
      rw [e1, e2] at h2
      rw [e4]
      omega),
    (h.1 (by decide) (by decide)).2.1 2 (by decide) (by decide),
    hf.2 3 (by decide)⟩

end StFlow
namespace StFlow

/-- The excess species after `eval`. -/
theorem eval_kExcess (c : Consts) (s : StFlow) (jg : Nat) (xg rg : Nat → ℚ)
    (diagg : Nat → Int) (rdt : ℚ) :
    (s.eval c jg xg rg diagg rdt).state.dom.m_kExcessLeft
        = (if jg = npos then
            maxElementIndex (fun k => shiftPtr xg s.loc (s.index c_offset_Y (evalJmin s jg) + k)) s.m_nsp
           else s.m_kExcessLeft)
      ∧ (s.eval c jg xg rg diagg rdt).state.dom.m_kExcessRight
        = (if jg = npos then
            maxElementIndex (fun k => shiftPtr xg s.loc (s.index c_offset_Y (evalJmax s jg) + k)) s.m_nsp
           else s.m_kExcessRight) := by
  by_cases hg : jg ≠ npos ∧ (addSz jg 1 < s.firstPoint ∨ jg > addSz s.lastPoint 1)
  · have h : (s.eval c jg xg rg diagg rdt).state.dom = s := by
      unfold eval
      rw [if_pos hg]
    rw [h, if_neg hg.1, if_neg hg.1]
    exact ⟨rfl, rfl⟩
  · obtain ⟨hd, _, _⟩ := eval_inside c s jg xg rg diagg rdt hg
    obtain ⟨h1, h2, _⟩ := evalResidual_dom c (evalProps s jg xg) (shiftPtr xg s.loc)
      ⟨shiftPtr rg s.loc, shiftPtr diagg s.loc⟩ rdt (evalJmin s jg) (evalJmax s jg)
    have hk := updateProperties_kExcess s jg (shiftPtr xg s.loc) (evalJmin s jg) (evalJmax s jg)
    rw [hd]
    exact ⟨h1.trans hk.1, h2.trans hk.2⟩

/-- The excess species after a full evaluation are the first largest mass
fractions of the two boundary points. -/
theorem eval_excess_full (c : Consts) (s : StFlow) (jg : Nat) (xg rg : Nat → ℚ)
    (diagg : Nat → Int) (rdt : ℚ) (hjg : jg = npos) (hnsp : 1 ≤ s.m_nsp) (hN : 1 ≤ s.m_points)
    (hfit : s.m_points < 2 ^ 64) :
    ((s.eval c jg xg rg diagg rdt).state.dom.leftExcessSpecies < s.m_nsp
      ∧ (∀ m, m < s.m_nsp → s.Y (shiftPtr xg s.loc) m 0
          ≤ s.Y (shiftPtr xg s.loc) (s.eval c jg xg rg diagg rdt).state.dom.leftExcessSpecies 0)
      ∧ (∀ m, m < (s.eval c jg xg rg diagg rdt).state.dom.leftExcessSpecies →
          s.Y (shiftPtr xg s.loc) m 0
            < s.Y (shiftPtr xg s.loc) (s.eval c jg xg rg diagg rdt).state.dom.leftExcessSpecies 0))
    ∧ ((s.eval c jg xg rg diagg rdt).state.dom.rightExcessSpecies < s.m_nsp
      ∧ (∀ m, m < s.m_nsp → s.Y (shiftPtr xg s.loc) m (s.m_points - 1)
          ≤ s.Y (shiftPtr xg s.loc) (s.eval c jg xg rg diagg rdt).state.dom.rightExcessSpecies
              (s.m_points - 1))
      ∧ (∀ m, m < (s.eval c jg xg rg diagg rdt).state.dom.rightExcessSpecies →
          s.Y (shiftPtr xg s.loc) m (s.m_points - 1)
            < s.Y (shiftPtr xg s.loc) (s.eval c jg xg rg diagg rdt).state.dom.rightExcessSpecies
                (s.m_points - 1))) := by
  obtain ⟨_, hmin, hmax⟩ := evalWindow_full s jg hjg hN hfit
  obtain ⟨hl, hr⟩ := eval_kExcess c s jg xg rg diagg rdt
  rw [if_pos hjg, hmin] at hl
  rw [if_pos hjg, hmax] at hr
  have hY : ∀ m j, s.Y (shiftPtr xg s.loc) m j = shiftPtr xg s.loc (s.index c_offset_Y j + m) := by
    intro m j
    unfold Y index
    rw [Nat.add_assoc]
  unfold leftExcessSpecies rightExcessSpecies
  rw [hl, hr]
  simp only [hY]
  exact ⟨maxElementIndex_spec _ _ hnsp, maxElementIndex_spec _ _ hnsp⟩

/-- C15: after a full evaluation (`jg = npos`) by `StFlow::eval` on an object
with at least one species and one point, `leftExcessSpecies()` is a species
index whose mass fraction at point 0 is maximal and larger than that of every
smaller index, `rightExcessSpecies()` is the same for point `N-1`; a windowed
evaluation leaves both indices unchanged. -/
theorem eval_excess_species (c : Consts) (s : StFlow) (xg rg : Nat → ℚ) (diagg : Nat → Int)
    (rdt : ℚ) (hnsp : 1 ≤ s.m_nsp) (hN : 1 ≤ s.m_points) (hfit : s.m_points < 2 ^ 64) :
    ((s.eval c npos xg rg diagg rdt).state.dom.leftExcessSpecies < s.m_nsp
      ∧ (∀ m, m < s.m_nsp → s.Y (shiftPtr xg s.loc) m 0
          ≤ s.Y (shiftPtr xg s.loc) (s.eval c npos xg rg diagg rdt).state.dom.leftExcessSpecies 0)
      ∧ (∀ m, m < (s.eval c npos xg rg diagg rdt).state.dom.leftExcessSpecies →
          s.Y (shiftPtr xg s.loc) m 0
            < s.Y (shiftPtr xg s.loc) (s.eval c npos xg rg diagg rdt).state.dom.leftExcessSpecies 0))
    ∧ ((s.eval c npos xg rg diagg rdt).state.dom.rightExcessSpecies < s.m_nsp
      ∧ (∀ m, m < s.m_nsp → s.Y (shiftPtr xg s.loc) m (s.m_points - 1)
          ≤ s.Y (shiftPtr xg s.loc) (s.eval c npos xg rg diagg rdt).state.dom.rightExcessSpecies
              (s.m_points - 1))
      ∧ (∀ m, m < (s.eval c npos xg rg diagg rdt).state.dom.rightExcessSpecies →
          s.Y (shiftPtr xg s.loc) m (s.m_points - 1)
            < s.Y (shiftPtr xg s.loc) (s.eval c npos xg rg diagg rdt).state.dom.rightExcessSpecies
                (s.m_points - 1)))
    ∧ (∀ jg, jg ≠ npos →
        (s.eval c jg xg rg diagg rdt).state.dom.leftExcessSpecies = s.leftExcessSpecies
          ∧ (s.eval c jg xg rg diagg rdt).state.dom.rightExcessSpecies = s.rightExcessSpecies) := by
  obtain ⟨h1, h2⟩ := eval_excess_full c s npos xg rg diagg rdt rfl hnsp hN hfit
  refine ⟨h1, h2, ?_⟩
  intro jg hjg
  obtain ⟨hl, hr⟩ := eval_kExcess c s jg xg rg diagg rdt
  rw [if_neg hjg] at hl hr
  exact ⟨hl, hr⟩

/-- Witness for `eval_excess_species` on the concrete domain. -/
theorem eval_excess_species_witness :
    (demoFlow.eval demoConsts npos demoXg demoRg demoDiagg 0).state.dom.rightExcessSpecies < demoFlow.m_nsp
      ∧ demoFlow.Y (shiftPtr demoXg demoFlow.loc) 0 3
          ≤ demoFlow.Y (shiftPtr demoXg demoFlow.loc)
              (demoFlow.eval demoConsts npos demoXg demoRg demoDiagg 0).state.dom.rightExcessSpecies 3
      ∧ (demoFlow.eval demoConsts 2 demoXg demoRg demoDiagg 0).state.dom.leftExcessSpecies
          = demoFlow.leftExcessSpecies :=
  have h := eval_excess_species demoConsts demoFlow demoXg demoRg demoDiagg 0
    (by decide) (by decide) (by rw [show demoFlow.m_points = 4 from rfl]; norm_num)
  ⟨h.2.1.1, h.2.1.2.1 0 (by decide), (h.2.2 2 (by decide)).1⟩

end StFlow

/-! ## The transport update in closed form -/

namespace StFlow

/-- The member function `updateTransport` as a loop of its face bodies. -/
theorem updateTransport_eq (s : StFlow) (x : Nat → ℚ) (j0 j1 : Nat) :
    s.updateTransport x j0 j1
      = if s.m_do_multicomponent then forRange j0 j1 (transportFaceMulti x) s
        else forRange j0 j1 (transportFaceMix x) s := rfl

/-- The loop of `setGasAtMidpoint` writes `m_ybar` only. -/
theorem ybarLoop_eq (t : StFlow) (x : Nat → ℚ) (j n : Nat) :
    forRange 0 n (fun k s =>
        let v := 1 / 2 * (x (s.m_nv * j + c_offset_Y + k) + x (s.m_nv * (j + 1) + c_offset_Y + k))
        { s with m_ybar := s.m_ybar.set k v }) t
      = { t with m_ybar := forRange 0 n (fun k yb => yb.set k (ybarAt t x j k)) t.m_ybar } := by
  refine forRange_induction_idx
    (fun h u => u = { t with m_ybar := forRange 0 h (fun k yb => yb.set k (ybarAt t x j k)) t.m_ybar })
    0 n _ t (Nat.zero_le n) ?_ ?_
  · show t = { t with m_ybar := forRange 0 0 (fun k yb => yb.set k (ybarAt t x j k)) t.m_ybar }
    rw [forRange_empty _ _ _ _ (Nat.le_refl 0)]
  · intro h u _ _ hu
    show _ = { t with m_ybar := forRange 0 (h + 1) (fun k yb => yb.set k (ybarAt t x j k)) t.m_ybar }
    rw [forRange_succ _ _ _ _ (Nat.zero_le h), hu]
    rfl

/-- The member function `setGasAtMidpoint` in closed form, when `m_ybar`
holds at least `nsp` entries. -/
theorem setGasAtMidpoint_eq (t : StFlow) (x : Nat → ℚ) (j : Nat) (hyb : t.m_nsp ≤ t.m_ybar.length) :
    t.setGasAtMidpoint x j
      = withTransport t (forRange 0 t.m_nsp (fun k yb => yb.set k (ybarAt t x j k)) t.m_ybar)
          (midCursor t x j) t.m_visc t.m_tcon t.m_diff t.m_multidiff t.m_dthermal.data := by
  have hmap : (List.range t.m_nsp).map
        (fun k => vget (forRange 0 t.m_nsp (fun k yb => yb.set k (ybarAt t x j k)) t.m_ybar) k)
      = (List.range t.m_nsp).map (fun k =>
          1 / 2 * (x (t.m_nv * j + c_offset_Y + k) + x (t.m_nv * (j + 1) + c_offset_Y + k))) := by
    apply List.map_congr_left
    intro k hk
    have hk2 : k < t.m_nsp := List.mem_range.mp hk
    exact (forRange_set_spec (ybarAt t x j) 0 t.m_nsp t.m_ybar).2.1 k (Nat.zero_le k) hk2
      (by omega)
  unfold setGasAtMidpoint
  rw [ybarLoop_eq]
  unfold withTransport midCursor setCursor
  simp only []
  rw [hmap]
  rfl

end StFlow

namespace StFlow

/-- The face body of the mixture-averaged branch in closed form. -/
theorem transportFaceMix_eq (x : Nat → ℚ) (j : Nat) (u : StFlow) (hyb : u.m_nsp ≤ u.m_ybar.length) :
    transportFaceMix x j u
      = withTransport u (forRange 0 u.m_nsp (fun k yb => yb.set k (ybarAt u x j k)) u.m_ybar)
          (midCursor u x j) (u.m_visc.set j (viscAt u x j))
          (u.m_tcon.set j (u.m_trans.thermalConductivity (midCursor u x j)))
          (writeBlock u.m_diff (j * u.m_nsp) u.m_nsp (u.m_trans.mixDiffCoeffs (midCursor u x j)))
          u.m_multidiff u.m_dthermal.data := by
  unfold transportFaceMix
  rw [setGasAtMidpoint_eq u x j hyb]
  rfl

/-- The species loop of the multicomponent branch writes `m_diff` only. -/
theorem diffLoop_eq (t : StFlow) (j n : Nat) (rho wtm : ℚ) :
    forRange 0 n (fun k s =>
        { s with m_diff := s.m_diff.set (k + j * s.m_nsp) (vget s.m_wt k * rho / (wtm * wtm)) }) t
      = { t with m_diff := forRange 0 n (fun k d =>
            d.set (k + j * t.m_nsp) (vget t.m_wt k * rho / (wtm * wtm))) t.m_diff } := by
  refine forRange_induction_idx
    (fun h u => u = { t with m_diff := forRange 0 h (fun k d =>
            d.set (k + j * t.m_nsp) (vget t.m_wt k * rho / (wtm * wtm))) t.m_diff })
    0 n _ t (Nat.zero_le n) ?_ ?_
  · show t = { t with m_diff := forRange 0 0 (fun k d =>
            d.set (k + j * t.m_nsp) (vget t.m_wt k * rho / (wtm * wtm))) t.m_diff }
    rw [forRange_empty _ _ _ _ (Nat.le_refl 0)]
  · intro h u _ _ hu
    show _ = { t with m_diff := forRange 0 (h + 1) (fun k d =>
            d.set (k + j * t.m_nsp) (vget t.m_wt k * rho / (wtm * wtm))) t.m_diff }
    rw [forRange_succ _ _ _ _ (Nat.zero_le h), hu]

/-- Replacing the transport caches keeps the Soret flag. -/
theorem withTransport_soret (t : StFlow) (yb : List ℚ) (cur : GasCursor)
    (a b d md dth : List ℚ) :
    (withTransport t yb cur a b d md dth).m_do_soret = t.m_do_soret := rfl

/-- The face body of the multicomponent branch in closed form. -/
theorem transportFaceMulti_eq (x : Nat → ℚ) (j : Nat) (u : StFlow)
    (hyb : u.m_nsp ≤ u.m_ybar.length) :
    transportFaceMulti x j u
      = withTransport u (forRange 0 u.m_nsp (fun k yb => yb.set k (ybarAt u x j k)) u.m_ybar)
          (midCursor u x j) (u.m_visc.set j (viscAt u x j))
          (u.m_tcon.set j (u.m_trans.thermalConductivity (midCursor u x j)))
          (forRange 0 u.m_nsp (fun k d => d.set (k + j * u.m_nsp) (multiDiffAt u x j k)) u.m_diff)
          (writeBlock u.m_multidiff (u.mindex 0 0 j) (u.m_nsp * u.m_nsp)
            (u.m_trans.multiDiffCoeffs (midCursor u x j)))
          (if u.m_do_soret then
            writeBlock u.m_dthermal.data (u.m_dthermal.nrows * 0 + j * u.m_nsp) u.m_nsp
              (u.m_trans.thermalDiffCoeffs (midCursor u x j))
           else u.m_dthermal.data) := by
  unfold transportFaceMulti
  rw [setGasAtMidpoint_eq u x j hyb]
  lift_lets
  extract_lets s1 wtm rho visc s2 md s3 s4 s5
  have h4 : s4 = { s3 with m_diff := forRange 0 s3.m_nsp (fun k d =>
      d.set (k + j * s3.m_nsp) (vget s3.m_wt k * rho / (wtm * wtm))) s3.m_diff } :=
    diffLoop_eq s3 j s3.m_nsp rho wtm
  have h4c : s4 = withTransport u
      (forRange 0 u.m_nsp (fun k yb => yb.set k (ybarAt u x j k)) u.m_ybar)
      (midCursor u x j) (u.m_visc.set j (viscAt u x j)) u.m_tcon
      (forRange 0 u.m_nsp (fun k d => d.set (k + j * u.m_nsp) (multiDiffAt u x j k)) u.m_diff)
      (writeBlock u.m_multidiff (u.mindex 0 0 j) (u.m_nsp * u.m_nsp)
        (u.m_trans.multiDiffCoeffs (midCursor u x j))) u.m_dthermal.data := by
    rw [h4]
    rfl
  have h5 : s5 = withTransport u
      (forRange 0 u.m_nsp (fun k yb => yb.set k (ybarAt u x j k)) u.m_ybar)
      (midCursor u x j) (u.m_visc.set j (viscAt u x j))
      (u.m_tcon.set j (u.m_trans.thermalConductivity (midCursor u x j)))
      (forRange 0 u.m_nsp (fun k d => d.set (k + j * u.m_nsp) (multiDiffAt u x j k)) u.m_diff)
      (writeBlock u.m_multidiff (u.mindex 0 0 j) (u.m_nsp * u.m_nsp)
        (u.m_trans.multiDiffCoeffs (midCursor u x j))) u.m_dthermal.data := by
    show { s4 with m_tcon := _ } = _
    rw [h4c]
    rfl
  simp only []
  rw [h4c, withTransport_soret]
  by_cases hs : u.m_do_soret = true
  · rw [if_pos hs, if_pos hs]
    rfl
  · rw [if_neg hs, if_neg hs]
    exact h5

end StFlow

namespace StFlow

/-- The loop of the mixture-averaged branch of `updateTransport` in closed
form: every cache is the result of its own loop of stores. -/
theorem mixLoop_eq (t : StFlow) (x : Nat → ℚ) (j0 j1 : Nat) (hle : j0 ≤ j1)
    (hyb : t.m_nsp ≤ t.m_ybar.length) :
    ∃ yb cur, forRange j0 j1 (transportFaceMix x) t
      = withTransport t yb cur
          (forRange j0 j1 (fun j v => v.set j (viscAt t x j)) t.m_visc)
          (forRange j0 j1 (fun j v => v.set j (t.m_trans.thermalConductivity (midCursor t x j))) t.m_tcon)
          (forRange j0 j1 (fun j d =>
            writeBlock d (j * t.m_nsp) t.m_nsp (t.m_trans.mixDiffCoeffs (midCursor t x j))) t.m_diff)
          t.m_multidiff t.m_dthermal.data := by
  have key := forRange_induction_idx
    (fun h u => ∃ yb cur, t.m_nsp ≤ yb.length ∧ u = withTransport t yb cur
          (forRange j0 h (fun j v => v.set j (viscAt t x j)) t.m_visc)
          (forRange j0 h (fun j v => v.set j (t.m_trans.thermalConductivity (midCursor t x j))) t.m_tcon)
          (forRange j0 h (fun j d =>
            writeBlock d (j * t.m_nsp) t.m_nsp (t.m_trans.mixDiffCoeffs (midCursor t x j))) t.m_diff)
          t.m_multidiff t.m_dthermal.data)
    j0 j1 (transportFaceMix x) t hle
    ⟨t.m_ybar, t.m_thermo.cursor, hyb, by
      rw [forRange_empty _ _ _ _ (Nat.le_refl j0), forRange_empty _ _ _ _ (Nat.le_refl j0),
        forRange_empty _ _ _ _ (Nat.le_refl j0)]
      rfl⟩
    (by
      intro h u hlo _ hu
      obtain ⟨yb, cur, hlen, hu⟩ := hu
      have hyb2 : u.m_nsp ≤ u.m_ybar.length := by rw [hu]; exact hlen
      refine ⟨forRange 0 u.m_nsp (fun k yb => yb.set k (ybarAt u x h k)) u.m_ybar, midCursor u x h, ?_, ?_⟩
      · rw [(forRange_set_spec _ 0 u.m_nsp u.m_ybar).1, hu]
        exact hlen
      · rw [transportFaceMix_eq x h u hyb2, forRange_succ _ _ _ _ hlo, forRange_succ _ _ _ _ hlo,
          forRange_succ _ _ _ _ hlo]
        rw [hu]
        rfl)
  obtain ⟨yb, cur, _, h⟩ := key
  exact ⟨yb, cur, h⟩

/-- The loop of the multicomponent branch of `updateTransport` in closed form. -/
theorem multiLoop_eq (t : StFlow) (x : Nat → ℚ) (j0 j1 : Nat) (hle : j0 ≤ j1)
    (hyb : t.m_nsp ≤ t.m_ybar.length) :
    ∃ yb cur, forRange j0 j1 (transportFaceMulti x) t
      = withTransport t yb cur
          (forRange j0 j1 (fun j v => v.set j (viscAt t x j)) t.m_visc)
          (forRange j0 j1 (fun j v => v.set j (t.m_trans.thermalConductivity (midCursor t x j))) t.m_tcon)
          (forRange j0 j1 (fun j d =>
            forRange 0 t.m_nsp (fun k d => d.set (k + j * t.m_nsp) (multiDiffAt t x j k)) d) t.m_diff)
          (forRange j0 j1 (fun j md =>
            writeBlock md (t.mindex 0 0 j) (t.m_nsp * t.m_nsp)
              (t.m_trans.multiDiffCoeffs (midCursor t x j))) t.m_multidiff)
          (forRange j0 j1 (fun j dth =>
            if t.m_do_soret then
              writeBlock dth (t.m_dthermal.nrows * 0 + j * t.m_nsp) t.m_nsp
                (t.m_trans.thermalDiffCoeffs (midCursor t x j))
            else dth) t.m_dthermal.data) := by
  have key := forRange_induction_idx
    (fun h u => ∃ yb cur, t.m_nsp ≤ yb.length ∧ u = withTransport t yb cur
          (forRange j0 h (fun j v => v.set j (viscAt t x j)) t.m_visc)
          (forRange j0 h (fun j v => v.set j (t.m_trans.thermalConductivity (midCursor t x j))) t.m_tcon)
          (forRange j0 h (fun j d =>
            forRange 0 t.m_nsp (fun k d => d.set (k + j * t.m_nsp) (multiDiffAt t x j k)) d) t.m_diff)
          (forRange j0 h (fun j md =>
            writeBlock md (t.mindex 0 0 j) (t.m_nsp * t.m_nsp)
              (t.m_trans.multiDiffCoeffs (midCursor t x j))) t.m_multidiff)
          (forRange j0 h (fun j dth =>
            if t.m_do_soret then
              writeBlock dth (t.m_dthermal.nrows * 0 + j * t.m_nsp) t.m_nsp
                (t.m_trans.thermalDiffCoeffs (midCursor t x j))
            else dth) t.m_dthermal.data))
    j0 j1 (transportFaceMulti x) t hle
    ⟨t.m_ybar, t.m_thermo.cursor, hyb, by
      rw [forRange_empty _ _ _ _ (Nat.le_refl j0), forRange_empty _ _ _ _ (Nat.le_refl j0),
        forRange_empty _ _ _ _ (Nat.le_refl j0), forRange_empty _ _ _ _ (Nat.le_refl j0),
        forRange_empty _ _ _ _ (Nat.le_refl j0)]
      rfl⟩
    (by
      intro h u hlo _ hu
      obtain ⟨yb, cur, hlen, hu⟩ := hu
      have hyb2 : u.m_nsp ≤ u.m_ybar.length := by rw [hu]; exact hlen
      refine ⟨forRange 0 u.m_nsp (fun k yb => yb.set k (ybarAt u x h k)) u.m_ybar, midCursor u x h, ?_, ?_⟩
      · rw [(forRange_set_spec _ 0 u.m_nsp u.m_ybar).1, hu]
        exact hlen
      · rw [transportFaceMulti_eq x h u hyb2, forRange_succ _ _ _ _ hlo, forRange_succ _ _ _ _ hlo,
          forRange_succ _ _ _ _ hlo, forRange_succ _ _ _ _ hlo, forRange_succ _ _ _ _ hlo]
        rw [hu]
        rfl)
  obtain ⟨yb, cur, _, h⟩ := key
  exact ⟨yb, cur, h⟩

end StFlow

namespace StFlow

/-- A block write keeps the length, stores the `n` values and leaves every
entry outside the block alone. -/
theorem writeBlock_spec (q : List ℚ) (off n : Nat) (f : Nat → ℚ) :
    (writeBlock q off n f).length = q.length
      ∧ (∀ k, k < n → off + k < q.length → vget (writeBlock q off n f) (off + k) = f k)
      ∧ (∀ i, (i < off ∨ off + n ≤ i) → vget (writeBlock q off n f) i = vget q i) := by
  unfold writeBlock
  induction n with
  | zero =>
    rw [forRange_empty _ _ _ _ (Nat.le_refl 0)]
    exact ⟨rfl, fun k hk => absurd hk (Nat.not_lt_zero k), fun _ _ => rfl⟩
  | succ n ih =>
    rw [forRange_succ _ _ _ _ (Nat.zero_le n)]
    obtain ⟨h1, h2, h3⟩ := ih
    refine ⟨by rw [List.length_set, h1], ?_, ?_⟩
    · intro k hk hlen
      by_cases hkn : k = n
      · subst hkn
        exact vget_set_eq _ _ _ (by rw [h1]; exact hlen)
      · rw [vget_set_ne _ _ _ _ (by omega)]
        exact h2 k (by omega) hlen
    · intro i hi
      rw [vget_set_ne _ _ _ _ (by omega)]
      exact h3 i (by omega)

/-- A loop of block writes into consecutive blocks of size `B`. -/
theorem blocksLoop_spec (B : Nat) (f : Nat → Nat → ℚ) (lo hi : Nat) (q : List ℚ) :
    (forRange lo hi (fun j q => writeBlock q (j * B) B (f j)) q).length = q.length
      ∧ (∀ j, lo ≤ j → j < hi → ∀ k, k < B → j * B + k < q.length →
          vget (forRange lo hi (fun j q => writeBlock q (j * B) B (f j)) q) (j * B + k) = f j k)
      ∧ (∀ i, (i < lo * B ∨ hi * B ≤ i) →
          vget (forRange lo hi (fun j q => writeBlock q (j * B) B (f j)) q) i = vget q i) := by
  induction hi with
  | zero =>
    rw [forRange_empty _ _ _ _ (Nat.zero_le _)]
    exact ⟨rfl, fun j _ h => absurd h (Nat.not_lt_zero j), fun _ _ => rfl⟩
  | succ hi ih =>
    by_cases h : lo ≤ hi
    · rw [forRange_succ _ _ _ _ h]
      obtain ⟨h1, h2, h3⟩ := ih
      obtain ⟨w1, w2, w3⟩ := writeBlock_spec
        (forRange lo hi (fun j q => writeBlock q (j * B) B (f j)) q) (hi * B) B (f hi)
      refine ⟨w1.trans h1, ?_, ?_⟩
      · intro j hj1 hj2 k hk hlen
        by_cases hjh : j = hi
        · subst hjh
          exact w2 k hk (by rw [h1]; exact hlen)
        · have hlt : j * B + k < hi * B := by
            have := Nat.mul_le_mul_right B (show j + 1 ≤ hi by omega)
            rw [Nat.add_mul] at this
            omega
          rw [w3 _ (Or.inl hlt)]
          exact h2 j hj1 (by omega) k hk hlen
      · intro i hi2
        have e1 := Nat.mul_le_mul_right B h
        have e2 : (hi + 1) * B = hi * B + B := by rw [Nat.add_mul]; omega
        rw [w3 i (by omega)]
        exact h3 i (by omega)
    · rw [forRange_empty _ _ _ _ (by omega)]
      refine ⟨rfl, fun j h1 h2 => absurd h2 (by omega), fun _ _ => rfl⟩

/-- A loop whose body does nothing. -/
theorem forRange_id {σ : Type} (lo hi : Nat) (s : σ) : forRange lo hi (fun _ t => t) s = s :=
  forRange_induction (fun t => t = s) lo hi _ s rfl (fun _ _ _ _ h => h)

/-- The first entry of the block of face `j` in `m_multidiff`. -/
theorem mindex_face (t : StFlow) (j : Nat) : t.mindex 0 0 j = j * (t.m_nsp * t.m_nsp) := by
  unfold mindex
  simp only [Nat.mul_zero, Nat.add_zero, Nat.mul_assoc]

end StFlow

namespace StFlow

/-- The species loop over `m_diff` is a block write. -/
theorem setLoop_eq_writeBlock (d : List ℚ) (off n : Nat) (w : Nat → ℚ) :
    forRange 0 n (fun k d => d.set (k + off) (w k)) d = writeBlock d off n w := by
  unfold writeBlock
  have : (fun k (d : List ℚ) => d.set (k + off) (w k)) = (fun i v => v.set (off + i) (w i)) := by
    funext k d
    rw [Nat.add_comm]
  rw [this]

/-- A field that `eraseThermo` keeps is the same in two objects that agree up
to the thermodynamic caches. -/
theorem eraseThermo_field {α : Type} (f : StFlow → α) (hf : ∀ u, f (eraseThermo u) = f u)
    (t s : StFlow) (h : eraseThermo t = eraseThermo s) : f t = f s := by
  rw [← hf t, h, hf]

/-- What `updateTransport` leaves in the transport caches. -/
theorem updateTransport_values (t : StFlow) (x : Nat → ℚ) (j0 j1 : Nat)
    (hyb : t.m_nsp ≤ t.m_ybar.length) :
    (∀ j, j0 ≤ j → j < j1 →
      (j < t.m_visc.length → vget (t.updateTransport x j0 j1).m_visc j = viscAt t x j)
      ∧ (j < t.m_tcon.length →
          vget (t.updateTransport x j0 j1).m_tcon j = t.m_trans.thermalConductivity (midCursor t x j))
      ∧ (t.m_do_multicomponent = false → ∀ k, k < t.m_nsp → j * t.m_nsp + k < t.m_diff.length →
          vget (t.updateTransport x j0 j1).m_diff (j * t.m_nsp + k)
            = t.m_trans.mixDiffCoeffs (midCursor t x j) k)
      ∧ (t.m_do_multicomponent = true →
          (∀ k, k < t.m_nsp → j * t.m_nsp + k < t.m_diff.length →
            vget (t.updateTransport x j0 j1).m_diff (j * t.m_nsp + k) = multiDiffAt t x j k)
          ∧ (∀ i, i < t.m_nsp * t.m_nsp → j * (t.m_nsp * t.m_nsp) + i < t.m_multidiff.length →
            vget (t.updateTransport x j0 j1).m_multidiff (j * (t.m_nsp * t.m_nsp) + i)
              = t.m_trans.multiDiffCoeffs (midCursor t x j) i))
      ∧ (t.m_do_multicomponent = true → t.m_do_soret = true →
          ∀ k, k < t.m_nsp → j * t.m_nsp + k < t.m_dthermal.data.length →
            vget (t.updateTransport x j0 j1).m_dthermal.data (j * t.m_nsp + k)
              = t.m_trans.thermalDiffCoeffs (midCursor t x j) k))
    ∧ (t.m_do_multicomponent = false →
        (t.updateTransport x j0 j1).m_multidiff = t.m_multidiff
          ∧ (t.updateTransport x j0 j1).m_dthermal = t.m_dthermal)
    ∧ (t.m_do_soret = false → (t.updateTransport x j0 j1).m_dthermal = t.m_dthermal) := by
  by_cases hle : j0 ≤ j1
  · by_cases hm : t.m_do_multicomponent = true
    · obtain ⟨yb, cur, h⟩ := multiLoop_eq t x j0 j1 hle hyb
      have hr : t.updateTransport x j0 j1 = forRange j0 j1 (transportFaceMulti x) t := by
        rw [updateTransport_eq, if_pos hm]
      rw [hr, h]
      have hD : (fun j (d : List ℚ) =>
            forRange 0 t.m_nsp (fun k d => d.set (k + j * t.m_nsp) (multiDiffAt t x j k)) d)
          = (fun j d => writeBlock d (j * t.m_nsp) t.m_nsp (multiDiffAt t x j)) := by
        funext j d
        exact setLoop_eq_writeBlock d (j * t.m_nsp) t.m_nsp (multiDiffAt t x j)
      have hM : (fun j (md : List ℚ) =>
            writeBlock md (t.mindex 0 0 j) (t.m_nsp * t.m_nsp)
              (t.m_trans.multiDiffCoeffs (midCursor t x j)))
          = (fun j md => writeBlock md (j * (t.m_nsp * t.m_nsp)) (t.m_nsp * t.m_nsp)
              (t.m_trans.multiDiffCoeffs (midCursor t x j))) := by
        funext j md
        rw [mindex_face]
      refine ⟨?_, fun hmf => absurd hm (by rw [hmf]; decide), ?_⟩
      · intro j hj0 hj1
        refine ⟨?_, ?_, fun hmf => absurd hm (by rw [hmf]; decide), fun _ => ⟨?_, ?_⟩, ?_⟩
        · intro hlen
          exact (forRange_set_spec _ j0 j1 t.m_visc).2.1 j hj0 hj1 hlen
        · intro hlen
          exact (forRange_set_spec _ j0 j1 t.m_tcon).2.1 j hj0 hj1 hlen
        · intro k hk hlen
          show vget (forRange j0 j1 _ t.m_diff) _ = _
          rw [hD]
          exact (blocksLoop_spec t.m_nsp (multiDiffAt t x) j0 j1 t.m_diff).2.1 j hj0 hj1 k hk hlen
        · intro i hi hlen
          show vget (forRange j0 j1 _ t.m_multidiff) _ = _
          rw [hM]
          exact (blocksLoop_spec (t.m_nsp * t.m_nsp)
            (fun j => t.m_trans.multiDiffCoeffs (midCursor t x j)) j0 j1 t.m_multidiff).2.1
            j hj0 hj1 i hi hlen
        · intro _ hs k hk hlen
          show vget (forRange j0 j1 _ t.m_dthermal.data) _ = _
          have hT : (fun j (dth : List ℚ) =>
              if t.m_do_soret = true then
                writeBlock dth (t.m_dthermal.nrows * 0 + j * t.m_nsp) t.m_nsp
                  (t.m_trans.thermalDiffCoeffs (midCursor t x j))
              else dth)
            = (fun j dth => writeBlock dth (j * t.m_nsp) t.m_nsp
                (t.m_trans.thermalDiffCoeffs (midCursor t x j))) := by
            funext j dth
            rw [if_pos hs, Nat.mul_zero, Nat.zero_add]
          rw [hT]
          exact (blocksLoop_spec t.m_nsp (fun j => t.m_trans.thermalDiffCoeffs (midCursor t x j))
            j0 j1 t.m_dthermal.data).2.1 j hj0 hj1 k hk hlen
      · intro hs
        have hT : (fun (j : Nat) (dth : List ℚ) =>
              if t.m_do_soret = true then
                writeBlock dth (t.m_dthermal.nrows * 0 + j * t.m_nsp) t.m_nsp
                  (t.m_trans.thermalDiffCoeffs (midCursor t x j))
              else dth)
            = (fun _ dth => dth) := by
          funext j dth
          rw [if_neg (by rw [hs]; decide)]
        show ({ t.m_dthermal with data := forRange j0 j1 _ t.m_dthermal.data } : Array2D) = _
        rw [hT, forRange_id]
    · obtain ⟨yb, cur, h⟩ := mixLoop_eq t x j0 j1 hle hyb
      have hr : t.updateTransport x j0 j1 = forRange j0 j1 (transportFaceMix x) t := by
        rw [updateTransport_eq, if_neg hm]
      rw [hr, h]
      refine ⟨?_, fun _ => ⟨rfl, rfl⟩, fun _ => rfl⟩
      intro j hj0 hj1
      refine ⟨?_, ?_, fun _ => ?_, fun hmt => absurd hmt hm, fun hmt => absurd hmt hm⟩
      · intro hlen
        exact (forRange_set_spec _ j0 j1 t.m_visc).2.1 j hj0 hj1 hlen
      · intro hlen
        exact (forRange_set_spec _ j0 j1 t.m_tcon).2.1 j hj0 hj1 hlen
      · intro k hk hlen
        exact (blocksLoop_spec t.m_nsp (fun j => t.m_trans.mixDiffCoeffs (midCursor t x j))
          j0 j1 t.m_diff).2.1 j hj0 hj1 k hk hlen
  · have hr : t.updateTransport x j0 j1 = t := by
      rw [updateTransport_eq]
      split_ifs
      · exact forRange_empty _ _ _ _ (by omega)
      · exact forRange_empty _ _ _ _ (by omega)
    rw [hr]
    exact ⟨fun j h1 h2 => absurd h2 (by omega), fun _ => ⟨rfl, rfl⟩, fun _ => rfl⟩

end StFlow

/-! ## The transport caches after `eval` -/

namespace StFlow

/-- The transport caches after the first two steps of `updateProperties`. -/
theorem propsStage_transport (s : StFlow) (jg : Nat) (x : Nat → ℚ) (jmin jmax : Nat)
    (hyb : s.m_nsp ≤ s.m_ybar.length) :
    (jg ≠ npos → s.m_force_full_update = false →
      transportCaches (propsStage s jg x jmin jmax) = transportCaches s)
    ∧ ((jg = npos ∨ s.m_force_full_update = true) →
      transportRefreshed s x (faceLo jmin) (faceHi s jmax)
        (transportCaches (propsStage s jg x jmin jmax))) := by
  have hth := eraseThermo_updateThermo s x (faceLo jmin) (faceHi s jmax)
  have hflag : (s.updateThermo x (faceLo jmin) (faceHi s jmax)).m_force_full_update
      = s.m_force_full_update :=
    eraseThermo_field (fun u => u.m_force_full_update) (fun _ => rfl) _ _ hth
  constructor
  · intro hjg hoff
    have hP : propsStage s jg x jmin jmax = s.updateThermo x (faceLo jmin) (faceHi s jmax) := by
      unfold propsStage
      simp only []
      rw [hflag, if_neg]
      rintro (h | h)
      · exact hjg h
      · rw [hoff] at h
        exact Bool.noConfusion h
    rw [hP]
    exact eraseThermo_field transportCaches (fun _ => rfl) _ _ hth
  · intro hfull
    have hP : propsStage s jg x jmin jmax
        = (s.updateThermo x (faceLo jmin) (faceHi s jmax)).updateTransport x
            (faceLo jmin) (faceHi s jmax) := by
      unfold propsStage
      simp only []
      rw [hflag, if_pos hfull]
    rw [hP]
    have hyb1 : (s.updateThermo x (faceLo jmin) (faceHi s jmax)).m_nsp
        ≤ (s.updateThermo x (faceLo jmin) (faceHi s jmax)).m_ybar.length := by
      rw [eraseThermo_field (fun u => u.m_nsp) (fun _ => rfl) _ _ hth,
        eraseThermo_field (fun u => u.m_ybar) (fun _ => rfl) _ _ hth]
      exact hyb
    have hv : transportRefreshed (s.updateThermo x (faceLo jmin) (faceHi s jmax)) x
        (faceLo jmin) (faceHi s jmax)
        (transportCaches ((s.updateThermo x (faceLo jmin) (faceHi s jmax)).updateTransport x
            (faceLo jmin) (faceHi s jmax))) :=
      updateTransport_values _ x _ _ hyb1
    have hE := eraseThermo_field
      (fun u => transportRefreshed u x (faceLo jmin) (faceHi s jmax)
        (transportCaches ((s.updateThermo x (faceLo jmin) (faceHi s jmax)).updateTransport x
            (faceLo jmin) (faceHi s jmax))))
      (fun _ => rfl) _ _ hth
    exact hE.mp hv

/-- The transport caches after `eval` are those left by the first two steps
of `updateProperties`. -/
theorem eval_transportCaches (c : Consts) (s : StFlow) (jg : Nat) (xg rg : Nat → ℚ)
    (diagg : Nat → Int) (rdt : ℚ) :
    (jg ≠ npos ∧ (addSz jg 1 < s.firstPoint ∨ jg > addSz s.lastPoint 1) →
      (s.eval c jg xg rg diagg rdt).state.dom = s)
    ∧ (¬ (jg ≠ npos ∧ (addSz jg 1 < s.firstPoint ∨ jg > addSz s.lastPoint 1)) →
      transportCaches (s.eval c jg xg rg diagg rdt).state.dom
        = transportCaches (propsStage s jg (shiftPtr xg s.loc) (evalJmin s jg) (evalJmax s jg))) := by
  constructor
  · intro hg
    unfold eval
    rw [if_pos hg]
  · intro hg
    obtain ⟨hd, _, _⟩ := eval_inside c s jg xg rg diagg rdt hg
    obtain ⟨_, _, h3⟩ := evalResidual_dom c (evalProps s jg xg) (shiftPtr xg s.loc)
      ⟨shiftPtr rg s.loc, shiftPtr diagg s.loc⟩ rdt (evalJmin s jg) (evalJmax s jg)
    rw [hd]
    refine h3.trans ?_
    unfold evalProps
    rw [updateProperties_eq]
    split_ifs
    · rfl
    · rfl

end StFlow

namespace StFlow

/-- Counterexample to C14 as stated: the concrete domain uses the
mixture-averaged closure; after a full evaluation, at face 0 (inside the
updated range) `m_multidiff` still holds 1 where the transport object gives 0,
and the thermal-diffusion array still holds 1 where it gives 0: these two
caches are not refreshed. -/
theorem full_eval_keeps_multidiff_under_mixture :
    demoFlow.m_do_multicomponent = false
      ∧ faceLo (evalJmin demoFlow npos) ≤ 0 ∧ 0 < faceHi demoFlow (evalJmax demoFlow npos)
      ∧ vget (demoFlow.eval demoConsts npos demoXg demoRg demoDiagg 0).state.dom.m_multidiff
          (demoFlow.mindex 0 0 0 + 2) = 1
      ∧ demoFlow.m_trans.multiDiffCoeffs (midCursor demoFlow (shiftPtr demoXg demoFlow.loc) 0) 2 = 0
      ∧ (demoFlow.eval demoConsts npos demoXg demoRg demoDiagg 0).state.dom.m_dthermal.get 0 0 = 1
      ∧ demoFlow.m_trans.thermalDiffCoeffs (midCursor demoFlow (shiftPtr demoXg demoFlow.loc) 0) 0 = 0 := by
  decide!

/-- C14, amended: in windowed mode (`jg != npos`) with the force-full-update
flag off, `StFlow::eval` leaves `m_visc`, `m_tcon`, `m_diff`, `m_multidiff`
and the thermal-diffusion coefficients unchanged; when `jg = npos` or the flag
is set, and the call is not skipped at the top of `eval`, every face `j` with
`j0 <= j < j1` (`j0 = max(jmin,1)-1`, `j1 = min(jmax+1, N-1)`) gets the
viscosity (zero when the viscosity flag is off), the thermal conductivity and
the diffusion coefficients of the closure in use computed at the face; the
multicomponent coefficients are refreshed under the multicomponent closure
only and the thermal-diffusion coefficients under the multicomponent closure
with Soret diffusion only, and otherwise both arrays keep their content. The
scratch array `m_ybar` is assumed to hold at least `nsp` entries. -/
theorem eval_transport_refresh (c : Consts) (s : StFlow) (jg : Nat) (xg rg : Nat → ℚ)
    (diagg : Nat → Int) (rdt : ℚ) (hyb : s.m_nsp ≤ s.m_ybar.length) :
    (jg ≠ npos → s.m_force_full_update = false →
      transportCaches (s.eval c jg xg rg diagg rdt).state.dom = transportCaches s)
    ∧ ((jg = npos ∨ s.m_force_full_update = true) →
      ¬ (jg ≠ npos ∧ (addSz jg 1 < s.firstPoint ∨ jg > addSz s.lastPoint 1)) →
      transportRefreshed s (shiftPtr xg s.loc) (faceLo (evalJmin s jg)) (faceHi s (evalJmax s jg))
        (transportCaches (s.eval c jg xg rg diagg rdt).state.dom)) := by
  obtain ⟨h1, h2⟩ := eval_transportCaches c s jg xg rg diagg rdt
  obtain ⟨p1, p2⟩ := propsStage_transport s jg (shiftPtr xg s.loc) (evalJmin s jg) (evalJmax s jg) hyb
  constructor
  · intro hjg hoff
    by_cases hg : jg ≠ npos ∧ (addSz jg 1 < s.firstPoint ∨ jg > addSz s.lastPoint 1)
    · rw [h1 hg]
    · rw [h2 hg]
      exact p1 hjg hoff
  · intro hfull hg
    rw [h2 hg]
    exact p2 hfull

/-- Witness for `eval_transport_refresh` on the concrete domain: a full
evaluation refreshes the viscosity of face 1, a windowed one at global point 2
keeps all transport caches. -/
theorem eval_transport_refresh_witness :
    vget (demoFlow.eval demoConsts npos demoXg demoRg demoDiagg 0).state.dom.m_visc 1
        = viscAt demoFlow (shiftPtr demoXg demoFlow.loc) 1
      ∧ transportCaches (demoFlow.eval demoConsts 2 demoXg demoRg demoDiagg 0).state.dom
        = transportCaches demoFlow :=
  ⟨(((eval_transport_refresh demoConsts demoFlow npos demoXg demoRg demoDiagg 0 (by decide)).2
      (Or.inl rfl) (fun hg => hg.1 rfl)).1 1 (by decide!) (by decide!)).1 (by decide),
    (eval_transport_refresh demoConsts demoFlow 2 demoXg demoRg demoDiagg 0 (by decide)).1
      (by decide) rfl⟩

end StFlow

/-! ## Component names and activity -/

namespace StFlow

/-- C24: `componentActive` is false for the unused potential component (index 4) whatever the flow
variant; for the strain-rate (1) and eigenvalue (3) components it is false exactly when the variant is
`cFreeFlow`; for every other index (velocity, temperature, species) it is true. -/
theorem componentActive_spec (s : StFlow) :
    componentActive s c_offset_E = false
      ∧ (componentActive s c_offset_V = false ↔ s.m_type = DomainType.cFreeFlow)
      ∧ (componentActive s c_offset_L = false ↔ s.m_type = DomainType.cFreeFlow)
      ∧ ∀ n, n ≠ c_offset_V → n ≠ c_offset_L → n ≠ c_offset_E → componentActive s n = true := by
  refine ⟨by simp [componentActive, c_offset_E, c_offset_V, c_offset_L], ?_, ?_, ?_⟩
  · simp [componentActive]
  · simp [componentActive, c_offset_V, c_offset_L]
  · intro n h1 h2 h3
    simp [componentActive, h1, h2, h3]

theorem componentActive_spec_witness :
    (componentActive demoFlowFree 1 = false ∧ componentActive demoFlowFree 3 = false)
      ∧ componentActive demoFlow 1 = true ∧ componentActive demoFlow 4 = false
      ∧ componentActive demoFlowFree 6 = true :=
  ⟨⟨(componentActive_spec demoFlowFree).2.1.mpr rfl, (componentActive_spec demoFlowFree).2.2.1.mpr rfl⟩,
    by decide, (componentActive_spec demoFlow).1,
    (componentActive_spec demoFlowFree).2.2.2 6 (by decide) (by decide) (by decide)⟩

theorem componentIndexLoop_none (s : StFlow) (name : String) (fuel n : Nat)
    (h : ∀ m, n ≤ m → m < n + fuel → s.componentName m ≠ name) :
    componentIndexLoop s name fuel n = none := by
  induction fuel generalizing n with
  | zero => rfl
  | succ fuel ih =>
    unfold componentIndexLoop
    rw [if_neg (h n (Nat.le_refl n) (by omega))]
    exact ih (n + 1) (fun m h1 h2 => h m (by omega) (by omega))

theorem componentIndexLoop_some (s : StFlow) (name : String) (fuel n t : Nat)
    (h1 : n ≤ t) (h2 : t < n + fuel) (ht : s.componentName t = name)
    (h : ∀ m, n ≤ m → m < t → s.componentName m ≠ name) :
    componentIndexLoop s name fuel n = some t := by
  induction fuel generalizing n with
  | zero => omega
  | succ fuel ih =>
    unfold componentIndexLoop
    by_cases hn : n = t
    · subst hn
      rw [if_pos ht]
    · rw [if_neg (h n (Nat.le_refl n) (by omega))]
      exact ih (n + 1) (by omega) (by omega) (fun m h1 h2 => h m (by omega) h2)

theorem componentName_species (s : StFlow) (hfit : s.m_nsp + c_offset_Y < 2 ^ 64) (n : Nat)
    (h1 : c_offset_Y ≤ n) (h2 : n < c_offset_Y + s.m_nsp) :
    s.componentName n = s.m_thermo.speciesName (n - c_offset_Y) := by
  have h64 : (2 : Nat) ^ 64 = 18446744073709551616 := by norm_num
  have h5 : c_offset_Y = 5 := rfl
  rw [h64, h5] at hfit
  rw [h5] at h1 h2
  have e0 : ¬ n = 0 := by omega
  have e1 : ¬ n = 1 := by omega
  have e2 : ¬ n = 2 := by omega
  have e3 : ¬ n = 3 := by omega
  have e4 : ¬ n = 4 := by omega
  have e5 : n ≥ c_offset_Y ∧ n < addSz c_offset_Y s.m_nsp := by
    unfold addSz
    rw [h64, h5]
    omega
  have e6 : subSz n c_offset_Y = n - c_offset_Y := by
    unfold subSz
    rw [h64, h5]
    omega
  unfold componentName
  rw [if_neg e0, if_neg e1, if_neg e2, if_neg e3, if_neg e4, if_pos e5, e6]

theorem componentName_unknown (s : StFlow) (hfit : s.m_nsp + c_offset_Y < 2 ^ 64) (n : Nat)
    (h : c_offset_Y + s.m_nsp ≤ n) : s.componentName n = "<unknown>" := by
  have h64 : (2 : Nat) ^ 64 = 18446744073709551616 := by norm_num
  have h5 : c_offset_Y = 5 := rfl
  rw [h64, h5] at hfit
  rw [h5] at h
  have e0 : ¬ n = 0 := by omega
  have e1 : ¬ n = 1 := by omega
  have e2 : ¬ n = 2 := by omega
  have e3 : ¬ n = 3 := by omega
  have e4 : ¬ n = 4 := by omega
  have e5 : ¬ (n ≥ c_offset_Y ∧ n < addSz c_offset_Y s.m_nsp) := by
    unfold addSz
    rw [h64, h5]
    omega
  unfold componentName
  rw [if_neg e0, if_neg e1, if_neg e2, if_neg e3, if_neg e4, if_neg e5]

/-- Fuel handed to the species search of `componentIndex` when the sizes fit a `size_t`. -/
theorem componentIndex_fuel (s : StFlow) (hfit : s.m_nsp + c_offset_Y < 2 ^ 64) :
    addSz s.m_nsp c_offset_Y - c_offset_Y = s.m_nsp := by
  have h64 : (2 : Nat) ^ 64 = 18446744073709551616 := by norm_num
  have h5 : c_offset_Y = 5 := rfl
  rw [h64, h5] at hfit
  unfold addSz
  rw [h64, h5]
  omega

/-- The species search of `componentIndex` for a name that is none of the fixed names. -/
theorem componentIndex_other (s : StFlow) (name : String)
    (hn : name ∉ ["velocity", "spread_rate", "T", "lambda", "eField"]) :
    s.componentIndex name
      = match componentIndexLoop s name (addSz s.m_nsp c_offset_Y - c_offset_Y) c_offset_Y with
        | some n => Except.ok n
        | none => Except.error ("StFlow1D::componentIndex: no component named " ++ name) := by
  simp only [List.mem_cons, List.mem_singleton, List.not_mem_nil, or_false, not_or] at hn
  obtain ⟨a0, a1, a2, a3, a4⟩ := hn
  unfold componentIndex
  rw [if_neg a0, if_neg a1, if_neg a2, if_neg a3, if_neg a4]

/-- C25: when the species names are pairwise distinct and none is a fixed component name, looking up the
name of any component `n < 5 + S` gives back `n`; the name of component `n` is the name of species `n - 5`
for `5 ≤ n < 5 + S` and `"<unknown>"` from `5 + S` on; and the lookup of a name that is neither fixed nor a
species name throws. -/
theorem componentIndex_componentName (s : StFlow)
    (hfit : s.m_nsp + c_offset_Y < 2 ^ 64)
    (hdist : ∀ a b, a < s.m_nsp → b < s.m_nsp →
      s.m_thermo.speciesName a = s.m_thermo.speciesName b → a = b)
    (hfix : ∀ k, k < s.m_nsp →
      s.m_thermo.speciesName k ∉ ["velocity", "spread_rate", "T", "lambda", "eField"]) :
    (∀ n, n < 5 + s.m_nsp → s.componentIndex (s.componentName n) = Except.ok n)
      ∧ (∀ n, 5 ≤ n → n < 5 + s.m_nsp → s.componentName n = s.m_thermo.speciesName (n - 5))
      ∧ (∀ n, 5 + s.m_nsp ≤ n → s.componentName n = "<unknown>")
      ∧ (∀ name, name ∉ ["velocity", "spread_rate", "T", "lambda", "eField"] →
          (∀ k, k < s.m_nsp → s.m_thermo.speciesName k ≠ name) →
          ∃ msg, s.componentIndex name = Except.error msg) := by
  have h5 : c_offset_Y = 5 := rfl
  have hsp : ∀ n, 5 ≤ n → n < 5 + s.m_nsp →
      s.componentName n = s.m_thermo.speciesName (n - 5) := fun n h1 h2 =>
    componentName_species s hfit n h1 h2
  refine ⟨?_, hsp, fun n h => componentName_unknown s hfit n h, ?_⟩
  · intro n hn
    by_cases hlt : n < 5
    · interval_cases n
      · rfl
      · rfl
      · rfl
      · rfl
      · rfl
    · have h1 : 5 ≤ n := Nat.le_of_not_lt hlt
      rw [componentIndex_other s _ (by rw [hsp n h1 hn]; exact hfix (n - 5) (by omega)),
        componentIndex_fuel s hfit,
        componentIndexLoop_some s _ s.m_nsp c_offset_Y n h1 (by rw [h5]; omega) rfl]
      intro m hm1 hm2 he
      rw [h5] at hm1
      rw [hsp n h1 hn, hsp m hm1 (by omega)] at he
      have := hdist (m - 5) (n - 5) (by omega) (by omega) he
      omega
  · intro name hname hk
    refine ⟨"StFlow1D::componentIndex: no component named " ++ name, ?_⟩
    rw [componentIndex_other s name hname, componentIndex_fuel s hfit,
      componentIndexLoop_none s name s.m_nsp c_offset_Y]
    intro m hm1 hm2
    rw [h5] at hm1 hm2
    rw [hsp m hm1 (by omega)]
    exact hk (m - 5) (by omega)

theorem componentIndex_componentName_witness :
    demoFlow.componentIndex (demoFlow.componentName 6) = Except.ok 6
      ∧ demoFlow.componentName 6 = "CO2"
      ∧ demoFlow.componentName 7 = "<unknown>"
      ∧ ∃ msg, demoFlow.componentIndex "N2" = Except.error msg :=
  have hfit : demoFlow.m_nsp + c_offset_Y < 2 ^ 64 := by
    rw [show demoFlow.m_nsp + c_offset_Y = 7 from rfl]; norm_num
  have hdist : ∀ a b, a < demoFlow.m_nsp → b < demoFlow.m_nsp →
      demoFlow.m_thermo.speciesName a = demoFlow.m_thermo.speciesName b → a = b := by
    intro a b ha hb
    have ha2 : a < 2 := ha
    have hb2 : b < 2 := hb
    interval_cases a <;> interval_cases b <;> decide
  have hfix : ∀ k, k < demoFlow.m_nsp →
      demoFlow.m_thermo.speciesName k ∉ ["velocity", "spread_rate", "T", "lambda", "eField"] := by
    intro k hk
    have hk2 : k < 2 := hk
    interval_cases k <;> decide
  have h := componentIndex_componentName demoFlow hfit hdist hfix
  ⟨h.1 6 (by decide), h.2.1 6 (by decide) (by decide), h.2.2.1 7 (by decide),
    h.2.2.2 "N2" (by decide) (by
      intro k hk
      have hk2 : k < 2 := hk
      interval_cases k <;> decide)⟩

end StFlow

/-! ## Rows of a single point -/

/-- A loop over `[lo, hi)` is the loop over `[m, hi)` after the loop over `[lo, m)`. -/
theorem forRange_split {σ : Type} (lo m hi : Nat) (body : Nat → σ → σ) (s : σ) (h1 : lo ≤ m)
    (h2 : m ≤ hi) : forRange lo hi body s = forRange m hi body (forRange lo m body s) := by
  induction hi with
  | zero =>
    have hm : m = 0 := by omega
    have hl : lo = 0 := by omega
    subst hm
    subst hl
    simp only [forRange_empty _ _ _ _ (Nat.le_refl 0)]
  | succ hi ih =>
    by_cases hm : m = hi + 1
    · subst hm
      rw [forRange_empty (hi + 1) (hi + 1) body _ (Nat.le_refl _)]
    · have hmh : m ≤ hi := by omega
      rw [forRange_succ lo hi body s (by omega), forRange_succ m hi body _ hmh, ih hmh]

theorem speciesLoop_diag (idx : Nat → Nat) (val : Nat → ℚ) (d : Int) (n : Nat) (r0 : Resid) :
    ∀ k, k < n →
      (forRange 0 n (fun k (q : Resid) => (q.setRsd (idx k) (val k)).setDiag (idx k) d) r0).diag (idx k)
        = d :=
  forRange_induction_idx (fun h (q : Resid) => ∀ k, k < h → q.diag (idx k) = d) 0 n _ r0
    (Nat.zero_le n) (fun k hk => absurd hk (Nat.not_lt_zero k)) (by
      intro h q _ _ hq k hk
      show ((q.setRsd (idx h) (val h)).setDiag (idx h) d).diag (idx k) = d
      by_cases e : idx k = idx h
      · rw [e]
        exact setDiag_diag_eq _ _ _
      · have hne : k ≠ h := fun hh => e (by rw [hh])
        rw [setDiag_diag_ne _ _ _ _ e, setRsd_diag]
        exact hq k (by omega))


theorem keep_setRsd_diag (r : Resid) (i : Nat) (v : ℚ) (t : Nat) (d : Int) (h : r.diag t = d) :
    (r.setRsd i v).diag t = d := h

theorem keep_setDiag_diag (r : Resid) (i : Nat) (v : Int) (t : Nat) (d : Int) (hne : t ≠ i)
    (h : r.diag t = d) : (r.setDiag i v).diag t = d := by
  rw [setDiag_diag_ne r i t v hne]
  exact h

theorem keep_setRsd_rsd (r : Resid) (i : Nat) (v : ℚ) (t : Nat) (d : ℚ) (hne : t ≠ i)
    (h : r.rsd t = d) : (r.setRsd i v).rsd t = d := by
  rw [setRsd_rsd_ne r i t v hne]
  exact h

theorem keep_setDiag_rsd (r : Resid) (i : Nat) (v : Int) (t : Nat) (d : ℚ) (h : r.rsd t = d) :
    (r.setDiag i v).rsd t = d := h

theorem keep_speciesLoop_diag (idx : Nat → Nat) (val : Nat → ℚ) (dd : Int) (n : Nat) (r0 : Resid)
    (t : Nat) (d : Int) (hne : ∀ k, k < n → t ≠ idx k) (h : r0.diag t = d) :
    (forRange 0 n (fun k (q : Resid) => (q.setRsd (idx k) (val k)).setDiag (idx k) dd) r0).diag t
      = d := by
  have key := writesIn_speciesLoop (fun i => i ≠ t) idx val dd n r0 r0
    (fun k hk => (hne k hk).symm) (writesIn_refl _ _)
  rw [(key t (fun hh => hh rfl)).2]
  exact h

namespace StFlow

theorem evalContinuityVirtual_diag (s : StFlow) (j : Nat) (x : Nat → ℚ) (r : Resid) (rdt : ℚ) :
    (s.evalContinuityVirtual j x r rdt).diag (s.index c_offset_U j) = 0 := by
  have hS : (s.evalContinuity j x r rdt).diag (s.index c_offset_U j) = 0 := by
    unfold evalContinuity
    simp only []
    split_ifs <;> exact setDiag_diag_eq _ _ _
  have hA : (s.evalContinuityAxiStagn j x r rdt).diag (s.index c_offset_U j) = 0 :=
    setDiag_diag_eq _ _ _
  unfold evalContinuityVirtual
  cases s.cls
  · exact hS
  · exact hA
  · exact hA

theorem evalEnergyRow_fixed (c : Consts) (e : EvalState) (x : Nat → ℚ) (rdt : ℚ) (j : Nat)
    (h : bget e.dom.m_do_energy j = false) :
    (evalEnergyRow c e x rdt j).res.rsd (e.dom.index c_offset_T j) = e.dom.T x j - e.dom.T_fixed j
      ∧ (evalEnergyRow c e x rdt j).res.diag (e.dom.index c_offset_T j) = 0 := by
  unfold evalEnergyRow
  rw [if_neg (by rw [h]; decide)]
  exact ⟨setRsd_rsd_eq _ _ _, setDiag_diag_eq _ _ _⟩

theorem evalEnergyRow_enabled (c : Consts) (e : EvalState) (x : Nat → ℚ) (rdt : ℚ) (j : Nat)
    (h : bget e.dom.m_do_energy j = true) :
    (evalEnergyRow c e x rdt j).res.diag (e.dom.index c_offset_T j) = 1 := by
  unfold evalEnergyRow
  rw [if_pos h]
  exact setDiag_diag_eq _ _ _

theorem keep_evalEnergyRow_diag (c : Consts) (e : EvalState) (x : Nat → ℚ) (rdt : ℚ) (j t : Nat)
    (d : Int) (hne : t ≠ e.dom.index c_offset_T j) (h : e.res.diag t = d) :
    (evalEnergyRow c e x rdt j).res.diag t = d := by
  have key := writesIn_evalEnergyRow (fun i => i ≠ t) c e x rdt j e.res hne.symm (writesIn_refl _ _)
  rw [(key t (fun hh => hh rfl)).2]
  exact h

theorem evalInterior_rows (c : Consts) (e : EvalState) (x : Nat → ℚ) (rdt : ℚ) (j : Nat) :
    (evalInterior c e x rdt j).res.diag (e.dom.index c_offset_U j) = 0
      ∧ (evalInterior c e x rdt j).res.diag (e.dom.index c_offset_V j) = 1
      ∧ (∀ k, k < e.dom.m_nsp →
          (evalInterior c e x rdt j).res.diag (e.dom.index (c_offset_Y + k) j) = 1)
      ∧ (evalInterior c e x rdt j).res.diag (e.dom.index c_offset_L j) = 0
      ∧ (evalInterior c e x rdt j).res.rsd (e.dom.index c_offset_L j)
          = e.dom.lambda x j - e.dom.lambda x (j - 1)
      ∧ (evalInterior c e x rdt j).res.diag (e.dom.index c_offset_T j)
          = (if bget e.dom.m_do_energy j then 1 else 0)
      ∧ (bget e.dom.m_do_energy j = false →
          (evalInterior c e x rdt j).res.rsd (e.dom.index c_offset_T j)
            = e.dom.T x j - e.dom.T_fixed j) := by
  have hw : ∀ n, (e.dom.getWdot x j).index n j = e.dom.m_nv * j + n := fun _ => rfl
  have he : ∀ (ee : EvalState) n, (evalEnergyRow c ee x rdt j).dom.index n j = ee.dom.m_nv * j + n := by
    intro ee n
    unfold index
    rw [evalEnergyRow_nv]
  have hi : ∀ n, e.dom.index n j = e.dom.m_nv * j + n := fun _ => rfl
  have hwn : (e.dom.getWdot x j).m_nv = e.dom.m_nv := rfl
  unfold evalInterior
  simp only []
  refine ⟨?_, ?_, ?_, ?_, ?_, ?_, ?_⟩
  · apply keep_setDiag_diag
    · rw [he, hi]; simp only [hwn, c_offset_U, c_offset_L]; omega
    apply keep_setRsd_diag
    apply keep_evalEnergyRow_diag
    · rw [hw, hi]; simp only [c_offset_U, c_offset_T]; omega
    apply keep_speciesLoop_diag
    · intro k _
      rw [hw, hi]; simp only [c_offset_U, c_offset_Y]; omega
    apply keep_setDiag_diag
    · rw [hi, hi]; simp only [c_offset_U, c_offset_V]; omega
    apply keep_setRsd_diag
    apply keep_setRsd_diag
    exact evalContinuityVirtual_diag _ _ _ _ _
  · apply keep_setDiag_diag
    · rw [he, hi]; simp only [hwn, c_offset_V, c_offset_L]; omega
    apply keep_setRsd_diag
    apply keep_evalEnergyRow_diag
    · rw [hw, hi]; simp only [c_offset_V, c_offset_T]; omega
    apply keep_speciesLoop_diag
    · intro k _
      rw [hw, hi]; simp only [c_offset_V, c_offset_Y]; omega
    exact setDiag_diag_eq _ _ _
  · intro k hk
    apply keep_setDiag_diag
    · rw [he, hi]; simp only [hwn, c_offset_Y, c_offset_L]; omega
    apply keep_setRsd_diag
    apply keep_evalEnergyRow_diag
    · rw [hw, hi]; simp only [c_offset_Y, c_offset_T]; omega
    exact speciesLoop_diag (fun k => (e.dom.getWdot x j).index (c_offset_Y + k) j) _ 1 _ _ k hk
  · have e1 : ∀ ee : EvalState, (evalEnergyRow c ee x rdt j).dom.index c_offset_L j
        = ee.dom.index c_offset_L j := fun ee => he ee _
    rw [e1]
    exact setDiag_diag_eq _ _ _
  · have e1 : ∀ ee : EvalState, (evalEnergyRow c ee x rdt j).dom.index c_offset_L j
        = ee.dom.index c_offset_L j := fun ee => he ee _
    have hl : ∀ (ee : EvalState) i, (evalEnergyRow c ee x rdt j).dom.lambda x i = ee.dom.lambda x i := by
      intro ee i
      unfold lambda index
      rw [evalEnergyRow_nv]
    rw [e1, hl, hl]
    exact setRsd_rsd_eq _ _ _
  · apply keep_setDiag_diag
    · rw [he, hi]; simp only [hwn, c_offset_T, c_offset_L]; omega
    apply keep_setRsd_diag
    by_cases hb : bget e.dom.m_do_energy j = true
    · rw [if_pos hb]
      exact evalEnergyRow_enabled c ⟨e.dom.getWdot x j, _⟩ x rdt j hb
    · rw [if_neg hb]
      exact (evalEnergyRow_fixed c ⟨e.dom.getWdot x j, _⟩ x rdt j (by simpa using hb)).2
  · intro hb
    apply keep_setDiag_rsd
    apply keep_setRsd_rsd
    · rw [he, hi]; simp only [hwn, c_offset_T, c_offset_L]; omega
    exact (evalEnergyRow_fixed c ⟨e.dom.getWdot x j, _⟩ x rdt j hb).1

end StFlow

theorem keep_speciesSum_rsd (idx : Nat → Nat) (val y : Nat → ℚ) (n : Nat) (r0 : Resid)
    (t : Nat) (d : ℚ) (hne : ∀ k, k < n → t ≠ idx k) (h : r0.rsd t = d) :
    (forRange 0 n (fun k (p : Resid × ℚ) => (p.1.setRsd (idx k) (val k), p.2 + y k)) (r0, 0)).1.rsd t
      = d := by
  have key := writesIn_speciesSum (fun i => i ≠ t) idx val y n r0 r0
    (fun k hk => (hne k hk).symm) (writesIn_refl _ _)
  rw [(key t (fun hh => hh rfl)).1]
  exact h

theorem keep_speciesSum_diag (idx : Nat → Nat) (val y : Nat → ℚ) (n : Nat) (r0 : Resid)
    (t : Nat) (d : Int) (hne : ∀ k, k < n → t ≠ idx k) (h : r0.diag t = d) :
    (forRange 0 n (fun k (p : Resid × ℚ) => (p.1.setRsd (idx k) (val k), p.2 + y k)) (r0, 0)).1.diag t
      = d := by
  have key := writesIn_speciesSum (fun i => i ≠ t) idx val y n r0 r0
    (fun k hk => (hne k hk).symm) (writesIn_refl _ _)
  rw [(key t (fun hh => hh rfl)).2]
  exact h

namespace StFlow

theorem evalRightBoundary_L (s : StFlow) (x : Nat → ℚ) (r : Resid) (rdt : ℚ) :
    (s.evalRightBoundary x r rdt).rsd (s.index c_offset_L (s.m_points - 1))
        = s.lambda x (s.m_points - 1) - s.lambda x (s.m_points - 1 - 1)
      ∧ (s.evalRightBoundary x r rdt).diag (s.index c_offset_L (s.m_points - 1)) = 0 := by
  have hi : ∀ n, s.index n (s.m_points - 1) = s.m_nv * (s.m_points - 1) + n := fun _ => rfl
  have hY : ∀ k, k < s.m_nsp →
      s.index c_offset_L (s.m_points - 1) ≠ s.index (k + c_offset_Y) (s.m_points - 1) := by
    intro k _
    rw [hi, hi]; simp only [c_offset_L, c_offset_Y]; omega
  have hX : s.index c_offset_L (s.m_points - 1)
      ≠ s.index (c_offset_Y + s.rightExcessSpecies) (s.m_points - 1) := by
    rw [hi, hi]; simp only [c_offset_L, c_offset_Y]; omega
  have hU : s.index c_offset_L (s.m_points - 1) ≠ s.index c_offset_U (s.m_points - 1) := by
    rw [hi, hi]; simp only [c_offset_L, c_offset_U]; omega
  have hT : s.index c_offset_L (s.m_points - 1) ≠ s.index c_offset_T (s.m_points - 1) := by
    rw [hi, hi]; simp only [c_offset_L, c_offset_T]; omega
  have base1 : ∀ r0 : Resid, (forRange 0 s.m_nsp (fun k (p : Resid × ℚ) =>
      (p.1.setRsd (s.index (k + c_offset_Y) (s.m_points - 1))
          (s.m_flux.get k (s.m_points - 1 - 1) + s.rho_u x (s.m_points - 1) * s.Y x k (s.m_points - 1)),
        p.2 + s.Y x k (s.m_points - 1)))
      (((r0.setRsd (s.index c_offset_L (s.m_points - 1))
        (s.lambda x (s.m_points - 1) - s.lambda x (s.m_points - 1 - 1))).setDiag
          (s.index c_offset_L (s.m_points - 1)) 0), 0)).1.rsd (s.index c_offset_L (s.m_points - 1))
      = s.lambda x (s.m_points - 1) - s.lambda x (s.m_points - 1 - 1) := by
    intro r0
    apply keep_speciesSum_rsd _ _ _ _ _ _ _ hY
    exact setRsd_rsd_eq _ _ _
  have base2 : ∀ r0 : Resid, (forRange 0 s.m_nsp (fun k (p : Resid × ℚ) =>
      (p.1.setRsd (s.index (k + c_offset_Y) (s.m_points - 1))
          (s.m_flux.get k (s.m_points - 1 - 1) + s.rho_u x (s.m_points - 1) * s.Y x k (s.m_points - 1)),
        p.2 + s.Y x k (s.m_points - 1)))
      (((r0.setRsd (s.index c_offset_L (s.m_points - 1))
        (s.lambda x (s.m_points - 1) - s.lambda x (s.m_points - 1 - 1))).setDiag
          (s.index c_offset_L (s.m_points - 1)) 0), 0)).1.diag (s.index c_offset_L (s.m_points - 1))
      = 0 := by
    intro r0
    apply keep_speciesSum_diag _ _ _ _ _ _ _ hY
    exact setDiag_diag_eq _ _ _
  unfold evalRightBoundary
  simp only []
  split_ifs
  · exact ⟨keep_setRsd_rsd _ _ _ _ _ hT (keep_setRsd_rsd _ _ _ _ _ hU (keep_setDiag_rsd _ _ _ _ _
        (keep_setRsd_rsd _ _ _ _ _ hX (base1 _)))),
      keep_setRsd_diag _ _ _ _ _ (keep_setRsd_diag _ _ _ _ _ (keep_setDiag_diag _ _ _ _ _ hX
        (keep_setRsd_diag _ _ _ _ _ (base2 _))))⟩
  · exact ⟨keep_setRsd_rsd _ _ _ _ _ hT (keep_setRsd_rsd _ _ _ _ _ hU (keep_setDiag_rsd _ _ _ _ _
        (keep_setRsd_rsd _ _ _ _ _ hX (base1 _)))),
      keep_setRsd_diag _ _ _ _ _ (keep_setRsd_diag _ _ _ _ _ (keep_setDiag_diag _ _ _ _ _ hX
        (keep_setRsd_diag _ _ _ _ _ (base2 _))))⟩
  · exact ⟨keep_setRsd_rsd _ _ _ _ _ hT (keep_setRsd_rsd _ _ _ _ _ hU (keep_setDiag_rsd _ _ _ _ _
        (keep_setRsd_rsd _ _ _ _ _ hX (base1 _)))),
      keep_setRsd_diag _ _ _ _ _ (keep_setRsd_diag _ _ _ _ _ (keep_setDiag_diag _ _ _ _ _ hX
        (keep_setRsd_diag _ _ _ _ _ (base2 _))))⟩
  · exact ⟨keep_setDiag_rsd _ _ _ _ _ (keep_setRsd_rsd _ _ _ _ _ hX (base1 _)),
      keep_setDiag_diag _ _ _ _ _ hX (keep_setRsd_diag _ _ _ _ _ (base2 _))⟩

theorem evalRightBoundaryAxiStagn_L (s : StFlow) (x : Nat → ℚ) (r : Resid) (rdt : ℚ) :
    (s.evalRightBoundaryAxiStagn x r rdt).rsd (s.index c_offset_L (s.m_points - 1))
        = s.lambda x (s.m_points - 1) - s.lambda x (s.m_points - 1 - 1)
      ∧ (s.evalRightBoundaryAxiStagn x r rdt).diag (s.index c_offset_L (s.m_points - 1)) = 0 := by
  have hi : ∀ n, s.index n (s.m_points - 1) = s.m_nv * (s.m_points - 1) + n := fun _ => rfl
  have hY : ∀ k, k < s.m_nsp →
      s.index c_offset_L (s.m_points - 1) ≠ s.index (k + 4) (s.m_points - 1) := by
    intro k _
    rw [hi, hi]; simp only [c_offset_L]; omega
  have hX : s.index c_offset_L (s.m_points - 1) ≠ s.index 4 (s.m_points - 1) := by
    rw [hi, hi]; simp only [c_offset_L]; omega
  unfold evalRightBoundaryAxiStagn
  simp only []
  exact ⟨keep_setDiag_rsd _ _ _ _ _ (keep_setRsd_rsd _ _ _ _ _ hX
      (keep_speciesSum_rsd _ _ _ _ _ _ _ hY (setRsd_rsd_eq _ _ _))),
    keep_setDiag_diag _ _ _ _ _ hX (keep_setRsd_diag _ _ _ _ _
      (keep_speciesSum_diag _ _ _ _ _ _ _ hY (setDiag_diag_eq _ _ _)))⟩

theorem evalRightBoundaryVirtual_L (s : StFlow) (x : Nat → ℚ) (r : Resid) (rdt : ℚ) :
    (s.evalRightBoundaryVirtual x r rdt).rsd (s.index c_offset_L (s.m_points - 1))
        = s.lambda x (s.m_points - 1) - s.lambda x (s.m_points - 1 - 1)
      ∧ (s.evalRightBoundaryVirtual x r rdt).diag (s.index c_offset_L (s.m_points - 1)) = 0 := by
  unfold evalRightBoundaryVirtual
  cases s.cls
  · exact evalRightBoundary_L s x r rdt
  · exact evalRightBoundaryAxiStagn_L s x r rdt
  · exact evalRightBoundaryAxiStagn_L s x r rdt

end StFlow

/-! ## Eigenvalue rows and the activity mask -/

namespace StFlow

/-- The rows of point `j` after the loop over the points are those that the body of the loop
leaves when it reaches `j`: later points write other rows. -/
theorem evalPoints_point (c : Consts) (x : Nat → ℚ) (rdt : ℚ) (lo hi : Nat) (e0 : EvalState)
    (hnv : c_offset_Y + e0.dom.m_nsp ≤ e0.dom.m_nv)
    (hkl : e0.dom.m_kExcessLeft < e0.dom.m_nsp) (hkr : e0.dom.m_kExcessRight < e0.dom.m_nsp)
    (j : Nat) (h1 : lo ≤ j) (h2 : j < hi) (i : Nat) (hin : inRows e0.dom.m_nv j i) :
    (forRange lo hi (evalPoint c x rdt) e0).res.rsd i
        = (evalPoint c x rdt j (forRange lo j (evalPoint c x rdt) e0)).res.rsd i
      ∧ (forRange lo hi (evalPoint c x rdt) e0).res.diag i
        = (evalPoint c x rdt j (forRange lo j (evalPoint c x rdt) e0)).res.diag i := by
  rw [forRange_split lo (j + 1) hi _ e0 (by omega) (by omega), forRange_succ lo j _ e0 h1]
  obtain ⟨th, wd, hd⟩ := evalPoints_dom c x rdt lo j e0
  obtain ⟨th2, wd2, hd2⟩ := evalPoint_dom c x rdt j (forRange lo j (evalPoint c x rdt) e0)
  have hd3 : (evalPoint c x rdt j (forRange lo j (evalPoint c x rdt) e0)).dom
      = withThermoWdot e0.dom th2 wd2 := by rw [hd2, hd]; rfl
  have env : (evalPoint c x rdt j (forRange lo j (evalPoint c x rdt) e0)).dom.m_nv = e0.dom.m_nv := by
    rw [hd3]; rfl
  have key := (evalPoints_rows c x rdt (j + 1) hi
    (evalPoint c x rdt j (forRange lo j (evalPoint c x rdt) e0)) (by omega)
    (by rw [hd3]; exact hnv) (by rw [hd3]; exact hkl) (by rw [hd3]; exact hkr)).1
  rw [env] at key
  exact key i (by unfold inRows at hin; omega)

/-- The eigenvalue row of a point other than the first. -/
theorem evalPoint_L (c : Consts) (x : Nat → ℚ) (rdt : ℚ) (j : Nat) (e : EvalState) (h0 : j ≠ 0) :
    (evalPoint c x rdt j e).res.rsd (e.dom.index c_offset_L j)
        = e.dom.lambda x j - e.dom.lambda x (j - 1)
      ∧ (evalPoint c x rdt j e).res.diag (e.dom.index c_offset_L j) = 0 := by
  unfold evalPoint
  rw [if_neg h0]
  by_cases h1 : j = e.dom.m_points - 1
  · rw [if_pos h1]
    have hne : e.dom.index c_offset_L j ≠ e.dom.index c_offset_E j := by
      simp only [index, c_offset_L, c_offset_E]; omega
    have hL := evalRightBoundaryVirtual_L e.dom x e.res rdt
    rw [← h1] at hL
    exact ⟨keep_setRsd_rsd _ _ _ _ _ hne hL.1, keep_setRsd_diag _ _ _ _ _ hL.2⟩
  · rw [if_neg h1]
    have h := evalInterior_rows c e x rdt j
    exact ⟨h.2.2.2.2.1, h.2.2.2.1⟩

/-- The rows of an interior point left by the body of the loop. -/
theorem evalPoint_interior (c : Consts) (x : Nat → ℚ) (rdt : ℚ) (j : Nat) (e : EvalState)
    (h0 : j ≠ 0) (h1 : j ≠ e.dom.m_points - 1) :
    evalPoint c x rdt j e = evalInterior c e x rdt j := by
  unfold evalPoint
  rw [if_neg h0, if_neg h1]


/-- The rows of point `j` after `evalResidual` are those that the body of its loop leaves at
`j`, run on an object with the configuration of `s`. -/
theorem evalResidual_point (c : Consts) (s : StFlow) (x : Nat → ℚ) (r : Resid) (rdt : ℚ)
    (jmin jmax : Nat) (hnv : c_offset_Y + s.m_nsp ≤ s.m_nv)
    (hkl : s.m_kExcessLeft < s.m_nsp) (hkr : s.m_kExcessRight < s.m_nsp)
    (j : Nat) (h1 : jmin ≤ j) (h2 : j ≤ jmax) :
    ∃ t : EvalState, eraseCaches t.dom = eraseCaches s ∧ ∀ n, n < s.m_nv →
      (evalResidual c s x r rdt jmin jmax).res.rsd (s.index n j)
          = (evalPoint c x rdt j t).res.rsd (t.dom.index n j)
        ∧ (evalResidual c s x r rdt jmin jmax).res.diag (s.index n j)
          = (evalPoint c x rdt j t).res.diag (t.dom.index n j) := by
  have hc : eraseCaches (evalRadiation c s x jmin jmax) = eraseCaches s :=
    eraseCaches_evalRadiation _ _ _ _ _
  have e1 : (evalRadiation c s x jmin jmax).m_nv = s.m_nv :=
    eraseCaches_field (fun u => u.m_nv) (fun _ => rfl) _ _ hc
  have e2 : (evalRadiation c s x jmin jmax).m_nsp = s.m_nsp :=
    eraseCaches_field (fun u => u.m_nsp) (fun _ => rfl) _ _ hc
  have e3 : (evalRadiation c s x jmin jmax).m_kExcessLeft = s.m_kExcessLeft := by
    unfold evalRadiation; split_ifs <;> rfl
  have e4 : (evalRadiation c s x jmin jmax).m_kExcessRight = s.m_kExcessRight := by
    unfold evalRadiation; split_ifs <;> rfl
  obtain ⟨th, wd, hd⟩ := evalPoints_dom c x rdt jmin j ⟨evalRadiation c s x jmin jmax, r⟩
  refine ⟨forRange jmin j (evalPoint c x rdt) ⟨evalRadiation c s x jmin jmax, r⟩, ?_, ?_⟩
  · rw [hd]
    exact hc
  · intro n hn
    have env : (forRange jmin j (evalPoint c x rdt) ⟨evalRadiation c s x jmin jmax, r⟩).dom.m_nv
        = s.m_nv := by
      rw [hd]
      exact e1
    have key := evalPoints_point c x rdt jmin (jmax + 1) ⟨evalRadiation c s x jmin jmax, r⟩
      (by show c_offset_Y + (evalRadiation c s x jmin jmax).m_nsp ≤ (evalRadiation c s x jmin jmax).m_nv
          rw [e1, e2]; exact hnv)
      (by show (evalRadiation c s x jmin jmax).m_kExcessLeft < (evalRadiation c s x jmin jmax).m_nsp
          rw [e2, e3]; exact hkl)
      (by show (evalRadiation c s x jmin jmax).m_kExcessRight < (evalRadiation c s x jmin jmax).m_nsp
          rw [e2, e4]; exact hkr)
      j h1 (by omega) (s.index n j)
      (by show inRows (evalRadiation c s x jmin jmax).m_nv j (s.index n j)
          rw [e1]
          exact inRows_index _ _ _ hn)
    unfold index
    rw [env]
    exact key

/-- The rows of point `j` of the window after the call of `evalResidual` that `eval` makes. -/
theorem evalLocal_point (c : Consts) (s : StFlow) (jg : Nat) (xg rg : Nat → ℚ) (diagg : Nat → Int)
    (rdt : ℚ) (hnv : c_offset_Y + s.m_nsp ≤ s.m_nv) (hnsp : 1 ≤ s.m_nsp)
    (hkl : s.m_kExcessLeft < s.m_nsp) (hkr : s.m_kExcessRight < s.m_nsp)
    (j : Nat) (h1 : evalJmin s jg ≤ j) (h2 : j ≤ evalJmax s jg) :
    ∃ t : EvalState, eraseCaches t.dom = eraseCaches s ∧ ∀ n, n < s.m_nv →
      (evalLocal c s jg xg rg diagg rdt).res.rsd (s.index n j)
          = (evalPoint c (shiftPtr xg s.loc) rdt j t).res.rsd (t.dom.index n j)
        ∧ (evalLocal c s jg xg rg diagg rdt).res.diag (s.index n j)
          = (evalPoint c (shiftPtr xg s.loc) rdt j t).res.diag (t.dom.index n j) := by
  have hc : eraseCaches (evalProps s jg xg) = eraseCaches s :=
    eraseCaches_updateProperties _ _ _ _ _
  have e1 : (evalProps s jg xg).m_nv = s.m_nv :=
    eraseCaches_field (fun u => u.m_nv) (fun _ => rfl) _ _ hc
  have e2 : (evalProps s jg xg).m_nsp = s.m_nsp :=
    eraseCaches_field (fun u => u.m_nsp) (fun _ => rfl) _ _ hc
  have hk := updateProperties_kExcess s jg (shiftPtr xg s.loc) (evalJmin s jg) (evalJmax s jg)
  have hkl2 : (evalProps s jg xg).m_kExcessLeft < s.m_nsp := by
    unfold evalProps
    rw [hk.1]
    split_ifs
    · exact (maxElementIndex_spec _ _ hnsp).1
    · exact hkl
  have hkr2 : (evalProps s jg xg).m_kExcessRight < s.m_nsp := by
    unfold evalProps
    rw [hk.2]
    split_ifs
    · exact (maxElementIndex_spec _ _ hnsp).1
    · exact hkr
  obtain ⟨t, ht, hrows⟩ := evalResidual_point c (evalProps s jg xg) (shiftPtr xg s.loc)
    ⟨shiftPtr rg s.loc, shiftPtr diagg s.loc⟩ rdt (evalJmin s jg) (evalJmax s jg)
    (by rw [e1, e2]; exact hnv) (by rw [e2]; exact hkl2) (by rw [e2]; exact hkr2) j h1 h2
  refine ⟨t, ht.trans hc, ?_⟩
  intro n hn
  have := hrows n (by rw [e1]; exact hn)
  unfold index at this
  rw [e1] at this
  exact this


/-- The eigenvalue rows after a full evaluation. -/
theorem eval_full_L_rows (c : Consts) (s : StFlow) (jg : Nat) (xg rg : Nat → ℚ)
    (diagg : Nat → Int) (rdt : ℚ) (hjg : jg = npos)
    (hnv : c_offset_Y + s.m_nsp ≤ s.m_nv) (hnsp : 1 ≤ s.m_nsp)
    (hkl : s.m_kExcessLeft < s.m_nsp) (hkr : s.m_kExcessRight < s.m_nsp)
    (hN : 1 ≤ s.m_points) (hfit : s.m_points < 2 ^ 64) (j : Nat) (hj1 : 1 ≤ j)
    (hj : j < s.m_points) :
    (s.eval c jg xg rg diagg rdt).state.rg (s.loc + s.index c_offset_L j)
        = s.lambda (shiftPtr xg s.loc) j - s.lambda (shiftPtr xg s.loc) (j - 1)
      ∧ (s.eval c jg xg rg diagg rdt).state.diagg (s.loc + s.index c_offset_L j) = 0 := by
  obtain ⟨hg, hmin, hmax⟩ := evalWindow_full s jg hjg hN hfit
  obtain ⟨_, hrg, hdg⟩ := eval_inside c s jg xg rg diagg rdt hg
  obtain ⟨t, ht, hrows⟩ := evalLocal_point c s jg xg rg diagg rdt hnv hnsp hkl hkr j
    (by rw [hmin]; exact Nat.zero_le j) (by rw [hmax]; omega)
  have env : t.dom.m_nv = s.m_nv := eraseCaches_field (fun u => u.m_nv) (fun _ => rfl) _ _ ht
  have hL := evalPoint_L c (shiftPtr xg s.loc) rdt j t (by omega)
  have h3 := hrows c_offset_L (by simp only [c_offset_L, c_offset_Y] at *; omega)
  have hlam : ∀ i, t.dom.lambda (shiftPtr xg s.loc) i = s.lambda (shiftPtr xg s.loc) i := by
    intro i
    unfold lambda index
    rw [env]
  rw [hrg, hdg, unshiftPtr_at, unshiftPtr_at, h3.1, h3.2, hL.1, hL.2, hlam, hlam]
  exact ⟨rfl, rfl⟩

/-- A sequence whose consecutive differences vanish is constant. -/
theorem differences_zero_iff_const (f : Nat → ℚ) (n : Nat) :
    (∀ j, 1 ≤ j → j < n → f j - f (j - 1) = 0) ↔ ∀ j, j < n → f j = f 0 := by
  constructor
  · intro h j
    induction j with
    | zero => intro _; rfl
    | succ j ih =>
      intro hj
      have h1 := h (j + 1) (by omega) hj
      rw [Nat.add_sub_cancel] at h1
      rw [← ih (by omega)]
      linarith
  · intro h j h1 hj
    rw [h j hj, h (j - 1) (by omega)]
    ring

/-- C22: on a well-formed object, after a full evaluation (`jg = npos`) the eigenvalue row of every
point `j` with `1 ≤ j ≤ N-1` (interior rows and the right-boundary row) holds
`lambda(j) - lambda(j-1)` and is flagged algebraic (mask 0); these rows are all zero if and only if
`lambda` has the same value at every grid point `0..N-1`. -/
theorem eval_lambda_rows_uniform (c : Consts) (s : StFlow) (xg rg : Nat → ℚ)
    (diagg : Nat → Int) (rdt : ℚ)
    (hnv : c_offset_Y + s.m_nsp ≤ s.m_nv) (hnsp : 1 ≤ s.m_nsp)
    (hkl : s.m_kExcessLeft < s.m_nsp) (hkr : s.m_kExcessRight < s.m_nsp)
    (hN : 1 ≤ s.m_points) (hfit : s.m_points < 2 ^ 64) :
    (∀ j, 1 ≤ j → j < s.m_points →
        (s.eval c npos xg rg diagg rdt).state.rg (s.loc + s.index c_offset_L j)
            = s.lambda (shiftPtr xg s.loc) j - s.lambda (shiftPtr xg s.loc) (j - 1)
          ∧ (s.eval c npos xg rg diagg rdt).state.diagg (s.loc + s.index c_offset_L j) = 0)
      ∧ ((∀ j, 1 ≤ j → j < s.m_points →
            (s.eval c npos xg rg diagg rdt).state.rg (s.loc + s.index c_offset_L j) = 0)
          ↔ ∀ j, j < s.m_points →
              s.lambda (shiftPtr xg s.loc) j = s.lambda (shiftPtr xg s.loc) 0) := by
  have hrows := fun j h1 hj =>
    eval_full_L_rows c s npos xg rg diagg rdt rfl hnv hnsp hkl hkr hN hfit j h1 hj
  refine ⟨hrows, ?_⟩
  rw [← differences_zero_iff_const (s.lambda (shiftPtr xg s.loc)) s.m_points]
  constructor
  · intro h j h1 hj
    rw [← (hrows j h1 hj).1]
    exact h j h1 hj
  · intro h j h1 hj
    rw [(hrows j h1 hj).1]
    exact h j h1 hj

theorem eval_lambda_rows_uniform_witness :
    (∀ j, 1 ≤ j → j < demoFlow.m_points →
        (demoFlow.eval demoConsts npos demoXg demoRg demoDiagg 5).state.rg
              (demoFlow.loc + demoFlow.index c_offset_L j)
            = demoFlow.lambda (shiftPtr demoXg demoFlow.loc) j
              - demoFlow.lambda (shiftPtr demoXg demoFlow.loc) (j - 1)
          ∧ (demoFlow.eval demoConsts npos demoXg demoRg demoDiagg 5).state.diagg
              (demoFlow.loc + demoFlow.index c_offset_L j) = 0)
      ∧ ((∀ j, 1 ≤ j → j < demoFlow.m_points →
            (demoFlow.eval demoConsts npos demoXg demoRg demoDiagg 5).state.rg
              (demoFlow.loc + demoFlow.index c_offset_L j) = 0)
          ↔ ∀ j, j < demoFlow.m_points →
              demoFlow.lambda (shiftPtr demoXg demoFlow.loc) j
                = demoFlow.lambda (shiftPtr demoXg demoFlow.loc) 0) :=
  eval_lambda_rows_uniform demoConsts demoFlow demoXg demoRg demoDiagg 5 (by decide) (by decide)
    (by decide) (by decide) (by decide)
    (by rw [show demoFlow.m_points = 4 from rfl]; norm_num)

/-- C23: on a well-formed object, after `evalResidual` has evaluated an interior point `j` of its
window, the activity mask at `j` is 0 for the continuity row, 1 for the radial-momentum row, 1 for
every species row, 0 for the eigenvalue row, and for the temperature row 1 if the energy equation
is enabled at `j` and 0 otherwise; this holds for every domain type. -/
theorem interior_mask (c : Consts) (s : StFlow) (x : Nat → ℚ) (r : Resid) (rdt : ℚ)
    (jmin jmax j : Nat) (hnv : c_offset_Y + s.m_nsp ≤ s.m_nv)
    (hkl : s.m_kExcessLeft < s.m_nsp) (hkr : s.m_kExcessRight < s.m_nsp)
    (h1 : jmin ≤ j) (h2 : j ≤ jmax) (h0 : 0 < j) (hN : j < s.m_points - 1) :
    (evalResidual c s x r rdt jmin jmax).res.diag (s.index c_offset_U j) = 0
      ∧ (evalResidual c s x r rdt jmin jmax).res.diag (s.index c_offset_V j) = 1
      ∧ (∀ k, k < s.m_nsp →
          (evalResidual c s x r rdt jmin jmax).res.diag (s.index (c_offset_Y + k) j) = 1)
      ∧ (evalResidual c s x r rdt jmin jmax).res.diag (s.index c_offset_L j) = 0
      ∧ (evalResidual c s x r rdt jmin jmax).res.diag (s.index c_offset_T j)
          = (if s.doEnergy j then 1 else 0) := by
  obtain ⟨t, ht, hrows⟩ := evalResidual_point c s x r rdt jmin jmax hnv hkl hkr j h1 h2
  have epts : t.dom.m_points = s.m_points :=
    eraseCaches_field (fun u => u.m_points) (fun _ => rfl) _ _ ht
  have ensp : t.dom.m_nsp = s.m_nsp := eraseCaches_field (fun u => u.m_nsp) (fun _ => rfl) _ _ ht
  have een : t.dom.m_do_energy = s.m_do_energy :=
    eraseCaches_field (fun u => u.m_do_energy) (fun _ => rfl) _ _ ht
  have hint : evalPoint c x rdt j t = evalInterior c t x rdt j :=
    evalPoint_interior c x rdt j t (by omega) (by rw [epts]; omega)
  rw [hint] at hrows
  have h5 : c_offset_Y = 5 := rfl
  obtain ⟨mU, mV, mY, mL, _, mT, _⟩ := evalInterior_rows c t x rdt j
  refine ⟨?_, ?_, ?_, ?_, ?_⟩
  · rw [(hrows c_offset_U (by simp only [c_offset_U]; omega)).2]
    exact mU
  · rw [(hrows c_offset_V (by simp only [c_offset_V]; omega)).2]
    exact mV
  · intro k hk
    rw [(hrows (c_offset_Y + k) (by omega)).2]
    exact mY k (by rw [ensp]; exact hk)
  · rw [(hrows c_offset_L (by simp only [c_offset_L]; omega)).2]
    exact mL
  · rw [(hrows c_offset_T (by simp only [c_offset_T]; omega)).2, mT, een]
    rfl

theorem interior_mask_witness :
    (evalResidual demoConsts demoFlowFreeEnergy demoXfree demoResidNine 5 0 3).res.diag
        (demoFlowFreeEnergy.index c_offset_U 2) = 0
      ∧ (evalResidual demoConsts demoFlowFreeEnergy demoXfree demoResidNine 5 0 3).res.diag
        (demoFlowFreeEnergy.index c_offset_V 2) = 1
      ∧ (∀ k, k < demoFlowFreeEnergy.m_nsp →
          (evalResidual demoConsts demoFlowFreeEnergy demoXfree demoResidNine 5 0 3).res.diag
            (demoFlowFreeEnergy.index (c_offset_Y + k) 2) = 1)
      ∧ (evalResidual demoConsts demoFlowFreeEnergy demoXfree demoResidNine 5 0 3).res.diag
        (demoFlowFreeEnergy.index c_offset_L 2) = 0
      ∧ (evalResidual demoConsts demoFlowFreeEnergy demoXfree demoResidNine 5 0 3).res.diag
          (demoFlowFreeEnergy.index c_offset_T 2)
          = (if demoFlowFreeEnergy.doEnergy 2 then 1 else 0) :=
  interior_mask demoConsts demoFlowFreeEnergy demoXfree demoResidNine 5 0 3 2 (by decide)
    (by decide) (by decide) (by decide) (by decide) (by decide) (by decide)

end StFlow

/-! ## The steps of `PorousFlow::eval` -/

namespace PorousFlow

theorem solidCoupling_eq (c : Consts) (p : PorousFlow) (l : PorousLocals) (x : Nat → ℚ) (rdt : ℚ)
    (jmin jmax : Nat) :
    solidCoupling c p l x rdt jmin jmax
      = if (hconvLoop c p l x jmin jmax).dosolid = 1 then
          { (solid c (hconvLoop c p l x jmin jmax) x l.RK l.Omega rdt) with dosolid := 0 }
        else hconvLoop c p l x jmin jmax := rfl

theorem evalPre_eq (c : Consts) (p : PorousFlow) (jg : Nat) (xg : Nat → ℚ) (rdt : ℚ) :
    evalPre c p jg xg rdt
      = if (evalCoupled c p jg xg).dosolid = 1 then
          { (solid c (evalCoupled c p jg xg) (shiftPtr xg p.toStFlow.loc)
              (solidProperties (evalGas p jg xg)).2.RK (solidProperties (evalGas p jg xg)).2.Omega
              (evalRdt jg rdt)) with dosolid := 0 }
        else evalCoupled c p jg xg := by
  unfold evalPre evalCoupled
  rw [solidCoupling_eq]

theorem porous_eval_inside (c : Consts) (p : PorousFlow) (jg : Nat) (xg rg : Nat → ℚ) (diagg : Nat → Int)
    (rdt : ℚ)
    (hg : ¬ (jg ≠ npos ∧ (addSz jg 1 < p.toStFlow.firstPoint ∨ jg > addSz p.toStFlow.lastPoint 1))) :
    (p.eval c jg xg rg diagg rdt).state
      = ⟨(evalLocal c p jg xg rg diagg rdt).dom,
          unshiftPtr rg p.toStFlow.loc (evalLocal c p jg xg rg diagg rdt).res.rsd,
          unshiftPtr diagg p.toStFlow.loc (evalLocal c p jg xg rg diagg rdt).res.diag⟩ := by
  unfold eval
  rw [if_neg hg]
  rfl

end PorousFlow

namespace StFlow
theorem eraseRun_of_eraseCaches (t s : StFlow) (h : eraseCaches t = eraseCaches s) :
    eraseRun t = eraseRun s := by
  unfold eraseRun
  rw [h]

theorem eraseRun_field {α : Type} (f : StFlow → α) (hf : ∀ u, f (eraseCaches u) = f u)
    (hf2 : ∀ (u : StFlow) (b : Bool) (d : Int),
      f { { u with m_dovisc := b } with dosolid := d } = f u)
    (t s : StFlow) (h : eraseRun t = eraseRun s) : f t = f s := by
  have key : ∀ u, f (eraseRun u) = f u := by
    intro u
    unfold eraseRun
    rw [hf2, hf]
  rw [← key t, h, key]

end StFlow

namespace PorousFlow

theorem eraseSolidProps_field {α : Type} (f : PorousFlow → α)
    (hf : ∀ u, f (eraseSolidProps u) = f u) (t s : PorousFlow)
    (h : eraseSolidProps t = eraseSolidProps s) : f t = f s := by
  rw [← hf t, h, hf]

theorem evalGas_solid (p : PorousFlow) (jg : Nat) (xg : Nat → ℚ) (s0 : StFlow) :
    withGas (evalGas p jg xg) s0 = withGas p s0 := by
  unfold evalGas
  simp only []
  split_ifs
  · rfl
  · rfl

theorem evalGas_config (p : PorousFlow) (jg : Nat) (xg : Nat → ℚ) :
    StFlow.eraseRun (evalGas p jg xg).toStFlow = StFlow.eraseRun p.toStFlow := by
  have h0 : StFlow.eraseRun ({ p with m_dovisc := true } : PorousFlow).toStFlow
      = StFlow.eraseRun p.toStFlow := rfl
  rw [← h0]
  apply StFlow.eraseRun_of_eraseCaches
  unfold evalGas
  simp only []
  split_ifs
  · exact (StFlow.eraseCaches_updateDiffFluxes _ _ _ _).trans
      ((StFlow.eraseCaches_of_eraseTransport _ _ (StFlow.eraseTransport_updateTransport _ _ _ _)).trans
        (StFlow.eraseCaches_of_eraseThermo _ _ (StFlow.eraseThermo_updateThermo _ _ _ _)))
  · exact (StFlow.eraseCaches_updateDiffFluxes _ _ _ _).trans
      (StFlow.eraseCaches_of_eraseThermo _ _ (StFlow.eraseThermo_updateThermo _ _ _ _))

theorem eraseSolidProps_solidProperties (p : PorousFlow) :
    eraseSolidProps (solidProperties p).1 = eraseSolidProps p := by
  unfold solidProperties
  simp only []
  refine forRange_induction (fun q : PorousFlow × PorousLocals =>
    eraseSolidProps q.1 = eraseSolidProps p) 0 p.m_points _ _ ?_ ?_
  · refine forRange_induction (fun q : PorousFlow × PorousLocals =>
      eraseSolidProps q.1 = eraseSolidProps p) 0 p.m_points _ _ rfl ?_
    intro i q _ _ hq
    dsimp only
    split_ifs
    · exact hq
    · exact hq
    · exact hq
  · intro i q _ _ hq
    dsimp only
    split_ifs
    · exact hq
    · exact hq

theorem eraseSolidProps_hconvLoop (c : Consts) (p : PorousFlow) (l : PorousLocals) (x : Nat → ℚ)
    (jmin jmax : Nat) : eraseSolidProps (hconvLoop c p l x jmin jmax) = eraseSolidProps p := by
  unfold hconvLoop
  refine forRange_induction (fun q : PorousFlow => eraseSolidProps q = eraseSolidProps p)
    jmin (jmax + 1) _ p rfl ?_
  intro j q _ _ hq
  exact hq

theorem eraseSolidProps_evalCoupled (c : Consts) (p : PorousFlow) (jg : Nat) (xg : Nat → ℚ) :
    eraseSolidProps (evalCoupled c p jg xg) = eraseSolidProps (evalGas p jg xg) := by
  unfold evalCoupled
  rw [eraseSolidProps_hconvLoop, eraseSolidProps_solidProperties]

theorem solid_eq (c : Consts) (p : PorousFlow) (x : Nat → ℚ) (RK Omega : List ℚ) (rdt : ℚ) :
    ∃ (tw dq : List ℚ) (lg : List String), solid c p x RK Omega rdt
      = { { { { p with Twprev := p.Tw } with Tw := tw } with dq := dq } with log := lg } :=
  ⟨_, _, _, rfl⟩

end PorousFlow

/-! ## Which residual entries a porous evaluation writes -/

namespace StFlow

theorem writesIn_evalRightBoundaryAxiStagn (W : Nat → Prop) (s : StFlow) (x : Nat → ℚ)
    (r r0 : Resid) (rdt : ℚ)
    (hW : ∀ n, n < c_offset_Y + s.m_nsp → W (s.m_nv * (s.m_points - 1) + n))
    (h : writesIn W r r0) :
    writesIn W r (s.evalRightBoundaryAxiStagn x r0 rdt) := by
  have h5 : c_offset_Y = 5 := rfl
  have hL : W (s.index c_offset_L (s.m_points - 1)) := hW c_offset_L (by simp only [c_offset_L]; omega)
  have hY4 : ∀ k, k < s.m_nsp → W (s.index (k + 4) (s.m_points - 1)) :=
    fun k hk => hW (k + 4) (by omega)
  unfold evalRightBoundaryAxiStagn
  simp only []
  exact writesIn_setDiag W r _ _ _ (hW 4 (by omega)) (writesIn_setRsd W r _ _ _ (hW 4 (by omega))
    (writesIn_speciesSum W _ _ _ _ r _ hY4
      (writesIn_setDiag W r _ _ _ hL (writesIn_setRsd W r _ _ _ hL
        (writesIn_setRsd W r _ _ _ (hW 2 (by omega)) (writesIn_setRsd W r _ _ _ (hW 1 (by omega))
          (writesIn_setRsd W r _ _ _ (hW 0 (by omega)) h)))))))

end StFlow

namespace PorousFlow

theorem evalEnergyRow_dom (c : Consts) (e : PorousEvalState) (x : Nat → ℚ) (rdt : ℚ) (j : Nat) :
    ∃ th, (evalEnergyRow c e x rdt j).dom
      = withGas e.dom (StFlow.withThermoWdot e.dom.toStFlow th e.dom.m_wdot) := by
  unfold evalEnergyRow
  split_ifs
  · exact ⟨(e.dom.toStFlow.setGas x j).m_thermo, rfl⟩
  · exact ⟨e.dom.m_thermo, rfl⟩

theorem porous_evalEnergyRow_nv (c : Consts) (e : PorousEvalState) (x : Nat → ℚ) (rdt : ℚ) (j : Nat) :
    (evalEnergyRow c e x rdt j).dom.m_nv = e.dom.m_nv := by
  obtain ⟨th, h⟩ := evalEnergyRow_dom c e x rdt j
  rw [h]
  rfl

theorem porous_writesIn_evalEnergyRow (W : Nat → Prop) (c : Consts) (e : PorousEvalState) (x : Nat → ℚ)
    (rdt : ℚ) (j : Nat) (r : Resid) (hW : W (e.dom.toStFlow.index c_offset_T j))
    (h : writesIn W r e.res) :
    writesIn W r (evalEnergyRow c e x rdt j).res := by
  unfold evalEnergyRow
  split_ifs
  · exact writesIn_setDiag W r _ _ _ hW (writesIn_setRsd W r _ _ _ hW
      (writesIn_setRsd W r _ _ _ hW (writesIn_setRsd W r _ _ _ hW
        (writesIn_setRsd W r _ _ _ hW h))))
  · exact writesIn_setDiag W r _ _ _ hW (writesIn_setRsd W r _ _ _ hW h)

theorem porous_writesIn_evalInterior (W : Nat → Prop) (c : Consts) (e : PorousEvalState) (x : Nat → ℚ)
    (rdt : ℚ) (j : Nat) (r : Resid)
    (hW : ∀ n, n < c_offset_Y + e.dom.m_nsp → W (e.dom.m_nv * j + n))
    (h : writesIn W r e.res) :
    writesIn W r (evalInterior c e x rdt j).res := by
  have h5 : c_offset_Y = 5 := rfl
  have hU : W (e.dom.toStFlow.index c_offset_U j) := hW c_offset_U (by simp only [c_offset_U]; omega)
  have hV : W (e.dom.toStFlow.index c_offset_V j) := hW c_offset_V (by simp only [c_offset_V]; omega)
  have hT : W (e.dom.toStFlow.index c_offset_T j) := hW c_offset_T (by simp only [c_offset_T]; omega)
  have hL : W (e.dom.toStFlow.index c_offset_L j) := hW c_offset_L (by simp only [c_offset_L]; omega)
  have hE : W (e.dom.toStFlow.index c_offset_E j) := hW c_offset_E (by simp only [c_offset_E]; omega)
  have hY : ∀ k, k < (e.dom.toStFlow.getWdot x j).m_nsp →
      W ((e.dom.toStFlow.getWdot x j).index (c_offset_Y + k) j) :=
    fun k hk => hW (c_offset_Y + k) (Nat.add_lt_add_left hk _)
  unfold evalInterior
  simp only []
  refine writesIn_setDiag W r _ _ _ ?_ (writesIn_setRsd W r _ _ _ ?_
    (porous_writesIn_evalEnergyRow W c _ x rdt j r hT
      (writesIn_speciesLoop W _ _ 1 _ r _ hY
        (writesIn_setDiag W r _ _ _ hV (writesIn_setRsd W r _ _ _ hV
          (writesIn_setDiag W r _ _ _ hU (writesIn_setRsd W r _ _ _ hU
            (writesIn_setRsd W r _ _ _ hE h))))))))
  · unfold StFlow.index
    rw [porous_evalEnergyRow_nv]
    exact hL
  · unfold StFlow.index
    rw [porous_evalEnergyRow_nv]
    exact hL

theorem porous_writesIn_evalLeftBoundary (W : Nat → Prop) (p : PorousFlow) (x : Nat → ℚ) (r r0 : Resid)
    (hnsp : 1 ≤ p.m_nsp)
    (hW : ∀ n, n < c_offset_Y + p.m_nsp → W (p.m_nv * 0 + n))
    (h : writesIn W r r0) :
    writesIn W r (p.evalLeftBoundary x r0) := by
  have h5 : c_offset_Y = 5 := rfl
  have hU : W (p.toStFlow.index c_offset_U 0) := hW c_offset_U (by simp only [c_offset_U]; omega)
  have hV : W (p.toStFlow.index c_offset_V 0) := hW c_offset_V (by simp only [c_offset_V]; omega)
  have hT : W (p.toStFlow.index c_offset_T 0) := hW c_offset_T (by simp only [c_offset_T]; omega)
  have hL : W (p.toStFlow.index c_offset_L 0) := hW c_offset_L (by simp only [c_offset_L]; omega)
  have hE : W (p.toStFlow.index c_offset_E 0) := hW c_offset_E (by simp only [c_offset_E]; omega)
  have hY : ∀ k, k < p.m_nsp → W (p.toStFlow.index (c_offset_Y + k) 0) :=
    fun k hk => hW (c_offset_Y + k) (Nat.add_lt_add_left hk _)
  have hY0 : W (p.toStFlow.index c_offset_Y 0) := hW c_offset_Y (by omega)
  unfold evalLeftBoundary
  simp only []
  exact writesIn_setRsd W r _ _ _ hE (writesIn_setRsd W r _ _ _ hY0
    (writesIn_speciesSum W _ _ _ _ r _ hY (writesIn_setRsd W r _ _ _ hL
      (writesIn_setRsd W r _ _ _ hT (writesIn_setRsd W r _ _ _ hV
        (writesIn_setRsd W r _ _ _ hU h))))))

theorem porous_writesIn_evalPoint (W : Nat → Prop) (c : Consts) (x : Nat → ℚ) (rdt : ℚ) (j : Nat)
    (e : PorousEvalState) (r : Resid) (hnsp : 1 ≤ e.dom.m_nsp)
    (hW : ∀ n, n < c_offset_Y + e.dom.m_nsp → W (e.dom.m_nv * j + n))
    (h : writesIn W r e.res) :
    writesIn W r (evalPoint c x rdt j e).res := by
  unfold evalPoint
  by_cases h0 : j = 0
  · rw [if_pos h0]
    subst h0
    exact porous_writesIn_evalLeftBoundary W e.dom x r e.res hnsp hW h
  · rw [if_neg h0]
    by_cases h1 : j = e.dom.m_points - 1
    · rw [if_pos h1]
      subst h1
      exact writesIn_setRsd W r _ _ _ (hW c_offset_E (by simp only [c_offset_E, c_offset_Y]; omega))
        (StFlow.writesIn_evalRightBoundaryAxiStagn W e.dom.toStFlow x r e.res rdt hW h)
    · rw [if_neg h1]
      exact porous_writesIn_evalInterior W c e x rdt j r hW h

theorem porous_evalPoint_dom (c : Consts) (x : Nat → ℚ) (rdt : ℚ) (j : Nat) (e : PorousEvalState) :
    ∃ th wd, (evalPoint c x rdt j e).dom
      = withGas e.dom (StFlow.withThermoWdot e.dom.toStFlow th wd) := by
  unfold evalPoint
  by_cases h0 : j = 0
  · rw [if_pos h0]
    exact ⟨e.dom.m_thermo, e.dom.m_wdot, rfl⟩
  · by_cases h1 : j = e.dom.m_points - 1
    · rw [if_neg h0, if_pos h1]
      exact ⟨e.dom.m_thermo, e.dom.m_wdot, rfl⟩
    · rw [if_neg h0, if_neg h1]
      unfold evalInterior
      simp only []
      obtain ⟨th, h⟩ := evalEnergyRow_dom c
        ⟨{ e.dom with toStFlow := e.dom.toStFlow.getWdot x j }, _⟩ x rdt j
      exact ⟨th, (e.dom.toStFlow.getWdot x j).m_wdot, h.trans rfl⟩

theorem porous_evalPoints_dom (c : Consts) (x : Nat → ℚ) (rdt : ℚ) (lo hi : Nat) (e : PorousEvalState) :
    ∃ th wd, (forRange lo hi (evalPoint c x rdt) e).dom
      = withGas e.dom (StFlow.withThermoWdot e.dom.toStFlow th wd) := by
  refine forRange_induction (fun t => ∃ th wd, t.dom
    = withGas e.dom (StFlow.withThermoWdot e.dom.toStFlow th wd)) lo hi _ e ?_ ?_
  · exact ⟨e.dom.m_thermo, e.dom.m_wdot, rfl⟩
  · intro j t _ _ ht
    obtain ⟨th, wd, h⟩ := ht
    obtain ⟨th2, wd2, h2⟩ := porous_evalPoint_dom c x rdt j t
    exact ⟨th2, wd2, by rw [h2, h]; rfl⟩

theorem porous_evalPoints_rows (c : Consts) (x : Nat → ℚ) (rdt : ℚ) (lo hi : Nat) (e0 : PorousEvalState)
    (hle : lo ≤ hi) (hnv : c_offset_Y + e0.dom.m_nsp ≤ e0.dom.m_nv) (hnsp : 1 ≤ e0.dom.m_nsp) :
    writesIn (fun i => e0.dom.m_nv * lo ≤ i ∧ i < e0.dom.m_nv * hi) e0.res
        (forRange lo hi (evalPoint c x rdt) e0).res := by
  have key := forRange_induction_idx
    (fun h (t : PorousEvalState) =>
      (∃ th wd, t.dom = withGas e0.dom (StFlow.withThermoWdot e0.dom.toStFlow th wd))
      ∧ writesIn (fun i => e0.dom.m_nv * lo ≤ i ∧ i < e0.dom.m_nv * h) e0.res t.res)
    lo hi (evalPoint c x rdt) e0 hle
    ⟨⟨e0.dom.m_thermo, e0.dom.m_wdot, rfl⟩, writesIn_refl _ _⟩
    (by
      intro h t hlo hhi ht
      obtain ⟨⟨th, wd, hd⟩, hw⟩ := ht
      have e1 : t.dom.m_nv = e0.dom.m_nv := by rw [hd]; rfl
      have e2 : t.dom.m_nsp = e0.dom.m_nsp := by rw [hd]; rfl
      obtain ⟨th2, wd2, hd2⟩ := porous_evalPoint_dom c x rdt h t
      have hrow : writesIn (inRows e0.dom.m_nv h) t.res (evalPoint c x rdt h t).res :=
        porous_writesIn_evalPoint _ c x rdt h t t.res (by rw [e2]; exact hnsp)
          (fun n hn => by
            rw [e1]
            exact inRows_index _ _ _ (by rw [e2] at hn; omega))
          (writesIn_refl _ _)
      refine ⟨⟨th2, wd2, by rw [hd2, hd]; rfl⟩, ?_⟩
      refine writesIn_trans _ _ _ _ (writesIn_mono _ _ _ _ ?_ hw) (writesIn_mono _ _ _ _ ?_ hrow)
      · intro i hi
        have := Nat.mul_le_mul_left e0.dom.m_nv (Nat.le_add_right h 1)
        exact ⟨hi.1, by omega⟩
      · intro i hi
        have := Nat.mul_le_mul_left e0.dom.m_nv hlo
        exact ⟨by unfold inRows at hi; omega, hi.2⟩)
  exact key.2

theorem porous_evalPoints_point (c : Consts) (x : Nat → ℚ) (rdt : ℚ) (lo hi : Nat) (e0 : PorousEvalState)
    (hnv : c_offset_Y + e0.dom.m_nsp ≤ e0.dom.m_nv) (hnsp : 1 ≤ e0.dom.m_nsp)
    (j : Nat) (h1 : lo ≤ j) (h2 : j < hi) (i : Nat) (hin : inRows e0.dom.m_nv j i) :
    (forRange lo hi (evalPoint c x rdt) e0).res.rsd i
        = (evalPoint c x rdt j (forRange lo j (evalPoint c x rdt) e0)).res.rsd i
      ∧ (forRange lo hi (evalPoint c x rdt) e0).res.diag i
        = (evalPoint c x rdt j (forRange lo j (evalPoint c x rdt) e0)).res.diag i := by
  rw [forRange_split lo (j + 1) hi _ e0 (by omega) (by omega), forRange_succ lo j _ e0 h1]
  obtain ⟨th, wd, hd⟩ := porous_evalPoints_dom c x rdt lo j e0
  obtain ⟨th2, wd2, hd2⟩ := porous_evalPoint_dom c x rdt j (forRange lo j (evalPoint c x rdt) e0)
  have hd3 : (evalPoint c x rdt j (forRange lo j (evalPoint c x rdt) e0)).dom
      = withGas e0.dom (StFlow.withThermoWdot e0.dom.toStFlow th2 wd2) := by rw [hd2, hd]; rfl
  have env : (evalPoint c x rdt j (forRange lo j (evalPoint c x rdt) e0)).dom.m_nv = e0.dom.m_nv := by
    rw [hd3]; rfl
  have key := porous_evalPoints_rows c x rdt (j + 1) hi
    (evalPoint c x rdt j (forRange lo j (evalPoint c x rdt) e0)) (by omega)
    (by rw [hd3]; exact hnv) (by rw [hd3]; exact hnsp)
  rw [env] at key
  exact key i (by unfold inRows at hin; omega)

end PorousFlow

/-! ## The trigger of the solid solver -/

namespace PorousFlow

theorem withGas_field {α : Type} (f : PorousFlow → α) (s0 : StFlow)
    (hf : ∀ u, f (withGas u s0) = f u) (t s : PorousFlow)
    (h : withGas t s0 = withGas s s0) : f t = f s := by
  rw [← hf t, h, hf]

theorem evalGas_caches (p : PorousFlow) (jg : Nat) (xg : Nat → ℚ) :
    StFlow.eraseCaches (evalGas p jg xg).toStFlow
      = StFlow.eraseCaches ({ p with m_dovisc := true } : PorousFlow).toStFlow := by
  unfold evalGas
  simp only []
  split_ifs
  · exact (StFlow.eraseCaches_updateDiffFluxes _ _ _ _).trans
      ((StFlow.eraseCaches_of_eraseTransport _ _ (StFlow.eraseTransport_updateTransport _ _ _ _)).trans
        (StFlow.eraseCaches_of_eraseThermo _ _ (StFlow.eraseThermo_updateThermo _ _ _ _)))
  · exact (StFlow.eraseCaches_updateDiffFluxes _ _ _ _).trans
      (StFlow.eraseCaches_of_eraseThermo _ _ (StFlow.eraseThermo_updateThermo _ _ _ _))

/-- The trigger and the solid fields at the moment the trigger is tested are those of the
call. -/
theorem evalCoupled_solid (c : Consts) (p : PorousFlow) (jg : Nat) (xg : Nat → ℚ) :
    (evalCoupled c p jg xg).dosolid = p.dosolid
      ∧ (evalCoupled c p jg xg).Tw = p.Tw
      ∧ (evalCoupled c p jg xg).dq = p.dq
      ∧ (evalCoupled c p jg xg).Twprev = p.Twprev
      ∧ StFlow.eraseRun (evalCoupled c p jg xg).toStFlow = StFlow.eraseRun p.toStFlow := by
  have h1 := eraseSolidProps_evalCoupled c p jg xg
  have h2 := evalGas_solid p jg xg demoFlow
  have hs : (evalCoupled c p jg xg).toStFlow = (evalGas p jg xg).toStFlow :=
    eraseSolidProps_field (fun u => u.toStFlow) (fun _ => rfl) _ _ h1
  refine ⟨?_, ?_, ?_, ?_, ?_⟩
  · show (evalCoupled c p jg xg).toStFlow.dosolid = p.toStFlow.dosolid
    rw [hs]
    exact StFlow.eraseCaches_field (fun u => u.dosolid) (fun _ => rfl) _
      ({ p with m_dovisc := true } : PorousFlow).toStFlow (evalGas_caches p jg xg)
  · exact (eraseSolidProps_field (fun u => u.Tw) (fun _ => rfl) _ _ h1).trans
      (withGas_field (fun u => u.Tw) demoFlow (fun _ => rfl) _ _ h2)
  · exact (eraseSolidProps_field (fun u => u.dq) (fun _ => rfl) _ _ h1).trans
      (withGas_field (fun u => u.dq) demoFlow (fun _ => rfl) _ _ h2)
  · exact (eraseSolidProps_field (fun u => u.Twprev) (fun _ => rfl) _ _ h1).trans
      (withGas_field (fun u => u.Twprev) demoFlow (fun _ => rfl) _ _ h2)
  · rw [hs]
    exact evalGas_config p jg xg

/-- The object when the loop over the points starts, by the value of the trigger. -/
theorem evalPre_solid (c : Consts) (p : PorousFlow) (jg : Nat) (xg : Nat → ℚ) (rdt : ℚ) :
    (p.dosolid = 1 →
        (evalPre c p jg xg rdt).dosolid = 0
          ∧ (evalPre c p jg xg rdt).Twprev = p.Tw
          ∧ (evalPre c p jg xg rdt).Tw
              = (solid c (evalCoupled c p jg xg) (shiftPtr xg p.toStFlow.loc)
                  (solidProperties (evalGas p jg xg)).2.RK
                  (solidProperties (evalGas p jg xg)).2.Omega (evalRdt jg rdt)).Tw
          ∧ (evalPre c p jg xg rdt).dq
              = (solid c (evalCoupled c p jg xg) (shiftPtr xg p.toStFlow.loc)
                  (solidProperties (evalGas p jg xg)).2.RK
                  (solidProperties (evalGas p jg xg)).2.Omega (evalRdt jg rdt)).dq)
      ∧ (p.dosolid ≠ 1 →
          (evalPre c p jg xg rdt).dosolid = p.dosolid
            ∧ (evalPre c p jg xg rdt).Tw = p.Tw
            ∧ (evalPre c p jg xg rdt).dq = p.dq
            ∧ (evalPre c p jg xg rdt).Twprev = p.Twprev)
      ∧ StFlow.eraseRun (evalPre c p jg xg rdt).toStFlow = StFlow.eraseRun p.toStFlow := by
  obtain ⟨hd, hTw, hdq, hTp, hcfg⟩ := evalCoupled_solid c p jg xg
  obtain ⟨tw, dq, lg, hs⟩ := solid_eq c (evalCoupled c p jg xg) (shiftPtr xg p.toStFlow.loc)
    (solidProperties (evalGas p jg xg)).2.RK (solidProperties (evalGas p jg xg)).2.Omega
    (evalRdt jg rdt)
  rw [evalPre_eq]
  refine ⟨?_, ?_, ?_⟩
  · intro h1
    rw [if_pos (hd.trans h1), hs]
    exact ⟨rfl, hTw, rfl, rfl⟩
  · intro h1
    rw [if_neg (fun h => h1 (hd.symm.trans h))]
    exact ⟨hd, hTw, hdq, hTp⟩
  · split_ifs
    · rw [hs]
      exact hcfg
    · exact hcfg


theorem evalReach_dom (c : Consts) (p : PorousFlow) (jg : Nat) (xg rg : Nat → ℚ)
    (diagg : Nat → Int) (rdt : ℚ) (j : Nat) :
    ∃ th wd, (evalReach c p jg xg rg diagg rdt j).dom
      = withGas (evalPre c p jg xg rdt)
          (StFlow.withThermoWdot (evalPre c p jg xg rdt).toStFlow th wd) :=
  porous_evalPoints_dom c _ _ _ j
    ⟨evalPre c p jg xg rdt, ⟨shiftPtr rg p.toStFlow.loc, shiftPtr diagg p.toStFlow.loc⟩⟩

/-- The trigger and the solid fields after a call of `eval` that passes the guard. -/
theorem eval_solid_fields (c : Consts) (p : PorousFlow) (jg : Nat) (xg rg : Nat → ℚ)
    (diagg : Nat → Int) (rdt : ℚ)
    (hg : ¬ (jg ≠ npos ∧ (addSz jg 1 < p.toStFlow.firstPoint ∨ jg > addSz p.toStFlow.lastPoint 1))) :
    (p.dosolid = 1 →
        (p.eval c jg xg rg diagg rdt).state.dom.dosolid = 0
          ∧ (p.eval c jg xg rg diagg rdt).state.dom.Twprev = p.Tw
          ∧ (p.eval c jg xg rg diagg rdt).state.dom.Tw
              = (solid c (evalCoupled c p jg xg) (shiftPtr xg p.toStFlow.loc)
                  (solidProperties (evalGas p jg xg)).2.RK
                  (solidProperties (evalGas p jg xg)).2.Omega (evalRdt jg rdt)).Tw
          ∧ (p.eval c jg xg rg diagg rdt).state.dom.dq
              = (solid c (evalCoupled c p jg xg) (shiftPtr xg p.toStFlow.loc)
                  (solidProperties (evalGas p jg xg)).2.RK
                  (solidProperties (evalGas p jg xg)).2.Omega (evalRdt jg rdt)).dq)
      ∧ (p.dosolid ≠ 1 →
          (p.eval c jg xg rg diagg rdt).state.dom.dosolid = p.dosolid
            ∧ (p.eval c jg xg rg diagg rdt).state.dom.Tw = p.Tw
            ∧ (p.eval c jg xg rg diagg rdt).state.dom.dq = p.dq
            ∧ (p.eval c jg xg rg diagg rdt).state.dom.Twprev = p.Twprev) := by
  obtain ⟨th, wd, hd⟩ := evalReach_dom c p jg xg rg diagg rdt (StFlow.evalJmax p.toStFlow jg + 1)
  have hdom : (p.eval c jg xg rg diagg rdt).state.dom
      = withGas (evalPre c p jg xg rdt)
          (StFlow.withThermoWdot (evalPre c p jg xg rdt).toStFlow th wd) := by
    rw [porous_eval_inside c p jg xg rg diagg rdt hg]
    exact hd
  obtain ⟨h1, h2, _⟩ := evalPre_solid c p jg xg rdt
  rw [hdom]
  exact ⟨fun h => h1 h, fun h => h2 h⟩

/-- C28: a call of `PorousFlow::eval` that passes the guard at its top runs the solid solver exactly
when the trigger `dosolid` is 1 on entry: then the solver starts from the unchanged fields `Tw` and
`dq`, the object ends with the solver's `Tw` and `dq`, with `Twprev` holding the old `Tw`, and with the
trigger cleared to 0; when the trigger is not 1 on entry, `Tw`, `dq`, `Twprev` and the trigger are
unchanged by the call. Hence after one trigger a second evaluation (whatever its arguments) leaves
`Tw` and `dq` as the first one left them: one solid solve for two evaluations. -/
theorem solid_trigger_one_shot (c : Consts) (p : PorousFlow) (jg : Nat) (xg rg : Nat → ℚ)
    (diagg : Nat → Int) (rdt : ℚ)
    (hg : ¬ (jg ≠ npos ∧ (addSz jg 1 < p.toStFlow.firstPoint ∨ jg > addSz p.toStFlow.lastPoint 1))) :
    (p.dosolid = 1 →
        (p.eval c jg xg rg diagg rdt).state.dom.dosolid = 0
          ∧ (p.eval c jg xg rg diagg rdt).state.dom.Twprev = p.Tw
          ∧ (evalCoupled c p jg xg).Tw = p.Tw
          ∧ (evalCoupled c p jg xg).dq = p.dq
          ∧ (p.eval c jg xg rg diagg rdt).state.dom.Tw
              = (solid c (evalCoupled c p jg xg) (shiftPtr xg p.toStFlow.loc)
                  (solidProperties (evalGas p jg xg)).2.RK
                  (solidProperties (evalGas p jg xg)).2.Omega (evalRdt jg rdt)).Tw
          ∧ (p.eval c jg xg rg diagg rdt).state.dom.dq
              = (solid c (evalCoupled c p jg xg) (shiftPtr xg p.toStFlow.loc)
                  (solidProperties (evalGas p jg xg)).2.RK
                  (solidProperties (evalGas p jg xg)).2.Omega (evalRdt jg rdt)).dq)
      ∧ (p.dosolid ≠ 1 →
          (p.eval c jg xg rg diagg rdt).state.dom.dosolid = p.dosolid
            ∧ (p.eval c jg xg rg diagg rdt).state.dom.Tw = p.Tw
            ∧ (p.eval c jg xg rg diagg rdt).state.dom.dq = p.dq
            ∧ (p.eval c jg xg rg diagg rdt).state.dom.Twprev = p.Twprev)
      ∧ (p.dosolid = 1 → ∀ (jg2 : Nat) (xg2 : Nat → ℚ) (rdt2 : ℚ),
          ((p.eval c jg xg rg diagg rdt).state.dom.eval c jg2 xg2
              (p.eval c jg xg rg diagg rdt).state.rg
              (p.eval c jg xg rg diagg rdt).state.diagg rdt2).state.dom.Tw
              = (p.eval c jg xg rg diagg rdt).state.dom.Tw
            ∧ ((p.eval c jg xg rg diagg rdt).state.dom.eval c jg2 xg2
                (p.eval c jg xg rg diagg rdt).state.rg
                (p.eval c jg xg rg diagg rdt).state.diagg rdt2).state.dom.dq
              = (p.eval c jg xg rg diagg rdt).state.dom.dq
            ∧ ((p.eval c jg xg rg diagg rdt).state.dom.eval c jg2 xg2
                (p.eval c jg xg rg diagg rdt).state.rg
                (p.eval c jg xg rg diagg rdt).state.diagg rdt2).state.dom.dosolid = 0) := by
  obtain ⟨h1, h2⟩ := eval_solid_fields c p jg xg rg diagg rdt hg
  obtain ⟨_, hTw, hdq, _, _⟩ := evalCoupled_solid c p jg xg
  refine ⟨fun h => ⟨(h1 h).1, (h1 h).2.1, hTw, hdq, (h1 h).2.2.1, (h1 h).2.2.2⟩, h2, ?_⟩
  intro h jg2 xg2 rdt2
  have h0 : (p.eval c jg xg rg diagg rdt).state.dom.dosolid = 0 := (h1 h).1
  by_cases hg2 : jg2 ≠ npos ∧
      (addSz jg2 1 < (p.eval c jg xg rg diagg rdt).state.dom.toStFlow.firstPoint
        ∨ jg2 > addSz (p.eval c jg xg rg diagg rdt).state.dom.toStFlow.lastPoint 1)
  · have hret : ((p.eval c jg xg rg diagg rdt).state.dom.eval c jg2 xg2
        (p.eval c jg xg rg diagg rdt).state.rg
        (p.eval c jg xg rg diagg rdt).state.diagg rdt2).state.dom
        = (p.eval c jg xg rg diagg rdt).state.dom := by
      generalize (p.eval c jg xg rg diagg rdt).state = f at hg2 ⊢
      unfold eval
      rw [if_pos hg2]
    rw [hret]
    exact ⟨rfl, rfl, h0⟩
  · obtain ⟨_, k2⟩ := eval_solid_fields c (p.eval c jg xg rg diagg rdt).state.dom jg2 xg2
      (p.eval c jg xg rg diagg rdt).state.rg (p.eval c jg xg rg diagg rdt).state.diagg rdt2 hg2
    have hne : (p.eval c jg xg rg diagg rdt).state.dom.dosolid ≠ 1 := by
      rw [h0]; decide
    exact ⟨(k2 hne).2.1, (k2 hne).2.2.1, (k2 hne).1.trans h0⟩

end PorousFlow

namespace PorousFlow

theorem solid_trigger_one_shot_witness :
    ((demoPorousTriggered.eval demoConsts npos demoXg demoRg demoDiagg 5).state.dom.dosolid = 0
        ∧ (demoPorousTriggered.eval demoConsts npos demoXg demoRg demoDiagg 5).state.dom.Twprev
            = demoPorousTriggered.Tw)
      ∧ ((demoPorous.eval demoConsts npos demoXg demoRg demoDiagg 5).state.dom.dosolid
            = demoPorous.dosolid
          ∧ (demoPorous.eval demoConsts npos demoXg demoRg demoDiagg 5).state.dom.Tw = demoPorous.Tw) :=
  ⟨⟨((solid_trigger_one_shot demoConsts demoPorousTriggered npos demoXg demoRg demoDiagg 5
        (fun h => h.1 rfl)).1 rfl).1,
      ((solid_trigger_one_shot demoConsts demoPorousTriggered npos demoXg demoRg demoDiagg 5
        (fun h => h.1 rfl)).1 rfl).2.1⟩,
    ⟨((solid_trigger_one_shot demoConsts demoPorous npos demoXg demoRg demoDiagg 5
        (fun h => h.1 rfl)).2.1 (by decide)).1,
      ((solid_trigger_one_shot demoConsts demoPorous npos demoXg demoRg demoDiagg 5
        (fun h => h.1 rfl)).2.1 (by decide)).2.1⟩⟩

/-- The configuration of the object when the loop over the points reaches point `j`. -/
theorem evalReach_config (c : Consts) (p : PorousFlow) (jg : Nat) (xg rg : Nat → ℚ)
    (diagg : Nat → Int) (rdt : ℚ) (j : Nat) :
    StFlow.eraseRun (evalReach c p jg xg rg diagg rdt j).dom.toStFlow
      = StFlow.eraseRun p.toStFlow := by
  obtain ⟨th, wd, hd⟩ := evalReach_dom c p jg xg rg diagg rdt j
  rw [hd]
  exact (evalPre_solid c p jg xg rdt).2.2

/-- The rows of point `j` of the window after the loop over the points of `PorousFlow::eval`
are those that the body of the loop leaves when it reaches `j`. -/
theorem porous_evalLocal_point (c : Consts) (p : PorousFlow) (jg : Nat) (xg rg : Nat → ℚ)
    (diagg : Nat → Int) (rdt : ℚ) (hnv : c_offset_Y + p.m_nsp ≤ p.m_nv) (hnsp : 1 ≤ p.m_nsp)
    (j : Nat) (h1 : StFlow.evalJmin p.toStFlow jg ≤ j) (h2 : j ≤ StFlow.evalJmax p.toStFlow jg)
    (n : Nat) (hn : n < p.m_nv) :
    (evalLocal c p jg xg rg diagg rdt).res.rsd (p.toStFlow.index n j)
        = (evalPoint c (shiftPtr xg p.toStFlow.loc) (evalRdt jg rdt) j
            (evalReach c p jg xg rg diagg rdt j)).res.rsd (p.toStFlow.index n j)
      ∧ (evalLocal c p jg xg rg diagg rdt).res.diag (p.toStFlow.index n j)
        = (evalPoint c (shiftPtr xg p.toStFlow.loc) (evalRdt jg rdt) j
            (evalReach c p jg xg rg diagg rdt j)).res.diag (p.toStFlow.index n j) := by
  have hcfg := (evalPre_solid c p jg xg rdt).2.2
  have e1 : (evalPre c p jg xg rdt).m_nv = p.m_nv :=
    StFlow.eraseRun_field (fun u => u.m_nv) (fun _ => rfl) (fun _ _ _ => rfl) _ _ hcfg
  have e2 : (evalPre c p jg xg rdt).m_nsp = p.m_nsp :=
    StFlow.eraseRun_field (fun u => u.m_nsp) (fun _ => rfl) (fun _ _ _ => rfl) _ _ hcfg
  have key := porous_evalPoints_point c (shiftPtr xg p.toStFlow.loc) (evalRdt jg rdt)
    (StFlow.evalJmin p.toStFlow jg) (StFlow.evalJmax p.toStFlow jg + 1)
    ⟨evalPre c p jg xg rdt, ⟨shiftPtr rg p.toStFlow.loc, shiftPtr diagg p.toStFlow.loc⟩⟩
    (by show c_offset_Y + (evalPre c p jg xg rdt).m_nsp ≤ (evalPre c p jg xg rdt).m_nv
        rw [e1, e2]; exact hnv)
    (by show 1 ≤ (evalPre c p jg xg rdt).m_nsp
        rw [e2]; exact hnsp)
    j h1 (by omega) (p.toStFlow.index n j)
    (by show inRows (evalPre c p jg xg rdt).m_nv j (p.toStFlow.index n j)
        rw [e1]
        exact inRows_index _ _ _ hn)
  unfold evalLocal evalReach
  exact key

theorem porous_evalPoint_interior (c : Consts) (x : Nat → ℚ) (rdt : ℚ) (j : Nat) (e : PorousEvalState)
    (h0 : j ≠ 0) (h1 : j ≠ e.dom.m_points - 1) :
    evalPoint c x rdt j e = evalInterior c e x rdt j := by
  unfold evalPoint
  rw [if_neg h0, if_neg h1]

/-- The temperature row of an interior point is the one that `evalEnergyRow` writes. -/
theorem porous_evalInterior_T (c : Consts) (e : PorousEvalState) (x : Nat → ℚ) (rdt : ℚ) (j : Nat) :
    ∃ r : Resid,
      (evalInterior c e x rdt j).res.rsd (e.dom.toStFlow.index c_offset_T j)
          = (evalEnergyRow c ⟨{ e.dom with toStFlow := e.dom.toStFlow.getWdot x j }, r⟩ x rdt j).res.rsd
              (e.dom.toStFlow.index c_offset_T j)
        ∧ (evalInterior c e x rdt j).res.diag (e.dom.toStFlow.index c_offset_T j)
          = (evalEnergyRow c ⟨{ e.dom with toStFlow := e.dom.toStFlow.getWdot x j }, r⟩ x rdt j).res.diag
              (e.dom.toStFlow.index c_offset_T j) := by
  have hne : ∀ ee : PorousEvalState, ee.dom.m_nv = e.dom.m_nv →
      e.dom.toStFlow.index c_offset_T j ≠ (evalEnergyRow c ee x rdt j).dom.toStFlow.index c_offset_L j := by
    intro ee hee
    unfold StFlow.index
    rw [porous_evalEnergyRow_nv, hee]
    simp only [c_offset_T, c_offset_L]
    omega
  unfold evalInterior
  simp only []
  exact ⟨_, keep_setDiag_rsd _ _ _ _ _ (keep_setRsd_rsd _ _ _ _ _ (hne _ rfl) rfl),
    keep_setDiag_diag _ _ _ _ _ (hne _ rfl) (keep_setRsd_diag _ _ _ _ _ rfl)⟩

theorem porous_evalEnergyRow_fixed (c : Consts) (e : PorousEvalState) (x : Nat → ℚ) (rdt : ℚ) (j : Nat)
    (h : bget e.dom.m_do_energy j = false) :
    (evalEnergyRow c e x rdt j).res.rsd (e.dom.toStFlow.index c_offset_T j)
        = e.dom.toStFlow.T x j - e.dom.toStFlow.T_fixed j
      ∧ (evalEnergyRow c e x rdt j).res.diag (e.dom.toStFlow.index c_offset_T j) = 0 := by
  unfold evalEnergyRow
  rw [if_neg (by rw [h]; decide)]
  exact ⟨setRsd_rsd_eq _ _ _, setDiag_diag_eq _ _ _⟩

end PorousFlow

/-! ## The temperature row -/

theorem bget_set_eq (v : List Bool) (i : Nat) (a : Bool) (h : i < v.length) :
    bget (v.set i a) i = a := by
  simp [bget, List.getElem?_set, h]

theorem bget_set_ne (v : List Bool) (i j : Nat) (a : Bool) (h : i ≠ j) :
    bget (v.set i a) j = bget v j := by
  simp [bget, List.getElem?_set, h]

namespace StFlow

/-- The temperature row that `evalResidual` leaves at an interior point of its window where
the energy equation is disabled. -/
theorem evalResidual_T_fixed (c : Consts) (s : StFlow) (x : Nat → ℚ) (r : Resid) (rdt : ℚ)
    (jmin jmax j : Nat) (hnv : c_offset_Y + s.m_nsp ≤ s.m_nv)
    (hkl : s.m_kExcessLeft < s.m_nsp) (hkr : s.m_kExcessRight < s.m_nsp)
    (h1 : jmin ≤ j) (h2 : j ≤ jmax) (h0 : 0 < j) (hN : j < s.m_points - 1)
    (hen : s.doEnergy j = false) :
    (evalResidual c s x r rdt jmin jmax).res.rsd (s.index c_offset_T j) = s.T x j - s.T_fixed j
      ∧ (evalResidual c s x r rdt jmin jmax).res.diag (s.index c_offset_T j) = 0 := by
  obtain ⟨t, ht, hrows⟩ := evalResidual_point c s x r rdt jmin jmax hnv hkl hkr j h1 h2
  have epts : t.dom.m_points = s.m_points :=
    eraseCaches_field (fun u => u.m_points) (fun _ => rfl) _ _ ht
  have env : t.dom.m_nv = s.m_nv := eraseCaches_field (fun u => u.m_nv) (fun _ => rfl) _ _ ht
  have een : t.dom.m_do_energy = s.m_do_energy :=
    eraseCaches_field (fun u => u.m_do_energy) (fun _ => rfl) _ _ ht
  have eft : t.dom.m_fixedtemp = s.m_fixedtemp :=
    eraseCaches_field (fun u => u.m_fixedtemp) (fun _ => rfl) _ _ ht
  have hint : evalPoint c x rdt j t = evalInterior c t x rdt j :=
    evalPoint_interior c x rdt j t (by omega) (by rw [epts]; omega)
  rw [hint] at hrows
  have h5 : c_offset_Y = 5 := rfl
  obtain ⟨_, _, _, _, _, mT, vT⟩ := evalInterior_rows c t x rdt j
  have hen2 : bget t.dom.m_do_energy j = false := by rw [een]; exact hen
  have hT : t.dom.T x j - t.dom.T_fixed j = s.T x j - s.T_fixed j := by
    unfold T T_fixed index
    rw [env, eft]
  obtain ⟨k1, k2⟩ := hrows c_offset_T (by simp only [c_offset_T]; omega)
  rw [k1, k2, mT, vT hen2, hT, if_neg (by rw [hen2]; decide)]
  exact ⟨rfl, rfl⟩

end StFlow

namespace PorousFlow

/-- The temperature row that the body of the loop leaves at an interior point where the
energy equation is disabled. -/
theorem evalPoint_T_fixed (c : Consts) (x : Nat → ℚ) (rdt : ℚ) (j : Nat) (t : PorousEvalState)
    (h0 : j ≠ 0) (h1 : j ≠ t.dom.m_points - 1) (hen : bget t.dom.m_do_energy j = false) :
    (evalPoint c x rdt j t).res.rsd (t.dom.toStFlow.index c_offset_T j)
        = t.dom.toStFlow.T x j - t.dom.toStFlow.T_fixed j
      ∧ (evalPoint c x rdt j t).res.diag (t.dom.toStFlow.index c_offset_T j) = 0 := by
  rw [porous_evalPoint_interior c x rdt j t h0 h1]
  obtain ⟨r, m1, m2⟩ := porous_evalInterior_T c t x rdt j
  obtain ⟨f1, f2⟩ := porous_evalEnergyRow_fixed c
    ⟨{ t.dom with toStFlow := t.dom.toStFlow.getWdot x j }, r⟩ x rdt j hen
  rw [m1, m2]
  exact ⟨f1, f2⟩

/-- The temperature row that `PorousFlow::eval` leaves at an interior point of its window
where the energy equation is disabled. -/
theorem eval_T_fixed (c : Consts) (p : PorousFlow) (jg : Nat) (xg rg : Nat → ℚ)
    (diagg : Nat → Int) (rdt : ℚ)
    (hg : ¬ (jg ≠ npos ∧ (addSz jg 1 < p.toStFlow.firstPoint ∨ jg > addSz p.toStFlow.lastPoint 1)))
    (hnv : c_offset_Y + p.m_nsp ≤ p.m_nv) (hnsp : 1 ≤ p.m_nsp) (j : Nat)
    (h1 : StFlow.evalJmin p.toStFlow jg ≤ j) (h2 : j ≤ StFlow.evalJmax p.toStFlow jg)
    (h0 : 0 < j) (hN : j < p.m_points - 1) (hen : p.toStFlow.doEnergy j = false) :
    (p.eval c jg xg rg diagg rdt).state.rg (p.toStFlow.loc + p.toStFlow.index c_offset_T j)
        = p.toStFlow.T (shiftPtr xg p.toStFlow.loc) j - p.toStFlow.T_fixed j
      ∧ (p.eval c jg xg rg diagg rdt).state.diagg
          (p.toStFlow.loc + p.toStFlow.index c_offset_T j) = 0 := by
  have h5 : c_offset_Y = 5 := rfl
  have hcfg := evalReach_config c p jg xg rg diagg rdt j
  have epts : (evalReach c p jg xg rg diagg rdt j).dom.m_points = p.m_points :=
    StFlow.eraseRun_field (fun u => u.m_points) (fun _ => rfl) (fun _ _ _ => rfl) _ _ hcfg
  have env : (evalReach c p jg xg rg diagg rdt j).dom.m_nv = p.m_nv :=
    StFlow.eraseRun_field (fun u => u.m_nv) (fun _ => rfl) (fun _ _ _ => rfl) _ _ hcfg
  have een : (evalReach c p jg xg rg diagg rdt j).dom.m_do_energy = p.m_do_energy :=
    StFlow.eraseRun_field (fun u => u.m_do_energy) (fun _ => rfl) (fun _ _ _ => rfl) _ _ hcfg
  have eft : (evalReach c p jg xg rg diagg rdt j).dom.m_fixedtemp = p.m_fixedtemp :=
    StFlow.eraseRun_field (fun u => u.m_fixedtemp) (fun _ => rfl) (fun _ _ _ => rfl) _ _ hcfg
  obtain ⟨k1, k2⟩ := porous_evalLocal_point c p jg xg rg diagg rdt hnv hnsp j h1 h2 c_offset_T
    (by simp only [c_offset_T]; omega)
  obtain ⟨m1, m2⟩ := evalPoint_T_fixed c (shiftPtr xg p.toStFlow.loc) (evalRdt jg rdt) j
    (evalReach c p jg xg rg diagg rdt j) (by omega) (by rw [epts]; omega) (by rw [een]; exact hen)
  have hidx : (evalReach c p jg xg rg diagg rdt j).dom.toStFlow.index c_offset_T j
      = p.toStFlow.index c_offset_T j := by
    unfold StFlow.index
    rw [env]
  have hT : (evalReach c p jg xg rg diagg rdt j).dom.toStFlow.T (shiftPtr xg p.toStFlow.loc) j
      - (evalReach c p jg xg rg diagg rdt j).dom.toStFlow.T_fixed j
      = p.toStFlow.T (shiftPtr xg p.toStFlow.loc) j - p.toStFlow.T_fixed j := by
    unfold StFlow.T StFlow.T_fixed StFlow.index
    rw [env, eft]
  rw [hidx, hT] at m1
  rw [hidx] at m2
  rw [porous_eval_inside c p jg xg rg diagg rdt hg]
  show unshiftPtr rg p.toStFlow.loc _ (p.toStFlow.loc + p.toStFlow.index c_offset_T j) = _
    ∧ unshiftPtr diagg p.toStFlow.loc _ (p.toStFlow.loc + p.toStFlow.index c_offset_T j) = _
  rw [StFlow.unshiftPtr_at, StFlow.unshiftPtr_at, k1, k2, m1, m2]
  exact ⟨rfl, rfl⟩

end PorousFlow

namespace StFlow

/-- C21: at an interior point `j` where the energy equation is disabled, `StFlow::evalResidual`
(on a well-formed object, for `j` inside its window) and `PorousFlow::eval` (when it passes its
guard, for `j` inside its window) leave `T(j) - T_fixed(j)` in the temperature row and flag it
algebraic (mask 0), so the row vanishes exactly when `T(j)` equals the fixed temperature; and after
`setTemperature(j, t)` with `j` inside the two vectors, `T_fixed(j) = t` and `doEnergy(j)` is false
while `T_fixed` and `doEnergy` are unchanged at every other point. -/
theorem fixed_temperature_row (c : Consts) (s : StFlow) (p : PorousFlow) (x : Nat → ℚ)
    (r : Resid) (rdt : ℚ) (jmin jmax : Nat) (jg : Nat) (xg rg : Nat → ℚ) (diagg : Nat → Int)
    (j : Nat) (t : ℚ) (h0 : 0 < j) :
    (c_offset_Y + s.m_nsp ≤ s.m_nv → s.m_kExcessLeft < s.m_nsp → s.m_kExcessRight < s.m_nsp →
      jmin ≤ j → j ≤ jmax → j < s.m_points - 1 → s.doEnergy j = false →
        (evalResidual c s x r rdt jmin jmax).res.rsd (s.index c_offset_T j) = s.T x j - s.T_fixed j
          ∧ (evalResidual c s x r rdt jmin jmax).res.diag (s.index c_offset_T j) = 0
          ∧ ((evalResidual c s x r rdt jmin jmax).res.rsd (s.index c_offset_T j) = 0
              ↔ s.T x j = s.T_fixed j))
      ∧ (¬ (jg ≠ npos ∧ (addSz jg 1 < p.toStFlow.firstPoint ∨ jg > addSz p.toStFlow.lastPoint 1)) →
          c_offset_Y + p.m_nsp ≤ p.m_nv → 1 ≤ p.m_nsp →
          evalJmin p.toStFlow jg ≤ j → j ≤ evalJmax p.toStFlow jg → j < p.m_points - 1 →
          p.toStFlow.doEnergy j = false →
            (p.eval c jg xg rg diagg rdt).state.rg (p.toStFlow.loc + p.toStFlow.index c_offset_T j)
                = p.toStFlow.T (shiftPtr xg p.toStFlow.loc) j - p.toStFlow.T_fixed j
              ∧ (p.eval c jg xg rg diagg rdt).state.diagg
                  (p.toStFlow.loc + p.toStFlow.index c_offset_T j) = 0
              ∧ ((p.eval c jg xg rg diagg rdt).state.rg
                    (p.toStFlow.loc + p.toStFlow.index c_offset_T j) = 0
                  ↔ p.toStFlow.T (shiftPtr xg p.toStFlow.loc) j = p.toStFlow.T_fixed j))
      ∧ (j < s.m_fixedtemp.length → j < s.m_do_energy.length →
          (s.setTemperature j t).T_fixed j = t
            ∧ (s.setTemperature j t).doEnergy j = false
            ∧ ∀ i, i ≠ j → (s.setTemperature j t).T_fixed i = s.T_fixed i
                ∧ (s.setTemperature j t).doEnergy i = s.doEnergy i) := by
  refine ⟨?_, ?_, ?_⟩
  · intro hnv hkl hkr h1 h2 hN hen
    obtain ⟨a, b⟩ := evalResidual_T_fixed c s x r rdt jmin jmax j hnv hkl hkr h1 h2 h0 hN hen
    exact ⟨a, b, by rw [a]; exact sub_eq_zero⟩
  · intro hg hnv hnsp h1 h2 hN hen
    obtain ⟨a, b⟩ := PorousFlow.eval_T_fixed c p jg xg rg diagg rdt hg hnv hnsp j h1 h2 h0 hN hen
    exact ⟨a, b, by rw [a]; exact sub_eq_zero⟩
  · intro hl1 hl2
    refine ⟨vget_set_eq _ _ _ hl1, bget_set_eq _ _ _ hl2, ?_⟩
    intro i hi
    exact ⟨vget_set_ne _ _ _ _ (Ne.symm hi), bget_set_ne _ _ _ _ (Ne.symm hi)⟩


theorem fixed_temperature_row_witness :
    ((evalResidual demoConsts demoFlow demoX demoResidNine 5 0 3).res.rsd (demoFlow.index c_offset_T 1)
          = demoFlow.T demoX 1 - demoFlow.T_fixed 1
        ∧ (evalResidual demoConsts demoFlow demoX demoResidNine 5 0 3).res.diag
            (demoFlow.index c_offset_T 1) = 0
        ∧ ((evalResidual demoConsts demoFlow demoX demoResidNine 5 0 3).res.rsd
              (demoFlow.index c_offset_T 1) = 0
            ↔ demoFlow.T demoX 1 = demoFlow.T_fixed 1))
      ∧ ((demoPorous.eval demoConsts npos demoXg demoRg demoDiagg 5).state.rg
              (demoPorous.toStFlow.loc + demoPorous.toStFlow.index c_offset_T 1)
            = demoPorous.toStFlow.T (shiftPtr demoXg demoPorous.toStFlow.loc) 1
              - demoPorous.toStFlow.T_fixed 1
          ∧ (demoPorous.eval demoConsts npos demoXg demoRg demoDiagg 5).state.diagg
              (demoPorous.toStFlow.loc + demoPorous.toStFlow.index c_offset_T 1) = 0
          ∧ ((demoPorous.eval demoConsts npos demoXg demoRg demoDiagg 5).state.rg
                (demoPorous.toStFlow.loc + demoPorous.toStFlow.index c_offset_T 1) = 0
              ↔ demoPorous.toStFlow.T (shiftPtr demoXg demoPorous.toStFlow.loc) 1
                  = demoPorous.toStFlow.T_fixed 1))
      ∧ ((demoFlow.setTemperature 1 350).T_fixed 1 = 350
          ∧ (demoFlow.setTemperature 1 350).doEnergy 1 = false
          ∧ ∀ i, i ≠ 1 → (demoFlow.setTemperature 1 350).T_fixed i = demoFlow.T_fixed i
              ∧ (demoFlow.setTemperature 1 350).doEnergy i = demoFlow.doEnergy i) :=
  ⟨(fixed_temperature_row demoConsts demoFlow demoPorous demoX demoResidNine 5 0 3 npos demoXg
      demoRg demoDiagg 1 350 (by decide)).1 (by decide) (by decide) (by decide) (by decide)
      (by decide) (by decide) (by decide),
    (fixed_temperature_row demoConsts demoFlow demoPorous demoX demoResidNine 5 0 3 npos demoXg
      demoRg demoDiagg 1 350 (by decide)).2.1 (fun h => h.1 rfl) (by decide) (by decide)
      (by decide!) (by decide!) (by decide) (by decide),
    (fixed_temperature_row demoConsts demoFlow demoPorous demoX demoResidNine 5 0 3 npos demoXg
      demoRg demoDiagg 1 350 (by decide)).2.2 (by decide) (by decide)⟩

end StFlow

namespace StFlow

/-- The temperature row of an interior point is the one that `evalEnergyRow` writes. -/
theorem evalInterior_T (c : Consts) (e : EvalState) (x : Nat → ℚ) (rdt : ℚ) (j : Nat) :
    ∃ r : Resid,
      (evalInterior c e x rdt j).res.rsd (e.dom.index c_offset_T j)
        = (evalEnergyRow c ⟨e.dom.getWdot x j, r⟩ x rdt j).res.rsd (e.dom.index c_offset_T j) := by
  have hne : ∀ ee : EvalState, ee.dom.m_nv = e.dom.m_nv →
      e.dom.index c_offset_T j ≠ (evalEnergyRow c ee x rdt j).dom.index c_offset_L j := by
    intro ee hee
    unfold index
    rw [evalEnergyRow_nv, hee]
    simp only [c_offset_T, c_offset_L]
    omega
  unfold evalInterior
  simp only []
  exact ⟨_, keep_setDiag_rsd _ _ _ _ _ (keep_setRsd_rsd _ _ _ _ _ (hne _ rfl) rfl)⟩

end StFlow

/-- The value that the four stores of the energy row of `PorousFlow::eval` leave. -/
theorem porous_energy_stores (r : Resid) (i : Nat) (A B D R : ℚ) :
    let r1 := r.setRsd i A
    let r2 := r1.setRsd i (r1.rsd i - B)
    let r3 := r2.setRsd i (r2.rsd i / D)
    let r4 := r3.setRsd i (r3.rsd i - R)
    (r4.setDiag i 1).rsd i = (A - B) / D - R := by
  intro r1 r2 r3 r4
  show (r3.setRsd i (r3.rsd i - R)).rsd i = _
  rw [setRsd_rsd_eq]
  show (r2.setRsd i (r2.rsd i / D)).rsd i - R = _
  rw [setRsd_rsd_eq]
  show (r1.setRsd i (r1.rsd i - B)).rsd i / D - R = _
  rw [setRsd_rsd_eq]
  show ((r.setRsd i A).rsd i - B) / D - R = _
  rw [setRsd_rsd_eq]

/-- The value that the four stores of the energy row of `StFlow::evalResidual` leave. -/
theorem stflow_energy_stores (r : Resid) (i : Nat) (A D R Q : ℚ) :
    let r1 := r.setRsd i A
    let r2 := r1.setRsd i (r1.rsd i / D)
    let r3 := r2.setRsd i (r2.rsd i - R)
    let r4 := r3.setRsd i (r3.rsd i - Q)
    (r4.setDiag i 1).rsd i = A / D - R - Q := by
  intro r1 r2 r3 r4
  show (r3.setRsd i (r3.rsd i - Q)).rsd i = _
  rw [setRsd_rsd_eq]
  show (r2.setRsd i (r2.rsd i - R)).rsd i - Q = _
  rw [setRsd_rsd_eq]
  show (r1.setRsd i (r1.rsd i / D)).rsd i - R - Q = _
  rw [setRsd_rsd_eq]
  show (r.setRsd i A).rsd i / D - R - Q = _
  rw [setRsd_rsd_eq]

namespace PorousFlow

/-- With the energy equation enabled at `j`, the two energy rows divide the same numerator. -/
theorem energyRows_numerator (c : Consts) (e : PorousEvalState) (x : Nat → ℚ) (rdt : ℚ) (j : Nat)
    (r : Resid) (hen : bget e.dom.m_do_energy j = true) :
    ∃ A : ℚ,
      (evalEnergyRow c e x rdt j).res.rsd (e.dom.toStFlow.index c_offset_T j)
          = (A - vget e.dom.hconv j * (e.dom.toStFlow.T x j - vget e.dom.Tw j) / vget e.dom.pore j)
              / (vget e.dom.m_rho j * vget e.dom.m_cp j)
            - rdt * (e.dom.toStFlow.T x j - e.dom.toStFlow.T_prev j)
        ∧ (StFlow.evalEnergyRow c ⟨e.dom.toStFlow, r⟩ x rdt j).res.rsd
              (e.dom.toStFlow.index c_offset_T j)
          = A / (vget e.dom.m_rho j * vget e.dom.m_cp j)
            - rdt * (e.dom.toStFlow.T x j - e.dom.toStFlow.T_prev j)
            - vget e.dom.m_qdotRadiation j / (vget e.dom.m_rho j * vget e.dom.m_cp j) := by
  unfold evalEnergyRow StFlow.evalEnergyRow
  rw [if_pos hen, if_pos hen]
  exact ⟨_, porous_energy_stores _ _ _ _ _ _, stflow_energy_stores _ _ _ _ _ _⟩

theorem porous_evalEnergyRow_enabled (c : Consts) (e : PorousEvalState) (x : Nat → ℚ) (rdt : ℚ) (j : Nat)
    (r : Resid) (hen : bget e.dom.m_do_energy j = true) :
    (evalEnergyRow c e x rdt j).res.rsd (e.dom.toStFlow.index c_offset_T j)
      = (StFlow.evalEnergyRow c ⟨e.dom.toStFlow, r⟩ x rdt j).res.rsd (e.dom.toStFlow.index c_offset_T j)
        + vget e.dom.m_qdotRadiation j / (vget e.dom.m_rho j * vget e.dom.m_cp j)
        - vget e.dom.hconv j * (e.dom.toStFlow.T x j - vget e.dom.Tw j)
            / (vget e.dom.pore j * vget e.dom.m_rho j * vget e.dom.m_cp j) := by
  obtain ⟨A, hP, hS⟩ := energyRows_numerator c e x rdt j r hen
  rw [hP, hS, sub_div, div_div, mul_assoc]
  ring


/-- The temperature row that the body of the loop of `PorousFlow::eval` leaves at an interior
point where the energy equation is enabled, against the row that the body of the loop of
`StFlow::evalResidual` leaves on the same object. -/
theorem evalPoint_T_enabled (c : Consts) (x : Nat → ℚ) (rdt : ℚ) (j : Nat) (t : PorousEvalState)
    (r0 : Resid) (h0 : j ≠ 0) (h1 : j ≠ t.dom.m_points - 1)
    (hen : bget t.dom.m_do_energy j = true) :
    (evalPoint c x rdt j t).res.rsd (t.dom.toStFlow.index c_offset_T j)
      = (StFlow.evalPoint c x rdt j ⟨t.dom.toStFlow, r0⟩).res.rsd (t.dom.toStFlow.index c_offset_T j)
        + vget t.dom.m_qdotRadiation j / (vget t.dom.m_rho j * vget t.dom.m_cp j)
        - vget t.dom.hconv j * (t.dom.toStFlow.T x j - vget t.dom.Tw j)
            / (vget t.dom.pore j * vget t.dom.m_rho j * vget t.dom.m_cp j) := by
  rw [porous_evalPoint_interior c x rdt j t h0 h1,
    StFlow.evalPoint_interior c x rdt j ⟨t.dom.toStFlow, r0⟩ h0 h1]
  obtain ⟨r, m1, _⟩ := porous_evalInterior_T c t x rdt j
  obtain ⟨r2, m2⟩ := StFlow.evalInterior_T c ⟨t.dom.toStFlow, r0⟩ x rdt j
  have k := porous_evalEnergyRow_enabled c ⟨{ t.dom with toStFlow := t.dom.toStFlow.getWdot x j }, r⟩
    x rdt j r2 hen
  rw [m1, m2]
  exact k

/-- The temperature rows after a full evaluation. -/
theorem eval_full_T_enabled (c : Consts) (p : PorousFlow) (jg : Nat) (xg rg : Nat → ℚ)
    (diagg : Nat → Int) (rdt : ℚ) (hjg : jg = npos)
    (hnv : c_offset_Y + p.m_nsp ≤ p.m_nv) (hnsp : 1 ≤ p.m_nsp)
    (hN : 1 ≤ p.m_points) (hfit : p.m_points < 2 ^ 64) (j : Nat) (h0 : 0 < j)
    (hj : j < p.m_points - 1) (hen : p.toStFlow.doEnergy j = true)
    (t : PorousEvalState) (ht : t = evalReach c p jg xg rg diagg rdt j) :
    (p.eval c jg xg rg diagg rdt).state.rg (p.toStFlow.loc + p.toStFlow.index c_offset_T j)
        = (StFlow.evalPoint c (shiftPtr xg p.toStFlow.loc) rdt j ⟨t.dom.toStFlow, t.res⟩).res.rsd
            (p.toStFlow.index c_offset_T j)
          + t.dom.toStFlow.radiativeHeatLoss j / (vget t.dom.m_rho j * vget t.dom.m_cp j)
          - vget t.dom.hconv j * (p.toStFlow.T (shiftPtr xg p.toStFlow.loc) j - vget t.dom.Tw j)
              / (vget t.dom.pore j * vget t.dom.m_rho j * vget t.dom.m_cp j)
      ∧ t.dom.hconv = (evalPre c p jg xg rdt).hconv
      ∧ t.dom.Tw = (evalPre c p jg xg rdt).Tw
      ∧ t.dom.pore = (evalPre c p jg xg rdt).pore
      ∧ t.dom.m_rho = (evalPre c p jg xg rdt).m_rho
      ∧ t.dom.m_cp = (evalPre c p jg xg rdt).m_cp := by
  have h5 : c_offset_Y = 5 := rfl
  obtain ⟨hg, hmin, hmax⟩ := StFlow.evalWindow_full p.toStFlow jg hjg hN hfit
  have hrdt : evalRdt jg rdt = rdt := by
    unfold evalRdt
    rw [if_neg (fun h => h hjg)]
  have hcfg := evalReach_config c p jg xg rg diagg rdt j
  rw [← ht] at hcfg
  have epts : t.dom.m_points = p.m_points :=
    StFlow.eraseRun_field (fun u => u.m_points) (fun _ => rfl) (fun _ _ _ => rfl) _ _ hcfg
  have env : t.dom.m_nv = p.m_nv :=
    StFlow.eraseRun_field (fun u => u.m_nv) (fun _ => rfl) (fun _ _ _ => rfl) _ _ hcfg
  have een : t.dom.m_do_energy = p.m_do_energy :=
    StFlow.eraseRun_field (fun u => u.m_do_energy) (fun _ => rfl) (fun _ _ _ => rfl) _ _ hcfg
  obtain ⟨k1, _⟩ := porous_evalLocal_point c p jg xg rg diagg rdt hnv hnsp j
    (by rw [hmin]; exact Nat.zero_le j) (by rw [hmax]; omega) c_offset_T
    (by simp only [c_offset_T]; omega)
  rw [← ht, hrdt] at k1
  have m := evalPoint_T_enabled c (shiftPtr xg p.toStFlow.loc) rdt j t t.res (by omega)
    (by rw [epts]; omega) (by rw [een]; exact hen)
  have hidx : t.dom.toStFlow.index c_offset_T j = p.toStFlow.index c_offset_T j := by
    unfold StFlow.index
    rw [env]
  have hT : t.dom.toStFlow.T (shiftPtr xg p.toStFlow.loc) j
      = p.toStFlow.T (shiftPtr xg p.toStFlow.loc) j := by
    unfold StFlow.T StFlow.index
    rw [env]
  rw [hidx, hT] at m
  obtain ⟨th, wd, hd⟩ := evalReach_dom c p jg xg rg diagg rdt j
  rw [← ht] at hd
  refine ⟨?_, ?_⟩
  · rw [porous_eval_inside c p jg xg rg diagg rdt hg]
    show unshiftPtr rg p.toStFlow.loc _ (p.toStFlow.loc + p.toStFlow.index c_offset_T j) = _
    rw [StFlow.unshiftPtr_at, k1, m]
    rfl
  · rw [hd]
    exact ⟨rfl, rfl, rfl, rfl, rfl⟩

/-- C27: after a full evaluation (`jg = npos`) of a well-formed porous domain, at every interior
point `j` with the energy equation enabled the temperature residual written by `PorousFlow::eval`
equals the residual that the loop body of `StFlow::evalResidual` writes on the same object (the
object `t` as the loop reaches point `j`) with its radiation term `qdot/(rho*cp)` added back,
minus `hconv[j]*(T(j) - Tw[j])/(pore[j]*rho(j)*cp(j))`; `hconv`, `Tw`, `pore`, `rho` and `cp` are
the values the object holds when the loop over the points starts. -/
theorem porous_energy_row_adds_exchange (c : Consts) (p : PorousFlow) (xg rg : Nat → ℚ)
    (diagg : Nat → Int) (rdt : ℚ)
    (hnv : c_offset_Y + p.m_nsp ≤ p.m_nv) (hnsp : 1 ≤ p.m_nsp)
    (hN : 1 ≤ p.m_points) (hfit : p.m_points < 2 ^ 64) (j : Nat) (h0 : 0 < j)
    (hj : j < p.m_points - 1) (hen : p.toStFlow.doEnergy j = true)
    (t : PorousEvalState) (ht : t = evalReach c p npos xg rg diagg rdt j) :
    (p.eval c npos xg rg diagg rdt).state.rg (p.toStFlow.loc + p.toStFlow.index c_offset_T j)
        = (StFlow.evalPoint c (shiftPtr xg p.toStFlow.loc) rdt j ⟨t.dom.toStFlow, t.res⟩).res.rsd
            (p.toStFlow.index c_offset_T j)
          + t.dom.toStFlow.radiativeHeatLoss j / (vget t.dom.m_rho j * vget t.dom.m_cp j)
          - vget t.dom.hconv j * (p.toStFlow.T (shiftPtr xg p.toStFlow.loc) j - vget t.dom.Tw j)
              / (vget t.dom.pore j * vget t.dom.m_rho j * vget t.dom.m_cp j)
      ∧ t.dom.hconv = (evalPre c p npos xg rdt).hconv
      ∧ t.dom.Tw = (evalPre c p npos xg rdt).Tw
      ∧ t.dom.pore = (evalPre c p npos xg rdt).pore
      ∧ t.dom.m_rho = (evalPre c p npos xg rdt).m_rho
      ∧ t.dom.m_cp = (evalPre c p npos xg rdt).m_cp :=
  eval_full_T_enabled c p npos xg rg diagg rdt rfl hnv hnsp hN hfit j h0 hj hen t ht

end PorousFlow

namespace PorousFlow

theorem porous_energy_row_adds_exchange_witness :
    (demoPorousEnergy.eval demoConsts npos demoXg demoRg demoDiagg 5).state.rg
        (demoPorousEnergy.toStFlow.loc + demoPorousEnergy.toStFlow.index c_offset_T 1)
      = (StFlow.evalPoint demoConsts (shiftPtr demoXg demoPorousEnergy.toStFlow.loc) 5 1
            ⟨(evalReach demoConsts demoPorousEnergy npos demoXg demoRg demoDiagg 5 1).dom.toStFlow,
              (evalReach demoConsts demoPorousEnergy npos demoXg demoRg demoDiagg 5 1).res⟩).res.rsd
            (demoPorousEnergy.toStFlow.index c_offset_T 1)
          + (evalReach demoConsts demoPorousEnergy npos demoXg demoRg demoDiagg 5 1).dom.toStFlow.radiativeHeatLoss 1
            / (vget (evalReach demoConsts demoPorousEnergy npos demoXg demoRg demoDiagg 5 1).dom.m_rho 1
                * vget (evalReach demoConsts demoPorousEnergy npos demoXg demoRg demoDiagg 5 1).dom.m_cp 1)
          - vget (evalReach demoConsts demoPorousEnergy npos demoXg demoRg demoDiagg 5 1).dom.hconv 1
              * (demoPorousEnergy.toStFlow.T (shiftPtr demoXg demoPorousEnergy.toStFlow.loc) 1
                  - vget (evalReach demoConsts demoPorousEnergy npos demoXg demoRg demoDiagg 5 1).dom.Tw 1)
              / (vget (evalReach demoConsts demoPorousEnergy npos demoXg demoRg demoDiagg 5 1).dom.pore 1
                  * vget (evalReach demoConsts demoPorousEnergy npos demoXg demoRg demoDiagg 5 1).dom.m_rho 1
                  * vget (evalReach demoConsts demoPorousEnergy npos demoXg demoRg demoDiagg 5 1).dom.m_cp 1) :=
  (porous_energy_row_adds_exchange demoConsts demoPorousEnergy demoXg demoRg demoDiagg 5
    (by decide) (by decide) (by decide)
    (by rw [show demoPorousEnergy.m_points = 4 from rfl]; norm_num) 1 (by decide) (by decide)
    (by decide) _ rfl).1

end PorousFlow

/-! ## Remapping of the solid fields on a new grid -/

/-- A grid whose consecutive points increase strictly is strictly increasing. -/
theorem grid_strictMono (g : List ℚ) (N : Nat)
    (hadj : ∀ i, i + 1 < N → vget g i < vget g (i + 1)) :
    ∀ a b, a < b → b < N → vget g a < vget g b := by
  intro a b hab hb
  induction b with
  | zero => omega
  | succ b ih =>
    by_cases h : a = b
    · subst h
      exact hadj a hb
    · exact lt_trans (ih (by omega) (by omega)) (hadj b hb)

theorem grid_mono (g : List ℚ) (N : Nat)
    (hadj : ∀ i, i + 1 < N → vget g i < vget g (i + 1)) :
    ∀ a b, a ≤ b → b < N → vget g a ≤ vget g b := by
  intro a b hab hb
  by_cases h : a = b
  · subst h
    exact le_refl _
  · exact le_of_lt (grid_strictMono g N hadj a b (by omega) hb)

/-- Two points of a strictly increasing grid with the same coordinate are the same point. -/
theorem grid_inj (g : List ℚ) (N : Nat)
    (hadj : ∀ i, i + 1 < N → vget g i < vget g (i + 1)) :
    ∀ a b, a < N → b < N → vget g a = vget g b → a = b := by
  intro a b ha hb h
  by_contra hne
  rcases Nat.lt_or_gt_of_ne hne with h1 | h1
  · exact absurd h (ne_of_lt (grid_strictMono g N hadj a b h1 hb))
  · exact absurd h.symm (ne_of_lt (grid_strictMono g N hadj b a h1 ha))

theorem isInterpolantAt_left (g f : List ℚ) (N : Nat) (z : ℚ)
    (hadj : ∀ i, i + 1 < N → vget g i < vget g (i + 1)) (hN : 1 ≤ N) (hz : z ≤ vget g 0) :
    isInterpolantAt g f N z (vget f 0) := by
  refine ⟨fun _ => rfl, ?_, ?_⟩
  · intro h
    have h0 : vget g 0 ≤ vget g (N - 1) := grid_mono g N hadj 0 (N - 1) (Nat.zero_le _) (by omega)
    have e : vget g 0 = vget g (N - 1) := le_antisymm h0 (le_trans h hz)
    rw [← grid_inj g N hadj 0 (N - 1) (by omega) (by omega) e]
  · intro k hk h1 _
    have h0 : vget g 0 ≤ vget g k := grid_mono g N hadj 0 k (Nat.zero_le _) (by omega)
    have e : vget g 0 = vget g k := le_antisymm h0 (le_trans h1 hz)
    have hk0 : 0 = k := grid_inj g N hadj 0 k (by omega) (by omega) e
    subst hk0
    have ez : z = vget g 0 := le_antisymm hz h1
    rw [ez, sub_self, zero_div, zero_mul, add_zero]

theorem isInterpolantAt_right (g f : List ℚ) (N : Nat) (z : ℚ)
    (hadj : ∀ i, i + 1 < N → vget g i < vget g (i + 1)) (hN : 1 ≤ N)
    (hz : vget g (N - 1) ≤ z) : isInterpolantAt g f N z (vget f (N - 1)) := by
  refine ⟨?_, fun _ => rfl, ?_⟩
  · intro h
    have h0 : vget g 0 ≤ vget g (N - 1) := grid_mono g N hadj 0 (N - 1) (Nat.zero_le _) (by omega)
    have e : vget g 0 = vget g (N - 1) := le_antisymm h0 (le_trans hz h)
    rw [← grid_inj g N hadj 0 (N - 1) (by omega) (by omega) e]
  · intro k hk _ h2
    have h0 : vget g (k + 1) ≤ vget g (N - 1) := grid_mono g N hadj (k + 1) (N - 1) (by omega) (by omega)
    have e : vget g (k + 1) = vget g (N - 1) := le_antisymm h0 (le_trans hz h2)
    have hk1 : k + 1 = N - 1 := grid_inj g N hadj (k + 1) (N - 1) hk (by omega) e
    have ez : z = vget g (k + 1) := le_antisymm h2 (by rw [e]; exact hz)
    have hne : vget g (k + 1) - vget g k ≠ 0 := sub_ne_zero.mpr (ne_of_gt (hadj k hk))
    rw [ez, div_self hne, one_mul, ← hk1]
    ring

theorem isInterpolantAt_inner (g f : List ℚ) (N : Nat) (z : ℚ)
    (hadj : ∀ i, i + 1 < N → vget g i < vget g (i + 1)) (j : Nat) (hj : j + 1 < N)
    (h1 : vget g j < z) (h2 : z ≤ vget g (j + 1)) (hz : z < vget g (N - 1)) :
    isInterpolantAt g f N z
      ((1 - (z - vget g j) / (vget g (j + 1) - vget g j)) * vget f j
        + (z - vget g j) / (vget g (j + 1) - vget g j) * vget f (j + 1)) := by
  refine ⟨?_, ?_, ?_⟩
  · intro h
    have h0 : vget g 0 ≤ vget g j := grid_mono g N hadj 0 j (Nat.zero_le _) (by omega)
    exact absurd (lt_of_lt_of_le h1 (le_trans h h0)) (lt_irrefl _)
  · intro h
    exact absurd (lt_of_lt_of_le hz h) (lt_irrefl _)
  · intro k hk k1 k2
    have hjk : j ≤ k := by
      by_contra hc
      have : vget g (k + 1) ≤ vget g j := grid_mono g N hadj (k + 1) j (by omega) (by omega)
      exact absurd (lt_of_lt_of_le h1 (le_trans k2 this)) (lt_irrefl _)
    have hkj : k ≤ j + 1 := by
      by_contra hc
      have : vget g (j + 1) < vget g k := grid_strictMono g N hadj (j + 1) k (by omega) (by omega)
      exact absurd (lt_of_le_of_lt (le_trans k1 h2) this) (lt_irrefl _)
    by_cases e : k = j
    · subst e
      ring
    · have e2 : k = j + 1 := by omega
      subst e2
      have ez : z = vget g (j + 1) := le_antisymm h2 k1
      have hne : vget g (j + 1) - vget g j ≠ 0 := sub_ne_zero.mpr (ne_of_gt (hadj j hj))
      rw [ez, div_self hne]
      simp only [sub_self, zero_div]
      ring

/-- The conditions of `isInterpolantAt` determine the value. -/
theorem isInterpolantAt_unique (g f : List ℚ) (N : Nat) (z v w : ℚ) (hN : 1 ≤ N)
    (hv : isInterpolantAt g f N z v) (hw : isInterpolantAt g f N z w) : v = w := by
  by_cases h0 : z ≤ vget g 0
  · rw [hv.1 h0, hw.1 h0]
  · by_cases h1 : vget g (N - 1) ≤ z
    · rw [hv.2.1 h1, hw.2.1 h1]
    · have hrec : ∀ d m, m + d = N → m < N → vget g m < z →
          ∃ k, k + 1 < N ∧ vget g k ≤ z ∧ z ≤ vget g (k + 1) := by
        intro d
        induction d with
        | zero => intro m h1 h2; omega
        | succ d ihd =>
          intro m hd hm hg
          by_cases hm3 : m + 1 < N
          · by_cases hz2 : z ≤ vget g (m + 1)
            · exact ⟨m, hm3, le_of_lt hg, hz2⟩
            · exact ihd (m + 1) (by omega) hm3 (lt_of_not_le hz2)
          · have : m = N - 1 := by omega
            rw [this] at hg
            exact absurd (le_of_lt hg) h1
      obtain ⟨k, hk, k1, k2⟩ := hrec N 0 (by omega) (by omega) (lt_of_not_le h0)
      rw [hv.2.2 k hk k1 k2, hw.2.2 k hk k1 k2]

namespace PorousFlow

/-- The search loop of `setupGrid` for a coordinate strictly inside the old grid: it does not
throw and ends, before its fuel runs out, at the interval that holds the coordinate. -/
theorem remapSearch_spec (p : PorousFlow) (zi : ℚ) (hfit : p.m_points < 2 ^ 64)
    (hz : zi < vget p.m_z (p.m_points - 1)) :
    ∀ fuel j, j + 1 ≤ p.m_points - 1 → p.m_points - 1 ≤ j + fuel → vget p.m_z j < zi →
      (remapSearch p zi fuel j).2 = false
        ∧ j ≤ (remapSearch p zi fuel j).1
        ∧ (remapSearch p zi fuel j).1 + 1 ≤ p.m_points - 1
        ∧ vget p.m_z (remapSearch p zi fuel j).1 < zi
        ∧ zi ≤ vget p.m_z ((remapSearch p zi fuel j).1 + 1) := by
  have h64 : (2 : Nat) ^ 64 = 18446744073709551616 := by norm_num
  rw [h64] at hfit
  intro fuel
  induction fuel with
  | zero => intro j h1 h2 _; omega
  | succ fuel ih =>
    intro j h1 h2 hg
    have ha : addSz j 1 = j + 1 := by
      unfold addSz
      rw [h64]
      omega
    unfold remapSearch
    rw [ha]
    by_cases hc : zi > vget p.m_z (j + 1)
    · rw [if_pos hc]
      have hlt : j + 1 < p.m_points - 1 := by
        by_contra hcon
        have : j + 1 = p.m_points - 1 := by omega
        rw [this] at hc
        exact absurd (lt_trans hz hc) (lt_irrefl _)
      have ha2 : addSz (j + 1) 1 = j + 2 := by
        unfold addSz
        rw [h64]
        omega
      have hs : subSz p.m_points 1 = p.m_points - 1 := by
        unfold subSz
        rw [h64]
        omega
      rw [ha2, hs, if_neg (by omega)]
      obtain ⟨r1, r2, r3, r4, r5⟩ := ih (j + 1) (by omega) (by omega) hc
      exact ⟨r1, by omega, r3, r4, r5⟩
    · rw [if_neg hc]
      exact ⟨rfl, Nat.le_refl j, h1, hg, le_of_not_lt hc⟩


theorem remapStep_left (p : PorousFlow) (zin : Nat → ℚ) (TwTmp dqTmp : List ℚ) (i : Nat)
    (st : RemapState) (ht : st.thrown = false) (b1 : zin i ≤ vget p.m_z 0) :
    remapStep p zin TwTmp dqTmp i st
      = ⟨st.Tw.set i (vget TwTmp 0), st.dq.set i (vget dqTmp 0), st.j, st.thrown⟩ := by
  unfold remapStep
  rw [if_neg (by rw [ht]; decide), if_pos b1]

theorem remapStep_right (p : PorousFlow) (zin : Nat → ℚ) (TwTmp dqTmp : List ℚ) (i : Nat)
    (st : RemapState) (ht : st.thrown = false) (b1 : ¬ zin i ≤ vget p.m_z 0)
    (b2 : zin i ≥ vget p.m_z (subSz p.m_points 1)) :
    remapStep p zin TwTmp dqTmp i st
      = ⟨st.Tw.set i (vget TwTmp (subSz p.m_points 1)),
          st.dq.set i (vget dqTmp (subSz p.m_points 1)), st.j, st.thrown⟩ := by
  unfold remapStep
  rw [if_neg (by rw [ht]; decide), if_neg b1, if_pos b2]

theorem remapStep_inner (p : PorousFlow) (zin : Nat → ℚ) (TwTmp dqTmp : List ℚ) (i : Nat)
    (st : RemapState) (ht : st.thrown = false) (b1 : ¬ zin i ≤ vget p.m_z 0)
    (b2 : ¬ zin i ≥ vget p.m_z (subSz p.m_points 1))
    (hf : (remapSearch p (zin i) p.m_points st.j).2 = false) :
    remapStep p zin TwTmp dqTmp i st
      = ⟨st.Tw.set i
            ((1 - (zin i - vget p.m_z (remapSearch p (zin i) p.m_points st.j).1)
                  / (vget p.m_z (addSz (remapSearch p (zin i) p.m_points st.j).1 1)
                      - vget p.m_z (remapSearch p (zin i) p.m_points st.j).1))
                * vget TwTmp (remapSearch p (zin i) p.m_points st.j).1
              + (zin i - vget p.m_z (remapSearch p (zin i) p.m_points st.j).1)
                  / (vget p.m_z (addSz (remapSearch p (zin i) p.m_points st.j).1 1)
                      - vget p.m_z (remapSearch p (zin i) p.m_points st.j).1)
                * vget TwTmp (addSz (remapSearch p (zin i) p.m_points st.j).1 1)),
          st.dq.set i
            ((1 - (zin i - vget p.m_z (remapSearch p (zin i) p.m_points st.j).1)
                  / (vget p.m_z (addSz (remapSearch p (zin i) p.m_points st.j).1 1)
                      - vget p.m_z (remapSearch p (zin i) p.m_points st.j).1))
                * vget dqTmp (remapSearch p (zin i) p.m_points st.j).1
              + (zin i - vget p.m_z (remapSearch p (zin i) p.m_points st.j).1)
                  / (vget p.m_z (addSz (remapSearch p (zin i) p.m_points st.j).1 1)
                      - vget p.m_z (remapSearch p (zin i) p.m_points st.j).1)
                * vget dqTmp (addSz (remapSearch p (zin i) p.m_points st.j).1 1)),
          (remapSearch p (zin i) p.m_points st.j).1, st.thrown⟩ := by
  unfold remapStep
  rw [if_neg (by rw [ht]; decide), if_neg b1, if_neg b2]
  simp only []
  rw [if_neg (by rw [hf]; decide)]


/-- The loop over the new grid points of `setupGrid`: it never throws, and every entry it has
filled is the interpolant of the old field at the new coordinate. -/
theorem remapLoop_spec (p : PorousFlow) (n : Nat) (zin : Nat → ℚ) (TwTmp dqTmp : List ℚ)
    (hN : 1 ≤ p.m_points) (hfit : p.m_points < 2 ^ 64)
    (hadj : ∀ i, i + 1 < p.m_points → vget p.m_z i < vget p.m_z (i + 1))
    (hnew : ∀ a b, a < b → b < n → zin a < zin b) (st0 : RemapState)
    (h0 : st0.thrown = false ∧ st0.Tw.length = n ∧ st0.dq.length = n ∧ st0.j = 0) :
    (forRange 0 n (remapStep p zin TwTmp dqTmp) st0).thrown = false
      ∧ ∀ i, i < n →
          isInterpolantAt p.m_z TwTmp p.m_points (zin i)
              (vget (forRange 0 n (remapStep p zin TwTmp dqTmp) st0).Tw i)
            ∧ isInterpolantAt p.m_z dqTmp p.m_points (zin i)
              (vget (forRange 0 n (remapStep p zin TwTmp dqTmp) st0).dq i) := by
  have h64 : (2 : Nat) ^ 64 = 18446744073709551616 := by norm_num
  have hs : subSz p.m_points 1 = p.m_points - 1 := by
    unfold subSz
    rw [h64] at hfit ⊢
    omega
  have key := forRange_induction_idx
    (fun i (st : RemapState) =>
      st.thrown = false ∧ st.Tw.length = n ∧ st.dq.length = n
        ∧ (st.j = 0 ∨ (st.j + 1 ≤ p.m_points - 1 ∧ ∃ i2, i2 < i ∧ vget p.m_z st.j < zin i2))
        ∧ ∀ i2, i2 < i →
            isInterpolantAt p.m_z TwTmp p.m_points (zin i2) (vget st.Tw i2)
              ∧ isInterpolantAt p.m_z dqTmp p.m_points (zin i2) (vget st.dq i2))
    0 n (remapStep p zin TwTmp dqTmp) st0 (Nat.zero_le n)
    ⟨h0.1, h0.2.1, h0.2.2.1, Or.inl h0.2.2.2, fun i2 hi2 => absurd hi2 (Nat.not_lt_zero i2)⟩
    (by
      intro i st _ hin hst
      obtain ⟨ht, hl1, hl2, hj, hv⟩ := hst
      by_cases b1 : zin i ≤ vget p.m_z 0
      · rw [remapStep_left p zin TwTmp dqTmp i st ht b1]
        refine ⟨ht, by simp [hl1], by simp [hl2], ?_, ?_⟩
        · rcases hj with hj | ⟨hj1, i2, hi2, hg⟩
          · exact Or.inl hj
          · exact Or.inr ⟨hj1, i2, by omega, hg⟩
        · intro i2 hi2
          by_cases e : i2 = i
          · subst e
            show isInterpolantAt _ _ _ _ (vget (st.Tw.set i2 _) i2)
              ∧ isInterpolantAt _ _ _ _ (vget (st.dq.set i2 _) i2)
            rw [vget_set_eq _ _ _ (by omega), vget_set_eq _ _ _ (by omega)]
            exact ⟨isInterpolantAt_left _ _ _ _ hadj hN b1, isInterpolantAt_left _ _ _ _ hadj hN b1⟩
          · show isInterpolantAt _ _ _ _ (vget (st.Tw.set i _) i2)
              ∧ isInterpolantAt _ _ _ _ (vget (st.dq.set i _) i2)
            rw [vget_set_ne _ _ _ _ (Ne.symm e), vget_set_ne _ _ _ _ (Ne.symm e)]
            exact hv i2 (by omega)
      · by_cases b2 : zin i ≥ vget p.m_z (subSz p.m_points 1)
        · rw [remapStep_right p zin TwTmp dqTmp i st ht b1 b2]
          rw [hs] at b2 ⊢
          refine ⟨ht, by simp [hl1], by simp [hl2], ?_, ?_⟩
          · rcases hj with hj | ⟨hj1, i2, hi2, hg⟩
            · exact Or.inl hj
            · exact Or.inr ⟨hj1, i2, by omega, hg⟩
          · intro i2 hi2
            by_cases e : i2 = i
            · subst e
              show isInterpolantAt _ _ _ _ (vget (st.Tw.set i2 _) i2)
                ∧ isInterpolantAt _ _ _ _ (vget (st.dq.set i2 _) i2)
              rw [vget_set_eq _ _ _ (by omega), vget_set_eq _ _ _ (by omega)]
              exact ⟨isInterpolantAt_right _ _ _ _ hadj hN b2,
                isInterpolantAt_right _ _ _ _ hadj hN b2⟩
            · show isInterpolantAt _ _ _ _ (vget (st.Tw.set i _) i2)
                ∧ isInterpolantAt _ _ _ _ (vget (st.dq.set i _) i2)
              rw [vget_set_ne _ _ _ _ (Ne.symm e), vget_set_ne _ _ _ _ (Ne.symm e)]
              exact hv i2 (by omega)
        · have c1 : vget p.m_z 0 < zin i := lt_of_not_le b1
          have c2 : zin i < vget p.m_z (p.m_points - 1) := by
            rw [hs] at b2
            exact lt_of_not_le b2
          have hN2 : 0 + 1 ≤ p.m_points - 1 := by
            by_contra hc
            have : p.m_points - 1 = 0 := by omega
            rw [this] at c2
            exact absurd (lt_trans c1 c2) (lt_irrefl _)
          have hstart : st.j + 1 ≤ p.m_points - 1 ∧ vget p.m_z st.j < zin i := by
            rcases hj with hj | ⟨hj1, i2, hi2, hg⟩
            · rw [hj]
              exact ⟨hN2, c1⟩
            · exact ⟨hj1, lt_trans hg (hnew i2 i hi2 hin)⟩
          obtain ⟨r1, _, r3, r4, r5⟩ := remapSearch_spec p (zin i) hfit c2 p.m_points st.j
            hstart.1 (by omega) hstart.2
          have ha : addSz (remapSearch p (zin i) p.m_points st.j).1 1
              = (remapSearch p (zin i) p.m_points st.j).1 + 1 := by
            unfold addSz
            rw [h64] at hfit ⊢
            omega
          rw [remapStep_inner p zin TwTmp dqTmp i st ht b1 b2 r1, ha]
          refine ⟨ht, by simp [hl1], by simp [hl2], Or.inr ⟨r3, i, by omega, r4⟩, ?_⟩
          intro i2 hi2
          by_cases e : i2 = i
          · subst e
            show isInterpolantAt _ _ _ _ (vget (st.Tw.set i2 _) i2)
              ∧ isInterpolantAt _ _ _ _ (vget (st.dq.set i2 _) i2)
            rw [vget_set_eq _ _ _ (by omega), vget_set_eq _ _ _ (by omega)]
            exact ⟨isInterpolantAt_inner _ _ _ _ hadj _ (by omega) r4 r5 c2,
              isInterpolantAt_inner _ _ _ _ hadj _ (by omega) r4 r5 c2⟩
          · show isInterpolantAt _ _ _ _ (vget (st.Tw.set i _) i2)
              ∧ isInterpolantAt _ _ _ _ (vget (st.dq.set i _) i2)
            rw [vget_set_ne _ _ _ _ (Ne.symm e), vget_set_ne _ _ _ _ (Ne.symm e)]
            exact hv i2 (by omega))
  exact ⟨key.1, key.2.2.2.2⟩


/-- The call `setupGrid(n, z)` by its two stages: the remapping loop and the grid set-up of the
base class. -/
theorem setupGrid_stages (p : PorousFlow) (n : Nat) (zin : Nat → ℚ)
    (ht : (forRange 0 n (remapStep p zin p.Tw p.dq)
      ⟨vresize p.Tw n 0, vresize p.dq n 0, 0, false⟩).thrown = false) :
    (p.setupGrid n zin).error = (p.toStFlow.setupGrid n zin).error
      ∧ (p.setupGrid n zin).state.Tw
          = (forRange 0 n (remapStep p zin p.Tw p.dq) ⟨vresize p.Tw n 0, vresize p.dq n 0, 0, false⟩).Tw
      ∧ (p.setupGrid n zin).state.dq
          = (forRange 0 n (remapStep p zin p.Tw p.dq) ⟨vresize p.Tw n 0, vresize p.dq n 0, 0, false⟩).dq
      ∧ (p.setupGrid n zin).state.toStFlow = (p.toStFlow.setupGrid n zin).state := by
  unfold setupGrid
  simp only []
  rw [if_neg (by rw [ht]; decide)]
  exact ⟨rfl, rfl, rfl, rfl⟩

/-- C26: on a domain with at least one point whose old grid increases strictly,
`PorousFlow::setupGrid(n, z)` with a strictly increasing new grid `z` of `n ≥ 1` points returns
normally, and for every `i < n` the new `Tw[i]` (and `dq[i]`) is the value at `z[i]` of the
piecewise-linear interpolant of the old field over the old grid, with the old end values used at
or beyond the old end coordinates; that value is the only one with this property; in particular
the call with the grid the domain already has leaves `Tw` and `dq` unchanged at every point. -/
theorem setupGrid_remaps_solid_fields (p : PorousFlow) (n : Nat) (zin : Nat → ℚ)
    (hN : 1 ≤ p.m_points) (hfit : p.m_points < 2 ^ 64)
    (hold : ∀ i, i + 1 < p.m_points → vget p.m_z i < vget p.m_z (i + 1))
    (hn : 1 ≤ n) (hnew : ∀ i, 1 ≤ i → i < n → zin (i - 1) < zin i) :
    (p.setupGrid n zin).error = none
      ∧ (∀ i, i < n →
          isInterpolantAt p.m_z p.Tw p.m_points (zin i) (vget (p.setupGrid n zin).state.Tw i)
            ∧ isInterpolantAt p.m_z p.dq p.m_points (zin i) (vget (p.setupGrid n zin).state.dq i))
      ∧ (∀ i v, i < n →
          (isInterpolantAt p.m_z p.Tw p.m_points (zin i) v → vget (p.setupGrid n zin).state.Tw i = v)
            ∧ (isInterpolantAt p.m_z p.dq p.m_points (zin i) v
                → vget (p.setupGrid n zin).state.dq i = v))
      ∧ (n = p.m_points → (∀ i, i < n → zin i = vget p.m_z i) →
          ∀ i, i < n → vget (p.setupGrid n zin).state.Tw i = vget p.Tw i
            ∧ vget (p.setupGrid n zin).state.dq i = vget p.dq i) := by
  have hnew2 : ∀ a b, a < b → b < n → zin a < zin b := by
    intro a b hab hb
    induction b with
    | zero => omega
    | succ b ih =>
      have h1 := hnew (b + 1) (by omega) hb
      rw [Nat.add_sub_cancel] at h1
      by_cases h : a = b
      · subst h
        exact h1
      · exact lt_trans (ih (by omega) (by omega)) h1
  obtain ⟨ht, hv⟩ := remapLoop_spec p n zin p.Tw p.dq hN hfit hold hnew2
    ⟨vresize p.Tw n 0, vresize p.dq n 0, 0, false⟩
    ⟨rfl, length_vresize _ _ _, length_vresize _ _ _, rfl⟩
  obtain ⟨e1, e2, e3, _⟩ := setupGrid_stages p n zin ht
  have herr : (p.toStFlow.setupGrid n zin).error = none :=
    ((StFlow.setupGrid_spec p.toStFlow n zin n hn hn (Nat.le_refl n)
      (fun i h1 h2 => hnew i h1 h2) (Or.inl rfl)).1).mpr rfl
  have hval : ∀ i, i < n →
      isInterpolantAt p.m_z p.Tw p.m_points (zin i) (vget (p.setupGrid n zin).state.Tw i)
        ∧ isInterpolantAt p.m_z p.dq p.m_points (zin i) (vget (p.setupGrid n zin).state.dq i) := by
    intro i hi
    rw [e2, e3]
    exact hv i hi
  refine ⟨e1.trans herr, hval, ?_, ?_⟩
  · intro i v hi
    exact ⟨fun h => isInterpolantAt_unique _ _ _ _ _ _ hN (hval i hi).1 h,
      fun h => isInterpolantAt_unique _ _ _ _ _ _ hN (hval i hi).2 h⟩
  · intro hnN hsame i hi
    have hknot : ∀ f : List ℚ, isInterpolantAt p.m_z f p.m_points (zin i) (vget f i) := by
      intro f
      rw [hsame i hi]
      refine ⟨?_, ?_, ?_⟩
      · intro h
        have h0 := grid_mono p.m_z p.m_points hold 0 i (Nat.zero_le i) (by omega)
        rw [grid_inj p.m_z p.m_points hold 0 i (by omega) (by omega) (le_antisymm h0 h)]
      · intro h
        have h0 := grid_mono p.m_z p.m_points hold i (p.m_points - 1) (by omega) (by omega)
        rw [grid_inj p.m_z p.m_points hold i (p.m_points - 1) (by omega) (by omega)
          (le_antisymm h0 h)]
      · intro k hk k1 k2
        have hki : k ≤ i := by
          by_contra hc
          exact absurd (lt_of_lt_of_le
            (grid_strictMono p.m_z p.m_points hold i k (by omega) (by omega)) k1) (lt_irrefl _)
        have hik : i ≤ k + 1 := by
          by_contra hc
          exact absurd (lt_of_le_of_lt k2
            (grid_strictMono p.m_z p.m_points hold (k + 1) i (by omega) (by omega))) (lt_irrefl _)
        by_cases e : i = k
        · subst e
          rw [sub_self, zero_div, zero_mul, add_zero]
        · have e2 : i = k + 1 := by omega
          subst e2
          have hne : vget p.m_z (k + 1) - vget p.m_z k ≠ 0 :=
            sub_ne_zero.mpr (ne_of_gt (hold k hk))
          rw [div_self hne]
          ring
    exact ⟨isInterpolantAt_unique _ _ _ _ _ _ hN (hval i hi).1 (hknot p.Tw),
      isInterpolantAt_unique _ _ _ _ _ _ hN (hval i hi).2 (hknot p.dq)⟩

end PorousFlow

namespace PorousFlow

theorem setupGrid_remaps_solid_fields_witness :
    (demoPorousWarm.setupGrid 5 demoGridRefined).error = none
      ∧ isInterpolantAt demoPorousWarm.m_z demoPorousWarm.Tw demoPorousWarm.m_points
          (demoGridRefined 3) (vget (demoPorousWarm.setupGrid 5 demoGridRefined).state.Tw 3)
      ∧ isInterpolantAt demoPorousWarm.m_z demoPorousWarm.dq demoPorousWarm.m_points
          (demoGridRefined 3) (vget (demoPorousWarm.setupGrid 5 demoGridRefined).state.dq 3) :=
  have h := setupGrid_remaps_solid_fields demoPorousWarm 5 demoGridRefined (by decide)
    (by rw [show demoPorousWarm.m_points = 4 from rfl]; norm_num)
    (by
      intro i hi
      have h3 : i < 3 := by
        have : i + 1 < 4 := hi
        omega
      interval_cases i <;> decide!)
    (by decide)
    (by
      intro i h1 h2
      interval_cases i <;> decide!)
  ⟨h.1, (h.2.1 3 (by decide)).1, (h.2.1 3 (by decide)).2⟩

end PorousFlow

/-! ## State export and import: the blocks of `serialize` and `restore` -/
namespace AnyMap

theorem get?_put (m : AnyMap) (k : String) (v : AnyValue) (k2 : String) :
    (m.put k v).get? k2 = if k2 = k then some v else m.get? k2 := by
  unfold put get?
  by_cases h : k2 = k
  · subst h
    simp [List.lookup_cons]
  · have hb : (k2 == k) = false := by simp [h]
    rw [if_neg h, List.lookup_cons, hb]

theorem get?_put_eq (m : AnyMap) (k : String) (v : AnyValue) : (m.put k v).get? k = some v := by
  rw [get?_put, if_pos rfl]

theorem get?_put_ne (m : AnyMap) (k : String) (v : AnyValue) (k2 : String) (h : k2 ≠ k) :
    (m.put k v).get? k2 = m.get? k2 := by
  rw [get?_put, if_neg h]

theorem get?_putIn_eq (m : AnyMap) (k1 k2 : String) (v : AnyScalar) :
    (m.putIn k1 k2 v).get? k1 = some (AnyValue.map ((k2, v) :: m.inner k1)) :=
  get?_put_eq _ _ _

theorem get?_putIn_ne (m : AnyMap) (k1 k2 : String) (v : AnyScalar) (k : String) (h : k ≠ k1) :
    (m.putIn k1 k2 v).get? k = m.get? k :=
  get?_put_ne _ _ _ _ h

theorem inner_put_ne (m : AnyMap) (k : String) (v : AnyValue) (k2 : String) (h : k2 ≠ k) :
    (m.put k v).inner k2 = m.inner k2 := by
  unfold inner
  rw [get?_put_ne _ _ _ _ h]

theorem inner_putIn_ne (m : AnyMap) (k1 k2 : String) (v : AnyScalar) (k : String) (h : k ≠ k1) :
    (m.putIn k1 k2 v).inner k = m.inner k :=
  inner_put_ne _ _ _ _ h

theorem inner_putIn_eq (m : AnyMap) (k1 k2 : String) (v : AnyScalar) :
    (m.putIn k1 k2 v).inner k1 = (k2, v) :: m.inner k1 := by
  unfold inner
  rw [get?_putIn_eq]
  rfl

theorem get?_single (k0 : String) (v : AnyValue) (k : String) (h : k ≠ k0) :
    AnyMap.get? ⟨[(k0, v)]⟩ k = none := by
  have hb : (k == k0) = false := by simp [h]
  unfold get?
  rw [List.lookup_cons, hb]
  rfl

theorem inner_single (k0 : String) (v : AnyValue) (k : String) (h : k ≠ k0) :
    AnyMap.inner ⟨[(k0, v)]⟩ k = [] := by
  unfold inner
  rw [get?_single k0 v k h]

theorem hasKey_of_get? (m : AnyMap) (k : String) (v : AnyValue) (h : m.get? k = some v) :
    m.hasKey k = true := by
  unfold hasKey
  rw [h]
  rfl

theorem getValue_of_get? (m : AnyMap) (k : String) (v : AnyValue) (h : m.get? k = some v) :
    m.getValue k = Except.ok v := by
  unfold getValue
  rw [h]

theorem hasKey_of_none (m : AnyMap) (k : String) (h : m.get? k = none) :
    m.hasKey k = false := by
  unfold hasKey
  rw [h]
  rfl

end AnyMap

namespace StFlow

/-- The entries of the settings that `serialize` writes before its loop over the components,
when the species flags are all alike. -/
theorem serializeSettings_get (c : Consts) (s : StFlow) (rf : Refiner) (t pn : String)
    (ps : Option String) (soln : Nat → ℚ) (hsp : flagSetSize s.m_do_species = 1) :
    (serializeSettings c s rf t pn ps soln).get? "pressure"
        = some (AnyValue.scalar (AnyScalar.double s.m_press))
      ∧ (serializeSettings c s rf t pn ps soln).get? "grid" = some (AnyValue.vecDouble s.m_z)
      ∧ (serializeSettings c s rf t pn ps soln).get? "radiation-enabled"
        = some (AnyValue.scalar (AnyScalar.bool s.m_do_radiation))
      ∧ (serializeSettings c s rf t pn ps soln).get? "emissivity-left"
        = (if s.m_do_radiation then some (AnyValue.scalar (AnyScalar.double s.m_epsilon_left))
            else none)
      ∧ (serializeSettings c s rf t pn ps soln).get? "emissivity-right"
        = (if s.m_do_radiation then some (AnyValue.scalar (AnyScalar.double s.m_epsilon_right))
            else none)
      ∧ (serializeSettings c s rf t pn ps soln).get? "energy-enabled"
        = some (if flagSetSize s.m_do_energy = 1 then
              AnyValue.scalar (AnyScalar.bool (bget s.m_do_energy 0))
            else AnyValue.vecBool s.m_do_energy)
      ∧ (serializeSettings c s rf t pn ps soln).get? "Soret-enabled"
        = some (AnyValue.scalar (AnyScalar.bool s.m_do_soret))
      ∧ (serializeSettings c s rf t pn ps soln).get? "species-enabled"
        = some (AnyValue.scalar (AnyScalar.bool (bget s.m_do_species 0)))
      ∧ (serializeSettings c s rf t pn ps soln).get? "refine-criteria"
        = some (AnyValue.map [("max-points", AnyScalar.int rf.maxPoints),
            ("grid-min", AnyScalar.double rf.gridMin), ("prune", AnyScalar.double rf.prune),
            ("curve", AnyScalar.double rf.maxSlope), ("slope", AnyScalar.double rf.maxDelta),
            ("ratio", AnyScalar.double rf.maxRatio)])
      ∧ (serializeSettings c s rf t pn ps soln).get? "fixed-point"
        = (if s.m_zfixed ≠ c.Undef then
            some (AnyValue.map [("temperature", AnyScalar.double s.m_tfixed),
              ("location", AnyScalar.double s.m_zfixed)])
          else none)
      ∧ ∀ k, k ∉ reservedKeys → (serializeSettings c s rf t pn ps soln).get? k = none := by
  unfold serializeSettings serializeDomain1D
  simp only []
  rw [if_pos hsp]
  refine ⟨?_, ?_, ?_, ?_, ?_, ?_, ?_, ?_, ?_, ?_, ?_⟩
  on_goal 11 =>
    intro k hk
    simp only [reservedKeys, List.mem_cons, List.mem_singleton, List.not_mem_nil, or_false,
      not_or] at hk
    obtain ⟨h1, h2, h3, h4, h5, h6, h7, h8, h9, h10, h11, h12, h13, h14⟩ := hk
    split_ifs <;>
      simp (disch := assumption) only [AnyMap.get?_put_ne, AnyMap.get?_putIn_ne,
        AnyMap.get?_single]
  all_goals
    split_ifs <;>
      simp (disch := decide) only [AnyMap.get?_put_eq, AnyMap.get?_put_ne, AnyMap.get?_putIn_eq,
        AnyMap.get?_putIn_ne, AnyMap.inner_put_ne, AnyMap.inner_putIn_ne, AnyMap.inner_putIn_eq,
        AnyMap.get?_single, AnyMap.inner_single]


theorem restoreGrid_ok (d : StFlow) (state : AnyMap) (press : ℚ) (grid : List ℚ)
    (hp : state.get? "pressure" = some (AnyValue.scalar (AnyScalar.double press)))
    (hg : state.get? "grid" = some (AnyValue.vecDouble grid))
    (hlen : grid.length = d.m_points)
    (herr : (({ d with m_press := press } : StFlow).setupGrid d.m_points
      (fun i => vget grid i)).error = none) :
    restoreGrid d state
      = Except.ok (({ d with m_press := press } : StFlow).setupGrid d.m_points
          (fun i => vget grid i)).state := by
  unfold restoreGrid
  rw [AnyMap.getValue_of_get? _ _ _ hp, AnyMap.getValue_of_get? _ _ _ hg]
  simp only [AnyValue.asDouble, AnyValue.asVectorDouble, bind, Except.bind, hlen, if_true]
  rw [herr]

theorem restoreComponents_ok (d : StFlow) (state : AnyMap) (soln : Nat → ℚ)
    (h : ∀ i, i < d.m_nv → d.componentActive i = true →
      state.get? (d.componentName i) = none
        ∨ ∃ data, state.get? (d.componentName i) = some (AnyValue.vecDouble data)
            ∧ data.length = d.m_points) :
    ∃ soln2, restoreComponents d state soln = Except.ok soln2 := by
  unfold restoreComponents
  refine forRange_induction (fun acc : Except String (Nat → ℚ) => ∃ soln2, acc = Except.ok soln2)
    0 d.m_nv _ _ ⟨soln, rfl⟩ ?_
  intro i acc _ hi hacc
  obtain ⟨sl, hsl⟩ := hacc
  rw [hsl]
  simp only []
  by_cases ha : d.componentActive i = true
  · rw [if_pos ha]
    rcases h i hi ha with hn | ⟨data, hd, hlen⟩
    · rw [if_neg (by rw [AnyMap.hasKey_of_none _ _ hn]; decide)]
      exact ⟨sl, rfl⟩
    · rw [if_pos (AnyMap.hasKey_of_get? _ _ _ hd), AnyMap.getValue_of_get? _ _ _ hd]
      simp only [AnyValue.asVectorDouble, hlen, if_true]
      exact ⟨_, rfl⟩
  · rw [if_neg ha]
    exact ⟨sl, rfl⟩

theorem restoreFlags_ok (d : StFlow) (state : AnyMap) (ev : AnyValue) (bs bsp : Bool)
    (he : state.get? "energy-enabled" = some ev)
    (hev : (∃ b, ev = AnyValue.scalar (AnyScalar.bool b))
      ∨ ∃ v, ev = AnyValue.vecBool v ∧ v.length = d.m_points)
    (hs : state.get? "Soret-enabled" = some (AnyValue.scalar (AnyScalar.bool bs)))
    (hsp : state.get? "species-enabled" = some (AnyValue.scalar (AnyScalar.bool bsp))) :
    ∃ fl : List Bool, restoreFlags d state
      = Except.ok { { { d with m_do_energy := fl } with m_do_soret := bs } with
          m_do_species := List.replicate d.m_nsp bsp } := by
  unfold restoreFlags
  rw [AnyMap.hasKey_of_get? _ _ _ he, AnyMap.hasKey_of_get? _ _ _ hs,
    AnyMap.hasKey_of_get? _ _ _ hsp, AnyMap.getValue_of_get? _ _ _ he,
    AnyMap.getValue_of_get? _ _ _ hs, AnyMap.getValue_of_get? _ _ _ hsp]
  rcases hev with ⟨b, hb⟩ | ⟨v, hv, hlen⟩
  · rw [hb]
    exact ⟨List.replicate d.m_points b, rfl⟩
  · rw [hv]
    simp only [AnyValue.asVectorBool, AnyValue.isScalar, AnyValue.asBool, bind, Except.bind, hlen,
      if_true, pure, Except.pure]
    exact ⟨v, rfl⟩

theorem restoreRadiation_on (d : StFlow) (state : AnyMap) (el er : ℚ)
    (hr : state.get? "radiation-enabled" = some (AnyValue.scalar (AnyScalar.bool true)))
    (hl : state.get? "emissivity-left" = some (AnyValue.scalar (AnyScalar.double el)))
    (hr2 : state.get? "emissivity-right" = some (AnyValue.scalar (AnyScalar.double er))) :
    restoreRadiation d state
      = Except.ok { { { d with m_do_radiation := true } with m_epsilon_left := el } with
          m_epsilon_right := er } := by
  unfold restoreRadiation
  rw [AnyMap.hasKey_of_get? _ _ _ hr, AnyMap.getValue_of_get? _ _ _ hr,
    AnyMap.getValue_of_get? _ _ _ hl, AnyMap.getValue_of_get? _ _ _ hr2]
  rfl

theorem restoreRadiation_off (d : StFlow) (state : AnyMap)
    (hr : state.get? "radiation-enabled" = some (AnyValue.scalar (AnyScalar.bool false))) :
    restoreRadiation d state = Except.ok { d with m_do_radiation := false } := by
  unfold restoreRadiation
  rw [AnyMap.hasKey_of_get? _ _ _ hr, AnyMap.getValue_of_get? _ _ _ hr]
  rfl

theorem setCriteria_ok (rf0 : Refiner) (ratio slope curve prune : ℚ)
    (h1 : 2 ≤ ratio) (h2 : 0 ≤ slope) (h3 : slope ≤ 1) (h4 : 0 ≤ curve)
    (h5 : curve ≤ 1) (h6 : prune ≤ curve) (h7 : prune ≤ slope) :
    rf0.setCriteria ratio slope curve prune
      = Except.ok ⟨ratio, slope, curve, prune, rf0.gridMin, rf0.maxPoints⟩ := by
  unfold Refiner.setCriteria
  rw [if_neg (not_lt.mpr h1), if_neg (by rintro (h | h) <;> linarith),
    if_neg (by rintro (h | h) <;> linarith), if_neg (by rintro (h | h) <;> linarith)]

theorem restoreCriteria_ok (rf0 rf : Refiner) (state : AnyMap)
    (hc : state.get? "refine-criteria"
      = some (AnyValue.map [("max-points", AnyScalar.int rf.maxPoints),
          ("grid-min", AnyScalar.double rf.gridMin), ("prune", AnyScalar.double rf.prune),
          ("curve", AnyScalar.double rf.maxSlope), ("slope", AnyScalar.double rf.maxDelta),
          ("ratio", AnyScalar.double rf.maxRatio)]))
    (h1 : 2 ≤ rf.maxRatio) (h2 : 0 ≤ rf.maxDelta) (h3 : rf.maxDelta ≤ 1) (h4 : 0 ≤ rf.maxSlope)
    (h5 : rf.maxSlope ≤ 1) (h6 : rf.prune ≤ rf.maxSlope) (h7 : rf.prune ≤ rf.maxDelta) :
    restoreCriteria rf0 state = Except.ok rf := by
  have k1 : ∀ d, getDouble [("max-points", AnyScalar.int rf.maxPoints),
      ("grid-min", AnyScalar.double rf.gridMin), ("prune", AnyScalar.double rf.prune),
      ("curve", AnyScalar.double rf.maxSlope), ("slope", AnyScalar.double rf.maxDelta),
      ("ratio", AnyScalar.double rf.maxRatio)] "ratio" d = Except.ok rf.maxRatio := fun _ => rfl
  have k2 : ∀ d, getDouble [("max-points", AnyScalar.int rf.maxPoints),
      ("grid-min", AnyScalar.double rf.gridMin), ("prune", AnyScalar.double rf.prune),
      ("curve", AnyScalar.double rf.maxSlope), ("slope", AnyScalar.double rf.maxDelta),
      ("ratio", AnyScalar.double rf.maxRatio)] "slope" d = Except.ok rf.maxDelta := fun _ => rfl
  have k3 : ∀ d, getDouble [("max-points", AnyScalar.int rf.maxPoints),
      ("grid-min", AnyScalar.double rf.gridMin), ("prune", AnyScalar.double rf.prune),
      ("curve", AnyScalar.double rf.maxSlope), ("slope", AnyScalar.double rf.maxDelta),
      ("ratio", AnyScalar.double rf.maxRatio)] "curve" d = Except.ok rf.maxSlope := fun _ => rfl
  have k4 : ∀ d, getDouble [("max-points", AnyScalar.int rf.maxPoints),
      ("grid-min", AnyScalar.double rf.gridMin), ("prune", AnyScalar.double rf.prune),
      ("curve", AnyScalar.double rf.maxSlope), ("slope", AnyScalar.double rf.maxDelta),
      ("ratio", AnyScalar.double rf.maxRatio)] "prune" d = Except.ok rf.prune := fun _ => rfl
  unfold restoreCriteria
  rw [AnyMap.hasKey_of_get? _ _ _ hc, AnyMap.getValue_of_get? _ _ _ hc]
  simp only [AnyValue.asMap, bind, Except.bind, if_true]
  rw [k1, k2, k3, k4]
  simp only []
  rw [setCriteria_ok rf0 _ _ _ _ h1 h2 h3 h4 h5 h6 h7]
  simp only []
  have e : (⟨rf.maxRatio, rf.maxDelta, rf.maxSlope, rf.prune, rf.gridMin,
      ((rf.maxPoints : Nat) : Int).toNat⟩ : Refiner) = rf := by
    rw [Int.toNat_ofNat]
  exact (congrArg Except.ok e)

theorem restoreFixedPoint_ok (d : StFlow) (state : AnyMap)
    (hfp : state.get? "fixed-point" = none
      ∨ ∃ z t, state.get? "fixed-point"
          = some (AnyValue.map [("temperature", AnyScalar.double t), ("location", AnyScalar.double z)])) :
    ∃ z t, restoreFixedPoint d state = Except.ok { { d with m_zfixed := z } with m_tfixed := t } := by
  unfold restoreFixedPoint
  rcases hfp with h | ⟨z, t, h⟩
  · rw [AnyMap.hasKey_of_none _ _ h]
    exact ⟨d.m_zfixed, d.m_tfixed, rfl⟩
  · rw [AnyMap.hasKey_of_get? _ _ _ h, AnyMap.getValue_of_get? _ _ _ h]
    exact ⟨z, t, rfl⟩


/-- What `resize` leaves alone. -/
theorem resize_config (s : StFlow) (nv n : Nat) :
    (s.resize nv n).m_nv = nv ∧ (s.resize nv n).m_nsp = s.m_nsp
      ∧ (s.resize nv n).m_thermo = s.m_thermo ∧ (s.resize nv n).m_type = s.m_type
      ∧ (s.resize nv n).m_epsilon_left = s.m_epsilon_left
      ∧ (s.resize nv n).m_epsilon_right = s.m_epsilon_right := by
  cases h : s.m_do_multicomponent <;> simp [resize, resizeDomain1D, h]

/-- What a successful `setupGrid` leaves alone. -/
theorem setupGrid_config (s : StFlow) (n : Nat) (zin : Nat → ℚ) (hn : 1 ≤ n)
    (hinc : ∀ i, 1 ≤ i → i < n → zin (i - 1) < zin i) :
    (s.setupGrid n zin).error = none
      ∧ (s.setupGrid n zin).state.m_nv = s.m_nv
      ∧ (s.setupGrid n zin).state.m_points = n
      ∧ (s.setupGrid n zin).state.m_nsp = s.m_nsp
      ∧ (s.setupGrid n zin).state.m_thermo = s.m_thermo
      ∧ (s.setupGrid n zin).state.m_type = s.m_type
      ∧ (s.setupGrid n zin).state.m_epsilon_left = s.m_epsilon_left
      ∧ (s.setupGrid n zin).state.m_epsilon_right = s.m_epsilon_right := by
  obtain ⟨h1, _, _, h4, _, _⟩ := setupGrid_spec s n zin n hn hn (Nat.le_refl n) hinc (Or.inl rfl)
  obtain ⟨r1, r2, r3, r4, r5, r6⟩ := resize_config s s.m_nv n
  have rp := (resize_lengths s s.m_nv n).1
  refine ⟨h1.mpr rfl, ?_, ?_, ?_, ?_, ?_, ?_, ?_⟩
  · rw [h4]; exact r1
  · rw [h4]; exact rp
  · rw [h4]; exact r2
  · rw [h4]; exact r3
  · rw [h4]; exact r4
  · rw [h4]; exact r5
  · rw [h4]; exact r6

theorem flowType_ok (s : StFlow) (h : s.m_type ≠ DomainType.cFlowType) :
    ∃ t, s.flowType = Except.ok t := by
  unfold flowType
  split_ifs with h1 h2 h3
  · exact ⟨_, rfl⟩
  · exact ⟨_, rfl⟩
  · exact ⟨_, rfl⟩
  · cases hh : s.m_type
    · exact absurd hh h
    · exact absurd hh h1
    · exact absurd hh h2
    · exact absurd hh h3

/-- The entries of the map that the loop over the components of `serialize` leaves. -/
theorem componentLoop_get (s : StFlow) (soln : Nat → ℚ) (st : AnyMap) :
    (∀ k, (∀ i, i < s.m_nv → s.componentActive i = true → s.componentName i ≠ k) →
        (forRange 0 s.m_nv (fun i (state : AnyMap) =>
          if s.componentActive i then
            state.put (s.componentName i)
              (AnyValue.vecDouble ((List.range s.m_points).map (fun j => soln (s.index i j))))
          else state) st).get? k = st.get? k)
      ∧ ∀ k, (forRange 0 s.m_nv (fun i (state : AnyMap) =>
          if s.componentActive i then
            state.put (s.componentName i)
              (AnyValue.vecDouble ((List.range s.m_points).map (fun j => soln (s.index i j))))
          else state) st).get? k = st.get? k
        ∨ ∃ data, (forRange 0 s.m_nv (fun i (state : AnyMap) =>
            if s.componentActive i then
              state.put (s.componentName i)
                (AnyValue.vecDouble ((List.range s.m_points).map (fun j => soln (s.index i j))))
            else state) st).get? k = some (AnyValue.vecDouble data) ∧ data.length = s.m_points := by
  refine forRange_induction (fun acc : AnyMap =>
    (∀ k, (∀ i, i < s.m_nv → s.componentActive i = true → s.componentName i ≠ k) →
        acc.get? k = st.get? k)
      ∧ ∀ k, acc.get? k = st.get? k
        ∨ ∃ data, acc.get? k = some (AnyValue.vecDouble data) ∧ data.length = s.m_points)
    0 s.m_nv _ st ⟨fun _ _ => rfl, fun _ => Or.inl rfl⟩ ?_
  intro i acc _ hi hacc
  obtain ⟨a1, a2⟩ := hacc
  by_cases ha : s.componentActive i = true
  · rw [if_pos ha]
    refine ⟨?_, ?_⟩
    · intro k hk
      rw [AnyMap.get?_put_ne _ _ _ _ (Ne.symm (hk i hi ha))]
      exact a1 k hk
    · intro k
      by_cases e : k = s.componentName i
      · rw [e, AnyMap.get?_put_eq]
        exact Or.inr ⟨_, rfl, by simp⟩
      · rw [AnyMap.get?_put_ne _ _ _ _ e]
        exact a2 k
  · rw [if_neg ha]
    exact ⟨a1, a2⟩


/-- The call `restore` by its blocks. -/
theorem restore_of_blocks (d d1 d2 d3 d4 : StFlow) (rfd rf2 : Refiner) (state : AnyMap)
    (soln sl : Nat → ℚ) (lvl : Int)
    (h1 : restoreGrid (d.restoreDomain1D state soln lvl) state = Except.ok d1)
    (h2 : restoreComponents d1 state soln = Except.ok sl)
    (h3 : restoreFlags d1 state = Except.ok d2)
    (h4 : restoreRadiation d2 state = Except.ok d3)
    (h5 : restoreCriteria rfd state = Except.ok rf2)
    (h6 : restoreFixedPoint d3 state = Except.ok d4) :
    d.restore rfd state soln lvl = Except.ok (d4, rf2, sl) := by
  unfold restore
  simp only [h1, h2, h3, h4, h5, h6, bind, Except.bind, pure, Except.pure]

theorem componentActive_congr (a b : StFlow) (h : a.m_type = b.m_type) (i : Nat) :
    a.componentActive i = b.componentActive i := by
  unfold componentActive
  rw [h]

theorem componentName_congr (a b : StFlow) (h1 : a.m_nsp = b.m_nsp) (h2 : a.m_thermo = b.m_thermo)
    (i : Nat) : a.componentName i = b.componentName i := by
  unfold componentName
  rw [h1, h2]

/-- The round trip through `serialize` and `restore` on a well-formed pair of domains. -/
theorem serialize_restore_radiation (c : Consts) (s d : StFlow) (rf rfd : Refiner) (pn : String)
    (ps : Option String) (soln soln2 : Nat → ℚ) (lvl : Int)
    (htype : s.m_type ≠ DomainType.cFlowType)
    (hN : 1 ≤ s.m_points) (hpts : d.m_points = s.m_points) (hz : s.m_z.length = s.m_points)
    (hgrid : ∀ i, i + 1 < s.m_points → vget s.m_z i < vget s.m_z (i + 1))
    (hen : s.m_do_energy.length = s.m_points)
    (hsp : flagSetSize s.m_do_species = 1)
    (hrf : 2 ≤ rf.maxRatio ∧ 0 ≤ rf.maxDelta ∧ rf.maxDelta ≤ 1 ∧ 0 ≤ rf.maxSlope
      ∧ rf.maxSlope ≤ 1 ∧ rf.prune ≤ rf.maxSlope ∧ rf.prune ≤ rf.maxDelta)
    (hnames : ∀ i, i < s.m_nv → s.componentActive i = true → s.componentName i ∉ reservedKeys)
    (hnamesd : ∀ i, i < d.m_nv → d.componentActive i = true → d.componentName i ∉ reservedKeys) :
    ∃ state res, s.serialize c rf pn ps soln = Except.ok state
      ∧ d.restore rfd state soln2 lvl = Except.ok res
      ∧ res.1.m_do_radiation = s.m_do_radiation
      ∧ (s.m_do_radiation = true →
          res.1.leftEmissivity = s.leftEmissivity ∧ res.1.rightEmissivity = s.rightEmissivity)
      ∧ (s.m_do_radiation = false →
          res.1.leftEmissivity = d.leftEmissivity ∧ res.1.rightEmissivity = d.rightEmissivity) := by
  obtain ⟨t, ht⟩ := flowType_ok s htype
  obtain ⟨c1, c2⟩ := componentLoop_get s soln (serializeSettings c s rf t pn ps soln)
  obtain ⟨g1, g2, g3, g4, g5, g6, g7, g8, g9, g10, g11⟩ :=
    serializeSettings_get c s rf t pn ps soln hsp
  have hS : s.serialize c rf pn ps soln = Except.ok (forRange 0 s.m_nv (fun i (state : AnyMap) =>
      if s.componentActive i then
        state.put (s.componentName i)
          (AnyValue.vecDouble ((List.range s.m_points).map (fun j => soln (s.index i j))))
      else state) (serializeSettings c s rf t pn ps soln)) := by
    unfold serialize
    rw [ht]
  generalize hSdef : (forRange 0 s.m_nv (fun i (state : AnyMap) =>
      if s.componentActive i then
        state.put (s.componentName i)
          (AnyValue.vecDouble ((List.range s.m_points).map (fun j => soln (s.index i j))))
      else state) (serializeSettings c s rf t pn ps soln)) = S at hS c1 c2
  have hres : ∀ K, K ∈ reservedKeys →
      S.get? K = (serializeSettings c s rf t pn ps soln).get? K := by
    intro K hK
    exact c1 K (fun i hi ha e => hnames i hi ha (by rw [e]; exact hK))
  have hinc : ∀ i, 1 ≤ i → i < d.m_points →
      (fun i => vget s.m_z i) (i - 1) < (fun i => vget s.m_z i) i := by
    intro i h1 h2
    have := hgrid (i - 1) (by omega)
    rw [Nat.sub_add_cancel h1] at this
    exact this
  obtain ⟨e0, e1, e2, e3, e4, e5, e6, e7⟩ := setupGrid_config
    ({ d with m_press := s.m_press } : StFlow) d.m_points (fun i => vget s.m_z i) (by omega) hinc
  have s1 := restoreGrid_ok d S s.m_press s.m_z ((hres _ (by decide)).trans g1)
    ((hres _ (by decide)).trans g2) (by omega) e0
  generalize hd1 : (({ d with m_press := s.m_press } : StFlow).setupGrid d.m_points
    (fun i => vget s.m_z i)).state = d1 at s1 e1 e2 e3 e4 e5 e6 e7
  have s2 := restoreComponents_ok d1 S soln2 (by
    intro i hi ha
    have hname : d1.componentName i = d.componentName i := componentName_congr d1 d e3 e4 i
    have hact : d.componentActive i = true := by
      rw [← componentActive_congr d1 d e5 i]; exact ha
    have hnot := hnamesd i (by rw [← e1]; exact hi) hact
    rw [hname]
    rcases c2 (d.componentName i) with h | ⟨data, h, hl⟩
    · exact Or.inl (h.trans (g11 _ hnot))
    · exact Or.inr ⟨data, h, by rw [hl, e2, hpts]⟩)
  obtain ⟨sl, s2⟩ := s2
  obtain ⟨fl, s3⟩ := restoreFlags_ok d1 S _ s.m_do_soret (bget s.m_do_species 0)
    ((hres _ (by decide)).trans g6)
    (by
      by_cases h : flagSetSize s.m_do_energy = 1
      · rw [if_pos h]
        exact Or.inl ⟨_, rfl⟩
      · rw [if_neg h]
        exact Or.inr ⟨_, rfl, by rw [hen, e2, hpts]⟩)
    ((hres _ (by decide)).trans g7) ((hres _ (by decide)).trans g8)
  have s5 := restoreCriteria_ok rfd rf S ((hres _ (by decide)).trans g9) hrf.1 hrf.2.1 hrf.2.2.1
    hrf.2.2.2.1 hrf.2.2.2.2.1 hrf.2.2.2.2.2.1 hrf.2.2.2.2.2.2
  have hfp : S.get? "fixed-point" = none
      ∨ ∃ z t, S.get? "fixed-point"
          = some (AnyValue.map [("temperature", AnyScalar.double t), ("location", AnyScalar.double z)]) := by
    rw [(hres _ (by decide)).trans g10]
    by_cases h : s.m_zfixed ≠ c.Undef
    · rw [if_pos h]
      exact Or.inr ⟨_, _, rfl⟩
    · rw [if_neg h]
      exact Or.inl rfl
  cases hrad : s.m_do_radiation
  · have s4 := restoreRadiation_off
      ({ { { d1 with m_do_energy := fl } with m_do_soret := s.m_do_soret } with
        m_do_species := List.replicate d1.m_nsp (bget s.m_do_species 0) }) S
      (by rw [(hres _ (by decide)).trans g3, hrad])
    obtain ⟨z, tt, s6⟩ := restoreFixedPoint_ok _ S hfp
    refine ⟨S, _, hS, restore_of_blocks d d1 _ _ _ rfd rf S soln2 sl lvl s1 s2 s3 s4 s5 s6,
      rfl, fun h => absurd h (by decide), fun _ => ⟨e6, e7⟩⟩
  · have s4 := restoreRadiation_on
      ({ { { d1 with m_do_energy := fl } with m_do_soret := s.m_do_soret } with
        m_do_species := List.replicate d1.m_nsp (bget s.m_do_species 0) }) S
      s.m_epsilon_left s.m_epsilon_right
      (by rw [(hres _ (by decide)).trans g3, hrad])
      (by rw [(hres _ (by decide)).trans g4, hrad]; rfl)
      (by rw [(hres _ (by decide)).trans g5, hrad]; rfl)
    obtain ⟨z, tt, s6⟩ := restoreFixedPoint_ok _ S hfp
    refine ⟨S, _, hS, restore_of_blocks d d1 _ _ _ rfd rf S soln2 sl lvl s1 s2 s3 s4 s5 s6,
      rfl, fun _ => ⟨rfl, rfl⟩, fun h => absurd h (by decide)⟩

end StFlow

namespace StFlow

/-- C29 (as the code has it): let the exported domain have a flow type that `flowType()` accepts
(free flame, axisymmetric stagnation or porous flow), at least one point, a strictly increasing
grid of `N` entries, `N` energy flags, species flags that are all equal, and refiner criteria that
`setCriteria` accepts (ratio at least 2, slope and curve in `[0, 1]`, prune at most the slope and
the curve); let the importing domain have the same number of points; and let no name of an
active component of either domain be a key that `serialize` writes. Then exporting with
`serialize` and importing the result with `restore` succeeds and reproduces the radiation flag;
when the exported flag is on, the restored left and right emissivities are the exported ones, for
every pair of values; when it is off, `serialize` writes no emissivity and the restored domain keeps
the emissivities the importing domain had before. -/
theorem serialize_restore_emissivities (c : Consts) (s d : StFlow) (rf rfd : Refiner) (pn : String)
    (ps : Option String) (soln soln2 : Nat → ℚ) (lvl : Int)
    (htype : s.m_type ≠ DomainType.cFlowType)
    (hN : 1 ≤ s.m_points) (hpts : d.m_points = s.m_points) (hz : s.m_z.length = s.m_points)
    (hgrid : ∀ i, i + 1 < s.m_points → vget s.m_z i < vget s.m_z (i + 1))
    (hen : s.m_do_energy.length = s.m_points)
    (hsp : flagSetSize s.m_do_species = 1)
    (hrf : 2 ≤ rf.maxRatio ∧ 0 ≤ rf.maxDelta ∧ rf.maxDelta ≤ 1 ∧ 0 ≤ rf.maxSlope
      ∧ rf.maxSlope ≤ 1 ∧ rf.prune ≤ rf.maxSlope ∧ rf.prune ≤ rf.maxDelta)
    (hnames : ∀ i, i < s.m_nv → s.componentActive i = true → s.componentName i ∉ reservedKeys)
    (hnamesd : ∀ i, i < d.m_nv → d.componentActive i = true → d.componentName i ∉ reservedKeys) :
    ∃ state res, s.serialize c rf pn ps soln = Except.ok state
      ∧ d.restore rfd state soln2 lvl = Except.ok res
      ∧ res.1.m_do_radiation = s.m_do_radiation
      ∧ (s.m_do_radiation = true →
          res.1.leftEmissivity = s.leftEmissivity ∧ res.1.rightEmissivity = s.rightEmissivity)
      ∧ (s.m_do_radiation = false →
          res.1.leftEmissivity = d.leftEmissivity ∧ res.1.rightEmissivity = d.rightEmissivity) :=
  serialize_restore_radiation c s d rf rfd pn ps soln soln2 lvl htype hN hpts hz hgrid hen hsp hrf
    hnames hnamesd

theorem demo_names_free (s : StFlow) (hnv : s.m_nv = demoFlow.m_nv) (hnsp : s.m_nsp = demoFlow.m_nsp)
    (hth : s.m_thermo = demoFlow.m_thermo) :
    ∀ i, i < s.m_nv → s.componentActive i = true → s.componentName i ∉ reservedKeys := by
  intro i hi _
  rw [componentName_congr s demoFlow hnsp hth i]
  rw [hnv] at hi
  have hi2 : i < 7 := hi
  interval_cases i <;> decide

theorem demo_grid_increasing (s : StFlow) (hp : s.m_points = 4) (hz : s.m_z = demoFlow.m_z) :
    ∀ i, i + 1 < s.m_points → vget s.m_z i < vget s.m_z (i + 1) := by
  intro i hi
  rw [hp] at hi
  rw [hz]
  have hi3 : i < 3 := by omega
  interval_cases i <;> decide!

theorem demoRefiner_valid : 2 ≤ demoRefiner.maxRatio ∧ 0 ≤ demoRefiner.maxDelta
    ∧ demoRefiner.maxDelta ≤ 1 ∧ 0 ≤ demoRefiner.maxSlope
    ∧ demoRefiner.maxSlope ≤ 1 ∧ demoRefiner.prune ≤ demoRefiner.maxSlope
    ∧ demoRefiner.prune ≤ demoRefiner.maxDelta := by
  decide!

theorem serialize_restore_emissivities_witness :
    ∃ state res, demoFlowGlow.serialize demoConsts demoRefiner "gas" none demoX = Except.ok state
      ∧ demoFlow.restore demoRefiner state demoX 0 = Except.ok res
      ∧ res.1.m_do_radiation = demoFlowGlow.m_do_radiation
      ∧ (demoFlowGlow.m_do_radiation = true →
          res.1.leftEmissivity = demoFlowGlow.leftEmissivity
            ∧ res.1.rightEmissivity = demoFlowGlow.rightEmissivity)
      ∧ (demoFlowGlow.m_do_radiation = false →
          res.1.leftEmissivity = demoFlow.leftEmissivity
            ∧ res.1.rightEmissivity = demoFlow.rightEmissivity) :=
  serialize_restore_emissivities demoConsts demoFlowGlow demoFlow demoRefiner demoRefiner "gas" none
    demoX demoX 0 (by decide) (by decide) rfl rfl (demo_grid_increasing _ rfl rfl) rfl (by decide)
    demoRefiner_valid (demo_names_free _ rfl rfl rfl) (demo_names_free _ rfl rfl rfl)

/-- C29, counterexample: a domain with the radiation flag off and emissivities 1/2 and 1/4 is
exported and the result imported into a domain whose emissivities are 0: the import succeeds and
the restored emissivities are 0, not those of the exported domain. -/
theorem serialize_restore_emissivities_counterexample :
    demoFlowDim.m_do_radiation = false
      ∧ demoFlowDim.leftEmissivity = 1 / 2 ∧ demoFlowDim.rightEmissivity = 1 / 4
      ∧ ∃ state res,
          demoFlowDim.serialize demoConsts demoRefiner "gas" none demoX = Except.ok state
          ∧ demoFlow.restore demoRefiner state demoX 0 = Except.ok res
          ∧ res.1.leftEmissivity = 0 ∧ res.1.rightEmissivity = 0
          ∧ res.1.leftEmissivity ≠ demoFlowDim.leftEmissivity
          ∧ res.1.rightEmissivity ≠ demoFlowDim.rightEmissivity := by
  obtain ⟨state, res, h1, h2, _, _, h5⟩ := serialize_restore_radiation demoConsts demoFlowDim
    demoFlow demoRefiner demoRefiner "gas" none
    demoX demoX 0 (by decide) (by decide) rfl rfl (demo_grid_increasing _ rfl rfl) rfl (by decide)
    demoRefiner_valid (demo_names_free _ rfl rfl rfl) (demo_names_free _ rfl rfl rfl)
  obtain ⟨h6, h7⟩ := h5 rfl
  have e1 : demoFlow.leftEmissivity = 0 := rfl
  have e2 : demoFlow.rightEmissivity = 0 := rfl
  have e3 : demoFlowDim.leftEmissivity = 1 / 2 := rfl
  have e4 : demoFlowDim.rightEmissivity = 1 / 4 := rfl
  refine ⟨rfl, e3, e4, state, res, h1, h2, h6.trans e1, h7.trans e2, ?_, ?_⟩
  · rw [h6, e1, e3]; norm_num
  · rw [h7, e2, e4]; norm_num

/-- The restriction of the round trip to species flags that are all equal is forced by the code:
when the species flags of the exported domain differ, `serialize` succeeds and writes them as a
map from species name to flag, which `restore` reads with `asVector<bool>` and rejects. Here the
concrete radiating domain is exported with the species flags `true, false`. -/
theorem serialize_restore_mixed_species_flags :
    flagSetSize ({ demoFlowGlow with m_do_species := [true, false] } : StFlow).m_do_species = 2
      ∧ (match ({ demoFlowGlow with m_do_species := [true, false] } : StFlow).serialize
            demoConsts demoRefiner "gas" none demoX with
          | Except.ok state =>
            (match demoFlow.restore demoRefiner state demoX 0 with
              | Except.ok _ => "restored"
              | Except.error e => e)
          | Except.error _ => "not exported")
        = "AnyValue::asVector: the value is not a vector of booleans" := by
  decide!

end StFlow

/-! ## The solid block of the XML state file -/
/-- A copy loop `for (i = 0; i < m; i++) dst[i] = x[i]` inside the destination. -/
theorem copyLoop_spec (x : List ℚ) (m : Nat) (dst : List ℚ) (hm : m ≤ dst.length) :
    (forRange 0 m (fun i d => d.set i (vget x i)) dst).length = dst.length
      ∧ ∀ i, vget (forRange 0 m (fun i d => d.set i (vget x i)) dst) i
          = if i < m then vget x i else vget dst i := by
  induction m with
  | zero =>
    rw [forRange_empty _ _ _ _ (Nat.le_refl _)]
    exact ⟨rfl, fun i => by simp⟩
  | succ m ih =>
    obtain ⟨h1, h2⟩ := ih (by omega)
    rw [forRange_succ _ _ _ _ (Nat.zero_le _)]
    refine ⟨by rw [List.length_set, h1], fun i => ?_⟩
    by_cases h : i = m
    · subst h
      rw [vget_set_eq _ _ _ (by rw [h1]; omega), if_pos (by omega)]
    · rw [vget_set_ne _ _ _ _ (fun e => h e.symm), h2 i]
      by_cases h3 : i < m
      · rw [if_pos h3, if_pos (by omega)]
      · rw [if_neg h3, if_neg (by omega)]

/-- Two vectors of the same size with the same entries are equal. -/
theorem vget_ext (a b : List ℚ) (hl : a.length = b.length)
    (h : ∀ i, i < a.length → vget a i = vget b i) : a = b := by
  apply List.ext_getElem hl
  intro i h1 h2
  have := h i h1
  simp only [vget, List.getD_eq_getElem?_getD, List.getElem?_eq_getElem h1,
    List.getElem?_eq_getElem h2, Option.getD_some] at this
  exact this

/-- The array that `addNamedFloatArray` stores after a full copy loop is the source vector. -/
theorem fullCopy_stored (src values : List ℚ) (n : Nat) (hs : src.length = n)
    (hv : values.length = n) :
    (List.range n).map (fun i => vget (forRange 0 n (fun i v => v.set i (vget src i)) values) i)
      = src := by
  obtain ⟨_, h2⟩ := copyLoop_spec src n values (by omega)
  apply vget_ext
  · simp [hs]
  · intro i hi
    simp only [List.length_map, List.length_range] at hi
    simp only [vget, List.getD_eq_getElem?_getD, List.getElem?_map, List.getElem?_range hi,
      Option.map_some', Option.getD_some]
    have := h2 i
    rw [if_pos hi] at this
    simpa [vget, List.getD_eq_getElem?_getD] using this


/-- Reading a resized vector at an index below the new size. -/
theorem vget_vresize (v : List ℚ) (n i : Nat) (h : i < n) : vget (vresize v n 0) i = vget v i := by
  unfold vget vresize
  rw [List.getD_eq_getElem?_getD, List.getD_eq_getElem?_getD]
  by_cases h1 : i < v.length
  · rw [List.getElem?_append_left (by rw [List.length_take]; omega), List.getElem?_take_of_lt h]
  · rw [List.getElem?_append_right (by rw [List.length_take]; omega)]
    rw [List.getElem?_eq_none (by omega : v.length ≤ i)]
    by_cases h2 : i - (List.take n v).length < n - v.length
    · rw [List.getElem?_replicate_of_lt h2]
      rfl
    · rw [List.getElem?_eq_none (by rw [List.length_replicate]; omega)]

/-- The unsigned difference `n - 1` for a positive size. -/
theorem subSz_one (n : Nat) (h1 : 1 ≤ n) (h2 : n < 2 ^ 64) : subSz n 1 = n - 1 := by
  unfold subSz
  rw [show (2:Nat) ^ 64 = 18446744073709551616 by norm_num] at *
  omega

theorem lookup_append_single {β : Type} (l : List (String × β)) (k : String) (v : β)
    (h : l.lookup k = none) : (l ++ [(k, v)]).lookup k = some v := by
  induction l with
  | nil => simp [List.lookup]
  | cons a t ih =>
    obtain ⟨a1, a2⟩ := a
    rw [List.cons_append]
    rw [List.lookup_cons] at h ⊢
    cases hk : (k == a1)
    · rw [hk] at h
      exact ih h
    · rw [hk] at h
      cases h

namespace PorousFlow

/-- The block of `restore` for an array whose copy loop runs over all entries. -/
theorem restoreArray_full (dst x : List ℚ) (n : Nat) (what : String) (h : x.length = n) :
    restoreArray dst x n x.length what = Except.ok x := by
  unfold restoreArray
  simp only []
  rw [if_pos h]
  congr 1
  obtain ⟨h1, h2⟩ := copyLoop_spec x x.length (vresize dst n 0) (by rw [length_vresize]; omega)
  apply vget_ext
  · rw [h1, length_vresize, h]
  · intro i hi
    rw [h1, length_vresize, ← h] at hi
    rw [h2 i, if_pos hi]

/-- The block of `restore` for `Hconv`, whose copy loop stops one entry early. -/
theorem restoreArray_short (dst x : List ℚ) (n : Nat) (what : String) (h : x.length = n)
    (hn1 : 1 ≤ n) (hn2 : n < 2 ^ 64) :
    ∃ r, restoreArray dst x n (subSz x.length 1) what = Except.ok r ∧ r.length = n
      ∧ (∀ i, i + 1 < n → vget r i = vget x i) ∧ vget r (n - 1) = vget dst (n - 1) := by
  unfold restoreArray
  simp only []
  rw [if_pos h, h, subSz_one n hn1 hn2]
  clear hn2
  obtain ⟨h1, h2⟩ := copyLoop_spec x (n - 1) (vresize dst n 0) (by rw [length_vresize]; omega)
  refine ⟨_, rfl, by rw [h1, length_vresize], fun i hi => ?_, ?_⟩
  · rw [h2 i, if_pos (by omega)]
  · rw [h2 (n - 1), if_neg (by omega), vget_vresize _ _ _ (by omega)]

/-- The node that `save` returns, with the content of the buffer after each copy loop named. -/
theorem save_eq (p : PorousFlow) (flow : XmlDomainNode) (n : Nat) (v0 v1 v2 v3 v4 v5 v6 : List ℚ)
    (hn : n = p.toStFlow.m_points) (h0 : v0 = List.replicate n 0)
    (h1 : v1 = forRange 0 n (fun i v => v.set i (vget p.Tw i)) v0)
    (h2 : v2 = forRange 0 n (fun i v => v.set i (vget p.dq i)) v1)
    (h3 : v3 = forRange 0 n (fun i v => v.set i (vget p.pore i)) v2)
    (h4 : v4 = forRange 0 n (fun i v => v.set i (vget p.diam i)) v3)
    (h5 : v5 = forRange 0 n (fun i v => v.set i (vget p.scond i)) v4)
    (h6 : v6 = forRange 0 (subSz n 1) (fun i v => v.set i (vget p.hconv i)) v5) :
    p.save flow = ⟨flow.children ++ [("Solid",
        ⟨[("pore1", p.pore1), ("pore2", p.pore2), ("diam1", p.diam1), ("diam2", p.diam2),
          ("scond1", p.scond1), ("scond2", p.scond2), ("Omega1", p.Omega1), ("Omega2", p.Omega2),
          ("rho", p.srho), ("Cp", p.sCp), ("zmid", p.m_zmid), ("dzmid", p.m_dzmid)],
         [("Tsolid", (List.range n).map (fun i => vget v1 i)),
          ("Radiation", (List.range n).map (fun i => vget v2 i)),
          ("Porosity", (List.range n).map (fun i => vget v3 i)),
          ("Diameter", (List.range n).map (fun i => vget v4 i)),
          ("SolidConductivity", (List.range n).map (fun i => vget v5 i)),
          ("Hconv", (List.range n).map (fun i => vget v6 i))]⟩)]⟩ := by
  rw [h6, h5, h4, h3, h2, h1, h0, hn]
  rfl

/-- The `Solid` child that `save` writes, with the content of the buffer named. -/
theorem save_solid_named (p : PorousFlow) (flow : XmlDomainNode) (n : Nat)
    (v0 v1 v2 v3 v4 v5 v6 : List ℚ) (hn : p.toStFlow.m_points = n)
    (hn1 : 1 ≤ n) (hn2 : n < 2 ^ 64) (hflow : flow.child? "Solid" = none)
    (hTw : p.Tw.length = n) (hdq : p.dq.length = n) (hpore : p.pore.length = n)
    (hdiam : p.diam.length = n) (hscond : p.scond.length = n)
    (h0 : v0 = List.replicate n 0)
    (h1 : v1 = forRange 0 n (fun i v => v.set i (vget p.Tw i)) v0)
    (h2 : v2 = forRange 0 n (fun i v => v.set i (vget p.dq i)) v1)
    (h3 : v3 = forRange 0 n (fun i v => v.set i (vget p.pore i)) v2)
    (h4 : v4 = forRange 0 n (fun i v => v.set i (vget p.diam i)) v3)
    (h5 : v5 = forRange 0 n (fun i v => v.set i (vget p.scond i)) v4)
    (h6 : v6 = forRange 0 (subSz n 1) (fun i v => v.set i (vget p.hconv i)) v5) :
    ∃ hc : List ℚ, (p.save flow).child? "Solid" = some
        ⟨[("pore1", p.pore1), ("pore2", p.pore2), ("diam1", p.diam1), ("diam2", p.diam2),
          ("scond1", p.scond1), ("scond2", p.scond2), ("Omega1", p.Omega1), ("Omega2", p.Omega2),
          ("rho", p.srho), ("Cp", p.sCp), ("zmid", p.m_zmid), ("dzmid", p.m_dzmid)],
         [("Tsolid", p.Tw), ("Radiation", p.dq), ("Porosity", p.pore), ("Diameter", p.diam),
          ("SolidConductivity", p.scond), ("Hconv", hc)]⟩
      ∧ hc.length = n ∧ (∀ i, i + 1 < n → vget hc i = vget p.hconv i)
      ∧ vget hc (n - 1) = vget p.scond (n - 1) := by
  have hs := save_eq p flow n v0 v1 v2 v3 v4 v5 v6 hn.symm h0 h1 h2 h3 h4 h5 h6
  have l0 : v0.length = n := by rw [h0, List.length_replicate]
  have l1 : v1.length = n := by
    rw [h1, (copyLoop_spec p.Tw n v0 (Nat.le_of_eq l0.symm)).1, l0]
  have l2 : v2.length = n := by
    rw [h2, (copyLoop_spec p.dq n v1 (Nat.le_of_eq l1.symm)).1, l1]
  have l3 : v3.length = n := by
    rw [h3, (copyLoop_spec p.pore n v2 (Nat.le_of_eq l2.symm)).1, l2]
  have l4 : v4.length = n := by
    rw [h4, (copyLoop_spec p.diam n v3 (Nat.le_of_eq l3.symm)).1, l3]
  have l5 : v5.length = n := by
    rw [h5, (copyLoop_spec p.scond n v4 (Nat.le_of_eq l4.symm)).1, l4]
  have e5 := (copyLoop_spec p.scond n v4 (Nat.le_of_eq l4.symm)).2
  rw [← h5] at e5
  rw [subSz_one n hn1 hn2] at h6
  clear hn2
  have e6 := (copyLoop_spec p.hconv (n - 1) v5 (by rw [l5]; exact Nat.sub_le n 1)).2
  rw [← h6] at e6
  have s1 := fullCopy_stored p.Tw v0 n hTw l0
  rw [← h1] at s1
  have s2 := fullCopy_stored p.dq v1 n hdq l1
  rw [← h2] at s2
  have s3 := fullCopy_stored p.pore v2 n hpore l2
  rw [← h3] at s3
  have s4 := fullCopy_stored p.diam v3 n hdiam l3
  rw [← h4] at s4
  have s5 := fullCopy_stored p.scond v4 n hscond l4
  rw [← h5] at s5
  rw [hs, s1, s2, s3, s4, s5]
  unfold XmlDomainNode.child?
  rw [lookup_append_single _ _ _ hflow]
  refine ⟨_, rfl, by simp, fun i hi => ?_, ?_⟩
  · have hi2 : i < n := Nat.lt_of_succ_lt hi
    simp only [vget, List.getD_eq_getElem?_getD, List.getElem?_map, List.getElem?_range hi2,
      Option.map_some', Option.getD_some]
    have := e6 i
    rw [if_pos (Nat.lt_sub_of_add_lt hi)] at this
    simpa [vget, List.getD_eq_getElem?_getD] using this
  · have hi2 : n - 1 < n := Nat.sub_lt hn1 Nat.one_pos
    simp only [vget, List.getD_eq_getElem?_getD, List.getElem?_map, List.getElem?_range hi2,
      Option.map_some', Option.getD_some]
    have := e6 (n - 1)
    rw [if_neg (Nat.lt_irrefl _), e5 (n - 1), if_pos hi2] at this
    simpa [vget, List.getD_eq_getElem?_getD] using this

/-- The `Solid` child that `save` writes. -/
theorem save_solid (p : PorousFlow) (flow : XmlDomainNode) (n : Nat) (hn : p.toStFlow.m_points = n)
    (hn1 : 1 ≤ n) (hn2 : n < 2 ^ 64) (hflow : flow.child? "Solid" = none)
    (hTw : p.Tw.length = n) (hdq : p.dq.length = n) (hpore : p.pore.length = n)
    (hdiam : p.diam.length = n) (hscond : p.scond.length = n) :
    ∃ hc : List ℚ, (p.save flow).child? "Solid" = some
        ⟨[("pore1", p.pore1), ("pore2", p.pore2), ("diam1", p.diam1), ("diam2", p.diam2),
          ("scond1", p.scond1), ("scond2", p.scond2), ("Omega1", p.Omega1), ("Omega2", p.Omega2),
          ("rho", p.srho), ("Cp", p.sCp), ("zmid", p.m_zmid), ("dzmid", p.m_dzmid)],
         [("Tsolid", p.Tw), ("Radiation", p.dq), ("Porosity", p.pore), ("Diameter", p.diam),
          ("SolidConductivity", p.scond), ("Hconv", hc)]⟩
      ∧ hc.length = n ∧ (∀ i, i + 1 < n → vget hc i = vget p.hconv i)
      ∧ vget hc (n - 1) = vget p.scond (n - 1) :=
  save_solid_named p flow n _ _ _ _ _ _ _ hn hn1 hn2 hflow hTw hdq hpore hdiam hscond
    rfl rfl rfl rfl rfl rfl rfl

end PorousFlow

namespace PorousFlow

/-- The solid block of `restore` in terms of what it reads from the `Solid` child. -/
theorem restore_of_reads (q : PorousFlow) (dom : XmlDomainNode) (ref : XmlNode) (n : Nat)
    (hq : q.toStFlow.m_points = n) (hn1 : 1 ≤ n) (hn2 : n < 2 ^ 64)
    (tw dq pore diam scond hc : List ℚ)
    (htw : tw.length = n) (hdq : dq.length = n) (hpore : pore.length = n)
    (hdiam : diam.length = n) (hscond : scond.length = n) (hhc : hc.length = n)
    (hch : dom.child? "Solid" = some ref)
    (a1 : getFloatArray ref "Tsolid" = Except.ok tw)
    (a2 : getFloatArray ref "Radiation" = Except.ok dq)
    (a3 : getFloatArray ref "Porosity" = Except.ok pore)
    (a4 : getFloatArray ref "Diameter" = Except.ok diam)
    (a5 : getFloatArray ref "SolidConductivity" = Except.ok scond)
    (a6 : getFloatArray ref "Hconv" = Except.ok hc) :
    ∃ r, restore q dom = Except.ok r
      ∧ (r.pore1 = getFloat ref "pore1" ∧ r.pore2 = getFloat ref "pore2"
        ∧ r.diam1 = getFloat ref "diam1" ∧ r.diam2 = getFloat ref "diam2"
        ∧ r.scond1 = getFloat ref "scond1" ∧ r.scond2 = getFloat ref "scond2"
        ∧ r.Omega1 = getFloat ref "Omega1" ∧ r.Omega2 = getFloat ref "Omega2"
        ∧ r.srho = getFloat ref "rho" ∧ r.sCp = getFloat ref "Cp"
        ∧ r.m_zmid = getFloat ref "zmid" ∧ r.m_dzmid = getFloat ref "dzmid")
      ∧ (r.Tw = tw ∧ r.dq = dq ∧ r.pore = pore ∧ r.diam = diam ∧ r.scond = scond)
      ∧ r.hconv.length = n ∧ (∀ i, i + 1 < n → vget r.hconv i = vget hc i)
      ∧ vget r.hconv (n - 1) = vget q.hconv (n - 1)
      ∧ r.toStFlow = q.toStFlow := by
  subst hq
  obtain ⟨hv, e1, e2, e3, e4⟩ := restoreArray_short q.hconv hc _ "hconv" hhc hn1 hn2
  unfold restore
  rw [hch]
  simp only [a1, a2, a3, a4, a5, a6, bind, Except.bind, pure, Except.pure,
    restoreArray_full _ _ _ _ htw, restoreArray_full _ _ _ _ hdq, restoreArray_full _ _ _ _ hpore,
    restoreArray_full _ _ _ _ hdiam, restoreArray_full _ _ _ _ hscond, e1]
  exact ⟨_, rfl, ⟨rfl, rfl, rfl, rfl, rfl, rfl, rfl, rfl, rfl, rfl, rfl, rfl⟩,
    ⟨rfl, rfl, rfl, rfl, rfl⟩, e2, e3, e4, rfl⟩

/-- What `save` followed by `restore` reproduces: `q` is the importing domain as the base
class left it, on a grid of the size of the grid of the saved domain `p`. Every scalar and every
array but `hconv` is that of `p`; `hconv` is that of `p` up to the last point, where the importing
domain keeps its own entry. -/
theorem save_restore_solid (p q : PorousFlow) (flow : XmlDomainNode) (n : Nat)
    (hp : p.toStFlow.m_points = n) (hq : q.toStFlow.m_points = n) (hn1 : 1 ≤ n) (hn2 : n < 2 ^ 64)
    (hflow : flow.child? "Solid" = none)
    (hTw : p.Tw.length = n) (hdq : p.dq.length = n) (hpore : p.pore.length = n)
    (hdiam : p.diam.length = n) (hscond : p.scond.length = n) :
    ∃ r, restore q (p.save flow) = Except.ok r
      ∧ (r.pore1 = p.pore1 ∧ r.pore2 = p.pore2 ∧ r.diam1 = p.diam1 ∧ r.diam2 = p.diam2
        ∧ r.scond1 = p.scond1 ∧ r.scond2 = p.scond2 ∧ r.Omega1 = p.Omega1 ∧ r.Omega2 = p.Omega2
        ∧ r.srho = p.srho ∧ r.sCp = p.sCp ∧ r.m_zmid = p.m_zmid ∧ r.m_dzmid = p.m_dzmid)
      ∧ (r.Tw = p.Tw ∧ r.dq = p.dq ∧ r.pore = p.pore ∧ r.diam = p.diam ∧ r.scond = p.scond)
      ∧ r.hconv.length = n ∧ (∀ i, i + 1 < n → vget r.hconv i = vget p.hconv i)
      ∧ vget r.hconv (n - 1) = vget q.hconv (n - 1) := by
  obtain ⟨hc, s1, s2, s3, _⟩ := save_solid p flow n hp hn1 hn2 hflow hTw hdq hpore hdiam hscond
  obtain ⟨r, r1, r2, r3, r4, r5, r6, _⟩ := restore_of_reads q (p.save flow) _ n hq hn1 hn2
    p.Tw p.dq p.pore p.diam p.scond hc hTw hdq hpore hdiam hscond s2 s1 rfl rfl rfl rfl rfl rfl
  exact ⟨r, r1, r2, r3, r4, fun i hi => (r5 i hi).trans (s3 i hi), r6⟩

end PorousFlow

namespace PorousFlow

/-- C30, failing input: the porous domain with `hconv = [1, 2, 3, 5]` on the four-point grid is
saved and the file restored into a domain on the same grid whose `hconv` is zero. The restore
succeeds and reproduces the twelve scalars, `Tw`, `dq`, `pore`, `diam`, `scond` and the first three
entries of `hconv`, but the entry of the last grid point is 0, not the saved domain's 5; the array
`Hconv` of the file holds the last solid conductivity 1771/1000 in that place. -/
theorem save_restore_loses_last_hconv :
    demoPorous.toStFlow.m_z = demoPorousSaved.toStFlow.m_z
      ∧ demoPorousSaved.toStFlow.m_points = 4
      ∧ ((demoPorousSaved.save ⟨[]⟩).child? "Solid").bind (fun node => node.arrays.lookup "Hconv")
          = some [1, 2, 3, 1771 / 1000]
      ∧ ∃ r, restore demoPorous (demoPorousSaved.save ⟨[]⟩) = Except.ok r
          ∧ (r.Tw = demoPorousSaved.Tw ∧ r.dq = demoPorousSaved.dq ∧ r.pore = demoPorousSaved.pore
            ∧ r.diam = demoPorousSaved.diam ∧ r.scond = demoPorousSaved.scond)
          ∧ (∀ i, i < 3 → vget r.hconv i = vget demoPorousSaved.hconv i)
          ∧ vget r.hconv 3 = 0 ∧ vget demoPorousSaved.hconv 3 = 5
          ∧ vget r.hconv 3 ≠ vget demoPorousSaved.hconv 3 := by
  obtain ⟨r, r1, _, r3, _, r5, r6⟩ := save_restore_solid demoPorousSaved demoPorous ⟨[]⟩ 4 rfl rfl
    (by decide) (by norm_num) rfl rfl rfl rfl rfl rfl
  have e1 : vget demoPorous.hconv (4 - 1) = 0 := by decide!
  have e2 : vget demoPorousSaved.hconv 3 = 5 := by decide!
  refine ⟨rfl, rfl, by decide!, r, r1, r3, fun i hi => r5 i (by omega), r6.trans e1, e2, ?_⟩
  rw [show vget r.hconv 3 = 0 from r6.trans e1, e2]
  norm_num

end PorousFlow


/-! ## The solid sub-solve: termination, cap and stall -/

/-- A loop whose body counts its executions in `cnt` and clears its condition once the count
exceeds `K`: from a state with `cnt + n = K + 1` the body runs at most `n` times, `n` iterations
of fuel are enough, and the loop has then ended by its condition. -/
theorem whileLoop_capped {σ : Type} (cond : σ → Bool) (body : σ → σ) (cnt : σ → Int) (K : Int)
    (hinc : ∀ s, cnt (body s) = cnt s + 1)
    (hcap : ∀ s, cnt (body s) > K → cond (body s) = false) :
    ∀ (n : Nat) (s : σ), cnt s + n = K + 1 → (cnt s > K → cond s = false) →
      (∀ fuel, whileCount cond body fuel s ≤ n)
        ∧ (∀ fuel, n ≤ fuel → whileLoop cond body fuel s = whileLoop cond body n s)
        ∧ cond (whileLoop cond body n s) = false := by
  intro n
  induction n with
  | zero =>
    intro s hs hP
    have hc : cond s = false := hP (by omega)
    refine ⟨?_, ?_, ?_⟩
    · intro fuel
      cases fuel with
      | zero => exact Nat.le_refl _
      | succ f =>
        show (if cond s then whileCount cond body f (body s) + 1 else 0) ≤ 0
        rw [hc]
        exact Nat.le_refl _
    · intro fuel _
      cases fuel with
      | zero => rfl
      | succ f =>
        show (if cond s then whileLoop cond body f (body s) else s) = s
        rw [hc]
        rfl
    · exact hc
  | succ n ih =>
    intro s hs hP
    obtain ⟨i1, i2, i3⟩ := ih (body s) (by rw [hinc]; push_cast at hs ⊢; omega) (hcap s)
    refine ⟨?_, ?_, ?_⟩
    · intro fuel
      cases fuel with
      | zero => exact Nat.zero_le _
      | succ f =>
        show (if cond s then whileCount cond body f (body s) + 1 else 0) ≤ n + 1
        by_cases hc : cond s = true
        · rw [if_pos hc]
          exact Nat.succ_le_succ (i1 f)
        · rw [if_neg hc]
          exact Nat.zero_le _
    · intro fuel hf
      cases fuel with
      | zero => omega
      | succ f =>
        show (if cond s then whileLoop cond body f (body s) else s)
          = (if cond s then whileLoop cond body n (body s) else s)
        by_cases hc : cond s = true
        · rw [if_pos hc, if_pos hc]
          exact i2 f (by omega)
        · rw [if_neg hc, if_neg hc]
    · show cond (if cond s then whileLoop cond body n (body s) else s) = false
      by_cases hc : cond s = true
      · rw [if_pos hc]
        exact i3
      · rw [if_neg hc]
        simpa using hc

/-- A loop preserves what each execution of its body preserves. -/
theorem forRange_keeps {σ α : Type} (f : σ → α) (lo hi : Nat) (body : Nat → σ → σ) (s : σ)
    (h : ∀ j t, f (body j t) = f t) : f (forRange lo hi body s) = f s :=
  forRange_induction (fun t => f t = f s) lo hi body s rfl (fun j t _ _ ht => (h j t).trans ht)

theorem forDown_keeps {σ α : Type} (f : σ → α) (lo hi : Nat) (body : Nat → σ → σ) (s : σ)
    (h : ∀ j t, f (body j t) = f t) : f (forDown lo hi body s) = f s := by
  unfold forDown
  generalize List.range' lo (hi - lo) = l
  induction l with
  | nil => rfl
  | cons a t ih =>
    rw [List.foldr_cons, h, ih]


namespace PorousFlow

/-- The body of the two-flux loop by its stages. -/
theorem radStep_stages (c : Consts) (p : PorousFlow) (Tw RK Omega : List ℚ) (r : RadState) :
    radStep c p Tw RK Omega r = radClose c (radSweep p Tw RK Omega r) := rfl

/-- The body of the outer loop by its stages. -/
theorem solidStep_stages (c : Consts) (p : PorousFlow) (x : Nat → ℚ)
    (hconv scond RK Omega : List ℚ) (rdt : ℚ) (st : SolidState) :
    solidStep c p x hconv scond RK Omega rdt st
      = solidClose c (solidRelax p (solidEstimate p RK Omega
          (radLoop c p x
            (solidTridiag p (solidAssemble p x hconv scond rdt
              { st with count1 := st.count1 + 1 })).Tw RK Omega 101)
          (solidTridiag p (solidAssemble p x hconv scond rdt
            { st with count1 := st.count1 + 1 })))) := rfl

/-- The function `solid` by its stages. -/
theorem solid_stages (c : Consts) (p : PorousFlow) (x : Nat → ℚ) (RK Omega : List ℚ) (rdt : ℚ) :
    solid c p x RK Omega rdt
      = { { { { p with Twprev := p.Tw } with
          Tw := (solidFinish p (solidLoop c p x RK Omega rdt 401)).Tw } with
          dq := (solidFinish p (solidLoop c p x RK Omega rdt 401)).dq } with
          log := (solidFinish p (solidLoop c p x RK Omega rdt 401)).log } := rfl

theorem radSweep_count (p : PorousFlow) (Tw RK Omega : List ℚ) (r : RadState) :
    (radSweep p Tw RK Omega r).1.count = r.count + 1 := by
  unfold radSweep
  refine Eq.trans (forRange_keeps (fun q : RadState × ℚ × ℚ => q.1.count) _ _ _ _ ?_) ?_
  · intro _ _
    rfl
  refine Eq.trans (forDown_keeps (fun q : RadState => q.count) _ _ _ _ ?_) ?_
  · intro _ _
    rfl
  refine Eq.trans (forRange_keeps (fun q : RadState => q.count) _ _ _ _ ?_) ?_
  · intro _ _
    rfl
  rfl

theorem radStep_count (c : Consts) (p : PorousFlow) (Tw RK Omega : List ℚ) (r : RadState) :
    (radStep c p Tw RK Omega r).count = r.count + 1 := by
  rw [radStep_stages, ← radSweep_count p Tw RK Omega r]
  unfold radClose
  split_ifs <;> rfl

theorem radStep_cap (c : Consts) (p : PorousFlow) (Tw RK Omega : List ℚ) (r : RadState)
    (h : (radStep c p Tw RK Omega r).count > 100) :
    (radStep c p Tw RK Omega r).change2 = 0 ∧ (radStep c p Tw RK Omega r).fail = 1 := by
  rw [radStep_count] at h
  rw [radStep_stages]
  unfold radClose
  rw [if_pos (by rw [radSweep_count]; exact h)]
  exact ⟨rfl, rfl⟩


/-- The assembly writes the four vectors of the tridiagonal system only. -/
theorem solidAssemble_keeps {α : Type} (f : SolidState → α)
    (hf : ∀ (st : SolidState) (e fd g r : List ℚ),
      f ⟨st.Tw, st.dq, e, fd, g, r, st.dqnew, st.change1, st.T0, st.T1, st.count1, st.fail1,
        st.log⟩ = f st)
    (p : PorousFlow) (x : Nat → ℚ) (hconv scond : List ℚ) (rdt : ℚ) (st : SolidState) :
    f (solidAssemble p x hconv scond rdt st) = f st := by
  unfold solidAssemble
  refine forRange_keeps f _ _ _ _ ?_
  intro j t
  dsimp only
  split_ifs
  · exact hf t _ _ _ _
  · exact hf t _ _ _ _
  · exact hf t _ _ _ _

/-- The tridiagonal solve writes `edia`, `fdia`, `rhs`, `Tw`, `T0` and `T1` only. -/
theorem solidTridiag_keeps {α : Type} (f : SolidState → α)
    (hf : ∀ (st : SolidState) (e fd r tw : List ℚ) (t0 t1 : ℚ),
      f ⟨tw, st.dq, e, fd, st.gdia, r, st.dqnew, st.change1, t0, t1, st.count1, st.fail1,
        st.log⟩ = f st)
    (p : PorousFlow) (st : SolidState) : f (solidTridiag p st) = f st := by
  unfold solidTridiag
  lift_lets
  intro length st1 st2 st3 st4 st5
  have e1 : f st1 = f st := by
    refine forRange_keeps f _ _ _ _ ?_
    intro j t
    exact hf t _ _ t.rhs t.Tw t.T0 t.T1
  have e2 : f st2 = f st1 := by
    refine forRange_keeps f _ _ _ _ ?_
    intro j t
    exact hf t t.edia t.fdia _ t.Tw t.T0 t.T1
  have e3 : f st3 = f st2 := hf st2 st2.edia st2.fdia st2.rhs _ st2.T0 st2.T1
  have e4 : f st4 = f st3 := by
    refine forDown_keeps f _ _ _ _ ?_
    intro j t
    exact hf t t.edia t.fdia t.rhs _ t.T0 t.T1
  have e5 : f st5 = f st4 := hf st4 st4.edia st4.fdia st4.rhs st4.Tw _ st4.T1
  exact (hf st5 st5.edia st5.fdia st5.rhs st5.Tw st5.T0 _).trans
    (e5.trans (e4.trans (e3.trans (e2.trans e1))))

/-- The new estimate writes `dqnew` and the log only. -/
theorem solidEstimate_keeps {α : Type} (f : SolidState → α)
    (hf : ∀ (st : SolidState) (d : List ℚ) (l : List String),
      f ⟨st.Tw, st.dq, st.edia, st.fdia, st.gdia, st.rhs, d, st.change1, st.T0, st.T1, st.count1,
        st.fail1, l⟩ = f st)
    (p : PorousFlow) (RK Omega : List ℚ) (r : RadState) (st : SolidState) :
    f (solidEstimate p RK Omega r st) = f st := by
  unfold solidEstimate
  split_ifs
  · dsimp only
    refine Eq.trans (hf (forRange 0 p.m_points
      (fun i st => ({ st with dqnew := st.dqnew.set i (vget st.dq i) } : SolidState)) st) _ _) ?_
    refine forRange_keeps f _ _ _ _ ?_
    intro j t
    exact hf t _ t.log
  · refine forRange_keeps f _ _ _ _ ?_
    intro j t
    exact hf t _ t.log

/-- The relaxation loop writes `dq` only. -/
theorem solidRelax_keeps {α : Type} (f : SolidState → α)
    (hf : ∀ (st : SolidState) (d : List ℚ),
      f ⟨st.Tw, d, st.edia, st.fdia, st.gdia, st.rhs, st.dqnew, st.change1, st.T0, st.T1,
        st.count1, st.fail1, st.log⟩ = f st)
    (p : PorousFlow) (st : SolidState) : f (solidRelax p st).1 = f st := by
  unfold solidRelax
  refine forRange_keeps (fun q : SolidState × ℚ => f q.1) _ _ _ _ ?_
  intro j t
  exact hf t.1 _

/-- What the stages of an outer iteration before the test of the cap keep of the variables
`st` with which the iteration is entered. -/
theorem solidStep_keeps {α : Type} (f : SolidState → α)
    (h1 : ∀ (st : SolidState) (e fd g r tw d dn : List ℚ) (t0 t1 : ℚ) (l : List String),
      f ⟨tw, d, e, fd, g, r, dn, st.change1, t0, t1, st.count1, st.fail1, l⟩ = f st)
    (c : Consts) (p : PorousFlow) (x : Nat → ℚ) (hconv scond RK Omega : List ℚ) (rdt : ℚ)
    (st : SolidState) :
    f (solidRelax p (solidEstimate p RK Omega
          (radLoop c p x
            (solidTridiag p (solidAssemble p x hconv scond rdt
              { st with count1 := st.count1 + 1 })).Tw RK Omega 101)
          (solidTridiag p (solidAssemble p x hconv scond rdt
            { st with count1 := st.count1 + 1 })))).1
      = f { st with count1 := st.count1 + 1 } := by
  refine Eq.trans (solidRelax_keeps f ?_ _ _) ?_
  · intro t d
    exact h1 t t.edia t.fdia t.gdia t.rhs t.Tw d t.dqnew t.T0 t.T1 t.log
  refine Eq.trans (solidEstimate_keeps f ?_ _ _ _ _ _) ?_
  · intro t d l
    exact h1 t t.edia t.fdia t.gdia t.rhs t.Tw t.dq d t.T0 t.T1 l
  refine Eq.trans (solidTridiag_keeps f ?_ _ _) ?_
  · intro t e fd r tw t0 t1
    exact h1 t e fd t.gdia r tw t.dq t.dqnew t0 t1 t.log
  refine solidAssemble_keeps f ?_ _ _ _ _ _ _
  intro t e fd g r
  exact h1 t e fd g r t.Tw t.dq t.dqnew t.T0 t.T1 t.log

theorem solidStep_count (c : Consts) (p : PorousFlow) (x : Nat → ℚ)
    (hconv scond RK Omega : List ℚ) (rdt : ℚ) (st : SolidState) :
    (solidStep c p x hconv scond RK Omega rdt st).count1 = st.count1 + 1 := by
  have h := solidStep_keeps (fun t => t.count1) (fun _ _ _ _ _ _ _ _ _ _ _ => rfl)
    c p x hconv scond RK Omega rdt st
  rw [solidStep_stages]
  unfold solidClose
  split_ifs
  · exact h
  · exact h

/-- The failure flag after an outer iteration: set exactly when the count exceeds 400. -/
theorem solidStep_fail (c : Consts) (p : PorousFlow) (x : Nat → ℚ)
    (hconv scond RK Omega : List ℚ) (rdt : ℚ) (st : SolidState) :
    (st.count1 + 1 > 400 → (solidStep c p x hconv scond RK Omega rdt st).fail1 = 1
        ∧ (solidStep c p x hconv scond RK Omega rdt st).change1 = 0)
      ∧ (¬ st.count1 + 1 > 400 →
          (solidStep c p x hconv scond RK Omega rdt st).fail1 = st.fail1) := by
  have h := solidStep_keeps (fun t => t.count1) (fun _ _ _ _ _ _ _ _ _ _ _ => rfl)
    c p x hconv scond RK Omega rdt st
  have h2 := solidStep_keeps (fun t => t.fail1) (fun _ _ _ _ _ _ _ _ _ _ _ => rfl)
    c p x hconv scond RK Omega rdt st
  rw [solidStep_stages]
  unfold solidClose
  constructor
  · intro hc
    rw [if_pos (by rw [h]; exact hc)]
    exact ⟨rfl, rfl⟩
  · intro hc
    rw [if_neg (by rw [h]; exact hc)]
    exact h2


theorem radInit_count (p : PorousFlow) (x : Nat → ℚ) : (radInit p x).count = 0 := by
  unfold radInit
  dsimp only
  refine Eq.trans (forRange_keeps (fun r : RadState => r.count) _ _ _ _ ?_) rfl
  intro j t
  dsimp only
  split_ifs <;> rfl

/-- The two-flux loop ends within 101 executions of its body. -/
theorem radLoop_capped (c : Consts) (p : PorousFlow) (x : Nat → ℚ) (Tw RK Omega : List ℚ) :
    (∀ fuel, whileCount (fun r => decide (r.change2 > 1 / 1000000)) (radStep c p Tw RK Omega)
        fuel (radInit p x) ≤ 101)
      ∧ (∀ fuel, 101 ≤ fuel →
          radLoop c p x Tw RK Omega fuel = radLoop c p x Tw RK Omega 101)
      ∧ ¬ ((radLoop c p x Tw RK Omega 101).change2 > 1 / 1000000) := by
  obtain ⟨h1, h2, h3⟩ := whileLoop_capped (fun r : RadState => decide (r.change2 > 1 / 1000000))
    (radStep c p Tw RK Omega) (fun r => r.count) 100
    (fun r => radStep_count c p Tw RK Omega r)
    (fun r h => by
      have := (radStep_cap c p Tw RK Omega r h).1
      show decide ((radStep c p Tw RK Omega r).change2 > 1 / 1000000) = false
      rw [this]
      exact decide_eq_false (by norm_num))
    101 (radInit p x) (by show (radInit p x).count + _ = _; rw [radInit_count]; norm_num)
    (fun h => by
      have h2 : (radInit p x).count > 100 := h
      rw [radInit_count] at h2
      norm_num at h2)
  exact ⟨h1, h2, of_decide_eq_false h3⟩

/-- The outer loop ends within 401 executions of its body. -/
theorem solidLoop_capped (c : Consts) (p : PorousFlow) (x : Nat → ℚ) (RK Omega : List ℚ)
    (rdt : ℚ) :
    (∀ fuel, whileCount (fun st => decide (st.change1 > 1 / 1000000))
        (solidBody c p x RK Omega rdt) fuel (solidStart p) ≤ 401)
      ∧ (∀ fuel, 401 ≤ fuel →
          solidLoop c p x RK Omega rdt fuel = solidLoop c p x RK Omega rdt 401)
      ∧ ¬ ((solidLoop c p x RK Omega rdt 401).change1 > 1 / 1000000) := by
  obtain ⟨h1, h2, h3⟩ := whileLoop_capped
    (fun st : SolidState => decide (st.change1 > 1 / 1000000))
    (solidBody c p x RK Omega rdt) (fun st => st.count1) 400
    (fun st => solidStep_count c _ x _ _ RK Omega rdt st)
    (fun st h => by
      have hc : st.count1 + 1 > 400 := by
        have := solidStep_count c { p with Twprev := p.Tw } x p.hconv p.scond RK Omega rdt st
        have h2 : (solidStep c { p with Twprev := p.Tw } x p.hconv p.scond RK Omega rdt
          st).count1 > 400 := h
        rw [this] at h2
        exact h2
      have := ((solidStep_fail c { p with Twprev := p.Tw } x p.hconv p.scond RK Omega rdt st).1
        hc).2
      show decide ((solidStep c { p with Twprev := p.Tw } x p.hconv p.scond RK Omega rdt
        st).change1 > 1 / 1000000) = false
      rw [this]
      exact decide_eq_false (by norm_num))
    401 (solidStart p) (by show (0 : Int) + _ = _; norm_num)
    (fun h => by
      have h2 : (0 : Int) > 400 := h
      norm_num at h2)
  exact ⟨h1, h2, of_decide_eq_false h3⟩

/-- C32: `PorousFlow::solid` terminates for every input. Whatever the solid temperature, the
coefficients and the gas state are, the body of the two-flux loop is executed at most 101 times
in an outer iteration and the body of the outer loop at most 401 times; a loop cut after 101
(401) iterations has ended by its own condition, and more iterations change nothing. -/
theorem solid_terminates (c : Consts) (p : PorousFlow) (x : Nat → ℚ)
    (Tw RK Omega : List ℚ) (rdt : ℚ) :
    ((∀ fuel, whileCount (fun r => decide (r.change2 > 1 / 1000000)) (radStep c p Tw RK Omega)
        fuel (radInit p x) ≤ 101)
      ∧ (∀ fuel, 101 ≤ fuel →
          radLoop c p x Tw RK Omega fuel = radLoop c p x Tw RK Omega 101)
      ∧ ¬ ((radLoop c p x Tw RK Omega 101).change2 > 1 / 1000000))
    ∧ ((∀ fuel, whileCount (fun st => decide (st.change1 > 1 / 1000000))
        (solidBody c p x RK Omega rdt) fuel (solidStart p) ≤ 401)
      ∧ (∀ fuel, 401 ≤ fuel →
          solidLoop c p x RK Omega rdt fuel = solidLoop c p x RK Omega rdt 401)
      ∧ ¬ ((solidLoop c p x RK Omega rdt 401).change1 > 1 / 1000000)) :=
  ⟨radLoop_capped c p x Tw RK Omega, solidLoop_capped c p x RK Omega rdt⟩

end PorousFlow

/-- What every execution of its body keeps holds when a `while` loop ends. -/
theorem whileLoop_induction {σ : Type} (P : σ → Prop) (cond : σ → Bool) (body : σ → σ)
    (hstep : ∀ t, P t → P (body t)) : ∀ (fuel : Nat) (s : σ), P s → P (whileLoop cond body fuel s) := by
  intro fuel
  induction fuel with
  | zero => intro s h; exact h
  | succ f ih =>
    intro s h
    show P (if cond s then whileLoop cond body f (body s) else s)
    by_cases hc : cond s = true
    · rw [if_pos hc]
      exact ih _ (hstep s h)
    · rw [if_neg hc]
      exact h

namespace PorousFlow

/-- The tridiagonal solve keeps the size of `Tw`. -/
theorem solidTridiag_Tw_length (p : PorousFlow) (st : SolidState) :
    (solidTridiag p st).Tw.length = st.Tw.length := by
  unfold solidTridiag
  lift_lets
  intro length st1 st2 st3 st4 st5
  have e1 : st1.Tw = st.Tw := forRange_keeps (fun t : SolidState => t.Tw) _ _ _ _ (fun _ _ => rfl)
  have e2 : st2.Tw = st1.Tw := forRange_keeps (fun t : SolidState => t.Tw) _ _ _ _ (fun _ _ => rfl)
  have e3 : st3.Tw.length = st2.Tw.length := List.length_set _ _ _
  have e4 : st4.Tw.length = st3.Tw.length :=
    forDown_keeps (fun t : SolidState => t.Tw.length) _ _ _ _ (fun _ _ => List.length_set _ _ _)
  show st4.Tw.length = st.Tw.length
  rw [e4, e3, e2, e1]

/-- What the stages of an outer iteration after the tridiagonal solve keep. -/
theorem solidAfter_keeps {α : Type} (f : SolidState → α)
    (h1 : ∀ (st : SolidState) (d dn : List ℚ) (l : List String),
      f ⟨st.Tw, d, st.edia, st.fdia, st.gdia, st.rhs, dn, st.change1, st.T0, st.T1, st.count1,
        st.fail1, l⟩ = f st)
    (p : PorousFlow) (RK Omega : List ℚ) (r : RadState) (st : SolidState) :
    f (solidRelax p (solidEstimate p RK Omega r st)).1 = f st := by
  refine Eq.trans (solidRelax_keeps f ?_ _ _) ?_
  · intro t d
    exact h1 t d t.dqnew t.log
  refine solidEstimate_keeps f ?_ _ _ _ _ _
  intro t d l
  exact h1 t t.dq d l

/-- The solid temperature after an outer iteration is the one the tridiagonal solve left. -/
theorem solidStep_Tw (c : Consts) (p : PorousFlow) (x : Nat → ℚ)
    (hconv scond RK Omega : List ℚ) (rdt : ℚ) (st : SolidState) :
    (solidStep c p x hconv scond RK Omega rdt st).Tw
      = (solidTridiag p (solidAssemble p x hconv scond rdt
          { st with count1 := st.count1 + 1 })).Tw := by
  have h := solidAfter_keeps (fun t => t.Tw) (fun _ _ _ _ => rfl) p RK Omega
    (radLoop c p x (solidTridiag p (solidAssemble p x hconv scond rdt
      { st with count1 := st.count1 + 1 })).Tw RK Omega 101)
    (solidTridiag p (solidAssemble p x hconv scond rdt { st with count1 := st.count1 + 1 }))
  rw [solidStep_stages]
  unfold solidClose
  split_ifs
  · exact h
  · exact h

theorem solidStep_Tw_length (c : Consts) (p : PorousFlow) (x : Nat → ℚ)
    (hconv scond RK Omega : List ℚ) (rdt : ℚ) (st : SolidState) :
    (solidStep c p x hconv scond RK Omega rdt st).Tw.length = st.Tw.length := by
  rw [solidStep_Tw, solidTridiag_Tw_length]
  exact congrArg List.length
    (solidAssemble_keeps (fun t => t.Tw) (fun _ _ _ _ _ => rfl) p x hconv scond rdt _)

/-- Every state of the outer loop: the failure flag is set exactly when the count exceeds 400,
and `Tw` has the size it had on entry. -/
theorem solidLoop_inv (c : Consts) (p : PorousFlow) (x : Nat → ℚ) (RK Omega : List ℚ) (rdt : ℚ)
    (fuel : Nat) :
    ((solidLoop c p x RK Omega rdt fuel).fail1 = 1 ↔ (solidLoop c p x RK Omega rdt fuel).count1 > 400)
      ∧ (solidLoop c p x RK Omega rdt fuel).Tw.length = p.Tw.length := by
  unfold solidLoop
  refine whileLoop_induction
    (fun st : SolidState => (st.fail1 = 1 ↔ st.count1 > 400) ∧ st.Tw.length = p.Tw.length)
    _ _ ?_ fuel _ ⟨by show ((0 : Int) = 1 ↔ (0 : Int) > 400); norm_num, rfl⟩
  intro t ht
  obtain ⟨h1, h2⟩ := ht
  have hc := solidStep_count c { p with Twprev := p.Tw } x p.hconv p.scond RK Omega rdt t
  have hf := solidStep_fail c { p with Twprev := p.Tw } x p.hconv p.scond RK Omega rdt t
  have hl := solidStep_Tw_length c { p with Twprev := p.Tw } x p.hconv p.scond RK Omega rdt t
  refine ⟨?_, by unfold solidBody; rw [hl, h2]⟩
  unfold solidBody
  rw [hc]
  by_cases hcap : t.count1 + 1 > 400
  · exact ⟨fun _ => hcap, fun _ => (hf.1 hcap).1⟩
  · rw [hf.2 hcap]
    constructor
    · intro h
      have := h1.mp h
      omega
    · intro h
      exact absurd h hcap


/-- The loop that puts the solid temperature back, on the vector alone. -/
theorem revertLoop_Tw (src : List ℚ) (n : Nat) (st : SolidState) :
    (forRange 0 n (fun i st => ({ st with Tw := st.Tw.set i (vget src i) } : SolidState)) st).Tw
      = forRange 0 n (fun i d => d.set i (vget src i)) st.Tw := by
  induction n with
  | zero => rw [forRange_empty _ _ _ _ (Nat.le_refl _), forRange_empty _ _ _ _ (Nat.le_refl _)]
  | succ n ih =>
    rw [forRange_succ _ _ _ _ (Nat.zero_le _), forRange_succ _ _ _ _ (Nat.zero_le _), ← ih]

/-- The object that `solid` returns, in terms of the variables `L` the outer loop ends with
and the variables `F` after the closing test of the failure flag. -/
theorem solid_result (c : Consts) (p : PorousFlow) (x : Nat → ℚ) (RK Omega : List ℚ) (rdt : ℚ) :
    ∃ L F : SolidState, L = solidLoop c p x RK Omega rdt 401 ∧ F = solidFinish p L
      ∧ solid c p x RK Omega rdt
          = { { { { p with Twprev := p.Tw } with Tw := F.Tw } with dq := F.dq } with log := F.log } :=
  ⟨_, _, rfl, rfl, solid_stages c p x RK Omega rdt⟩

/-- The closing test of `solid` when the failure flag is set. -/
theorem solidFinish_failed (p : PorousFlow) (L : SolidState) (hf : L.fail1 = 1)
    (hlen : L.Tw.length = p.Tw.length) (hTw : p.m_points ≤ p.Tw.length) :
    (∀ i, i < p.m_points → vget (solidFinish p L).Tw i = vget p.Tw i)
      ∧ (solidFinish p L).Tw.length = p.Tw.length
      ∧ (solidFinish p L).log = L.log ++ ["Rad not Converged"]
      ∧ (solidFinish p L).dq = L.dq := by
  unfold solidFinish
  rw [if_pos hf]
  dsimp only
  have e1 := revertLoop_Tw p.Tw p.m_points L
  have e2 : (forRange 0 p.m_points
      (fun i st => ({ st with Tw := st.Tw.set i (vget p.Tw i) } : SolidState)) L).log = L.log :=
    forRange_keeps (fun t : SolidState => t.log) _ _ _ _ (fun _ _ => rfl)
  have e3 : (forRange 0 p.m_points
      (fun i st => ({ st with Tw := st.Tw.set i (vget p.Tw i) } : SolidState)) L).dq = L.dq :=
    forRange_keeps (fun t : SolidState => t.dq) _ _ _ _ (fun _ _ => rfl)
  obtain ⟨c1, c2⟩ := copyLoop_spec p.Tw p.m_points L.Tw (by rw [hlen]; exact hTw)
  refine ⟨?_, by rw [e1, c1, hlen], by rw [e2], e3⟩
  intro i hi
  rw [e1, c2 i, if_pos hi]

/-- The closing test of `solid` when the failure flag is not set. -/
theorem solidFinish_passed (p : PorousFlow) (L : SolidState) (hf : ¬ L.fail1 = 1) :
    solidFinish p L = L := by
  unfold solidFinish
  rw [if_neg hf]

/-- C33: if the outer loop of `PorousFlow::solid` ends with `count1 > 400` (the iteration cap),
then the failure flag is set, and `solid` returns with the solid temperature `Tw` equal, at every
grid point, to the value it had on entry, with the size it had, and with the message
"Rad not Converged" appended to the log; `solid` has no error to return. -/
theorem solid_cap_reverts (c : Consts) (p : PorousFlow) (x : Nat → ℚ) (RK Omega : List ℚ)
    (rdt : ℚ) (hTw : p.m_points ≤ p.Tw.length)
    (hcap : (solidLoop c p x RK Omega rdt 401).count1 > 400) :
    (solidLoop c p x RK Omega rdt 401).fail1 = 1
      ∧ (∀ i, i < p.m_points → vget (solid c p x RK Omega rdt).Tw i = vget p.Tw i)
      ∧ (solid c p x RK Omega rdt).Tw.length = p.Tw.length
      ∧ (solid c p x RK Omega rdt).log
          = (solidLoop c p x RK Omega rdt 401).log ++ ["Rad not Converged"] := by
  obtain ⟨h1, h2⟩ := solidLoop_inv c p x RK Omega rdt 401
  have hf := h1.mpr hcap
  obtain ⟨L, F, hL, hF, hs⟩ := solid_result c p x RK Omega rdt
  rw [← hL] at hf h2 ⊢
  obtain ⟨f1, f2, f3, _⟩ := solidFinish_failed p L hf h2 hTw
  rw [← hF] at f1 f2 f3
  rw [hs]
  exact ⟨hf, f1, f2, f3⟩


/-- On the one-point domain with an absorption coefficient of `10^16` the outer loop runs into
its cap. -/
theorem demoPoint_cap :
    (solidLoop demoConsts demoPorousPoint demoX [10000000000000000] [0] 0 401).count1 > 400 := by
  decide!

theorem solid_cap_reverts_witness :
    (solidLoop demoConsts demoPorousPoint demoX [10000000000000000] [0] 0 401).count1 > 400
      ∧ (solidLoop demoConsts demoPorousPoint demoX [10000000000000000] [0] 0 401).fail1 = 1
      ∧ (∀ i, i < demoPorousPoint.m_points →
          vget (solid demoConsts demoPorousPoint demoX [10000000000000000] [0] 0).Tw i
            = vget demoPorousPoint.Tw i)
      ∧ (solid demoConsts demoPorousPoint demoX [10000000000000000] [0] 0).Tw.length
          = demoPorousPoint.Tw.length
      ∧ (solid demoConsts demoPorousPoint demoX [10000000000000000] [0] 0).log
          = (solidLoop demoConsts demoPorousPoint demoX [10000000000000000] [0] 0 401).log
              ++ ["Rad not Converged"] :=
  ⟨demoPoint_cap,
    solid_cap_reverts demoConsts demoPorousPoint demoX [10000000000000000] [0] 0 (by decide)
      demoPoint_cap⟩

end PorousFlow

/-- Storing the value an entry already has changes nothing. -/
theorem vset_self (l : List ℚ) (i : Nat) : l.set i (vget l i) = l := by
  apply List.ext_getElem?
  intro k
  rw [List.getElem?_set]
  by_cases h : i = k
  · subst h
    by_cases h2 : i < l.length
    · rw [if_pos rfl, if_pos h2]
      simp [vget, List.getD_eq_getElem?_getD, List.getElem?_eq_getElem h2]
    · rw [if_pos rfl, if_neg h2, List.getElem?_eq_none (by omega)]
  · rw [if_neg h]

namespace PorousFlow

/-- The loop of the stall branch, on the vectors: `dq` is kept and `dqnew` receives a copy. -/
theorem stallLoop_spec (n : Nat) (st : SolidState) :
    (forRange 0 n (fun i st => ({ st with dqnew := st.dqnew.set i (vget st.dq i) } : SolidState))
        st).dq = st.dq
      ∧ (forRange 0 n (fun i st => ({ st with dqnew := st.dqnew.set i (vget st.dq i) } : SolidState))
        st).dqnew = forRange 0 n (fun i d => d.set i (vget st.dq i)) st.dqnew := by
  induction n with
  | zero =>
    rw [forRange_empty _ _ _ _ (Nat.le_refl _), forRange_empty _ _ _ _ (Nat.le_refl _)]
    exact ⟨rfl, rfl⟩
  | succ n ih =>
    rw [forRange_succ _ _ _ _ (Nat.zero_le _), forRange_succ _ _ _ _ (Nat.zero_le _)]
    obtain ⟨i1, i2⟩ := ih
    refine ⟨i1, ?_⟩
    show List.set _ n (vget _ n) = _
    rw [i1, i2]

/-- The new estimate after a stall of the two-flux loop: a copy of `dq` at every point. -/
theorem solidEstimate_stall (p : PorousFlow) (RK Omega : List ℚ) (r : RadState)
    (st : SolidState) (hr : r.fail = 1) (hdn : p.m_points ≤ st.dqnew.length) :
    (solidEstimate p RK Omega r st).dq = st.dq
      ∧ (solidEstimate p RK Omega r st).dqnew.length = st.dqnew.length
      ∧ (∀ i, i < p.m_points → vget (solidEstimate p RK Omega r st).dqnew i = vget st.dq i)
      ∧ (solidEstimate p RK Omega r st).log = st.log ++ ["Rad Stall"] := by
  unfold solidEstimate
  rw [if_pos hr]
  dsimp only
  obtain ⟨e1, e2⟩ := stallLoop_spec p.m_points st
  obtain ⟨c1, c2⟩ := copyLoop_spec st.dq p.m_points st.dqnew hdn
  have e3 : (forRange 0 p.m_points
      (fun i st => ({ st with dqnew := st.dqnew.set i (vget st.dq i) } : SolidState)) st).log
        = st.log := forRange_keeps (fun t : SolidState => t.log) _ _ _ _ (fun _ _ => rfl)
  refine ⟨e1, by rw [e2, c1], ?_, by rw [e3]⟩
  intro i hi
  rw [e2, c2 i, if_pos hi]

/-- The relaxation loop when the new estimate equals `dq` at every point: `dq` is kept and the
sum of squares is zero. -/
theorem solidRelax_fixed (p : PorousFlow) (st : SolidState)
    (h : ∀ i, i < p.m_points → vget st.dqnew i = vget st.dq i) :
    (solidRelax p st).1.dq = st.dq ∧ (solidRelax p st).2 = 0 := by
  unfold solidRelax
  have key := forRange_induction_idx
    (fun (_ : Nat) (q : SolidState × ℚ) => q.1.dq = st.dq ∧ q.1.dqnew = st.dqnew ∧ q.2 = 0)
    0 p.m_points
    (fun i (q : SolidState × ℚ) =>
      (({ q.1 with dq := q.1.dq.set i (1 / 10 * vget q.1.dqnew i + (1 - 1 / 10) * vget q.1.dq i) }
        : SolidState),
        q.2 + (vget q.1.dqnew i - vget q.1.dq i) * (vget q.1.dqnew i - vget q.1.dq i)))
    (st, 0) (Nat.zero_le _) ⟨rfl, rfl, rfl⟩
    (by
      intro j t _ hj ht
      obtain ⟨t1, t2, t3⟩ := ht
      have hv : vget t.1.dqnew j = vget t.1.dq j := by rw [t1, t2]; exact h j hj
      refine ⟨?_, t2, ?_⟩
      · show List.set t.1.dq j _ = st.dq
        rw [hv]
        have : (1 / 10 : ℚ) * vget t.1.dq j + (1 - 1 / 10) * vget t.1.dq j = vget t.1.dq j := by
          ring
        rw [this, vset_self, t1]
      · show t.2 + _ = 0
        rw [hv, t3]
        ring)
  exact ⟨key.1, key.2.2⟩


/-- The size of `dqnew` is kept by an outer iteration. -/
theorem solidStep_dqnew_length (c : Consts) (p : PorousFlow) (x : Nat → ℚ)
    (hconv scond RK Omega : List ℚ) (rdt : ℚ) (st : SolidState) :
    (solidStep c p x hconv scond RK Omega rdt st).dqnew.length = st.dqnew.length := by
  rw [solidStep_stages]
  generalize hA : solidTridiag p (solidAssemble p x hconv scond rdt
    { st with count1 := st.count1 + 1 }) = A
  have a1 : A.dqnew = st.dqnew := by
    rw [← hA]
    exact (solidTridiag_keeps (fun t => t.dqnew) (fun _ _ _ _ _ _ _ => rfl) p _).trans
      (solidAssemble_keeps (fun t => t.dqnew) (fun _ _ _ _ _ => rfl) p x hconv scond rdt _)
  generalize radLoop c p x A.Tw RK Omega 101 = r
  have e1 : (solidEstimate p RK Omega r A).dqnew.length = A.dqnew.length := by
    unfold solidEstimate
    split_ifs
    · exact forRange_keeps (fun t : SolidState => t.dqnew.length) _ _ _ _
        (fun _ _ => List.length_set _ _ _)
    · exact forRange_keeps (fun t : SolidState => t.dqnew.length) _ _ _ _
        (fun _ _ => List.length_set _ _ _)
  have e2 := solidRelax_keeps (fun t => t.dqnew) (fun _ _ => rfl) p (solidEstimate p RK Omega r A)
  unfold solidClose
  split_ifs
  · show (solidRelax p (solidEstimate p RK Omega r A)).1.dqnew.length = _
    rw [e2, e1, a1]
  · show (solidRelax p (solidEstimate p RK Omega r A)).1.dqnew.length = _
    rw [e2, e1, a1]

/-- An outer iteration in which the two-flux loop stalls. -/
theorem solidStep_stall (c : Consts) (p : PorousFlow) (x : Nat → ℚ)
    (hconv scond RK Omega : List ℚ) (rdt : ℚ) (st : SolidState)
    (hdn : p.m_points ≤ st.dqnew.length)
    (hr : (radLoop c p x (solidTridiag p (solidAssemble p x hconv scond rdt
      { st with count1 := st.count1 + 1 })).Tw RK Omega 101).fail = 1) :
    (solidStep c p x hconv scond RK Omega rdt st).dq = st.dq
      ∧ (∀ i, i < p.m_points →
          vget (solidStep c p x hconv scond RK Omega rdt st).dqnew i = vget st.dq i)
      ∧ (solidStep c p x hconv scond RK Omega rdt st).log = st.log ++ ["Rad Stall"]
      ∧ (solidStep c p x hconv scond RK Omega rdt st).change1
          = if st.count1 + 1 > 400 then 0 else c.sqrt 0 := by
  have hcount := solidStep_keeps (fun t => t.count1) (fun _ _ _ _ _ _ _ _ _ _ _ => rfl)
    c p x hconv scond RK Omega rdt st
  rw [solidStep_stages]
  generalize hA : solidTridiag p (solidAssemble p x hconv scond rdt
    { st with count1 := st.count1 + 1 }) = A at hr hcount
  have a1 : A.dqnew = st.dqnew := by
    rw [← hA]
    exact (solidTridiag_keeps (fun t => t.dqnew) (fun _ _ _ _ _ _ _ => rfl) p _).trans
      (solidAssemble_keeps (fun t => t.dqnew) (fun _ _ _ _ _ => rfl) p x hconv scond rdt _)
  have a2 : A.dq = st.dq := by
    rw [← hA]
    exact (solidTridiag_keeps (fun t => t.dq) (fun _ _ _ _ _ _ _ => rfl) p _).trans
      (solidAssemble_keeps (fun t => t.dq) (fun _ _ _ _ _ => rfl) p x hconv scond rdt _)
  have a3 : A.log = st.log := by
    rw [← hA]
    exact (solidTridiag_keeps (fun t => t.log) (fun _ _ _ _ _ _ _ => rfl) p _).trans
      (solidAssemble_keeps (fun t => t.log) (fun _ _ _ _ _ => rfl) p x hconv scond rdt _)
  generalize radLoop c p x A.Tw RK Omega 101 = r at hr hcount
  obtain ⟨e1, _, e3, e4⟩ := solidEstimate_stall p RK Omega r A hr (by rw [a1]; exact hdn)
  obtain ⟨r1, r2⟩ := solidRelax_fixed p (solidEstimate p RK Omega r A)
    (fun i hi => by rw [e3 i hi, e1])
  have r3 := solidRelax_keeps (fun t => t.dqnew) (fun _ _ => rfl) p (solidEstimate p RK Omega r A)
  have r4 := solidRelax_keeps (fun t => t.log) (fun _ _ => rfl) p (solidEstimate p RK Omega r A)
  generalize solidRelax p (solidEstimate p RK Omega r A) = R at r1 r2 r3 r4 hcount
  have hc1 : R.1.count1 = st.count1 + 1 := hcount
  unfold solidClose
  rw [hc1]
  by_cases hcap : st.count1 + 1 > 400
  · rw [if_pos hcap, if_pos hcap]
    refine ⟨?_, ?_, ?_, rfl⟩
    · show R.1.dq = _
      rw [r1, e1, a2]
    · intro i hi
      show vget R.1.dqnew i = _
      rw [r3, e3 i hi, a2]
    · show R.1.log = _
      rw [r4, e4, a3]
  · rw [if_neg hcap, if_neg hcap]
    refine ⟨?_, ?_, ?_, ?_⟩
    · show R.1.dq = _
      rw [r1, e1, a2]
    · intro i hi
      show vget R.1.dqnew i = _
      rw [r3, e3 i hi, a2]
    · show R.1.log = _
      rw [r4, e4, a3]
    · show c.sqrt R.2 = _
      rw [r2]

/-- The vector `dqnew` has `m_points` entries in every state of the outer loop. -/
theorem solidIter_dqnew_length (c : Consts) (p : PorousFlow) (x : Nat → ℚ) (RK Omega : List ℚ)
    (rdt : ℚ) (n : Nat) : (solidIter c p x RK Omega rdt n).dqnew.length = p.m_points := by
  unfold solidIter
  induction n with
  | zero => exact List.length_replicate _ _
  | succ n ih =>
    rw [Function.iterate_succ_apply']
    exact (solidStep_dqnew_length c _ x _ _ RK Omega rdt _).trans ih

/-- C34: if in an outer iteration of `PorousFlow::solid` the two-flux loop reaches its cap
(`fail = 1`, that is `count > 100`), the previous estimate of the radiative divergence is kept:
`dqnew` is set to the running `dq` at every grid point, the relaxation step leaves `dq` as it
was before the iteration, and the stall is only logged ("Rad Stall"), not raised as an error. -/
theorem solid_stall_keeps_dq (c : Consts) (p : PorousFlow) (x : Nat → ℚ) (RK Omega : List ℚ)
    (rdt : ℚ) (n : Nat)
    (hstall : (solidRad c p x RK Omega rdt (solidIter c p x RK Omega rdt n)).fail = 1) :
    (∀ i, i < p.m_points →
        vget (solidIter c p x RK Omega rdt (n + 1)).dqnew i
          = vget (solidIter c p x RK Omega rdt n).dq i)
      ∧ (solidIter c p x RK Omega rdt (n + 1)).dq = (solidIter c p x RK Omega rdt n).dq
      ∧ (solidIter c p x RK Omega rdt (n + 1)).log
          = (solidIter c p x RK Omega rdt n).log ++ ["Rad Stall"] := by
  have hlen := solidIter_dqnew_length c p x RK Omega rdt n
  have hstep : solidIter c p x RK Omega rdt (n + 1)
      = solidStep c { p with Twprev := p.Tw } x p.hconv p.scond RK Omega rdt
          (solidIter c p x RK Omega rdt n) := by
    unfold solidIter
    rw [Function.iterate_succ_apply']
    rfl
  obtain ⟨s1, s2, s3, _⟩ := solidStep_stall c { p with Twprev := p.Tw } x p.hconv p.scond RK Omega
    rdt (solidIter c p x RK Omega rdt n) (le_of_eq hlen.symm) hstall
  rw [hstep]
  exact ⟨s2, s1, s3⟩


/-- On the four-point domain with absorption coefficient 10 and albedo 1 (optically thick, purely
scattering) the two-flux loop of the first outer iteration stalls. -/
theorem demoStall :
    (solidRad demoConsts demoPorousSaved demoX [10, 10, 10, 10] [1, 1, 1, 1] 0
      (solidIter demoConsts demoPorousSaved demoX [10, 10, 10, 10] [1, 1, 1, 1] 0 0)).fail
        = 1 := by
  decide!

theorem solid_stall_keeps_dq_witness :
    (solidRad demoConsts demoPorousSaved demoX [10, 10, 10, 10] [1, 1, 1, 1] 0
        (solidIter demoConsts demoPorousSaved demoX [10, 10, 10, 10] [1, 1, 1, 1] 0 0)).fail = 1
      ∧ (∀ i, i < demoPorousSaved.m_points →
          vget (solidIter demoConsts demoPorousSaved demoX [10, 10, 10, 10] [1, 1, 1, 1] 0
              (0 + 1)).dqnew i
            = vget (solidIter demoConsts demoPorousSaved demoX [10, 10, 10, 10] [1, 1, 1, 1] 0
              0).dq i)
      ∧ (solidIter demoConsts demoPorousSaved demoX [10, 10, 10, 10] [1, 1, 1, 1] 0 (0 + 1)).dq
          = (solidIter demoConsts demoPorousSaved demoX [10, 10, 10, 10] [1, 1, 1, 1] 0 0).dq
      ∧ (solidIter demoConsts demoPorousSaved demoX [10, 10, 10, 10] [1, 1, 1, 1] 0 (0 + 1)).log
          = (solidIter demoConsts demoPorousSaved demoX [10, 10, 10, 10] [1, 1, 1, 1] 0 0).log
            ++ ["Rad Stall"] :=
  ⟨demoStall,
    solid_stall_keeps_dq demoConsts demoPorousSaved demoX [10, 10, 10, 10] [1, 1, 1, 1] 0 0
      demoStall⟩

end PorousFlow

/-- A `while` loop whose condition holds for its first `k` states runs its body `k` times. -/
theorem whileLoop_reach {σ : Type} (cond : σ → Bool) (body : σ → σ) :
    ∀ (k fuel : Nat) (s : σ), (∀ m, m < k → cond (body^[m] s) = true) →
      whileLoop cond body (k + fuel) s = whileLoop cond body fuel (body^[k] s) := by
  intro k
  induction k with
  | zero =>
    intro fuel s _
    rw [Nat.zero_add]
    rfl
  | succ k ih =>
    intro fuel s h
    have e : k + 1 + fuel = (k + fuel) + 1 := by omega
    rw [e]
    show (if cond s then whileLoop cond body (k + fuel) (body s) else s) = _
    have h0 : cond s = true := h 0 (Nat.succ_pos k)
    rw [if_pos h0, ih fuel (body s) (fun m hm => by
      rw [← Function.iterate_succ_apply]
      exact h (m + 1) (by omega)), ← Function.iterate_succ_apply]

/-- A `while` loop whose condition fails does nothing. -/
theorem whileLoop_done {σ : Type} (cond : σ → Bool) (body : σ → σ) (fuel : Nat) (s : σ)
    (h : cond s = false) : whileLoop cond body fuel s = s := by
  cases fuel with
  | zero => rfl
  | succ f =>
    show (if cond s then whileLoop cond body f (body s) else s) = s
    rw [h]
    rfl

namespace PorousFlow

theorem solidIter_succ (c : Consts) (p : PorousFlow) (x : Nat → ℚ) (RK Omega : List ℚ)
    (rdt : ℚ) (n : Nat) :
    solidIter c p x RK Omega rdt (n + 1)
      = solidStep c { p with Twprev := p.Tw } x p.hconv p.scond RK Omega rdt
          (solidIter c p x RK Omega rdt n) := by
  unfold solidIter
  rw [Function.iterate_succ_apply']
  rfl

/-- The count and the failure flag in the states of the outer loop. -/
theorem solidIter_count (c : Consts) (p : PorousFlow) (x : Nat → ℚ) (RK Omega : List ℚ)
    (rdt : ℚ) (n : Nat) :
    (solidIter c p x RK Omega rdt n).count1 = n
      ∧ (n ≤ 400 → (solidIter c p x RK Omega rdt n).fail1 = 0) := by
  induction n with
  | zero => exact ⟨rfl, fun _ => rfl⟩
  | succ n ih =>
    rw [solidIter_succ]
    obtain ⟨i1, i2⟩ := ih
    refine ⟨by rw [solidStep_count, i1]; push_cast; rfl, ?_⟩
    intro hn
    rw [(solidStep_fail c _ x _ _ RK Omega rdt _).2 (by rw [i1]; omega)]
    exact i2 (by omega)


/-- C36: if the two-flux loop stalls in the outer iteration number `n + 1 ≤ 400` of
`PorousFlow::solid` (an iteration that the outer loop reaches), the sum of squares of that
iteration is exactly 0, so that (with `sqrt(0) = 0`) `change1 = 0` and the outer loop ends with
that iteration, the failure flag still 0; `solid` then returns the solid temperature that this
iteration solved for, not the one on entry, and the radiative divergence the iteration began
with. -/
theorem solid_stall_exits (c : Consts) (p : PorousFlow) (x : Nat → ℚ) (RK Omega : List ℚ)
    (rdt : ℚ) (n : Nat) (hsqrt : c.sqrt 0 = 0) (hn : n + 1 ≤ 400)
    (hreach : ∀ m, m ≤ n → (solidIter c p x RK Omega rdt m).change1 > 1 / 1000000)
    (hstall : (solidRad c p x RK Omega rdt (solidIter c p x RK Omega rdt n)).fail = 1) :
    (solidIter c p x RK Omega rdt (n + 1)).change1 = 0
      ∧ solidLoop c p x RK Omega rdt 401 = solidIter c p x RK Omega rdt (n + 1)
      ∧ (solidLoop c p x RK Omega rdt 401).fail1 = 0
      ∧ (solid c p x RK Omega rdt).Tw
          = (solidSolved p x rdt (solidIter c p x RK Omega rdt n)).Tw
      ∧ (solid c p x RK Omega rdt).dq = (solidIter c p x RK Omega rdt n).dq := by
  obtain ⟨k1, _⟩ := solidIter_count c p x RK Omega rdt n
  obtain ⟨_, k4⟩ := solidIter_count c p x RK Omega rdt (n + 1)
  have hlen := solidIter_dqnew_length c p x RK Omega rdt n
  obtain ⟨s1, _, _, s4⟩ := solidStep_stall c { p with Twprev := p.Tw } x p.hconv p.scond RK Omega
    rdt (solidIter c p x RK Omega rdt n) (le_of_eq hlen.symm) hstall
  have hTw := solidStep_Tw c { p with Twprev := p.Tw } x p.hconv p.scond RK Omega rdt
    (solidIter c p x RK Omega rdt n)
  rw [← solidIter_succ] at s1 s4 hTw
  rw [k1, if_neg (by omega), hsqrt] at s4
  have hloop : solidLoop c p x RK Omega rdt 401 = solidIter c p x RK Omega rdt (n + 1) := by
    unfold solidLoop
    have e : 401 = (n + 1) + (400 - n) := by omega
    rw [e, whileLoop_reach (fun st : SolidState => decide (st.change1 > 1 / 1000000))
      (solidBody c p x RK Omega rdt) (n + 1) (400 - n) (solidStart p) (fun m hm =>
      decide_eq_true (hreach m (by omega)))]
    refine whileLoop_done _ _ _ _ ?_
    show decide ((solidIter c p x RK Omega rdt (n + 1)).change1 > 1 / 1000000) = false
    rw [s4]
    exact decide_eq_false (by norm_num)
  have hf : (solidIter c p x RK Omega rdt (n + 1)).fail1 = 0 := k4 (by omega)
  obtain ⟨L, F, hL, hF, hs⟩ := solid_result c p x RK Omega rdt
  rw [hloop] at hL ⊢
  have hFL : F = L := by
    rw [hF]
    exact solidFinish_passed p L (by rw [hL, hf]; decide)
  rw [hs, hFL, hL]
  exact ⟨s4, rfl, hf, hTw, s1⟩

theorem solid_stall_exits_witness :
    (solidIter demoConsts demoPorousSaved demoX [10, 10, 10, 10] [1, 1, 1, 1] 0 (0 + 1)).change1
        = 0
      ∧ solidLoop demoConsts demoPorousSaved demoX [10, 10, 10, 10] [1, 1, 1, 1] 0 401
          = solidIter demoConsts demoPorousSaved demoX [10, 10, 10, 10] [1, 1, 1, 1] 0 (0 + 1)
      ∧ (solidLoop demoConsts demoPorousSaved demoX [10, 10, 10, 10] [1, 1, 1, 1] 0 401).fail1 = 0
      ∧ (solid demoConsts demoPorousSaved demoX [10, 10, 10, 10] [1, 1, 1, 1] 0).Tw
          = (solidSolved demoPorousSaved demoX 0
              (solidIter demoConsts demoPorousSaved demoX [10, 10, 10, 10] [1, 1, 1, 1] 0 0)).Tw
      ∧ (solid demoConsts demoPorousSaved demoX [10, 10, 10, 10] [1, 1, 1, 1] 0).dq
          = (solidIter demoConsts demoPorousSaved demoX [10, 10, 10, 10] [1, 1, 1, 1] 0 0).dq :=
  solid_stall_exits demoConsts demoPorousSaved demoX [10, 10, 10, 10] [1, 1, 1, 1] 0 0 rfl
    (by decide)
    (fun m hm => by
      have e : m = 0 := Nat.le_zero.mp hm
      rw [e]
      show (1 : ℚ) > 1 / 1000000
      norm_num)
    demoStall

end PorousFlow


/-! ## The tridiagonal solve of the solid energy equation -/

/-- Loop invariant rule for a descending loop, with the invariant indexed by the bound. -/
theorem forDown_induction_idx {σ : Type} (P : Nat → σ → Prop) (lo : Nat) (body : Nat → σ → σ) :
    ∀ (hi : Nat) (s : σ), lo ≤ hi → P hi s →
      (∀ j t, lo ≤ j → j < hi → P (j + 1) t → P j (body j t)) →
      P lo (forDown lo hi body s) := by
  intro hi
  induction hi with
  | zero =>
    intro s hle h0 _
    have : lo = 0 := by omega
    subst this
    exact h0
  | succ hi ih =>
    intro s hle h0 hstep
    by_cases h : lo ≤ hi
    · have e : forDown lo (hi + 1) body s = forDown lo hi body (body hi s) := by
        unfold forDown
        have h1 : hi + 1 - lo = (hi - lo) + 1 := by omega
        have h2 : lo + (hi - lo) = hi := by omega
        rw [h1, List.range'_concat, List.foldr_append]
        simp only [List.foldr_cons, List.foldr_nil, Nat.one_mul, h2]
      rw [e]
      exact ih (body hi s) h (hstep hi s h (Nat.lt_succ_self hi) h0)
        (fun j t h1 h2 h3 => hstep j t h1 (by omega) h3)
    · have e : lo = hi + 1 := by omega
      subst e
      have : forDown (hi + 1) (hi + 1) body s = s := by
        unfold forDown
        simp
      rw [this]
      exact h0


namespace PorousFlow

/-- The decomposition loop of the tridiagonal solve. -/
theorem decompLoop_spec (N : Nat) (st : SolidState) (he : N ≤ st.edia.length)
    (hf : N ≤ st.fdia.length) (t : SolidState)
    (ht : t = forRange 1 N (fun i st =>
      let st := { st with edia := st.edia.set i (vget st.edia i / vget st.fdia (i - 1)) }
      ({ st with fdia := st.fdia.set i (vget st.fdia i - vget st.edia i * vget st.gdia (i - 1)) }
        : SolidState)) st) :
    t.gdia = st.gdia ∧ t.rhs = st.rhs ∧ t.Tw = st.Tw
      ∧ t.edia.length = st.edia.length ∧ t.fdia.length = st.fdia.length
      ∧ vget t.fdia 0 = vget st.fdia 0
      ∧ ∀ i, 1 ≤ i → i < N →
          vget t.edia i = vget st.edia i / vget t.fdia (i - 1)
            ∧ vget t.fdia i = vget st.fdia i - vget t.edia i * vget st.gdia (i - 1) := by
  by_cases hN : 1 ≤ N
  · have key := forRange_induction_idx
      (fun m (u : SolidState) => u.gdia = st.gdia ∧ u.rhs = st.rhs ∧ u.Tw = st.Tw
        ∧ u.edia.length = st.edia.length ∧ u.fdia.length = st.fdia.length
        ∧ (∀ i, m ≤ i → vget u.edia i = vget st.edia i ∧ vget u.fdia i = vget st.fdia i)
        ∧ vget u.fdia 0 = vget st.fdia 0
        ∧ ∀ i, 1 ≤ i → i < m →
            vget u.edia i = vget st.edia i / vget u.fdia (i - 1)
              ∧ vget u.fdia i = vget st.fdia i - vget u.edia i * vget st.gdia (i - 1))
      1 N (fun i st =>
        let st := { st with edia := st.edia.set i (vget st.edia i / vget st.fdia (i - 1)) }
        ({ st with fdia := st.fdia.set i (vget st.fdia i - vget st.edia i * vget st.gdia (i - 1)) }
          : SolidState)) st hN
      ⟨rfl, rfl, rfl, rfl, rfl, fun _ _ => ⟨rfl, rfl⟩, rfl, fun i h1 h2 => by omega⟩
      (by
        intro j u hj1 hj2 hu
        obtain ⟨u1, u2, u3, u4, u5, u6, u7, u8⟩ := hu
        have hje : j < u.edia.length := by omega
        have hjf : j < u.fdia.length := by omega
        have ee : ∀ i, i ≠ j → vget (u.edia.set j (vget u.edia j / vget u.fdia (j - 1))) i
            = vget u.edia i := fun i hi => vget_set_ne _ _ _ _ (fun e => hi e.symm)
        have ef : ∀ (v : ℚ) i, i ≠ j → vget (u.fdia.set j v) i = vget u.fdia i :=
          fun v i hi => vget_set_ne _ _ _ _ (fun e => hi e.symm)
        refine ⟨u1, u2, u3, by simp [u4], by simp [u5], ?_, ?_, ?_⟩
        · intro i hi
          show vget (List.set _ _ _) i = _ ∧ vget (List.set _ _ _) i = _
          rw [ee i (by omega), ef _ i (by omega)]
          exact u6 i (by omega)
        · show vget (List.set _ _ _) 0 = _
          rw [ef _ 0 (by omega)]
          exact u7
        · intro i hi1 hi2
          show vget (List.set u.edia j _) i = _ / vget (List.set u.fdia j _) (i - 1)
            ∧ vget (List.set u.fdia j _) i = _ - vget (List.set u.edia j _) i * _
          by_cases hij : i = j
          · subst hij
            rw [vget_set_eq _ _ _ hje, vget_set_eq _ _ _ hjf, ef _ (i - 1) (by omega),
              (u6 i (Nat.le_refl i)).1, (u6 i (Nat.le_refl i)).2, u1]
            exact ⟨rfl, rfl⟩
          · rw [ee i hij, ef _ i hij, ef _ (i - 1) (by omega)]
            exact u8 i hi1 (by omega))
    rw [← ht] at key
    obtain ⟨k1, k2, k3, k4, k5, _, k7, k8⟩ := key
    exact ⟨k1, k2, k3, k4, k5, k7, k8⟩
  · rw [forRange_empty _ _ _ _ (by omega)] at ht
    subst ht
    exact ⟨rfl, rfl, rfl, rfl, rfl, rfl, fun i h1 h2 => by omega⟩


/-- The forward substitution loop of the tridiagonal solve. -/
theorem forwardLoop_spec (N : Nat) (st : SolidState) (hr : N ≤ st.rhs.length) (t : SolidState)
    (ht : t = forRange 1 N (fun i st =>
      ({ st with rhs := st.rhs.set i (vget st.rhs i - vget st.edia i * vget st.rhs (i - 1)) }
        : SolidState)) st) :
    t.edia = st.edia ∧ t.fdia = st.fdia ∧ t.gdia = st.gdia ∧ t.Tw = st.Tw
      ∧ t.rhs.length = st.rhs.length
      ∧ vget t.rhs 0 = vget st.rhs 0
      ∧ ∀ i, 1 ≤ i → i < N →
          vget t.rhs i = vget st.rhs i - vget st.edia i * vget t.rhs (i - 1) := by
  by_cases hN : 1 ≤ N
  · have key := forRange_induction_idx
      (fun m (u : SolidState) => u.edia = st.edia ∧ u.fdia = st.fdia ∧ u.gdia = st.gdia
        ∧ u.Tw = st.Tw ∧ u.rhs.length = st.rhs.length
        ∧ (∀ i, m ≤ i → vget u.rhs i = vget st.rhs i)
        ∧ vget u.rhs 0 = vget st.rhs 0
        ∧ ∀ i, 1 ≤ i → i < m →
            vget u.rhs i = vget st.rhs i - vget st.edia i * vget u.rhs (i - 1))
      1 N (fun i st =>
        ({ st with rhs := st.rhs.set i (vget st.rhs i - vget st.edia i * vget st.rhs (i - 1)) }
          : SolidState)) st hN
      ⟨rfl, rfl, rfl, rfl, rfl, fun _ _ => rfl, rfl, fun i h1 h2 => by omega⟩
      (by
        intro j u hj1 hj2 hu
        obtain ⟨u1, u2, u3, u4, u5, u6, u7, u8⟩ := hu
        have hjr : j < u.rhs.length := by omega
        have er : ∀ (v : ℚ) i, i ≠ j → vget (u.rhs.set j v) i = vget u.rhs i :=
          fun v i hi => vget_set_ne _ _ _ _ (fun e => hi e.symm)
        refine ⟨u1, u2, u3, u4, by simp [u5], ?_, ?_, ?_⟩
        · intro i hi
          show vget (List.set _ _ _) i = _
          rw [er _ i (by omega)]
          exact u6 i (by omega)
        · show vget (List.set _ _ _) 0 = _
          rw [er _ 0 (by omega)]
          exact u7
        · intro i hi1 hi2
          show vget (List.set u.rhs j _) i = _ - _ * vget (List.set u.rhs j _) (i - 1)
          by_cases hij : i = j
          · subst hij
            rw [vget_set_eq _ _ _ hjr, er _ (i - 1) (by omega), u6 i (Nat.le_refl i), u1]
          · rw [er _ i hij, er _ (i - 1) (by omega)]
            exact u8 i hi1 (by omega))
    rw [← ht] at key
    obtain ⟨k1, k2, k3, k4, k5, _, k7, k8⟩ := key
    exact ⟨k1, k2, k3, k4, k5, k7, k8⟩
  · rw [forRange_empty _ _ _ _ (by omega)] at ht
    subst ht
    exact ⟨rfl, rfl, rfl, rfl, rfl, rfl, fun i h1 h2 => by omega⟩

/-- The back substitution loop of the tridiagonal solve. -/
theorem backLoop_spec (N : Nat) (st : SolidState) (hT : N ≤ st.Tw.length) (t : SolidState)
    (ht : t = forDown 0 (N - 1) (fun i st =>
      ({ st with Tw := st.Tw.set i ((vget st.rhs i - vget st.gdia i * vget st.Tw (i + 1)) / vget st.fdia i) }
        : SolidState)) st) :
    t.edia = st.edia ∧ t.fdia = st.fdia ∧ t.gdia = st.gdia ∧ t.rhs = st.rhs
      ∧ t.Tw.length = st.Tw.length
      ∧ vget t.Tw (N - 1) = vget st.Tw (N - 1)
      ∧ ∀ i, i + 1 < N →
          vget t.Tw i = (vget st.rhs i - vget st.gdia i * vget t.Tw (i + 1)) / vget st.fdia i := by
  have key := forDown_induction_idx
    (fun m (u : SolidState) => u.edia = st.edia ∧ u.fdia = st.fdia ∧ u.gdia = st.gdia
      ∧ u.rhs = st.rhs ∧ u.Tw.length = st.Tw.length
      ∧ vget u.Tw (N - 1) = vget st.Tw (N - 1)
      ∧ ∀ i, m ≤ i → i + 1 < N →
          vget u.Tw i = (vget st.rhs i - vget st.gdia i * vget u.Tw (i + 1)) / vget st.fdia i)
    0 (fun i st =>
      ({ st with Tw := st.Tw.set i ((vget st.rhs i - vget st.gdia i * vget st.Tw (i + 1)) / vget st.fdia i) }
        : SolidState)) (N - 1) st (Nat.zero_le _)
    ⟨rfl, rfl, rfl, rfl, rfl, rfl, fun i h1 h2 => by omega⟩
    (by
      intro j u _ hj2 hu
      obtain ⟨u1, u2, u3, u4, u5, u6, u7⟩ := hu
      have hjT : j < u.Tw.length := by omega
      have eT : ∀ (v : ℚ) i, i ≠ j → vget (u.Tw.set j v) i = vget u.Tw i :=
        fun v i hi => vget_set_ne _ _ _ _ (fun e => hi e.symm)
      refine ⟨u1, u2, u3, u4, by simp [u5], ?_, ?_⟩
      · show vget (List.set _ _ _) (N - 1) = _
        rw [eT _ (N - 1) (by omega)]
        exact u6
      · intro i hi1 hi2
        show vget (List.set u.Tw j _) i = (_ - _ * vget (List.set u.Tw j _) (i + 1)) / _
        by_cases hij : i = j
        · subst hij
          rw [vget_set_eq _ _ _ hjT, eT _ (i + 1) (by omega), u2, u3, u4]
        · rw [eT _ i hij, eT _ (i + 1) (by omega)]
          exact u7 i (by omega) hi2)
  rw [← ht] at key
  obtain ⟨k1, k2, k3, k4, k5, k6, k7⟩ := key
  exact ⟨k1, k2, k3, k4, k5, k6, fun i hi => k7 i (Nat.zero_le _) hi⟩


/-- What one tridiagonal solve leaves, relative to the system it is given: the
factorised sub-diagonal and pivots, the forward-substituted right-hand side and
the back-substituted solid temperature. -/
theorem solidTridiag_spec (p : PorousFlow) (st : SolidState) (hN : 1 ≤ p.m_points)
    (he : p.m_points ≤ st.edia.length) (hf : p.m_points ≤ st.fdia.length)
    (hr : p.m_points ≤ st.rhs.length) (hT : p.m_points ≤ st.Tw.length)
    (t : SolidState) (ht : t = solidTridiag p st) :
    t.gdia = st.gdia
      ∧ vget t.fdia 0 = vget st.fdia 0
      ∧ (∀ i, 1 ≤ i → i < p.m_points →
          vget t.edia i = vget st.edia i / vget t.fdia (i - 1)
            ∧ vget t.fdia i = vget st.fdia i - vget t.edia i * vget st.gdia (i - 1))
      ∧ vget t.rhs 0 = vget st.rhs 0
      ∧ (∀ i, 1 ≤ i → i < p.m_points →
          vget t.rhs i = vget st.rhs i - vget t.edia i * vget t.rhs (i - 1))
      ∧ vget t.Tw (p.m_points - 1) = vget t.rhs (p.m_points - 1) / vget t.fdia (p.m_points - 1)
      ∧ (∀ i, i + 1 < p.m_points →
          vget t.Tw i = (vget t.rhs i - vget st.gdia i * vget t.Tw (i + 1)) / vget t.fdia i)
      ∧ t.Tw.length = st.Tw.length := by
  obtain ⟨s1, hs1⟩ : ∃ s1, s1 = forRange 1 p.m_points (fun i st =>
      let st := { st with edia := st.edia.set i (vget st.edia i / vget st.fdia (i - 1)) }
      ({ st with fdia := st.fdia.set i (vget st.fdia i - vget st.edia i * vget st.gdia (i - 1)) }
        : SolidState)) st := ⟨_, rfl⟩
  obtain ⟨s2, hs2⟩ : ∃ s2, s2 = forRange 1 p.m_points (fun i st =>
      ({ st with rhs := st.rhs.set i (vget st.rhs i - vget st.edia i * vget st.rhs (i - 1)) }
        : SolidState)) s1 := ⟨_, rfl⟩
  obtain ⟨s3, hs3⟩ : ∃ s3 : SolidState, s3 = { s2 with Tw := s2.Tw.set (p.m_points - 1) (vget s2.rhs (p.m_points - 1) / vget s2.fdia (p.m_points - 1)) } :=
    ⟨_, rfl⟩
  obtain ⟨s4, hs4⟩ : ∃ s4, s4 = forDown 0 (p.m_points - 1) (fun i st =>
      ({ st with Tw := st.Tw.set i ((vget st.rhs i - vget st.gdia i * vget st.Tw (i + 1)) / vget st.fdia i) }
        : SolidState)) s3 := ⟨_, rfl⟩
  have hfin : t = { { s4 with T0 := vget s4.Tw 0 } with T1 := vget s4.Tw (p.m_points - 1) } := by
    rw [ht, hs4, hs3, hs2, hs1]
    rfl
  obtain ⟨a1, a2, a3, a4, a5, a6, a7⟩ := decompLoop_spec p.m_points st he hf s1 hs1
  obtain ⟨b1, b2, b3, b4, b5, b6, b7⟩ :=
    forwardLoop_spec p.m_points s1 (by rw [a2]; exact hr) s2 hs2
  have c1 : s3.edia = s2.edia := by rw [hs3]
  have c2 : s3.fdia = s2.fdia := by rw [hs3]
  have c3 : s3.gdia = s2.gdia := by rw [hs3]
  have c4 : s3.rhs = s2.rhs := by rw [hs3]
  have c5 : s3.Tw.length = s2.Tw.length := by rw [hs3]; simp
  have c6 : vget s3.Tw (p.m_points - 1)
      = vget s2.rhs (p.m_points - 1) / vget s2.fdia (p.m_points - 1) := by
    rw [hs3]
    exact vget_set_eq _ _ _ (by rw [b4, a3]; omega)
  obtain ⟨d1, d2, d3, d4, d5, d6, d7⟩ :=
    backLoop_spec p.m_points s3 (by rw [c5, b4, a3]; exact hT) s4 hs4
  have e1 : t.edia = s4.edia := by rw [hfin]
  have e2 : t.fdia = s4.fdia := by rw [hfin]
  have e3 : t.gdia = s4.gdia := by rw [hfin]
  have e4 : t.rhs = s4.rhs := by rw [hfin]
  have e5 : t.Tw = s4.Tw := by rw [hfin]
  have E : t.edia = s1.edia := by rw [e1, d1, c1, b1]
  have F : t.fdia = s1.fdia := by rw [e2, d2, c2, b2]
  have R : t.rhs = s2.rhs := by rw [e4, d4, c4]
  refine ⟨by rw [e3, d3, c3, b3, a1], by rw [F]; exact a6, ?_, by rw [R, b6, a2], ?_, ?_, ?_,
    by rw [e5, d5, c5, b4, a3]⟩
  · intro i h1 h2
    rw [E, F]
    exact a7 i h1 h2
  · intro i h1 h2
    rw [R, E, b7 i h1 h2, a2]
  · rw [e5, d6, c6, R, F, b2]
  · intro i hi
    rw [e5, d7 i hi, c4, c3, b3, a1, c2, R, F, b2]


/-- The end rows of the system that one outer iteration assembles: row `0` is
`(·, 1, -1 | 0)` and row `N - 1` is `(-1, 1, · | 0)`; the solid temperature is
not touched and no vector changes its size. -/
theorem solidAssemble_ends (p : PorousFlow) (x : Nat → ℚ) (hconv scond : List ℚ) (rdt : ℚ)
    (st : SolidState) (hN : 2 ≤ p.m_points)
    (he : p.m_points ≤ st.edia.length) (hf : p.m_points ≤ st.fdia.length)
    (hg : p.m_points ≤ st.gdia.length) (hr : p.m_points ≤ st.rhs.length)
    (A : SolidState) (hA : A = solidAssemble p x hconv scond rdt st) :
    A.Tw = st.Tw ∧ A.edia.length = st.edia.length ∧ A.fdia.length = st.fdia.length
      ∧ A.gdia.length = st.gdia.length ∧ A.rhs.length = st.rhs.length
      ∧ (vget A.fdia 0 = 1 ∧ vget A.gdia 0 = -1 ∧ vget A.rhs 0 = 0)
      ∧ (vget A.edia (p.m_points - 1) = -1 ∧ vget A.fdia (p.m_points - 1) = 1
          ∧ vget A.rhs (p.m_points - 1) = 0) := by
  have key := forRange_induction_idx
    (fun m (u : SolidState) => u.Tw = st.Tw ∧ u.edia.length = st.edia.length
      ∧ u.fdia.length = st.fdia.length ∧ u.gdia.length = st.gdia.length
      ∧ u.rhs.length = st.rhs.length
      ∧ (1 ≤ m → vget u.fdia 0 = 1 ∧ vget u.gdia 0 = -1 ∧ vget u.rhs 0 = 0)
      ∧ (p.m_points ≤ m → vget u.edia (p.m_points - 1) = -1
          ∧ vget u.fdia (p.m_points - 1) = 1 ∧ vget u.rhs (p.m_points - 1) = 0))
    0 p.m_points
    (fun i st =>
      if i = 0 then
        let st := { st with edia := st.edia.set i 0 }
        let st := { st with fdia := st.fdia.set i 1 }
        let st := { st with gdia := st.gdia.set i (-1) }
        ({ st with rhs := st.rhs.set i 0 } : SolidState)
      else if i = p.m_points - 1 then
        let st := { st with edia := st.edia.set i (-1) }
        let st := { st with fdia := st.fdia.set i 1 }
        let st := { st with gdia := st.gdia.set i 0 }
        { st with rhs := st.rhs.set i 0 }
      else
        let e := 2 * vget scond i / ((p.toStFlow.z i - p.toStFlow.z (i - 1)) * (p.toStFlow.z (i + 1) - p.toStFlow.z (i - 1)))
        let st := { st with edia := st.edia.set i e }
        let f := -(2 * vget scond i) / ((p.toStFlow.z (i + 1) - p.toStFlow.z i) * (p.toStFlow.z (i + 1) - p.toStFlow.z (i - 1)))
          - 2 * vget scond i / ((p.toStFlow.z i - p.toStFlow.z (i - 1)) * (p.toStFlow.z (i + 1) - p.toStFlow.z (i - 1)))
          - vget hconv i - p.srho * p.sCp * rdt
        let st := { st with fdia := st.fdia.set i f }
        let g := 2 * vget scond i / ((p.toStFlow.z (i + 1) - p.toStFlow.z i) * (p.toStFlow.z (i + 1) - p.toStFlow.z (i - 1)))
        let st := { st with gdia := st.gdia.set i g }
        let b := -vget hconv i * p.toStFlow.T x i + vget st.dq i - p.srho * p.sCp * rdt * vget p.Twprev i
        { st with rhs := st.rhs.set i b })
    st (Nat.zero_le _)
    ⟨rfl, rfl, rfl, rfl, rfl, fun h => by omega, fun h => by omega⟩
    (by
      intro j u _ hj2 hu
      obtain ⟨u1, u2, u3, u4, u5, u6, u7⟩ := hu
      have le : j < u.edia.length := by omega
      have lf : j < u.fdia.length := by omega
      have lg : j < u.gdia.length := by omega
      have lr : j < u.rhs.length := by omega
      by_cases h0 : j = 0
      · simp only [if_pos h0]
        subst h0
        refine ⟨u1, by simp [u2], by simp [u3], by simp [u4], by simp [u5], fun _ => ?_,
          fun h => by omega⟩
        exact ⟨vget_set_eq _ _ _ lf, vget_set_eq _ _ _ lg, vget_set_eq _ _ _ lr⟩
      · have ne : ∀ (v : List ℚ) (a : ℚ), vget (v.set j a) 0 = vget v 0 :=
          fun v a => vget_set_ne _ _ _ _ h0
        obtain ⟨w1, w2, w3⟩ := u6 (by omega)
        by_cases h1 : j = p.m_points - 1
        · simp only [if_neg h0, if_pos h1]
          refine ⟨u1, by simp [u2], by simp [u3], by simp [u4], by simp [u5], fun _ => ?_,
            fun _ => ?_⟩
          · exact ⟨(ne _ _).trans w1, (ne _ _).trans w2, (ne _ _).trans w3⟩
          · rw [← h1]
            exact ⟨vget_set_eq _ _ _ le, vget_set_eq _ _ _ lf, vget_set_eq _ _ _ lr⟩
        · simp only [if_neg h0, if_neg h1]
          refine ⟨u1, by simp [u2], by simp [u3], by simp [u4], by simp [u5], fun _ => ?_,
            fun h => by omega⟩
          exact ⟨(ne _ _).trans w1, (ne _ _).trans w2, (ne _ _).trans w3⟩)
  have hA2 : solidAssemble p x hconv scond rdt st = A := hA.symm
  unfold solidAssemble at hA2
  rw [hA2] at key
  obtain ⟨k1, k2, k3, k4, k5, k6, k7⟩ := key
  exact ⟨k1, k2, k3, k4, k5, k6 (by omega), k7 (Nat.le_refl _)⟩


/-- C37: in one outer iteration of `PorousFlow::solid` on at least two points (so
in particular for `N >= 3`), when no pivot `fdia[i]` left by the decomposition
is zero, the solid temperature produced by decomposition, forward substitution
and back substitution satisfies every row of the tridiagonal system assembled
in that iteration: the first row, the interior rows
`edia[i]*Tw[i-1] + fdia[i]*Tw[i] + gdia[i]*Tw[i+1] = rhs[i]` and the last row;
since the end rows are `(1, -1 | 0)` and `(-1, 1 | 0)` this gives
`Tw[0] = Tw[1]` and `Tw[N-1] = Tw[N-2]`. -/
theorem solid_tridiagonal_solves (p : PorousFlow) (x : Nat → ℚ) (rdt : ℚ) (st : SolidState)
    (hN : 2 ≤ p.m_points)
    (he : p.m_points ≤ st.edia.length) (hf : p.m_points ≤ st.fdia.length)
    (hg : p.m_points ≤ st.gdia.length) (hr : p.m_points ≤ st.rhs.length)
    (hT : p.m_points ≤ st.Tw.length)
    (hpiv : ∀ i, i < p.m_points → vget (solidSolved p x rdt st).fdia i ≠ 0) :
    (vget (solidAssemble { p with Twprev := p.Tw } x p.hconv p.scond rdt
          { st with count1 := st.count1 + 1 }).fdia 0 * vget (solidSolved p x rdt st).Tw 0
        + vget (solidAssemble { p with Twprev := p.Tw } x p.hconv p.scond rdt
            { st with count1 := st.count1 + 1 }).gdia 0 * vget (solidSolved p x rdt st).Tw 1
        = vget (solidAssemble { p with Twprev := p.Tw } x p.hconv p.scond rdt
            { st with count1 := st.count1 + 1 }).rhs 0)
      ∧ (∀ i, 1 ≤ i → i + 1 < p.m_points →
          vget (solidAssemble { p with Twprev := p.Tw } x p.hconv p.scond rdt
              { st with count1 := st.count1 + 1 }).edia i * vget (solidSolved p x rdt st).Tw (i - 1)
            + vget (solidAssemble { p with Twprev := p.Tw } x p.hconv p.scond rdt
                { st with count1 := st.count1 + 1 }).fdia i * vget (solidSolved p x rdt st).Tw i
            + vget (solidAssemble { p with Twprev := p.Tw } x p.hconv p.scond rdt
                { st with count1 := st.count1 + 1 }).gdia i * vget (solidSolved p x rdt st).Tw (i + 1)
            = vget (solidAssemble { p with Twprev := p.Tw } x p.hconv p.scond rdt
                { st with count1 := st.count1 + 1 }).rhs i)
      ∧ (vget (solidAssemble { p with Twprev := p.Tw } x p.hconv p.scond rdt
            { st with count1 := st.count1 + 1 }).edia (p.m_points - 1)
            * vget (solidSolved p x rdt st).Tw (p.m_points - 2)
          + vget (solidAssemble { p with Twprev := p.Tw } x p.hconv p.scond rdt
              { st with count1 := st.count1 + 1 }).fdia (p.m_points - 1)
            * vget (solidSolved p x rdt st).Tw (p.m_points - 1)
          = vget (solidAssemble { p with Twprev := p.Tw } x p.hconv p.scond rdt
              { st with count1 := st.count1 + 1 }).rhs (p.m_points - 1))
      ∧ vget (solidSolved p x rdt st).Tw 0 = vget (solidSolved p x rdt st).Tw 1
      ∧ vget (solidSolved p x rdt st).Tw (p.m_points - 1)
          = vget (solidSolved p x rdt st).Tw (p.m_points - 2) := by
  obtain ⟨A, hA⟩ : ∃ A, A = solidAssemble { p with Twprev := p.Tw } x p.hconv p.scond rdt
      { st with count1 := st.count1 + 1 } := ⟨_, rfl⟩
  obtain ⟨t, ht⟩ : ∃ t, t = solidTridiag { p with Twprev := p.Tw } A := ⟨_, rfl⟩
  have hS : solidSolved p x rdt st = t := by rw [ht, hA]; rfl
  rw [hS] at hpiv ⊢
  rw [← hA]
  obtain ⟨a1, a2, a3, a4, a5, ⟨a6, a7, a8⟩, a9, a10, a11⟩ :=
    solidAssemble_ends { p with Twprev := p.Tw } x p.hconv p.scond rdt
      { st with count1 := st.count1 + 1 } hN he hf hg hr A hA
  obtain ⟨G, F0, D, R0, RR, TN, TT, _⟩ :=
    solidTridiag_spec { p with Twprev := p.Tw } A (Nat.le_of_succ_le hN)
      (by rw [a2]; exact he) (by rw [a3]; exact hf) (by rw [a5]; exact hr)
      (by rw [a1]; exact hT) t ht
  have hm : ({ p with Twprev := p.Tw } : PorousFlow).m_points = p.m_points := rfl
  rw [hm] at D RR TN TT
  have U : ∀ i, i + 1 < p.m_points →
      vget t.fdia i * vget t.Tw i + vget A.gdia i * vget t.Tw (i + 1) = vget t.rhs i := by
    intro i hi
    have h := TT i hi
    have hp := hpiv i (by omega)
    rw [h]
    field_simp
  have UN : vget t.fdia (p.m_points - 1) * vget t.Tw (p.m_points - 1)
      = vget t.rhs (p.m_points - 1) := by
    have hp := hpiv (p.m_points - 1) (by omega)
    rw [TN]
    field_simp
  have row0 : vget A.fdia 0 * vget t.Tw 0 + vget A.gdia 0 * vget t.Tw 1 = vget A.rhs 0 := by
    have h := U 0 (by omega)
    rw [F0, R0] at h
    exact h
  have rowN : vget A.edia (p.m_points - 1) * vget t.Tw (p.m_points - 2)
      + vget A.fdia (p.m_points - 1) * vget t.Tw (p.m_points - 1)
      = vget A.rhs (p.m_points - 1) := by
    obtain ⟨d1, d2⟩ := D (p.m_points - 1) (by omega) (by omega)
    have r1 := RR (p.m_points - 1) (by omega) (by omega)
    have e12 : p.m_points - 1 - 1 = p.m_points - 2 := rfl
    rw [e12] at d1 d2 r1
    have hp := hpiv (p.m_points - 2) (by omega)
    have um := U (p.m_points - 2) (by omega)
    have e21 : p.m_points - 2 + 1 = p.m_points - 1 := by omega
    rw [e21] at um
    have hAe : vget A.edia (p.m_points - 1)
        = vget t.edia (p.m_points - 1) * vget t.fdia (p.m_points - 2) := by
      rw [d1]
      field_simp
    linear_combination UN + vget t.edia (p.m_points - 1) * um
      + vget t.Tw (p.m_points - 2) * hAe - vget t.Tw (p.m_points - 1) * d2 + r1
  refine ⟨row0, ?_, rowN, ?_, ?_⟩
  · intro i h1 h2
    obtain ⟨d1, d2⟩ := D i h1 (by omega)
    have r1 := RR i h1 (by omega)
    have hp := hpiv (i - 1) (by omega)
    have um := U (i - 1) (by omega)
    rw [Nat.sub_add_cancel h1] at um
    have ui := U i h2
    have hAe : vget A.edia i = vget t.edia i * vget t.fdia (i - 1) := by
      rw [d1]
      field_simp
    linear_combination ui + vget t.edia i * um + vget t.Tw (i - 1) * hAe
      - vget t.Tw i * d2 + r1
  · rw [a6, a7, a8] at row0
    linear_combination row0
  · rw [a9, a10, a11] at rowN
    linear_combination rowN


/-- The pivots of the first outer iteration on the four-point porous domain. -/
theorem demoPivots : ∀ i, i < demoPorousSaved.m_points →
    vget (solidSolved demoPorousSaved demoX 0 (solidStart demoPorousSaved)).fdia i ≠ 0 := by
  decide!

/-- Witness for `solid_tridiagonal_solves`: the first outer iteration on the
four-point porous domain, whose pivots are `1, -33/10, -38753/9000, 3040/3523`. -/
theorem solid_tridiagonal_solves_witness :
    (∀ i, i < demoPorousSaved.m_points →
        vget (solidSolved demoPorousSaved demoX 0 (solidStart demoPorousSaved)).fdia i ≠ 0)
      ∧ vget (solidSolved demoPorousSaved demoX 0 (solidStart demoPorousSaved)).Tw 0
          = vget (solidSolved demoPorousSaved demoX 0 (solidStart demoPorousSaved)).Tw 1
      ∧ vget (solidSolved demoPorousSaved demoX 0 (solidStart demoPorousSaved)).Tw
            (demoPorousSaved.m_points - 1)
          = vget (solidSolved demoPorousSaved demoX 0 (solidStart demoPorousSaved)).Tw
            (demoPorousSaved.m_points - 2) :=
  ⟨demoPivots,
    (solid_tridiagonal_solves demoPorousSaved demoX 0 (solidStart demoPorousSaved)
      (by decide) (by decide) (by decide) (by decide) (by decide) (by decide) demoPivots).2.2.2⟩

end PorousFlow


/-! ## The search of the porous grid remap -/

namespace PorousFlow

/-- The search loop of `setupGrid` from a cursor inside the old grid, for a coordinate below the
last old coordinate: it does not throw, it ends because its condition fails, the cursor stays
inside the old grid, and fuel beyond `m_points` changes nothing. -/
theorem remapSearch_safe (p : PorousFlow) (zi : ℚ) (hfit : p.m_points < 2 ^ 64)
    (hz : zi < vget p.m_z (p.m_points - 1)) :
    ∀ fuel j, j + 1 ≤ p.m_points - 1 → p.m_points - 1 ≤ j + fuel →
      (remapSearch p zi fuel j).2 = false
        ∧ j ≤ (remapSearch p zi fuel j).1
        ∧ (remapSearch p zi fuel j).1 + 1 ≤ p.m_points - 1
        ∧ ¬ (zi > vget p.m_z ((remapSearch p zi fuel j).1 + 1))
        ∧ ∀ fuel2, p.m_points - 1 ≤ j + fuel2 →
            remapSearch p zi fuel2 j = remapSearch p zi fuel j := by
  have h64 : (2 : Nat) ^ 64 = 18446744073709551616 := by norm_num
  rw [h64] at hfit
  have step : ∀ fuel j, j + 1 ≤ p.m_points - 1 →
      remapSearch p zi (fuel + 1) j
        = if zi > vget p.m_z (j + 1) then remapSearch p zi fuel (j + 1) else (j, false) := by
    intro fuel j h1
    have ha : addSz j 1 = j + 1 := by
      unfold addSz
      rw [h64]
      omega
    have ha2 : addSz (j + 1) 1 = j + 2 := by
      unfold addSz
      rw [h64]
      omega
    have hs : subSz p.m_points 1 = p.m_points - 1 := by
      unfold subSz
      rw [h64]
      omega
    rw [remapSearch, ha, ha2, hs]
    by_cases hc : zi > vget p.m_z (j + 1)
    · have hlt : j + 1 < p.m_points - 1 := by
        by_contra hcon
        have : j + 1 = p.m_points - 1 := by omega
        rw [this] at hc
        exact absurd (lt_trans hz hc) (lt_irrefl _)
      rw [if_pos hc, if_pos hc, if_neg (by omega)]
    · rw [if_neg hc, if_neg hc]
  have last : ∀ j, j + 1 ≤ p.m_points - 1 → zi > vget p.m_z (j + 1) → j + 1 < p.m_points - 1 := by
    intro j h1 hc
    by_contra hcon
    have : j + 1 = p.m_points - 1 := by omega
    rw [this] at hc
    exact absurd (lt_trans hz hc) (lt_irrefl _)
  intro fuel
  induction fuel with
  | zero =>
    intro j h1 h2
    have hj : j + 1 = p.m_points - 1 := by omega
    refine ⟨rfl, Nat.le_refl j, h1, ?_, ?_⟩
    · show ¬ (zi > vget p.m_z (j + 1))
      rw [hj]
      exact not_lt.mpr (le_of_lt hz)
    · intro fuel2 _
      cases fuel2 with
      | zero => rfl
      | succ f =>
        rw [step f j h1, if_neg (by rw [hj]; exact not_lt.mpr (le_of_lt hz))]
        rfl
  | succ fuel ih =>
    intro j h1 h2
    rw [step fuel j h1]
    by_cases hc : zi > vget p.m_z (j + 1)
    · have hlt := last j h1 hc
      rw [if_pos hc]
      obtain ⟨r1, r2, r3, r4, r5⟩ := ih (j + 1) (by omega) (by omega)
      refine ⟨r1, by omega, r3, r4, ?_⟩
      intro fuel2 hf2
      cases fuel2 with
      | zero => omega
      | succ f =>
        rw [step f j h1, if_pos hc]
        exact r5 f (by omega)
    · rw [if_neg hc]
      refine ⟨rfl, Nat.le_refl j, h1, hc, ?_⟩
      intro fuel2 _
      cases fuel2 with
      | zero => rfl
      | succ f => rw [step f j h1, if_neg hc]


/-- The cursor of the loop of `setupGrid` after any number of points: nothing was thrown, and on
an old grid of two or more points the cursor is inside it. -/
theorem remapReach_inv (p : PorousFlow) (n : Nat) (zin : Nat → ℚ) (hN : 1 ≤ p.m_points)
    (hfit : p.m_points < 2 ^ 64) (m : Nat) :
    (remapReach p n zin m).thrown = false
      ∧ ((remapReach p n zin m).j = 0
        ∨ (remapReach p n zin m).j + 1 ≤ p.m_points - 1) := by
  have h64 : (2 : Nat) ^ 64 = 18446744073709551616 := by norm_num
  have hs : subSz p.m_points 1 = p.m_points - 1 := by
    unfold subSz
    rw [h64] at hfit ⊢
    omega
  unfold remapReach
  refine forRange_induction (fun st : RemapState =>
    st.thrown = false ∧ (st.j = 0 ∨ st.j + 1 ≤ p.m_points - 1)) 0 m _ _ ⟨rfl, Or.inl rfl⟩ ?_
  intro i st _ _ hst
  obtain ⟨ht, hj⟩ := hst
  by_cases b1 : zin i ≤ vget p.m_z 0
  · rw [remapStep_left p zin _ _ i st ht b1]
    exact ⟨ht, hj⟩
  · by_cases b2 : zin i ≥ vget p.m_z (subSz p.m_points 1)
    · rw [remapStep_right p zin _ _ i st ht b1 b2]
      exact ⟨ht, hj⟩
    · rw [hs] at b2
      have hz : zin i < vget p.m_z (p.m_points - 1) := lt_of_not_ge b2
      have h2 : 2 ≤ p.m_points := by
        by_contra hcon
        have h1 : p.m_points - 1 = 0 := by omega
        rw [h1] at hz
        exact b1 (le_of_lt hz)
      have hj2 : st.j + 1 ≤ p.m_points - 1 := by
        rcases hj with hj | hj
        · rw [hj]; omega
        · exact hj
      obtain ⟨r1, _, r3, _, _⟩ := remapSearch_safe p (zin i) hfit hz p.m_points st.j hj2 (by omega)
      unfold remapStep
      rw [if_neg (by rw [ht]; decide), if_neg b1, hs, if_neg b2]
      simp only []
      rw [if_neg (by rw [r1]; decide)]
      exact ⟨ht, Or.inr r3⟩


/-- The only error of the loop of `StFlow::setupGrid` is the one about the order of the grid. -/
theorem setupGridLoop_error (zin : Nat → ℚ) :
    ∀ (fuel j : Nat) (s : StFlow), (StFlow.setupGridLoop zin fuel j s).error ≠ some "10" := by
  intro fuel
  induction fuel with
  | zero =>
    intro j s
    unfold StFlow.setupGridLoop
    simp
  | succ fuel ih =>
    intro j s
    unfold StFlow.setupGridLoop
    by_cases h : zin j ≤ zin (j - 1)
    · rw [if_pos h]
      simp only [ne_eq, Option.some.injEq]
      decide
    · rw [if_neg h]
      exact ih _ _

/-- C40: in `PorousFlow::setupGrid` on an old grid of at least one point, the branch `throw 10`
is never reached, whatever the new coordinates are: after any number of points of the new grid
nothing was thrown, and the call does not end with the error of that branch. At every new point
that takes the interpolation branch the search loop ends because its condition fails (more fuel
changes nothing), without throwing, at a cursor `j` with `j + 1 ≤ m_points - 1`, so that the reads
of the old fields at `j` and `j + 1` are inside vectors of length `m_points`. -/
theorem setupGrid_throw_unreachable (p : PorousFlow) (n : Nat) (zin : Nat → ℚ)
    (hN : 1 ≤ p.m_points) (hfit : p.m_points < 2 ^ 64)
    (hTw : p.Tw.length = p.m_points) (hdq : p.dq.length = p.m_points) :
    (∀ m, (remapReach p n zin m).thrown = false)
      ∧ (p.setupGrid n zin).error ≠ some "10"
      ∧ ∀ i, vget p.m_z 0 < zin i → zin i < vget p.m_z (p.m_points - 1) →
          (remapSearch p (zin i) p.m_points (remapReach p n zin i).j).2 = false
            ∧ (remapSearch p (zin i) p.m_points (remapReach p n zin i).j).1 + 1 ≤ p.m_points - 1
            ∧ (remapSearch p (zin i) p.m_points (remapReach p n zin i).j).1 + 1 < p.Tw.length
            ∧ (remapSearch p (zin i) p.m_points (remapReach p n zin i).j).1 + 1 < p.dq.length
            ∧ ¬ (zin i > vget p.m_z
                ((remapSearch p (zin i) p.m_points (remapReach p n zin i).j).1 + 1))
            ∧ ∀ fuel, p.m_points ≤ fuel →
                remapSearch p (zin i) fuel (remapReach p n zin i).j
                  = remapSearch p (zin i) p.m_points (remapReach p n zin i).j := by
  refine ⟨fun m => (remapReach_inv p n zin hN hfit m).1, ?_, ?_⟩
  · have ht := (remapReach_inv p n zin hN hfit n).1
    unfold remapReach at ht
    unfold setupGrid
    simp only []
    rw [if_neg (by rw [ht]; decide)]
    unfold StFlow.setupGrid
    exact setupGridLoop_error zin _ _ _
  · intro i h1 h2
    have h3 : 2 ≤ p.m_points := by
      by_contra hcon
      have e : p.m_points - 1 = 0 := by omega
      rw [e] at h2
      exact absurd (lt_trans h1 h2) (lt_irrefl _)
    have hj : (remapReach p n zin i).j + 1 ≤ p.m_points - 1 := by
      rcases (remapReach_inv p n zin hN hfit i).2 with hj | hj
      · rw [hj]; omega
      · exact hj
    obtain ⟨r1, _, r3, r4, r5⟩ :=
      remapSearch_safe p (zin i) hfit h2 p.m_points (remapReach p n zin i).j hj (by omega)
    exact ⟨r1, r3, by omega, by omega, r4, fun fuel hf => r5 fuel (by omega)⟩

theorem setupGrid_throw_unreachable_witness :
    (∀ m, (remapReach demoPorousWarm 5 demoGridRefined m).thrown = false)
      ∧ (demoPorousWarm.setupGrid 5 demoGridRefined).error ≠ some "10"
      ∧ ∀ i, vget demoPorousWarm.m_z 0 < demoGridRefined i →
          demoGridRefined i < vget demoPorousWarm.m_z (demoPorousWarm.m_points - 1) →
          (remapSearch demoPorousWarm (demoGridRefined i) demoPorousWarm.m_points
              (remapReach demoPorousWarm 5 demoGridRefined i).j).2 = false
            ∧ (remapSearch demoPorousWarm (demoGridRefined i) demoPorousWarm.m_points
              (remapReach demoPorousWarm 5 demoGridRefined i).j).1 + 1
                ≤ demoPorousWarm.m_points - 1
            ∧ (remapSearch demoPorousWarm (demoGridRefined i) demoPorousWarm.m_points
              (remapReach demoPorousWarm 5 demoGridRefined i).j).1 + 1 < demoPorousWarm.Tw.length
            ∧ (remapSearch demoPorousWarm (demoGridRefined i) demoPorousWarm.m_points
              (remapReach demoPorousWarm 5 demoGridRefined i).j).1 + 1 < demoPorousWarm.dq.length
            ∧ ¬ (demoGridRefined i > vget demoPorousWarm.m_z
                ((remapSearch demoPorousWarm (demoGridRefined i) demoPorousWarm.m_points
                  (remapReach demoPorousWarm 5 demoGridRefined i).j).1 + 1))
            ∧ ∀ fuel, demoPorousWarm.m_points ≤ fuel →
                remapSearch demoPorousWarm (demoGridRefined i) fuel
                    (remapReach demoPorousWarm 5 demoGridRefined i).j
                  = remapSearch demoPorousWarm (demoGridRefined i) demoPorousWarm.m_points
                    (remapReach demoPorousWarm 5 demoGridRefined i).j :=
  setupGrid_throw_unreachable demoPorousWarm 5 demoGridRefined (by decide)
    (by rw [show demoPorousWarm.m_points = 4 from rfl]; norm_num) rfl rfl

end PorousFlow


/-! ## The evaluation window at the edges of the domain -/

namespace StFlow

theorem updateThermo_empty (s : StFlow) (x : Nat → ℚ) (j0 j1 : Nat) (h : j1 + 1 ≤ j0) :
    s.updateThermo x j0 j1 = s := by
  unfold updateThermo
  exact forRange_empty _ _ _ _ h

theorem updateTransport_empty (s : StFlow) (x : Nat → ℚ) (j0 j1 : Nat) (h : j1 ≤ j0) :
    s.updateTransport x j0 j1 = s := by
  unfold updateTransport
  split_ifs
  · exact forRange_empty _ _ _ _ h
  · exact forRange_empty _ _ _ _ h

theorem updateDiffFluxes_empty (s : StFlow) (x : Nat → ℚ) (j0 j1 : Nat) (h : j1 ≤ j0) :
    s.updateDiffFluxes x j0 j1 = s := by
  unfold updateDiffFluxes
  simp only [forRange_empty _ _ _ _ h, ite_self]

theorem evalRadiation_empty (c : Consts) (s : StFlow) (x : Nat → ℚ) (jmin jmax : Nat)
    (h : jmax ≤ jmin) : evalRadiation c s x jmin jmax = s := by
  unfold evalRadiation
  simp only [forRange_empty _ _ _ _ h, ite_self]

/-- A windowed call of `updateProperties` and `evalResidual` on an empty range of points. -/
theorem evalLocal_empty (c : Consts) (s : StFlow) (jg : Nat) (xg rg : Nat → ℚ)
    (diagg : Nat → Int) (rdt : ℚ) (hjg : jg ≠ npos)
    (h1 : evalJmax s jg + 1 ≤ evalJmin s jg)
    (h2 : faceHi s (evalJmax s jg) + 1 ≤ faceLo (evalJmin s jg)) :
    evalLocal c s jg xg rg diagg rdt = ⟨s, ⟨shiftPtr rg s.loc, shiftPtr diagg s.loc⟩⟩ := by
  have hp : evalProps s jg xg = s := by
    unfold evalProps updateProperties
    simp only []
    have e : (max (evalJmin s jg) 1 - 1) = faceLo (evalJmin s jg) := rfl
    have e2 : min (addSz (evalJmax s jg) 1) (subSz s.m_points 1) = faceHi s (evalJmax s jg) := rfl
    rw [e, e2, updateThermo_empty _ _ _ _ h2, updateTransport_empty _ _ _ _ (by omega),
      if_neg hjg]
    simp only [ite_self]
    exact updateDiffFluxes_empty _ _ _ _ (by omega)
  unfold evalLocal
  rw [hp]
  unfold evalResidual
  simp only []
  rw [evalRadiation_empty _ _ _ _ _ (by omega), forRange_empty _ _ _ _ h1]


/-- The window of a windowed call of `eval` at the global point just before the domain, when
that point is not the global point 0: the subtraction `jg - firstPoint()` wraps. -/
theorem evalWindow_before (s : StFlow) (jg : Nat) (hN : 2 ≤ s.m_points)
    (hfit : s.m_jstart + s.m_points + 1 < 2 ^ 64) (h1 : 1 ≤ jg) (h2 : jg + 1 = s.firstPoint) :
    jg ≠ npos ∧ ¬ (jg ≠ npos ∧ (addSz jg 1 < s.firstPoint ∨ jg > addSz s.lastPoint 1))
      ∧ evalJmin s jg = 2 ^ 64 - 2 ∧ evalJmax s jg = 0
      ∧ faceLo (evalJmin s jg) = 2 ^ 64 - 3 ∧ faceHi s (evalJmax s jg) = 1 := by
  have h64 : (2 : Nat) ^ 64 = 18446744073709551616 := by norm_num
  have hs : subSz jg s.firstPoint = 18446744073709551615 := by
    unfold subSz
    unfold firstPoint at *
    rw [h64] at hfit ⊢
    omega
  have hn : subSz s.m_points 1 = s.m_points - 1 := by
    unfold subSz
    rw [h64] at hfit ⊢
    omega
  have hjg : jg ≠ npos := by
    unfold npos
    unfold firstPoint at h2
    rw [h64] at hfit ⊢
    omega
  have hjg0 : jg ≠ 0 := by omega
  have hmin : evalJmin s jg = 2 ^ 64 - 2 := by
    unfold evalJmin
    rw [if_neg hjg, if_neg hjg0, hs, h64]
    rfl
  have hmax : evalJmax s jg = 0 := by
    unfold evalJmax
    rw [if_neg hjg, if_neg hjg0, hs, hn]
    have : addSz 18446744073709551615 1 = 0 := by
      unfold addSz
      rw [h64]
    rw [this]
    exact Nat.zero_min _
  refine ⟨hjg, ?_, hmin, hmax, ?_, ?_⟩
  · rintro ⟨_, h | h⟩
    · have : addSz jg 1 = jg + 1 := by
        unfold addSz
        unfold firstPoint at h2
        rw [h64] at hfit ⊢
        omega
      rw [this] at h
      omega
    · have : addSz s.lastPoint 1 = s.lastPoint + 1 := by
        unfold addSz lastPoint
        rw [h64] at hfit ⊢
        omega
      rw [this] at h
      unfold lastPoint at h
      unfold firstPoint at h2
      omega
  · rw [hmin, h64]
    rfl
  · rw [hmax]
    unfold faceHi
    rw [hn]
    have : addSz 0 1 = 1 := by
      unfold addSz
      rw [h64]
    rw [this]
    omega

/-- The window of a windowed call of `eval` at the global point just after the domain. -/
theorem evalWindow_after (s : StFlow) (jg : Nat) (hN : 2 ≤ s.m_points)
    (hfit : s.m_jstart + s.m_points + 1 < 2 ^ 64) (h1 : jg = s.lastPoint + 1) :
    jg ≠ npos ∧ ¬ (jg ≠ npos ∧ (addSz jg 1 < s.firstPoint ∨ jg > addSz s.lastPoint 1))
      ∧ evalJmin s jg = s.m_points - 1 ∧ evalJmax s jg = s.m_points - 1 := by
  unfold evalJmin evalJmax
  unfold firstPoint lastPoint at *
  unfold addSz subSz npos
  have h64 : (2 : Nat) ^ 64 = 18446744073709551616 := by norm_num
  rw [h64] at hfit ⊢
  refine ⟨by omega, ?_, ?_, ?_⟩
  · rintro ⟨_, h | h⟩
    · omega
    · omega
  · split_ifs <;> omega
  · split_ifs <;> omega

/-- The window of a windowed call of `eval` at the global point 0 by a domain that starts at
the global point 1. -/
theorem evalWindow_zero (s : StFlow) (hN : 2 ≤ s.m_points)
    (hfit : s.m_jstart + s.m_points + 1 < 2 ^ 64) (h1 : s.firstPoint = 1) :
    (0 : Nat) ≠ npos ∧ ¬ ((0 : Nat) ≠ npos ∧ (addSz 0 1 < s.firstPoint ∨ 0 > addSz s.lastPoint 1))
      ∧ evalJmin s 0 = 0 ∧ evalJmax s 0 = 1 := by
  have h64 : (2 : Nat) ^ 64 = 18446744073709551616 := by norm_num
  have hn : subSz s.m_points 1 = s.m_points - 1 := by
    unfold subSz
    rw [h64] at hfit ⊢
    omega
  have ha : addSz 0 1 = 1 := by
    unfold addSz
    rw [h64]
  have h0 : (0 : Nat) ≠ npos := by
    unfold npos
    rw [h64]
    omega
  refine ⟨h0, ?_, ?_, ?_⟩
  · rintro ⟨_, h | h⟩
    · rw [ha, h1] at h
      omega
    · omega
  · unfold evalJmin
    rw [if_neg h0, if_pos rfl]
    rfl
  · unfold evalJmax
    rw [if_neg h0, if_pos rfl, ha, hn]
    omega


/-- C38: with `size_t` arithmetic modulo 2^64 and `N ≥ 2`. For a windowed call at
`jg = firstPoint() - 1 ≥ 1` the subtraction `jg - firstPoint()` wraps: `jmin = 2^64 - 2` exceeds
`jmax = 0`, and `StFlow::eval` returns the object (every cache), the residual and the mask as they
were. For `jg = lastPoint() + 1` the window is the last local point `N - 1` alone, and the call
evaluates that point on the object that `updateProperties` leaves. For `jg = 0` with
`firstPoint() = 1` the window is the local points 0 and 1, evaluated in this order. -/
theorem eval_window_wraps (c : Consts) (s : StFlow) (jg : Nat) (xg rg : Nat → ℚ)
    (diagg : Nat → Int) (rdt : ℚ) (hN : 2 ≤ s.m_points)
    (hfit : s.m_jstart + s.m_points + 1 < 2 ^ 64) :
    (1 ≤ jg → jg + 1 = s.firstPoint →
        evalJmin s jg = 2 ^ 64 - 2 ∧ evalJmax s jg = 0 ∧ evalJmax s jg < evalJmin s jg
          ∧ (s.eval c jg xg rg diagg rdt).error = none
          ∧ (s.eval c jg xg rg diagg rdt).state.dom = s
          ∧ (∀ i, (s.eval c jg xg rg diagg rdt).state.rg i = rg i)
          ∧ (∀ i, (s.eval c jg xg rg diagg rdt).state.diagg i = diagg i))
      ∧ (jg = s.lastPoint + 1 →
          evalJmin s jg = s.m_points - 1 ∧ evalJmax s jg = s.m_points - 1
            ∧ (s.eval c jg xg rg diagg rdt).state.dom = (evalLocal c s jg xg rg diagg rdt).dom
            ∧ (s.eval c jg xg rg diagg rdt).state.rg
                = unshiftPtr rg s.loc (evalLocal c s jg xg rg diagg rdt).res.rsd
            ∧ (s.eval c jg xg rg diagg rdt).state.diagg
                = unshiftPtr diagg s.loc (evalLocal c s jg xg rg diagg rdt).res.diag
            ∧ evalLocal c s jg xg rg diagg rdt
                = evalPoint c (shiftPtr xg s.loc) rdt (s.m_points - 1)
                    ⟨evalProps s jg xg, ⟨shiftPtr rg s.loc, shiftPtr diagg s.loc⟩⟩)
      ∧ (jg = 0 → s.firstPoint = 1 →
          evalJmin s jg = 0 ∧ evalJmax s jg = 1
            ∧ (s.eval c jg xg rg diagg rdt).state.dom = (evalLocal c s jg xg rg diagg rdt).dom
            ∧ (s.eval c jg xg rg diagg rdt).state.rg
                = unshiftPtr rg s.loc (evalLocal c s jg xg rg diagg rdt).res.rsd
            ∧ (s.eval c jg xg rg diagg rdt).state.diagg
                = unshiftPtr diagg s.loc (evalLocal c s jg xg rg diagg rdt).res.diag
            ∧ evalLocal c s jg xg rg diagg rdt
                = evalPoint c (shiftPtr xg s.loc) rdt 1
                    (evalPoint c (shiftPtr xg s.loc) rdt 0
                      ⟨evalRadiation c (evalProps s jg xg) (shiftPtr xg s.loc) 0 1,
                        ⟨shiftPtr rg s.loc, shiftPtr diagg s.loc⟩⟩)) := by
  have h64 : (2 : Nat) ^ 64 = 18446744073709551616 := by norm_num
  refine ⟨?_, ?_, ?_⟩
  · intro h1 h2
    obtain ⟨w1, w2, w3, w4, w5, w6⟩ := evalWindow_before s jg hN hfit h1 h2
    obtain ⟨e1, e2, e3⟩ := eval_inside c s jg xg rg diagg rdt w2
    have hl := evalLocal_empty c s jg xg rg diagg rdt w1
      (by rw [w3, w4, h64]; norm_num) (by rw [w5, w6, h64]; norm_num)
    have herr : (s.eval c jg xg rg diagg rdt).error = none := by
      unfold eval
      split_ifs <;> rfl
    refine ⟨w3, w4, by rw [w3, w4, h64]; norm_num, herr, by rw [e1, hl], ?_, ?_⟩
    · intro i
      rw [e2, hl]
      unfold unshiftPtr shiftPtr
      by_cases h : s.loc ≤ i
      · simp only [if_pos h, Nat.add_sub_cancel' h]
      · simp only [if_neg h]
    · intro i
      rw [e3, hl]
      unfold unshiftPtr shiftPtr
      by_cases h : s.loc ≤ i
      · simp only [if_pos h, Nat.add_sub_cancel' h]
      · simp only [if_neg h]
  · intro h1
    obtain ⟨_, w2, w3, w4⟩ := evalWindow_after s jg hN hfit h1
    obtain ⟨e1, e2, e3⟩ := eval_inside c s jg xg rg diagg rdt w2
    refine ⟨w3, w4, e1, e2, e3, ?_⟩
    unfold evalLocal evalResidual
    simp only []
    rw [w3, w4, evalRadiation_empty _ _ _ _ _ (Nat.le_refl _),
      forRange_succ _ _ _ _ (Nat.le_refl _), forRange_empty _ _ _ _ (Nat.le_refl _)]
  · intro h1 h2
    subst h1
    obtain ⟨_, w2, w3, w4⟩ := evalWindow_zero s hN hfit h2
    obtain ⟨e1, e2, e3⟩ := eval_inside c s 0 xg rg diagg rdt w2
    refine ⟨w3, w4, e1, e2, e3, ?_⟩
    unfold evalLocal evalResidual
    simp only []
    rw [w3, w4, forRange_succ _ _ _ _ (by omega), forRange_succ _ _ _ _ (Nat.le_refl _),
      forRange_empty _ _ _ _ (Nat.le_refl _)]


theorem eval_window_wraps_witness :
    (evalJmin demoFlowSecond 1 = 2 ^ 64 - 2 ∧ evalJmax demoFlowSecond 1 = 0
        ∧ (demoFlowSecond.eval demoConsts 1 demoXg demoRg demoDiagg 1).state.dom = demoFlowSecond
        ∧ ∀ i, (demoFlowSecond.eval demoConsts 1 demoXg demoRg demoDiagg 1).state.rg i = demoRg i)
      ∧ (evalJmin demoFlow 5 = 3 ∧ evalJmax demoFlow 5 = 3)
      ∧ (evalJmin demoFlow 0 = 0 ∧ evalJmax demoFlow 0 = 1) := by
  have hf : demoFlow.m_jstart + demoFlow.m_points + 1 < 2 ^ 64 := by
    rw [show demoFlow.m_jstart + demoFlow.m_points + 1 = 6 from rfl]
    norm_num
  have hf2 : demoFlowSecond.m_jstart + demoFlowSecond.m_points + 1 < 2 ^ 64 := by
    rw [show demoFlowSecond.m_jstart + demoFlowSecond.m_points + 1 = 7 from rfl]
    norm_num
  have a := (eval_window_wraps demoConsts demoFlowSecond 1 demoXg demoRg demoDiagg 1
    (by decide) hf2).1 (by decide) rfl
  have b := (eval_window_wraps demoConsts demoFlow 5 demoXg demoRg demoDiagg 1
    (by decide) hf).2.1 rfl
  have d := (eval_window_wraps demoConsts demoFlow 0 demoXg demoRg demoDiagg 1
    (by decide) hf).2.2 rfl rfl
  exact ⟨⟨a.1, a.2.1, a.2.2.2.2.1, a.2.2.2.2.2.1⟩, ⟨b.1, b.2.1⟩, ⟨d.1, d.2.1⟩⟩

end StFlow


/-! ## The sum of the mixture-averaged fluxes -/

namespace StFlow

/-- C35: under the mixture-averaged closure, for every face `j` that the loop of the branch
visits (`j0 ≤ j < j1`), the corrected fluxes that the branch stores sum over the species to
`(1 - sum_k Y_k[j])` times the sum of the uncorrected Fickian fluxes
`Mw_k*rho*D_k/Wtm*(X_k[j]-X_k[j+1])/dz`, and hence to zero when the mass fractions of point `j`
sum to 1; with Soret diffusion disabled these are the fluxes that `updateDiffFluxes` leaves. -/
theorem mixture_flux_sum (s : StFlow) (x : Nat → ℚ) (j0 j1 j : Nat)
    (hrows : s.m_flux.nrows = s.m_nsp)
    (hlen : s.m_nsp * j1 ≤ s.m_flux.data.length)
    (hj0 : j0 ≤ j) (hj1 : j < j1) :
    (∑ k in Finset.range s.m_nsp,
        (forRange j0 j1 (fun j fl => diffFluxMixFace s x j fl) s.m_flux).get k j
      = (1 - ∑ k in Finset.range s.m_nsp, s.Y x k j)
        * ∑ k in Finset.range s.m_nsp, fickFlux s x j k)
      ∧ (∑ k in Finset.range s.m_nsp, s.Y x k j = 1 →
          ∑ k in Finset.range s.m_nsp,
            (forRange j0 j1 (fun j fl => diffFluxMixFace s x j fl) s.m_flux).get k j = 0)
      ∧ (s.m_do_multicomponent = false → s.m_do_soret = false →
          (∑ k in Finset.range s.m_nsp, (s.updateDiffFluxes x j0 j1).flux k j
            = (1 - ∑ k in Finset.range s.m_nsp, s.Y x k j)
              * ∑ k in Finset.range s.m_nsp, fickFlux s x j k)
          ∧ (∑ k in Finset.range s.m_nsp, s.Y x k j = 1 →
              ∑ k in Finset.range s.m_nsp, (s.updateDiffFluxes x j0 j1).flux k j = 0)) := by
  have hb : ∀ j, j < j1 → ∀ k, k < s.m_nsp → s.m_flux.nrows * j + k < s.m_flux.data.length := by
    intro j' hj' k hk
    rw [hrows]
    have h1 : s.m_nsp * j' + k < s.m_nsp * (j' + 1) := by
      rw [Nat.mul_succ]; omega
    have h2 : s.m_nsp * (j' + 1) ≤ s.m_nsp * j1 := Nat.mul_le_mul_left _ (by omega)
    omega
  obtain ⟨_, _, h3⟩ := diffFluxMix_faces_spec s x j0 j1 s.m_flux hrows hb
  have hA : ∑ k in Finset.range s.m_nsp,
        (forRange j0 j1 (fun j fl => diffFluxMixFace s x j fl) s.m_flux).get k j
      = (1 - ∑ k in Finset.range s.m_nsp, s.Y x k j)
        * ∑ k in Finset.range s.m_nsp, fickFlux s x j k := by
    rw [Finset.sum_congr rfl (fun k hk => h3 j hj0 hj1 k (Finset.mem_range.mp hk)),
      Finset.sum_add_distrib, ← Finset.mul_sum]
    ring
  refine ⟨hA, ?_, ?_⟩
  · intro hY
    rw [hA, hY]
    ring
  · intro hmix hsoret
    have hC := updateDiffFluxes_mix_sum s x j0 j1 j hmix hsoret hrows hlen hj0 hj1
    refine ⟨hC, ?_⟩
    intro hY
    rw [hC, hY]
    ring

theorem mixture_flux_sum_witness :
    (∑ k in Finset.range demoFlow.m_nsp, (demoFlow.updateDiffFluxes demoX 0 3).flux k 1
        = (1 - ∑ k in Finset.range demoFlow.m_nsp, demoFlow.Y demoX k 1)
          * ∑ k in Finset.range demoFlow.m_nsp, fickFlux demoFlow demoX 1 k)
      ∧ (1 - ∑ k in Finset.range demoFlow.m_nsp, demoFlow.Y demoX k 1)
          * ∑ k in Finset.range demoFlow.m_nsp, fickFlux demoFlow demoX 1 k = -1 / 16
      ∧ ∑ k in Finset.range demoFlow.m_nsp,
          (forRange 0 3 (fun j fl => diffFluxMixFace demoFlow demoX j fl) demoFlow.m_flux).get k 2
          = 0
      ∧ ∑ k in Finset.range demoFlow.m_nsp, (demoFlow.updateDiffFluxes demoX 0 3).flux k 2 = 0 :=
  ⟨((mixture_flux_sum demoFlow demoX 0 3 1 rfl (by decide) (by decide) (by decide)).2.2
      rfl rfl).1,
    by decide!,
    (mixture_flux_sum demoFlow demoX 0 3 2 rfl (by decide) (by decide) (by decide)).2.1
      (by decide!),
    ((mixture_flux_sum demoFlow demoX 0 3 2 rfl (by decide) (by decide) (by decide)).2.2
      rfl rfl).2 (by decide!)⟩

end StFlow


/-! ## The radiative loss after radiation is switched off -/

namespace StFlow

/-- C31: the radiative loss vector is not cleared when radiation is switched off.
`enableRadiation(false)` only clears the flag, and with the flag off the
radiation block of `evalResidual` writes nothing, so the entries of an earlier
evaluation with radiation on stay where they are. On the concrete domain, after
`enableRadiation(true)`, a full `eval` and `enableRadiation(false)`, the flag is
off and `radiativeHeatLoss(1)` is `301604240763/2750000`; after a further full
`eval` it still is. With the energy equation solved, the temperature residual
of point 1 that this disabled domain writes is `-7941261604367/24750000000`,
while the same domain on which radiation was never on writes `-3345167/15840`. -/
theorem radiation_off_keeps_stale_loss :
    (∀ s : StFlow, (s.enableRadiation false).radiationEnabled = false
        ∧ ∀ j, (s.enableRadiation false).radiativeHeatLoss j = s.radiativeHeatLoss j)
      ∧ (∀ (c : Consts) (s : StFlow) (x : Nat → ℚ) (jmin jmax : Nat),
          s.radiationEnabled = false → evalRadiation c s x jmin jmax = s)
      ∧ (((demoFlow.enableRadiation true).eval demoConsts npos demoXg demoRg demoDiagg
            0).state.dom.enableRadiation false).radiationEnabled = false
      ∧ (((demoFlow.enableRadiation true).eval demoConsts npos demoXg demoRg demoDiagg
            0).state.dom.enableRadiation false).radiativeHeatLoss 1 = 301604240763 / 2750000
      ∧ ((((demoFlow.enableRadiation true).eval demoConsts npos demoXg demoRg demoDiagg
            0).state.dom.enableRadiation false).eval demoConsts npos demoXg demoRg demoDiagg
            0).state.dom.radiativeHeatLoss 1 = 301604240763 / 2750000
      ∧ (((((demoFlow.enableRadiation true).solveEnergyEqn npos).eval demoConsts npos demoXg
            demoRg demoDiagg 0).state.dom.enableRadiation false).eval demoConsts npos demoXg
            demoRg demoDiagg 0).state.rg 12 = -7941261604367 / 24750000000
      ∧ ((demoFlow.solveEnergyEqn npos).eval demoConsts npos demoXg demoRg demoDiagg
            0).state.rg 12 = -3345167 / 15840 := by
  refine ⟨fun s => ⟨rfl, fun j => rfl⟩, ?_, ?_, ?_, ?_, ?_, ?_⟩
  · intro c s x jmin jmax h
    have h2 : s.m_do_radiation = false := h
    unfold evalRadiation
    rw [h2]
    rfl
  · decide!
  · decide!
  · decide!
  · decide!
  · decide!

end StFlow


/-! ## The caches that an evaluation reads -/

/-- Two loops over the same range keep a relation between their states that
each pair of iterations keeps. -/
theorem forRange_rel {σ τ : Type} (R : Nat → σ → τ → Prop) (lo hi : Nat)
    (f : Nat → σ → σ) (g : Nat → τ → τ) (s : σ) (t : τ) (hle : lo ≤ hi) (h0 : R lo s t)
    (hstep : ∀ j a b, lo ≤ j → j < hi → R j a b → R (j + 1) (f j a) (g j b)) :
    R hi (forRange lo hi f s) (forRange lo hi g t) := by
  induction hi with
  | zero =>
    have : lo = 0 := by omega
    subst this
    rw [forRange_empty _ _ _ _ (Nat.le_refl _), forRange_empty _ _ _ _ (Nat.le_refl _)]
    exact h0
  | succ hi ih =>
    by_cases h : lo ≤ hi
    · rw [forRange_succ _ _ _ _ h, forRange_succ _ _ _ _ h]
      exact hstep hi _ _ h (Nat.lt_succ_self hi)
        (ih h (fun j a b h1 h2 hp => hstep j a b h1 (by omega) hp))
    · have : lo = hi + 1 := by omega
      subst this
      rw [forRange_empty _ _ _ _ (Nat.le_refl _), forRange_empty _ _ _ _ (Nat.le_refl _)]
      exact h0

/-- Two loops whose bodies agree on the range give the same result. -/
theorem forRange_congr {σ : Type} (lo hi : Nat) (f g : Nat → σ → σ) (s : σ)
    (h : ∀ j a, lo ≤ j → j < hi → f j a = g j a) :
    forRange lo hi f s = forRange lo hi g s := by
  by_cases hle : lo ≤ hi
  · exact forRange_rel (fun _ a b => a = b) lo hi f g s s hle rfl
      (fun j a b h1 h2 hab => by rw [hab]; exact h j b h1 h2)
  · rw [forRange_empty _ _ _ _ (by omega), forRange_empty _ _ _ _ (by omega)]

/-- A loop commutes with a map of the state that its body commutes with. -/
theorem forRange_comm {σ : Type} (W : σ → σ) (lo hi : Nat) (body : Nat → σ → σ) (s : σ)
    (h : ∀ j a, body j (W a) = W (body j a)) :
    forRange lo hi body (W s) = W (forRange lo hi body s) := by
  by_cases hle : lo ≤ hi
  · exact forRange_rel (fun _ a b => a = W b) lo hi body body (W s) s hle rfl
      (fun j a b _ _ hab => by rw [hab]; exact h j b)
  · rw [forRange_empty _ _ _ _ (by omega), forRange_empty _ _ _ _ (by omega)]

/-- Reading past the end of a vector gives the default. -/
theorem vget_past (v : List ℚ) (i : Nat) (h : v.length ≤ i) : vget v i = 0 := by
  unfold vget
  exact List.getD_eq_default _ _ h

/-- Storing the same value at the same index in two vectors of the same size
makes them agree there and keeps every agreement they had. -/
theorem vget_set_both (v w : List ℚ) (hl : v.length = w.length) (i : Nat) (a : ℚ) (n : Nat)
    (h : n = i ∨ vget v n = vget w n) : vget (v.set i a) n = vget (w.set i a) n := by
  by_cases hn : n = i
  · subst hn
    by_cases hb : n < v.length
    · rw [vget_set_eq _ _ _ hb, vget_set_eq _ _ _ (by omega)]
    · rw [vget_past _ _ (by simp; omega), vget_past _ _ (by simp; omega)]
  · rw [vget_set_ne _ _ _ _ (fun e => hn e.symm), vget_set_ne _ _ _ _ (fun e => hn e.symm)]
    rcases h with h | h
    · exact absurd h hn
    · exact h

namespace StFlow

/-- Agreement of the caches on more points and entries gives agreement on fewer. -/
theorem cachesAgree_mono (P Q P2 Q2 : Nat → Prop) (s t : StFlow)
    (hP : ∀ n, P2 n → P n) (hQ : ∀ n, Q2 n → Q n) (h : cachesAgree P Q s t) :
    cachesAgree P2 Q2 s t := by
  obtain ⟨r, w, c, f, e, l1, l2, l3, l4, a1, a2⟩ := h
  exact ⟨r, w, c, f, e, l1, l2, l3, l4, fun j hj => a1 j (hP j hj), fun n hn => a2 n (hQ n hn)⟩

/-- An object agrees with itself. -/
theorem cachesAgree_refl (P Q : Nat → Prop) (s : StFlow) : cachesAgree P Q s s :=
  ⟨s.m_rho, s.m_wtm, s.m_cp, s.m_flux.data, rfl, rfl, rfl, rfl, rfl,
    fun _ _ => ⟨rfl, rfl, rfl⟩, fun _ _ => rfl⟩

/-- The call `updateThermo(x, j0, j1)` makes the caches of density, mean
molecular weight and specific heat of two objects that differ in their caches
only agree at the points `j0..j1`. -/
theorem updateThermo_rel (P Q : Nat → Prop) (s t : StFlow) (x : Nat → ℚ) (j0 j1 : Nat)
    (h : cachesAgree P Q s t) :
    cachesAgree (fun n => (j0 ≤ n ∧ n ≤ j1) ∨ P n) Q
      (s.updateThermo x j0 j1) (t.updateThermo x j0 j1) := by
  by_cases hle : j0 ≤ j1 + 1
  · have key := forRange_rel
      (fun m a b => cachesAgree (fun n => (j0 ≤ n ∧ n < m) ∨ P n) Q a b) j0 (j1 + 1)
      (fun j s =>
        let s := s.setGas x j
        let s := { s with m_rho := s.m_rho.set j (s.m_thermo.density s.m_thermo.cursor) }
        let s := { s with m_wtm := s.m_wtm.set j (s.m_thermo.meanMolecularWeight s.m_thermo.cursor) }
        ({ s with m_cp := s.m_cp.set j (s.m_thermo.cp_mass s.m_thermo.cursor) } : StFlow))
      (fun j s =>
        let s := s.setGas x j
        let s := { s with m_rho := s.m_rho.set j (s.m_thermo.density s.m_thermo.cursor) }
        let s := { s with m_wtm := s.m_wtm.set j (s.m_thermo.meanMolecularWeight s.m_thermo.cursor) }
        ({ s with m_cp := s.m_cp.set j (s.m_thermo.cp_mass s.m_thermo.cursor) } : StFlow))
      s t hle
      (cachesAgree_mono P Q _ _ s t (fun n hn => hn.elim (fun h2 => by omega) id) (fun _ hn => hn) h)
      (by
        intro j a b _ _ hab
        obtain ⟨r, w, c, f, e, l1, l2, l3, l4, a1, a2⟩ := hab
        subst e
        refine ⟨r.set j ((a.setGas x j).m_thermo.density (a.setGas x j).m_thermo.cursor),
          w.set j ((a.setGas x j).m_thermo.meanMolecularWeight (a.setGas x j).m_thermo.cursor),
          c.set j ((a.setGas x j).m_thermo.cp_mass (a.setGas x j).m_thermo.cursor),
          f, rfl, ?_, ?_, ?_, l4, ?_, a2⟩
        · show (List.set _ _ _).length = (List.set a.m_rho _ _).length
          simp [l1]
        · show (List.set _ _ _).length = (List.set a.m_wtm _ _).length
          simp [l2]
        · show (List.set _ _ _).length = (List.set a.m_cp _ _).length
          simp [l3]
        · intro n hn
          have hc : n = j ∨ (vget r n = vget a.m_rho n ∧ vget w n = vget a.m_wtm n
              ∧ vget c n = vget a.m_cp n) := by
            rcases hn with ⟨h1, h2⟩ | hp
            · by_cases e : n = j
              · exact Or.inl e
              · exact Or.inr (a1 n (Or.inl ⟨h1, by omega⟩))
            · exact Or.inr (a1 n (Or.inr hp))
          exact ⟨vget_set_both _ _ l1 j _ n (hc.imp id (fun q => q.1)),
            vget_set_both _ _ l2 j _ n (hc.imp id (fun q => q.2.1)),
            vget_set_both _ _ l3 j _ n (hc.imp id (fun q => q.2.2))⟩)
    exact cachesAgree_mono _ Q _ Q _ _
      (fun n hn => hn.elim (fun h2 => Or.inl ⟨h2.1, by omega⟩) Or.inr) (fun _ hn => hn) key
  · have e1 : s.updateThermo x j0 j1 = s := forRange_empty _ _ _ _ (by omega)
    have e2 : t.updateThermo x j0 j1 = t := forRange_empty _ _ _ _ (by omega)
    rw [e1, e2]
    exact cachesAgree_mono P Q _ Q s t (fun n hn => hn.elim (fun h2 => by omega) id)
      (fun _ hn => hn) h


end StFlow

/-- Storing equal values at the same place of two agreeing flux arrays makes
them agree there too. -/
theorem fluxAgree_set (I : Nat → Prop) (A B : Array2D) (k j : Nat) (a b : ℚ) (hab : a = b)
    (h : fluxAgree I A B) :
    fluxAgree (fun n => n = A.nrows * j + k ∨ I n) (A.set k j a) (B.set k j b) := by
  obtain ⟨h1, h2, h3, h4⟩ := h
  subst hab
  refine ⟨h1, h2, ?_, ?_⟩
  · show (List.set _ _ _).length = (List.set _ _ _).length
    simp [h3]
  · intro n hn
    show vget (List.set B.data (B.nrows * j + k) a) n = vget (List.set A.data (A.nrows * j + k) a) n
    rw [h1]
    exact vget_set_both _ _ h3 _ _ n (hn.imp id (h4 n))

/-- Agreeing flux arrays give the same value where they agree. -/
theorem fluxAgree_get (I : Nat → Prop) (A B : Array2D) (k j : Nat) (h : fluxAgree I A B)
    (hI : I (A.nrows * j + k)) : B.get k j = A.get k j := by
  obtain ⟨h1, _, _, h4⟩ := h
  show vget B.data (B.nrows * j + k) = vget A.data (A.nrows * j + k)
  rw [h1]
  exact h4 _ hI

/-- Agreement of flux arrays on more positions gives agreement on fewer. -/
theorem fluxAgree_mono (I I2 : Nat → Prop) (A B : Array2D) (hI : ∀ n, I2 n → I n)
    (h : fluxAgree I A B) : fluxAgree I2 A B :=
  ⟨h.1, h.2.1, h.2.2.1, fun n hn => h.2.2.2 n (hI n hn)⟩

namespace StFlow

/-- The Soret block at face `m` keeps the agreement of two flux arrays that
agree on the entries of the face. -/
theorem diffFluxSoretFace_agree (s : StFlow) (x : Nat → ℚ) (m : Nat) (I : Nat → Prop)
    (A B : Array2D) (h : fluxAgree I A B) (hI : ∀ k, k < s.m_nsp → I (A.nrows * m + k)) :
    fluxAgree I (diffFluxSoretFace s x m A) (diffFluxSoretFace s x m B)
      ∧ (diffFluxSoretFace s x m A).nrows = A.nrows := by
  unfold diffFluxSoretFace
  exact forRange_rel (fun _ (a b : Array2D) => fluxAgree I a b ∧ a.nrows = A.nrows) 0 s.m_nsp _ _
    A B (Nat.zero_le _) ⟨h, rfl⟩
    (by
      intro k a b _ hk hab
      obtain ⟨hab, hn⟩ := hab
      have hg : b.get k m = a.get k m := fluxAgree_get I a b k m hab (by rw [hn]; exact hI k hk)
      refine ⟨?_, hn⟩
      simp only [hg]
      exact fluxAgree_mono _ I _ _ (fun n hn => Or.inr hn) (fluxAgree_set I a b k m _ _ rfl hab))

/-- The multicomponent branch at face `j` makes two agreeing flux arrays agree
on the entries of the face. -/
theorem diffFluxMultiFace_agree (s : StFlow) (x : Nat → ℚ) (j : Nat) (I : Nat → Prop)
    (A B : Array2D) (h : fluxAgree I A B) :
    fluxAgree (fun n => (∃ k, k < s.m_nsp ∧ n = A.nrows * j + k) ∨ I n)
        (diffFluxMultiFace s x j A) (diffFluxMultiFace s x j B)
      ∧ (diffFluxMultiFace s x j A).nrows = A.nrows := by
  unfold diffFluxMultiFace
  exact forRange_rel (fun i (a b : Array2D) =>
      fluxAgree (fun n => (∃ k, k < i ∧ n = A.nrows * j + k) ∨ I n) a b ∧ a.nrows = A.nrows)
    0 s.m_nsp _ _ A B (Nat.zero_le _)
    ⟨fluxAgree_mono I _ A B (fun n hn => hn.elim (fun ⟨k, h1, _⟩ => by omega) id) h, rfl⟩
    (by
      intro k a b _ hk hab
      obtain ⟨hab, hn⟩ := hab
      refine ⟨?_, hn⟩
      refine fluxAgree_mono _ _ _ _ ?_ (fluxAgree_set _ a b k j _ _ rfl hab)
      rintro n (⟨k2, h1, h2⟩ | hi)
      · by_cases e : k2 = k
        · subst e
          exact Or.inl (by rw [hn]; exact h2)
        · exact Or.inr (Or.inl ⟨k2, by omega, h2⟩)
      · exact Or.inr (Or.inr hi))


/-- The first species loop of the mixture-averaged branch at face `j` makes
two agreeing flux arrays agree on the entries of the face and gives the same
running sum. -/
theorem diffFluxMixFick_agree (s : StFlow) (x : Nat → ℚ) (j : Nat) (I : Nat → Prop)
    (A B : Array2D) (h : fluxAgree I A B) :
    fluxAgree (fun n => (∃ k, k < s.m_nsp ∧ n = A.nrows * j + k) ∨ I n)
        (diffFluxMixFick s x j A).1 (diffFluxMixFick s x j B).1
      ∧ (diffFluxMixFick s x j A).1.nrows = A.nrows
      ∧ (diffFluxMixFick s x j B).2 = (diffFluxMixFick s x j A).2 := by
  unfold diffFluxMixFick
  exact forRange_rel (fun i (a b : Array2D × ℚ) =>
      fluxAgree (fun n => (∃ k, k < i ∧ n = A.nrows * j + k) ∨ I n) a.1 b.1
        ∧ a.1.nrows = A.nrows ∧ b.2 = a.2)
    0 s.m_nsp _ _ (A, 0) (B, 0) (Nat.zero_le _)
    ⟨fluxAgree_mono I _ A B (fun n hn => hn.elim (fun ⟨k, h1, _⟩ => by omega) id) h, rfl, rfl⟩
    (by
      intro k a b _ hk hab
      obtain ⟨hab, hn, hs⟩ := hab
      have h1 := fluxAgree_set _ a.1 b.1 k j
        (vget s.m_wt k * (s.density j * vget s.m_diff (k + s.m_nsp * j) / vget s.m_wtm j))
        _ rfl hab
      have g1 := fluxAgree_get _ _ _ k j h1 (Or.inl rfl)
      have h2 := fluxAgree_set _ _ _ k j
        ((a.1.set k j (vget s.m_wt k
            * (s.density j * vget s.m_diff (k + s.m_nsp * j) / vget s.m_wtm j))).get k j
          * ((s.X x k j - s.X x k (j + 1)) / (s.z (j + 1) - s.z j)))
        ((b.1.set k j (vget s.m_wt k
            * (s.density j * vget s.m_diff (k + s.m_nsp * j) / vget s.m_wtm j))).get k j
          * ((s.X x k j - s.X x k (j + 1)) / (s.z (j + 1) - s.z j)))
        (by rw [g1]) h1
      have g2 := fluxAgree_get _ _ _ k j h2 (Or.inl rfl)
      refine ⟨?_, hn, ?_⟩
      · refine fluxAgree_mono _ _ _ _ ?_ h2
        rintro n (⟨k2, e1, e2⟩ | hi)
        · by_cases e : k2 = k
          · subst e
            exact Or.inr (Or.inl (by rw [e2, hn]))
          · exact Or.inr (Or.inr (Or.inl ⟨k2, by omega, e2⟩))
        · exact Or.inr (Or.inr (Or.inr hi))
      · show b.2 - _ = a.2 - _
        rw [hs]
        exact congrArg (fun q => a.2 - q) g2)


/-- The mixture-averaged branch at face `j` makes two agreeing flux arrays
agree on the entries of the face. -/
theorem diffFluxMixFace_agree (s : StFlow) (x : Nat → ℚ) (j : Nat) (I : Nat → Prop)
    (A B : Array2D) (h : fluxAgree I A B) :
    fluxAgree (fun n => (∃ k, k < s.m_nsp ∧ n = A.nrows * j + k) ∨ I n)
        (diffFluxMixFace s x j A) (diffFluxMixFace s x j B)
      ∧ (diffFluxMixFace s x j A).nrows = A.nrows := by
  obtain ⟨f1, f2, f3⟩ := diffFluxMixFick_agree s x j I A B h
  have eA : diffFluxMixFace s x j A = forRange 0 s.m_nsp (fun k fl =>
      fl.set k j (fl.get k j + (diffFluxMixFick s x j A).2 * s.Y x k j))
      (diffFluxMixFick s x j A).1 := rfl
  have eB : diffFluxMixFace s x j B = forRange 0 s.m_nsp (fun k fl =>
      fl.set k j (fl.get k j + (diffFluxMixFick s x j B).2 * s.Y x k j))
      (diffFluxMixFick s x j B).1 := rfl
  rw [eA, eB, f3]
  exact forRange_rel (fun _ (a b : Array2D) =>
      fluxAgree (fun n => (∃ k, k < s.m_nsp ∧ n = A.nrows * j + k) ∨ I n) a b
        ∧ a.nrows = A.nrows)
    0 s.m_nsp _ _ _ _ (Nat.zero_le _) ⟨f1, f2⟩
    (by
      intro k a b _ hk hab
      obtain ⟨hab, hn⟩ := hab
      have hg : b.get k j = a.get k j :=
        fluxAgree_get _ a b k j hab (Or.inl ⟨k, hk, by rw [hn]⟩)
      refine ⟨?_, hn⟩
      simp only [hg]
      exact fluxAgree_mono _ _ _ _ (fun n hn => Or.inr hn) (fluxAgree_set _ a b k j _ _ rfl hab))

/-- A loop over the faces `j0..j1-1` of a face update that makes agreeing flux
arrays agree on the entries of its face makes them agree on the entries of all
the faces of the range. -/
theorem faces_agree (F : Nat → Array2D → Array2D) (nsp j0 j1 : Nat) (I : Nat → Prop)
    (A B : Array2D) (h : fluxAgree I A B)
    (hF : ∀ j (I2 : Nat → Prop) (a b : Array2D), fluxAgree I2 a b →
      fluxAgree (fun n => (∃ k, k < nsp ∧ n = a.nrows * j + k) ∨ I2 n) (F j a) (F j b)
        ∧ (F j a).nrows = a.nrows) :
    fluxAgree (fun n => (∃ k j, k < nsp ∧ j0 ≤ j ∧ j < j1 ∧ n = A.nrows * j + k) ∨ I n)
        (forRange j0 j1 F A) (forRange j0 j1 F B)
      ∧ (forRange j0 j1 F A).nrows = A.nrows := by
  by_cases hle : j0 ≤ j1
  · exact forRange_rel (fun m (a b : Array2D) =>
        fluxAgree (fun n => (∃ k j, k < nsp ∧ j0 ≤ j ∧ j < m ∧ n = A.nrows * j + k) ∨ I n) a b
          ∧ a.nrows = A.nrows)
      j0 j1 F F A B hle
      ⟨fluxAgree_mono I _ A B (fun n hn => hn.elim (fun ⟨_, _, _, h1, h2, _⟩ => by omega) id) h,
        rfl⟩
      (by
        intro j a b h1 _ hab
        obtain ⟨hab, hn⟩ := hab
        obtain ⟨g1, g2⟩ := hF j _ a b hab
        refine ⟨fluxAgree_mono _ _ _ _ ?_ g1, g2.trans hn⟩
        rintro n (⟨k, j2, e1, e2, e3, e4⟩ | hi)
        · by_cases e : j2 = j
          · subst e
            exact Or.inl ⟨k, e1, by rw [hn]; exact e4⟩
          · exact Or.inr (Or.inl ⟨k, j2, e1, e2, by omega, e4⟩)
        · exact Or.inr (Or.inr hi))
  · rw [forRange_empty _ _ _ _ (by omega), forRange_empty _ _ _ _ (by omega)]
    exact ⟨fluxAgree_mono I _ A B
      (fun n hn => hn.elim (fun ⟨_, _, _, h1, h2, _⟩ => by omega) id) h, rfl⟩


/-- The loop of the Soret block over the faces `j0..j1-1` keeps the agreement
of two flux arrays that agree on the entries of these faces. -/
theorem soretFaces_agree (s : StFlow) (x : Nat → ℚ) (j0 j1 : Nat) (I : Nat → Prop)
    (A B : Array2D) (h : fluxAgree I A B)
    (hI : ∀ k j, k < s.m_nsp → j0 ≤ j → j < j1 → I (A.nrows * j + k)) :
    fluxAgree I (forRange j0 j1 (fun m fl => diffFluxSoretFace s x m fl) A)
        (forRange j0 j1 (fun m fl => diffFluxSoretFace s x m fl) B)
      ∧ (forRange j0 j1 (fun m fl => diffFluxSoretFace s x m fl) A).nrows = A.nrows := by
  by_cases hle : j0 ≤ j1
  · exact forRange_rel (fun _ (a b : Array2D) => fluxAgree I a b ∧ a.nrows = A.nrows)
      j0 j1 _ _ A B hle ⟨h, rfl⟩
      (by
        intro j a b h1 h2 hab
        obtain ⟨hab, hn⟩ := hab
        obtain ⟨g1, g2⟩ := diffFluxSoretFace_agree s x j I a b hab
          (fun k hk => by rw [hn]; exact hI k j hk h1 h2)
        exact ⟨g1, g2.trans hn⟩)
  · rw [forRange_empty _ _ _ _ (by omega), forRange_empty _ _ _ _ (by omega)]
    exact ⟨h, rfl⟩

/-- The mole fraction read through an object whose cache of the mean molecular
weight agrees at the point. -/
theorem X_withCaches (s : StFlow) (r w c f : List ℚ) (x : Nat → ℚ) (k j : Nat)
    (hw : vget w j = vget s.m_wtm j) : (s.withCaches r w c f).X x k j = s.X x k j := by
  show vget w j * s.Y x k j / vget s.m_wt k = vget s.m_wtm j * s.Y x k j / vget s.m_wt k
  rw [hw]

/-- The density read through an object whose density cache agrees at the point. -/
theorem density_withCaches (s : StFlow) (r w c f : List ℚ) (j : Nat)
    (hr : vget r j = vget s.m_rho j) : (s.withCaches r w c f).density j = s.density j := hr

/-- The mass flux read through an object whose density cache agrees at the point. -/
theorem rho_u_withCaches (s : StFlow) (r w c f : List ℚ) (x : Nat → ℚ) (j : Nat)
    (hr : vget r j = vget s.m_rho j) : (s.withCaches r w c f).rho_u x j = s.rho_u x j := by
  show vget r j * x (s.index c_offset_U j) = vget s.m_rho j * x (s.index c_offset_U j)
  rw [hr]

/-- The multicomponent branch at face `j` reads the caches at the points `j`
and `j+1` only. -/
theorem diffFluxMultiFace_withCaches (s : StFlow) (r w c f : List ℚ) (x : Nat → ℚ) (j : Nat)
    (fl : Array2D) (hw0 : vget w j = vget s.m_wtm j) (hw1 : vget w (j + 1) = vget s.m_wtm (j + 1)) :
    diffFluxMultiFace (s.withCaches r w c f) x j fl = diffFluxMultiFace s x j fl := by
  unfold diffFluxMultiFace
  simp only [X_withCaches s r w c f x _ _ hw0, X_withCaches s r w c f x _ _ hw1]
  rfl

/-- The mixture-averaged branch at face `j` reads the caches at the points `j`
and `j+1` only. -/
theorem diffFluxMixFace_withCaches (s : StFlow) (r w c f : List ℚ) (x : Nat → ℚ) (j : Nat)
    (fl : Array2D) (hr0 : vget r j = vget s.m_rho j)
    (hw0 : vget w j = vget s.m_wtm j) (hw1 : vget w (j + 1) = vget s.m_wtm (j + 1)) :
    diffFluxMixFace (s.withCaches r w c f) x j fl = diffFluxMixFace s x j fl := by
  have hstep : ∀ k p, diffFluxMixFickStep (s.withCaches r w c f) x j k p
      = diffFluxMixFickStep s x j k p := by
    intro k p
    unfold diffFluxMixFickStep
    simp only [X_withCaches s r w c f x _ _ hw0, X_withCaches s r w c f x _ _ hw1,
      density_withCaches s r w c f _ hr0]
    have e : vget (s.withCaches r w c f).m_wtm j = vget s.m_wtm j := hw0
    rw [e]
    rfl
  have hfick : diffFluxMixFick (s.withCaches r w c f) x j fl = diffFluxMixFick s x j fl := by
    unfold diffFluxMixFick
    exact forRange_congr _ _ _ _ _ (fun k p _ _ => hstep k p)
  unfold diffFluxMixFace
  rw [hfick]
  rfl


/-- The face body of the mixture-averaged transport update does not touch the
caches of density, mean molecular weight, specific heat and flux. -/
theorem transportFaceMix_withCaches (x : Nat → ℚ) (j : Nat) (a : StFlow) (r w c f : List ℚ) :
    transportFaceMix x j (a.withCaches r w c f) = (transportFaceMix x j a).withCaches r w c f := by
  unfold transportFaceMix setGasAtMidpoint
  simp only [ybarLoop_eq]
  rfl

/-- The face body of the multicomponent transport update does not touch the
caches of density, mean molecular weight, specific heat and flux. -/
theorem transportFaceMulti_withCaches (x : Nat → ℚ) (j : Nat) (a : StFlow) (r w c f : List ℚ) :
    transportFaceMulti x j (a.withCaches r w c f)
      = (transportFaceMulti x j a).withCaches r w c f := by
  unfold transportFaceMulti setGasAtMidpoint
  simp only [ybarLoop_eq, diffLoop_eq]
  by_cases hs : a.m_do_soret = true
  · have e : (a.withCaches r w c f).m_do_soret = true := hs
    simp only [hs, e, if_true]
    rfl
  · have e : ¬ (a.withCaches r w c f).m_do_soret = true := hs
    simp only [hs, e, if_false]
    rfl

/-- The member function `updateTransport` does not touch the caches of
density, mean molecular weight, specific heat and flux. -/
theorem updateTransport_withCaches (s : StFlow) (r w c f : List ℚ) (x : Nat → ℚ) (j0 j1 : Nat) :
    (s.withCaches r w c f).updateTransport x j0 j1
      = (s.updateTransport x j0 j1).withCaches r w c f := by
  rw [updateTransport_eq, updateTransport_eq]
  by_cases hm : s.m_do_multicomponent = true
  · have e : (s.withCaches r w c f).m_do_multicomponent = true := hm
    rw [if_pos hm, if_pos e]
    exact forRange_comm (fun a => a.withCaches r w c f) j0 j1 _ s
      (fun j a => transportFaceMulti_withCaches x j a r w c f)
  · have e : ¬ (s.withCaches r w c f).m_do_multicomponent = true := hm
    rw [if_neg hm, if_neg e]
    exact forRange_comm (fun a => a.withCaches r w c f) j0 j1 _ s
      (fun j a => transportFaceMix_withCaches x j a r w c f)

/-- Steps that commute with the replacement of the caches and keep the caches
keep their agreement. -/
theorem cachesAgree_step (P Q : Nat → Prop) (s t s2 t2 : StFlow) (h : cachesAgree P Q s t)
    (hrho : s2.m_rho = s.m_rho) (hwtm : s2.m_wtm = s.m_wtm) (hcp : s2.m_cp = s.m_cp)
    (hfl : s2.m_flux = s.m_flux)
    (hcomm : ∀ r w c f, t = s.withCaches r w c f → t2 = s2.withCaches r w c f) :
    cachesAgree P Q s2 t2 := by
  obtain ⟨r, w, c, f, e, l1, l2, l3, l4, a1, a2⟩ := h
  refine ⟨r, w, c, f, hcomm r w c f e, ?_, ?_, ?_, ?_, ?_, ?_⟩
  · rw [hrho]; exact l1
  · rw [hwtm]; exact l2
  · rw [hcp]; exact l3
  · rw [hfl]; exact l4
  · rw [hrho, hwtm, hcp]; exact a1
  · rw [hfl]; exact a2


/-- The member function `updateDiffFluxes` replaces the flux array by the one
its face loops compute. -/
theorem updateDiffFluxes_faces (s : StFlow) (x : Nat → ℚ) (j0 j1 : Nat) :
    s.updateDiffFluxes x j0 j1 = { s with m_flux := diffFluxFaces s x j0 j1 s.m_flux } := rfl

/-- The face loops of `updateDiffFluxes(x, j0, j1)` read the caches at the
points `j0..j1` only. -/
theorem diffFluxFaces_withCaches (s : StFlow) (r w c f : List ℚ) (x : Nat → ℚ) (j0 j1 : Nat)
    (fl : Array2D)
    (h : ∀ n, j0 ≤ n → n ≤ j1 → vget r n = vget s.m_rho n ∧ vget w n = vget s.m_wtm n) :
    diffFluxFaces (s.withCaches r w c f) x j0 j1 fl = diffFluxFaces s x j0 j1 fl := by
  have e1 : forRange j0 j1 (fun j fl => diffFluxMultiFace (s.withCaches r w c f) x j fl) fl
      = forRange j0 j1 (fun j fl => diffFluxMultiFace s x j fl) fl :=
    forRange_congr _ _ _ _ _ (fun j a h1 h2 =>
      diffFluxMultiFace_withCaches s r w c f x j a (h j h1 (by omega)).2
        (h (j + 1) (by omega) (by omega)).2)
  have e2 : forRange j0 j1 (fun j fl => diffFluxMixFace (s.withCaches r w c f) x j fl) fl
      = forRange j0 j1 (fun j fl => diffFluxMixFace s x j fl) fl :=
    forRange_congr _ _ _ _ _ (fun j a h1 h2 =>
      diffFluxMixFace_withCaches s r w c f x j a (h j h1 (by omega)).1 (h j h1 (by omega)).2
        (h (j + 1) (by omega) (by omega)).2)
  unfold diffFluxFaces
  rw [e1, e2]
  rfl

/-- The face loops of `updateDiffFluxes(x, j0, j1)` make two agreeing flux
arrays agree on the entries of the faces `j0..j1-1`. -/
theorem diffFluxFaces_agree (s : StFlow) (x : Nat → ℚ) (j0 j1 : Nat) (I : Nat → Prop)
    (A B : Array2D) (h : fluxAgree I A B) :
    fluxAgree (fun n => (∃ k j, k < s.m_nsp ∧ j0 ≤ j ∧ j < j1 ∧ n = A.nrows * j + k) ∨ I n)
        (diffFluxFaces s x j0 j1 A) (diffFluxFaces s x j0 j1 B)
      ∧ (diffFluxFaces s x j0 j1 A).nrows = A.nrows := by
  have h1 : fluxAgree (fun n => (∃ k j, k < s.m_nsp ∧ j0 ≤ j ∧ j < j1 ∧ n = A.nrows * j + k) ∨ I n)
        (if s.m_do_multicomponent then forRange j0 j1 (fun j fl => diffFluxMultiFace s x j fl) A
          else forRange j0 j1 (fun j fl => diffFluxMixFace s x j fl) A)
        (if s.m_do_multicomponent then forRange j0 j1 (fun j fl => diffFluxMultiFace s x j fl) B
          else forRange j0 j1 (fun j fl => diffFluxMixFace s x j fl) B)
      ∧ (if s.m_do_multicomponent then forRange j0 j1 (fun j fl => diffFluxMultiFace s x j fl) A
          else forRange j0 j1 (fun j fl => diffFluxMixFace s x j fl) A).nrows = A.nrows := by
    by_cases hm : s.m_do_multicomponent = true
    · simp only [hm, if_true]
      exact faces_agree _ s.m_nsp j0 j1 I A B h
        (fun j I2 a b hab => diffFluxMultiFace_agree s x j I2 a b hab)
    · simp only [hm, if_false]
      exact faces_agree _ s.m_nsp j0 j1 I A B h
        (fun j I2 a b hab => diffFluxMixFace_agree s x j I2 a b hab)
  unfold diffFluxFaces
  by_cases hs : s.m_do_soret = true
  · simp only [hs, if_true]
    obtain ⟨g1, g2⟩ := soretFaces_agree s x j0 j1 _ _ _ h1.1
      (fun k j hk hj0 hj1 => Or.inl ⟨k, j, hk, hj0, hj1, by rw [h1.2]⟩)
    exact ⟨g1, g2.trans h1.2⟩
  · simp only [hs, if_false]
    exact h1

/-- The call `updateDiffFluxes(x, j0, j1)` on two objects that differ in their
caches only and whose caches agree at the points `j0..j1` makes the flux
arrays agree on the entries of the faces `j0..j1-1`. -/
theorem updateDiffFluxes_rel (P Q : Nat → Prop) (s t : StFlow) (x : Nat → ℚ) (j0 j1 : Nat)
    (h : cachesAgree P Q s t) (hP : ∀ n, j0 ≤ n → n ≤ j1 → P n) :
    cachesAgree P
      (fun n => (∃ k j, k < s.m_nsp ∧ j0 ≤ j ∧ j < j1 ∧ n = s.m_flux.nrows * j + k) ∨ Q n)
      (s.updateDiffFluxes x j0 j1) (t.updateDiffFluxes x j0 j1) := by
  obtain ⟨r, w, c, f, e, l1, l2, l3, l4, a1, a2⟩ := h
  subst e
  have hA : fluxAgree Q s.m_flux { s.m_flux with data := f } := ⟨rfl, rfl, l4, a2⟩
  obtain ⟨⟨g1, g2, g3, g4⟩, _⟩ := diffFluxFaces_agree s x j0 j1 Q _ _ hA
  have hT : (s.withCaches r w c f).updateDiffFluxes x j0 j1
      = { s.withCaches r w c f with
          m_flux := diffFluxFaces s x j0 j1 { s.m_flux with data := f } } := by
    rw [updateDiffFluxes_faces,
      diffFluxFaces_withCaches s r w c f x j0 j1 _
        (fun n h1 h2 => ⟨(a1 n (hP n h1 h2)).1, (a1 n (hP n h1 h2)).2.1⟩)]
    rfl
  have hB : diffFluxFaces s x j0 j1 { s.m_flux with data := f }
      = { diffFluxFaces s x j0 j1 s.m_flux with
          data := (diffFluxFaces s x j0 j1 { s.m_flux with data := f }).data } := by
    generalize diffFluxFaces s x j0 j1 { s.m_flux with data := f } = B at g1 g2
    generalize diffFluxFaces s x j0 j1 s.m_flux = A at g1 g2
    cases A
    cases B
    simp only [] at g1 g2
    subst g1 g2
    rfl
  refine ⟨r, w, c, (diffFluxFaces s x j0 j1 { s.m_flux with data := f }).data, ?_,
    l1, l2, l3, g3, a1, g4⟩
  rw [hT, hB]
  rfl


/-- The face loops of `updateDiffFluxes` keep the number of rows of the flux array. -/
theorem diffFluxFaces_nrows (s : StFlow) (x : Nat → ℚ) (j0 j1 : Nat) (A : Array2D) :
    (diffFluxFaces s x j0 j1 A).nrows = A.nrows :=
  (diffFluxFaces_agree s x j0 j1 (fun _ => True) A A ⟨rfl, rfl, rfl, fun _ _ => rfl⟩).2

/-- The optional call of `updateTransport` in `updateProperties` keeps the
agreement of the caches. -/
theorem propsTransport_rel (P Q : Nat → Prop) (s t : StFlow) (jg : Nat) (x : Nat → ℚ)
    (j0 j1 : Nat) (h : cachesAgree P Q s t) :
    cachesAgree P Q
      (if jg = npos ∨ s.m_force_full_update = true then s.updateTransport x j0 j1 else s)
      (if jg = npos ∨ t.m_force_full_update = true then t.updateTransport x j0 j1 else t) := by
  have hf : t.m_force_full_update = s.m_force_full_update := by
    obtain ⟨r, w, c, f, e, _⟩ := h
    rw [e]
    rfl
  rw [hf]
  by_cases hc : jg = npos ∨ s.m_force_full_update = true
  · rw [if_pos hc, if_pos hc]
    have e := eraseTransport_updateTransport s x j0 j1
    exact cachesAgree_step P Q s t _ _ h (congrArg (fun u => u.m_rho) e)
      (congrArg (fun u => u.m_wtm) e) (congrArg (fun u => u.m_cp) e)
      (congrArg (fun u => u.m_flux) e)
      (fun r w c f e => by rw [e]; exact updateTransport_withCaches s r w c f x j0 j1)
  · rw [if_neg hc, if_neg hc]
    exact h

/-- The choice of the excess species in `updateProperties` keeps the
agreement of the caches. -/
theorem propsExcess_rel (P Q : Nat → Prop) (s t : StFlow) (jg : Nat) (x : Nat → ℚ)
    (jmin jmax : Nat) (h : cachesAgree P Q s t) :
    cachesAgree P Q
      (if jg = npos then
        { { s with m_kExcessLeft :=
              maxElementIndex (fun k => x (s.index c_offset_Y jmin + k)) s.m_nsp } with
          m_kExcessRight := maxElementIndex (fun k => x (s.index c_offset_Y jmax + k)) s.m_nsp }
       else s)
      (if jg = npos then
        { { t with m_kExcessLeft :=
              maxElementIndex (fun k => x (t.index c_offset_Y jmin + k)) t.m_nsp } with
          m_kExcessRight := maxElementIndex (fun k => x (t.index c_offset_Y jmax + k)) t.m_nsp }
       else t) := by
  by_cases hc : jg = npos
  · rw [if_pos hc, if_pos hc]
    exact cachesAgree_step P Q s t _ _ h rfl rfl rfl rfl (fun r w c f e => by rw [e]; rfl)
  · rw [if_neg hc, if_neg hc]
    exact h


/-- The call `updateProperties(jg, x, jmin, jmax)` refreshes the caches: on two
objects that differ in the contents of the caches of density, mean molecular
weight, specific heat and flux only, it leaves the first three equal at the
points `j0..j1` and the flux entries equal at the faces `j0..j1-1`, where
`j0 = max(jmin,1)-1` and `j1 = min(jmax+1, N-1)`. -/
theorem updateProperties_rel (P Q : Nat → Prop) (s t : StFlow) (jg : Nat) (x : Nat → ℚ)
    (jmin jmax : Nat) (h : cachesAgree P Q s t) :
    cachesAgree (fun n => (faceLo jmin ≤ n ∧ n ≤ faceHi s jmax) ∨ P n)
      (fun n => (∃ k j, k < (s.updateProperties jg x jmin jmax).m_nsp ∧ faceLo jmin ≤ j
          ∧ j < faceHi s jmax
          ∧ n = (s.updateProperties jg x jmin jmax).m_flux.nrows * j + k) ∨ Q n)
      (s.updateProperties jg x jmin jmax) (t.updateProperties jg x jmin jmax) := by
  have hs : ∃ r w c f, t = s.withCaches r w c f := by
    obtain ⟨r, w, c, f, e, _⟩ := h
    exact ⟨r, w, c, f, e⟩
  obtain ⟨r, w, c, f, e⟩ := hs
  subst e
  have h1 := updateThermo_rel P Q s _ x (faceLo jmin) (faceHi s jmax) h
  have h2 := propsTransport_rel _ Q _ _ jg x (faceLo jmin) (faceHi s jmax) h1
  have h3 := propsExcess_rel _ Q _ _ jg x jmin jmax h2
  have h4 := updateDiffFluxes_rel _ Q _ _ x (faceLo jmin) (faceHi s jmax) h3
    (fun n a b => Or.inl ⟨a, b⟩)
  have hn : (s.updateProperties jg x jmin jmax).m_flux.nrows
      = (if jg = npos then
          { { (propsStage s jg x jmin jmax) with
              m_kExcessLeft := maxElementIndex
                (fun k => x ((propsStage s jg x jmin jmax).index c_offset_Y jmin + k))
                (propsStage s jg x jmin jmax).m_nsp } with
            m_kExcessRight := maxElementIndex
              (fun k => x ((propsStage s jg x jmin jmax).index c_offset_Y jmax + k))
              (propsStage s jg x jmin jmax).m_nsp }
        else propsStage s jg x jmin jmax).m_flux.nrows := by
    rw [updateProperties_eq, updateDiffFluxes_faces]
    exact diffFluxFaces_nrows _ _ _ _ _
  refine cachesAgree_mono _ _ _ _ _ _ (fun n hn => hn) ?_ h4
  rintro n (⟨k, j, a1, a2, a3, a4⟩ | hq)
  · refine Or.inl ⟨k, j, a1, a2, a3, ?_⟩
    rw [a4, hn]
    rfl
  · exact Or.inr hq

end StFlow

namespace StFlow

/-- A flux entry read through an object whose flux cache agrees at the entry. -/
theorem flux_withCaches (s : StFlow) (r w c f : List ℚ) (k j : Nat)
    (hf : vget f (s.m_flux.nrows * j + k) = vget s.m_flux.data (s.m_flux.nrows * j + k)) :
    (s.withCaches r w c f).m_flux.get k j = s.m_flux.get k j := hf

/-- The left-boundary rows read the density at the points `0` and `1` and the
fluxes of face `0`. -/
theorem evalLeftBoundary_withCaches (s : StFlow) (r w c f : List ℚ) (x : Nat → ℚ) (res : Resid)
    (hr0 : vget r 0 = vget s.m_rho 0) (hr1 : vget r 1 = vget s.m_rho 1)
    (hf : ∀ k, k < s.m_nsp →
      vget f (s.m_flux.nrows * 0 + k) = vget s.m_flux.data (s.m_flux.nrows * 0 + k)) :
    (s.withCaches r w c f).evalLeftBoundary x res = s.evalLeftBoundary x res := by
  have hloop : ∀ init : Resid × ℚ,
      forRange 0 (s.withCaches r w c f).m_nsp (fun k (p : Resid × ℚ) =>
        (p.1.setRsd ((s.withCaches r w c f).index (c_offset_Y + k) 0)
          (-((s.withCaches r w c f).m_flux.get k 0
            + (s.withCaches r w c f).rho_u x 0 * (s.withCaches r w c f).Y x k 0)),
          p.2 + (s.withCaches r w c f).Y x k 0)) init
      = forRange 0 s.m_nsp (fun k (p : Resid × ℚ) =>
        (p.1.setRsd (s.index (c_offset_Y + k) 0) (-(s.m_flux.get k 0 + s.rho_u x 0 * s.Y x k 0)),
          p.2 + s.Y x k 0)) init := by
    intro init
    refine forRange_congr _ _ _ _ _ (fun k p _ hk => ?_)
    simp only [flux_withCaches s r w c f k 0 (hf k hk), rho_u_withCaches s r w c f x _ hr0]
    rfl
  unfold evalLeftBoundary
  simp only [hloop]
  simp only [rho_u_withCaches s r w c f x _ hr0, rho_u_withCaches s r w c f x _ hr1,
    density_withCaches s r w c f _ hr0, density_withCaches s r w c f _ hr1]
  rfl


/-- The right-boundary rows of `StFlow` read the density at the last two points and the fluxes of the last face. -/
theorem evalRightBoundary_withCaches (s : StFlow) (r w c f : List ℚ) (x : Nat → ℚ) (res : Resid)
    (rdt : ℚ) (hr0 : vget r (s.m_points - 1) = vget s.m_rho (s.m_points - 1))
    (hr1 : vget r (s.m_points - 1 - 1) = vget s.m_rho (s.m_points - 1 - 1))
    (hf : ∀ k, k < s.m_nsp → vget f (s.m_flux.nrows * (s.m_points - 1 - 1) + k)
      = vget s.m_flux.data (s.m_flux.nrows * (s.m_points - 1 - 1) + k)) :
    (s.withCaches r w c f).evalRightBoundary x res rdt = s.evalRightBoundary x res rdt := by
  have hloop : ∀ init : Resid × ℚ,
      forRange 0 (s.withCaches r w c f).m_nsp (fun k (p : Resid × ℚ) =>
        (p.1.setRsd ((s.withCaches r w c f).index (k + c_offset_Y) ((s.withCaches r w c f).m_points - 1))
          ((s.withCaches r w c f).m_flux.get k ((s.withCaches r w c f).m_points - 1 - 1)
            + (s.withCaches r w c f).rho_u x ((s.withCaches r w c f).m_points - 1) * (s.withCaches r w c f).Y x k ((s.withCaches r w c f).m_points - 1)),
          p.2 + (s.withCaches r w c f).Y x k ((s.withCaches r w c f).m_points - 1))) init
      = forRange 0 s.m_nsp (fun k (p : Resid × ℚ) =>
        (p.1.setRsd (s.index (k + c_offset_Y) (s.m_points - 1))
          (s.m_flux.get k (s.m_points - 1 - 1)
            + s.rho_u x (s.m_points - 1) * s.Y x k (s.m_points - 1)),
          p.2 + s.Y x k (s.m_points - 1))) init := by
    intro init
    refine forRange_congr _ _ _ _ _ (fun k p _ hk => ?_)
    have e1 : (s.withCaches r w c f).m_flux.get k ((s.withCaches r w c f).m_points - 1 - 1)
        = s.m_flux.get k (s.m_points - 1 - 1) := hf k hk
    have e2 : (s.withCaches r w c f).rho_u x ((s.withCaches r w c f).m_points - 1) = s.rho_u x (s.m_points - 1) :=
      rho_u_withCaches s r w c f x _ hr0
    simp only [e1, e2]
    rfl
  have e2 : (s.withCaches r w c f).rho_u x ((s.withCaches r w c f).m_points - 1) = s.rho_u x (s.m_points - 1) :=
    rho_u_withCaches s r w c f x _ hr0
  have e3 : (s.withCaches r w c f).rho_u x ((s.withCaches r w c f).m_points - 1 - 1) = s.rho_u x (s.m_points - 1 - 1) :=
    rho_u_withCaches s r w c f x _ hr1
  unfold evalRightBoundary
  simp only [hloop]
  simp only [e2, e3]
  rfl

/-- The right-boundary rows of `AxiStagnFlow` read the density at the last point and the fluxes of the last face. -/
theorem evalRightBoundaryAxiStagn_withCaches (s : StFlow) (r w c f : List ℚ) (x : Nat → ℚ) (res : Resid)
    (rdt : ℚ) (hr0 : vget r (s.m_points - 1) = vget s.m_rho (s.m_points - 1))
    (hr1 : vget r (s.m_points - 1 - 1) = vget s.m_rho (s.m_points - 1 - 1))
    (hf : ∀ k, k < s.m_nsp → vget f (s.m_flux.nrows * (s.m_points - 1 - 1) + k)
      = vget s.m_flux.data (s.m_flux.nrows * (s.m_points - 1 - 1) + k)) :
    (s.withCaches r w c f).evalRightBoundaryAxiStagn x res rdt = s.evalRightBoundaryAxiStagn x res rdt := by
  have hloop : ∀ init : Resid × ℚ,
      forRange 0 (s.withCaches r w c f).m_nsp (fun k (p : Resid × ℚ) =>
        (p.1.setRsd ((s.withCaches r w c f).index (k + 4) ((s.withCaches r w c f).m_points - 1))
          ((s.withCaches r w c f).m_flux.get k ((s.withCaches r w c f).m_points - 1 - 1)
            + (s.withCaches r w c f).rho_u x ((s.withCaches r w c f).m_points - 1) * (s.withCaches r w c f).Y x k ((s.withCaches r w c f).m_points - 1)),
          p.2 + (s.withCaches r w c f).Y x k ((s.withCaches r w c f).m_points - 1))) init
      = forRange 0 s.m_nsp (fun k (p : Resid × ℚ) =>
        (p.1.setRsd (s.index (k + 4) (s.m_points - 1))
          (s.m_flux.get k (s.m_points - 1 - 1)
            + s.rho_u x (s.m_points - 1) * s.Y x k (s.m_points - 1)),
          p.2 + s.Y x k (s.m_points - 1))) init := by
    intro init
    refine forRange_congr _ _ _ _ _ (fun k p _ hk => ?_)
    have e1 : (s.withCaches r w c f).m_flux.get k ((s.withCaches r w c f).m_points - 1 - 1)
        = s.m_flux.get k (s.m_points - 1 - 1) := hf k hk
    have e2 : (s.withCaches r w c f).rho_u x ((s.withCaches r w c f).m_points - 1) = s.rho_u x (s.m_points - 1) :=
      rho_u_withCaches s r w c f x _ hr0
    simp only [e1, e2]
    rfl
  have e2 : (s.withCaches r w c f).rho_u x ((s.withCaches r w c f).m_points - 1) = s.rho_u x (s.m_points - 1) :=
    rho_u_withCaches s r w c f x _ hr0
  have e3 : (s.withCaches r w c f).rho_u x ((s.withCaches r w c f).m_points - 1 - 1) = s.rho_u x (s.m_points - 1 - 1) :=
    rho_u_withCaches s r w c f x _ hr1
  unfold evalRightBoundaryAxiStagn
  simp only [hloop]
  simp only [e2, e3]
  rfl

/-- The right-boundary rows, whatever the class of the object, read the density
at the last two points and the fluxes of the last face. -/
theorem evalRightBoundaryVirtual_withCaches (s : StFlow) (r w c f : List ℚ) (x : Nat → ℚ)
    (res : Resid) (rdt : ℚ) (hr0 : vget r (s.m_points - 1) = vget s.m_rho (s.m_points - 1))
    (hr1 : vget r (s.m_points - 1 - 1) = vget s.m_rho (s.m_points - 1 - 1))
    (hf : ∀ k, k < s.m_nsp → vget f (s.m_flux.nrows * (s.m_points - 1 - 1) + k)
      = vget s.m_flux.data (s.m_flux.nrows * (s.m_points - 1 - 1) + k)) :
    (s.withCaches r w c f).evalRightBoundaryVirtual x res rdt = s.evalRightBoundaryVirtual x res rdt := by
  have h1 := evalRightBoundary_withCaches s r w c f x res rdt hr0 hr1 hf
  have h2 := evalRightBoundaryAxiStagn_withCaches s r w c f x res rdt hr0 hr1 hf
  unfold evalRightBoundaryVirtual
  have hc : (s.withCaches r w c f).cls = s.cls := rfl
  rw [hc]
  cases s.cls
  · exact h1
  · exact h2
  · exact h2

/-- The continuity row of a stagnation-flow domain reads the density at the
points `j` and `j+1`. -/
theorem evalContinuityVirtual_withCaches (s : StFlow) (r w c f : List ℚ) (x : Nat → ℚ)
    (res : Resid) (rdt : ℚ) (j : Nat)
    (htype : s.domainType = DomainType.cAxisymmetricStagnationFlow)
    (hr0 : vget r j = vget s.m_rho j) (hr1 : vget r (j + 1) = vget s.m_rho (j + 1)) :
    (s.withCaches r w c f).evalContinuityVirtual j x res rdt = s.evalContinuityVirtual j x res rdt := by
  have e0 := rho_u_withCaches s r w c f x j hr0
  have e1 := rho_u_withCaches s r w c f x (j + 1) hr1
  have d0 := density_withCaches s r w c f j hr0
  have d1 := density_withCaches s r w c f (j + 1) hr1
  have ht : (s.withCaches r w c f).domainType = DomainType.cAxisymmetricStagnationFlow := htype
  have h1 : (s.withCaches r w c f).evalContinuity j x res rdt = s.evalContinuity j x res rdt := by
    unfold evalContinuity
    simp only [ht, htype, if_true, e0, e1, d0, d1]
    rfl
  have h2 : (s.withCaches r w c f).evalContinuityAxiStagn j x res rdt = s.evalContinuityAxiStagn j x res rdt := by
    unfold evalContinuityAxiStagn
    simp only [e0, e1, d0, d1]
    rfl
  unfold evalContinuityVirtual
  have hc : (s.withCaches r w c f).cls = s.cls := rfl
  rw [hc]
  cases s.cls
  · exact h1
  · exact h2
  · exact h2


/-- The radiative loss of a point reads the mean molecular weight of the point. -/
theorem radiativeHeatLossAt_withCaches (cs : Consts) (s : StFlow) (r w c f : List ℚ)
    (x : Nat → ℚ) (j : Nat) (hw : vget w j = vget s.m_wtm j) :
    radiativeHeatLossAt cs (s.withCaches r w c f) x j = radiativeHeatLossAt cs s x j := by
  unfold radiativeHeatLossAt
  simp only [X_withCaches s r w c f x _ j hw]
  rfl

/-- The radiation block reads the mean molecular weight at the points
`jmin..jmax-1` and does not touch the caches. -/
theorem evalRadiation_withCaches (cs : Consts) (s : StFlow) (r w c f : List ℚ)
    (x : Nat → ℚ) (jmin jmax : Nat)
    (hw : ∀ n, jmin ≤ n → n < jmax → vget w n = vget s.m_wtm n) :
    evalRadiation cs (s.withCaches r w c f) x jmin jmax = (evalRadiation cs s x jmin jmax).withCaches r w c f := by
  have hloop : ∀ q : List ℚ,
      forRange jmin jmax (fun j q => q.set j (radiativeHeatLossAt cs (s.withCaches r w c f) x j)) q
        = forRange jmin jmax (fun j q => q.set j (radiativeHeatLossAt cs s x j)) q :=
    fun q => forRange_congr _ _ _ _ _ (fun j a h1 h2 => by
      rw [radiativeHeatLossAt_withCaches cs s r w c f x j (hw j h1 h2)])
  unfold evalRadiation
  by_cases hd : s.m_do_radiation = true
  · have e : (s.withCaches r w c f).m_do_radiation = true := hd
    rw [if_pos e, if_pos hd]
    simp only [hloop]
    rfl
  · have e : ¬ (s.withCaches r w c f).m_do_radiation = true := hd
    rw [if_neg e, if_neg hd]

/-- The energy row of an interior point reads the density and the specific
heat of the point and the fluxes of its two faces. -/
theorem evalEnergyRow_withCaches (cs : Consts) (s : StFlow) (r w c f : List ℚ) (x : Nat → ℚ)
    (res : Resid) (rdt : ℚ) (j : Nat)
    (hr : vget r j = vget s.m_rho j) (hc : vget c j = vget s.m_cp j)
    (hf0 : ∀ k, k < s.m_nsp → vget f (s.m_flux.nrows * (j - 1) + k)
      = vget s.m_flux.data (s.m_flux.nrows * (j - 1) + k))
    (hf1 : ∀ k, k < s.m_nsp → vget f (s.m_flux.nrows * j + k)
      = vget s.m_flux.data (s.m_flux.nrows * j + k)) :
    evalEnergyRow cs ⟨(s.withCaches r w c f), res⟩ x rdt j
      = ⟨(evalEnergyRow cs ⟨s, res⟩ x rdt j).dom.withCaches r w c f,
          (evalEnergyRow cs ⟨s, res⟩ x rdt j).res⟩ := by
  have hloop : ∀ init : ℚ × ℚ,
      forRange 0 ((s.withCaches r w c f).setGas x j).m_nsp (fun k (p : ℚ × ℚ) =>
        (p.1 + ((s.withCaches r w c f).setGas x j).wdot k j * ((s.withCaches r w c f).setGas x j).m_thermo.enthalpy_RT_ref ((s.withCaches r w c f).setGas x j).m_thermo.cursor k,
          p.2 + 1 / 2 * (((s.withCaches r w c f).setGas x j).m_flux.get k (j - 1) + ((s.withCaches r w c f).setGas x j).m_flux.get k j)
            * ((s.withCaches r w c f).setGas x j).m_thermo.cp_R_ref ((s.withCaches r w c f).setGas x j).m_thermo.cursor k / vget ((s.withCaches r w c f).setGas x j).m_wt k)) init
      = forRange 0 (s.setGas x j).m_nsp (fun k (p : ℚ × ℚ) =>
        (p.1 + (s.setGas x j).wdot k j * (s.setGas x j).m_thermo.enthalpy_RT_ref (s.setGas x j).m_thermo.cursor k,
          p.2 + 1 / 2 * ((s.setGas x j).m_flux.get k (j - 1) + (s.setGas x j).m_flux.get k j)
            * (s.setGas x j).m_thermo.cp_R_ref (s.setGas x j).m_thermo.cursor k / vget (s.setGas x j).m_wt k)) init := by
    intro init
    refine forRange_congr _ _ _ _ _ (fun k p _ hk => ?_)
    have e1 : ((s.withCaches r w c f).setGas x j).m_flux.get k (j - 1) = (s.setGas x j).m_flux.get k (j - 1) := hf0 k hk
    have e2 : ((s.withCaches r w c f).setGas x j).m_flux.get k j = (s.setGas x j).m_flux.get k j := hf1 k hk
    simp only [e1, e2]
    rfl
  have e3 : ((s.withCaches r w c f).setGas x j).rho_u x j = (s.setGas x j).rho_u x j := rho_u_withCaches s r w c f x j hr
  have e4 : vget ((s.withCaches r w c f).setGas x j).m_cp j = vget (s.setGas x j).m_cp j := hc
  have e5 : vget ((s.withCaches r w c f).setGas x j).m_rho j = vget (s.setGas x j).m_rho j := hr
  unfold evalEnergyRow
  by_cases hd : bget s.m_do_energy j = true
  · have e : bget (s.withCaches r w c f).m_do_energy j = true := hd
    rw [if_pos e, if_pos hd]
    simp only [hloop]
    simp only [e3, e4, e5]
    rfl
  · have e : ¬ bget (s.withCaches r w c f).m_do_energy j = true := hd
    rw [if_neg e, if_neg hd]
    rfl


/-- The member function `getWdot` does not touch the caches of density, mean
molecular weight, specific heat and flux. -/
theorem getWdot_withCaches (s : StFlow) (r w c f : List ℚ) (x : Nat → ℚ) (j : Nat) :
    (s.withCaches r w c f).getWdot x j = (s.getWdot x j).withCaches r w c f := rfl

/-- The rows of an interior point of a stagnation-flow domain read the density
at the points `j` and `j+1`, the specific heat at `j` and the fluxes of the
faces `j-1` and `j`. -/
theorem evalInterior_withCaches (cs : Consts) (s : StFlow) (r w c f : List ℚ) (x : Nat → ℚ)
    (res : Resid) (rdt : ℚ) (j : Nat)
    (htype : s.domainType = DomainType.cAxisymmetricStagnationFlow)
    (hr : vget r j = vget s.m_rho j) (hr1 : vget r (j + 1) = vget s.m_rho (j + 1))
    (hc : vget c j = vget s.m_cp j)
    (hf0 : ∀ k, k < s.m_nsp → vget f (s.m_flux.nrows * (j - 1) + k)
      = vget s.m_flux.data (s.m_flux.nrows * (j - 1) + k))
    (hf1 : ∀ k, k < s.m_nsp → vget f (s.m_flux.nrows * j + k)
      = vget s.m_flux.data (s.m_flux.nrows * j + k)) :
    evalInterior cs ⟨(s.withCaches r w c f), res⟩ x rdt j
      = ⟨(evalInterior cs ⟨s, res⟩ x rdt j).dom.withCaches r w c f,
          (evalInterior cs ⟨s, res⟩ x rdt j).res⟩ := by
  have e3 : ((s.getWdot x j).withCaches r w c f).rho_u x j = (s.getWdot x j).rho_u x j := rho_u_withCaches s r w c f x j hr
  have e5 : vget ((s.getWdot x j).withCaches r w c f).m_rho j = vget (s.getWdot x j).m_rho j := hr
  have hloop : ∀ init : Resid,
      forRange 0 ((s.getWdot x j).withCaches r w c f).m_nsp (fun k (q : Resid) =>
        (q.setRsd (((s.getWdot x j).withCaches r w c f).index (c_offset_Y + k) j)
          ((vget ((s.getWdot x j).withCaches r w c f).m_wt k * ((s.getWdot x j).withCaches r w c f).wdot k j - ((s.getWdot x j).withCaches r w c f).rho_u x j * ((s.getWdot x j).withCaches r w c f).dYdz x k j
              - 2 * (((s.getWdot x j).withCaches r w c f).m_flux.get k j - ((s.getWdot x j).withCaches r w c f).m_flux.get k (j - 1)) / (((s.getWdot x j).withCaches r w c f).z (j + 1) - ((s.getWdot x j).withCaches r w c f).z (j - 1)))
              / vget ((s.getWdot x j).withCaches r w c f).m_rho j
            - rdt * (((s.getWdot x j).withCaches r w c f).Y x k j - ((s.getWdot x j).withCaches r w c f).Y_prev k j))).setDiag (((s.getWdot x j).withCaches r w c f).index (c_offset_Y + k) j) 1) init
      = forRange 0 (s.getWdot x j).m_nsp (fun k (q : Resid) =>
        (q.setRsd ((s.getWdot x j).index (c_offset_Y + k) j)
          ((vget (s.getWdot x j).m_wt k * (s.getWdot x j).wdot k j - (s.getWdot x j).rho_u x j * (s.getWdot x j).dYdz x k j
              - 2 * ((s.getWdot x j).m_flux.get k j - (s.getWdot x j).m_flux.get k (j - 1)) / ((s.getWdot x j).z (j + 1) - (s.getWdot x j).z (j - 1)))
              / vget (s.getWdot x j).m_rho j
            - rdt * ((s.getWdot x j).Y x k j - (s.getWdot x j).Y_prev k j))).setDiag ((s.getWdot x j).index (c_offset_Y + k) j) 1) init := by
    intro init
    refine forRange_congr _ _ _ _ _ (fun k p _ hk => ?_)
    have e1 : ((s.getWdot x j).withCaches r w c f).m_flux.get k (j - 1) = (s.getWdot x j).m_flux.get k (j - 1) := hf0 k hk
    have e2 : ((s.getWdot x j).withCaches r w c f).m_flux.get k j = (s.getWdot x j).m_flux.get k j := hf1 k hk
    simp only [e1, e2, e3, e5]
    rfl
  have hen : ∀ q : Resid, evalEnergyRow cs ⟨((s.getWdot x j).withCaches r w c f), q⟩ x rdt j
      = ⟨(evalEnergyRow cs ⟨(s.getWdot x j), q⟩ x rdt j).dom.withCaches r w c f,
          (evalEnergyRow cs ⟨(s.getWdot x j), q⟩ x rdt j).res⟩ :=
    fun q => evalEnergyRow_withCaches cs (s.getWdot x j) r w c f x q rdt j hr hc hf0 hf1
  have hcont := evalContinuityVirtual_withCaches s r w c f x res rdt j htype hr hr1
  have e6 : (s.withCaches r w c f).rho_u x j = s.rho_u x j := rho_u_withCaches s r w c f x j hr
  have e7 : vget (s.withCaches r w c f).m_rho j = vget s.m_rho j := hr
  unfold evalInterior
  simp only [getWdot_withCaches]
  simp only [hloop]
  simp only [hen, hcont, e6, e7]
  rfl


/-- The rows of point `j` of a stagnation-flow domain with at least two points
read the density and the specific heat at the points `j-1..j+1` of the grid
and the fluxes of the faces `j-1` and `j` of the grid only. -/
theorem evalPoint_withCaches (cs : Consts) (s : StFlow) (r w c f : List ℚ) (x : Nat → ℚ)
    (res : Resid) (rdt : ℚ) (j : Nat)
    (htype : s.domainType = DomainType.cAxisymmetricStagnationFlow)
    (hN : 2 ≤ s.m_points) (hj : j ≤ s.m_points - 1)
    (hpt : ∀ n, j ≤ n + 1 → n ≤ j + 1 → n ≤ s.m_points - 1 →
      vget r n = vget s.m_rho n ∧ vget c n = vget s.m_cp n)
    (hfl : ∀ k m, k < s.m_nsp → j ≤ m + 1 → m ≤ j → m + 1 ≤ s.m_points - 1 →
      vget f (s.m_flux.nrows * m + k) = vget s.m_flux.data (s.m_flux.nrows * m + k)) :
    evalPoint cs x rdt j ⟨(s.withCaches r w c f), res⟩
      = ⟨(evalPoint cs x rdt j ⟨s, res⟩).dom.withCaches r w c f,
          (evalPoint cs x rdt j ⟨s, res⟩).res⟩ := by
  unfold evalPoint
  by_cases h0 : j = 0
  · rw [if_pos h0, if_pos h0]
    subst h0
    have e := evalLeftBoundary_withCaches s r w c f x res
      (hpt 0 (by omega) (by omega) (by omega)).1 (hpt 1 (by omega) (by omega) (by omega)).1
      (fun k hk => hfl k 0 hk (by omega) (by omega) (by omega))
    show (⟨(s.withCaches r w c f), (s.withCaches r w c f).evalLeftBoundary x res⟩ : EvalState) = _
    rw [e]
  · have hm : (s.withCaches r w c f).m_points = s.m_points := rfl
    by_cases h1 : j = s.m_points - 1
    · have h1t : j = ({ dom := (s.withCaches r w c f), res := res } : EvalState).dom.m_points - 1 := h1
      have h1s : j = ({ dom := s, res := res } : EvalState).dom.m_points - 1 := h1
      rw [if_neg h0, if_neg h0, if_pos h1t, if_pos h1s]
      have e := evalRightBoundaryVirtual_withCaches s r w c f x res rdt
        (hpt (s.m_points - 1) (by omega) (by omega) (by omega)).1
        (hpt (s.m_points - 1 - 1) (by omega) (by omega) (by omega)).1
        (fun k hk => hfl k (s.m_points - 1 - 1) hk (by omega) (by omega) (by omega))
      show (⟨(s.withCaches r w c f), ((s.withCaches r w c f).evalRightBoundaryVirtual x res rdt).setRsd _ _⟩ : EvalState) = _
      rw [e]
      rfl
    · have h1t : ¬ j = ({ dom := (s.withCaches r w c f), res := res } : EvalState).dom.m_points - 1 := h1
      have h1s : ¬ j = ({ dom := s, res := res } : EvalState).dom.m_points - 1 := h1
      rw [if_neg h0, if_neg h0, if_neg h1t, if_neg h1s]
      exact evalInterior_withCaches cs s r w c f x res rdt j htype
        (hpt j (by omega) (by omega) (by omega)).1
        (hpt (j + 1) (by omega) (by omega) (by omega)).1
        (hpt j (by omega) (by omega) (by omega)).2
        (fun k hk => hfl k (j - 1) hk (by omega) (by omega) (by omega))
        (fun k hk => hfl k j hk (by omega) (by omega) (by omega))


/-- The member function `evalResidual` on a stagnation-flow domain with at
least two points, for points `jmin..jmax` of the grid, reads the caches of
density, mean molecular weight and specific heat at the points
`jmin-1..jmax+1` of the grid and the flux cache at the faces `jmin-1..jmax` of
the grid only: replacing every other entry changes no residual and no mask
entry. -/
theorem evalResidual_withCaches (cs : Consts) (s : StFlow) (r w c f : List ℚ) (x : Nat → ℚ)
    (res : Resid) (rdt : ℚ) (jmin jmax : Nat)
    (htype : s.domainType = DomainType.cAxisymmetricStagnationFlow)
    (hN : 2 ≤ s.m_points) (hle : jmin ≤ jmax) (hmax : jmax ≤ s.m_points - 1)
    (hpt : ∀ n, jmin ≤ n + 1 → n ≤ jmax + 1 → n ≤ s.m_points - 1 →
      vget r n = vget s.m_rho n ∧ vget w n = vget s.m_wtm n ∧ vget c n = vget s.m_cp n)
    (hfl : ∀ k m, k < s.m_nsp → jmin ≤ m + 1 → m ≤ jmax → m + 1 ≤ s.m_points - 1 →
      vget f (s.m_flux.nrows * m + k) = vget s.m_flux.data (s.m_flux.nrows * m + k)) :
    (evalResidual cs (s.withCaches r w c f) x res rdt jmin jmax).res
      = (evalResidual cs s x res rdt jmin jmax).res := by
  have hrad := evalRadiation_withCaches cs s r w c f x jmin jmax
    (fun n h1 h2 => (hpt n (by omega) (by omega) (by omega)).2.1)
  have hq : ∃ q, evalRadiation cs s x jmin jmax = { s with m_qdotRadiation := q } := by
    unfold evalRadiation
    by_cases hd : s.m_do_radiation = true
    · rw [if_pos hd]
      exact ⟨_, rfl⟩
    · rw [if_neg hd]
      exact ⟨s.m_qdotRadiation, rfl⟩
  obtain ⟨q0, hq0⟩ := hq
  have key := forRange_rel
    (fun _ (a b : EvalState) =>
      (∃ th wd q, a.dom = { withThermoWdot s th wd with m_qdotRadiation := q })
        ∧ b = ⟨a.dom.withCaches r w c f, a.res⟩)
    jmin (jmax + 1) (evalPoint cs x rdt) (evalPoint cs x rdt)
    ⟨evalRadiation cs s x jmin jmax, res⟩
    ⟨(evalRadiation cs s x jmin jmax).withCaches r w c f, res⟩ (by omega)
    ⟨⟨s.m_thermo, s.m_wdot, q0, hq0⟩, rfl⟩
    (by
      intro j a b h1 h2 hab
      obtain ⟨⟨th, wd, q, hd⟩, hb⟩ := hab
      obtain ⟨ad, ar⟩ := a
      have hd2 : ad = { withThermoWdot s th wd with m_qdotRadiation := q } := hd
      subst hd2
      subst hb
      obtain ⟨th2, wd2, hd3⟩ := evalPoint_dom cs x rdt j
        ⟨{ withThermoWdot s th wd with m_qdotRadiation := q }, ar⟩
      refine ⟨⟨th2, wd2, q, ?_⟩, ?_⟩
      · rw [hd3]
        rfl
      · exact evalPoint_withCaches cs _ r w c f x ar rdt j htype hN (by
            show j ≤ s.m_points - 1
            omega)
          (fun n a1 a2 a3 =>
            ⟨(hpt n (by omega) (by omega) a3).1, (hpt n (by omega) (by omega) a3).2.2⟩)
          (fun k m hk a1 a2 a3 => hfl k m hk (by omega) (by omega) a3))
  unfold evalResidual
  rw [hrad]
  obtain ⟨_, k2⟩ := key
  rw [k2]

end StFlow

namespace StFlow

/-- The window of a call of `eval` that is full or made at a point of the
domain: the points `jmin..jmax` lie on the grid and the bound `j1` of the
property update is `min(jmax+1, N-1)` without wrap-around. -/
theorem evalStencil_window (s : StFlow) (jg : Nat) (hN : 2 ≤ s.m_points)
    (hfit : s.m_jstart + s.m_points < 2 ^ 64)
    (hjg : jg = npos ∨ (s.firstPoint ≤ jg ∧ jg ≤ s.lastPoint)) :
    ¬ (jg ≠ npos ∧ (addSz jg 1 < s.firstPoint ∨ jg > addSz s.lastPoint 1))
      ∧ evalJmin s jg ≤ evalJmax s jg ∧ evalJmax s jg ≤ s.m_points - 1
      ∧ faceHi s (evalJmax s jg) = min (evalJmax s jg + 1) (s.m_points - 1) := by
  have h64 : (2 : Nat) ^ 64 = 18446744073709551616 := by norm_num
  have hw : ¬ (jg ≠ npos ∧ (addSz jg 1 < s.firstPoint ∨ jg > addSz s.lastPoint 1))
      ∧ evalJmin s jg ≤ evalJmax s jg ∧ evalJmax s jg ≤ s.m_points - 1 := by
    rcases hjg with h | ⟨h1, h2⟩
    · obtain ⟨a, b, c⟩ := evalWindow_full s jg h (by omega) (by omega)
      rw [b, c]
      exact ⟨a, Nat.zero_le _, Nat.le_refl _⟩
    · obtain ⟨_, a, b, c⟩ := evalWindow_inside s jg (by omega) hfit h1 h2
      rw [b, c]
      refine ⟨a, ?_, ?_⟩
      · unfold firstPoint lastPoint at *
        omega
      · unfold firstPoint lastPoint at *
        omega
  refine ⟨hw.1, hw.2.1, hw.2.2, ?_⟩
  have h3 := hw.2.2
  generalize evalJmax s jg = jmax at h3 ⊢
  unfold faceHi addSz subSz
  rw [h64] at hfit ⊢
  omega


/-- C39: for a stagnation-flow domain with at least two points and a call of
`StFlow::eval` that is full or made at a global point of the domain, every
entry of the density, mean-molecular-weight and specific-heat caches and every
flux face that `evalResidual` reads is one that `updateProperties` refreshed in
the same call. With `j0 = max(jmin,1)-1` and `j1 = min(jmax+1, N-1)`: the
window `jmin..jmax` lies on the grid and `j1 < N`; whatever the four caches
held before the call, `updateProperties` leaves the same values at the points
`j0..j1` and the faces `j0..j1-1`; `evalResidual` gives the same residual and
mask for any object that agrees with the updated one at these points and faces;
hence the arrays that `eval` returns do not depend on what the caches held. -/
theorem eval_reads_refreshed_caches (cs : Consts) (s : StFlow) (jg : Nat) (xg rg : Nat → ℚ)
    (diagg : Nat → Int) (rdt : ℚ) (rho wtm cp fl : List ℚ)
    (htype : s.domainType = DomainType.cAxisymmetricStagnationFlow)
    (hN : 2 ≤ s.m_points) (hfit : s.m_jstart + s.m_points < 2 ^ 64)
    (hjg : jg = npos ∨ (s.firstPoint ≤ jg ∧ jg ≤ s.lastPoint))
    (hrho : rho.length = s.m_rho.length) (hwtm : wtm.length = s.m_wtm.length)
    (hcp : cp.length = s.m_cp.length) (hfl : fl.length = s.m_flux.data.length) :
    (evalJmin s jg ≤ evalJmax s jg ∧ evalJmax s jg ≤ s.m_points - 1
        ∧ faceLo (evalJmin s jg) ≤ evalJmin s jg
        ∧ faceHi s (evalJmax s jg) = min (evalJmax s jg + 1) (s.m_points - 1)
        ∧ faceHi s (evalJmax s jg) < s.m_points)
      ∧ cachesAgree (fun n => faceLo (evalJmin s jg) ≤ n ∧ n ≤ faceHi s (evalJmax s jg))
        (fun n => ∃ k j, k < (evalProps s jg xg).m_nsp ∧ faceLo (evalJmin s jg) ≤ j
          ∧ j < faceHi s (evalJmax s jg) ∧ n = (evalProps s jg xg).m_flux.nrows * j + k)
        (evalProps s jg xg) (evalProps (s.withCaches rho wtm cp fl) jg xg)
      ∧ (∀ (u : StFlow) (res : Resid),
          cachesAgree (fun n => faceLo (evalJmin s jg) ≤ n ∧ n ≤ faceHi s (evalJmax s jg))
            (fun n => ∃ k j, k < (evalProps s jg xg).m_nsp ∧ faceLo (evalJmin s jg) ≤ j
          ∧ j < faceHi s (evalJmax s jg) ∧ n = (evalProps s jg xg).m_flux.nrows * j + k)
            (evalProps s jg xg) u →
          (evalResidual cs u (shiftPtr xg s.loc) res rdt (evalJmin s jg) (evalJmax s jg)).res
            = (evalResidual cs (evalProps s jg xg) (shiftPtr xg s.loc) res rdt (evalJmin s jg)
                (evalJmax s jg)).res)
      ∧ ((s.withCaches rho wtm cp fl).eval cs jg xg rg diagg rdt).state.rg = (s.eval cs jg xg rg diagg rdt).state.rg
      ∧ ((s.withCaches rho wtm cp fl).eval cs jg xg rg diagg rdt).state.diagg
          = (s.eval cs jg xg rg diagg rdt).state.diagg := by
  obtain ⟨hg, w1, w2, w3⟩ := evalStencil_window s jg hN hfit hjg
  have hb : cachesAgree (fun n => faceLo (evalJmin s jg) ≤ n ∧ n ≤ faceHi s (evalJmax s jg))
      (fun n => ∃ k j, k < (evalProps s jg xg).m_nsp ∧ faceLo (evalJmin s jg) ≤ j
          ∧ j < faceHi s (evalJmax s jg) ∧ n = (evalProps s jg xg).m_flux.nrows * j + k)
      (evalProps s jg xg) (evalProps (s.withCaches rho wtm cp fl) jg xg) :=
    cachesAgree_mono _ _ _ _ _ _ (fun n hn => Or.inl hn) (fun n hn => Or.inl hn)
      (updateProperties_rel (fun _ => False) (fun _ => False) s (s.withCaches rho wtm cp fl) jg (shiftPtr xg s.loc)
        (evalJmin s jg) (evalJmax s jg)
        ⟨rho, wtm, cp, fl, rfl, hrho, hwtm, hcp, hfl, fun _ h => h.elim, fun _ h => h.elim⟩)
  have hpts : (evalProps s jg xg).m_points = s.m_points :=
    eraseCaches_field (fun u => u.m_points) (fun _ => rfl) _ _
      (eraseCaches_updateProperties s jg _ _ _)
  have htp : (evalProps s jg xg).domainType = DomainType.cAxisymmetricStagnationFlow :=
    (eraseCaches_field (fun u => u.domainType) (fun _ => rfl) _ _
      (eraseCaches_updateProperties s jg _ _ _)).trans htype
  have hc : ∀ (u : StFlow) (res : Resid),
      cachesAgree (fun n => faceLo (evalJmin s jg) ≤ n ∧ n ≤ faceHi s (evalJmax s jg))
        (fun n => ∃ k j, k < (evalProps s jg xg).m_nsp ∧ faceLo (evalJmin s jg) ≤ j
          ∧ j < faceHi s (evalJmax s jg) ∧ n = (evalProps s jg xg).m_flux.nrows * j + k)
        (evalProps s jg xg) u →
      (evalResidual cs u (shiftPtr xg s.loc) res rdt (evalJmin s jg) (evalJmax s jg)).res
        = (evalResidual cs (evalProps s jg xg) (shiftPtr xg s.loc) res rdt (evalJmin s jg)
            (evalJmax s jg)).res := by
    intro u res hu
    obtain ⟨r, w, c, f, e, _, _, _, _, a1, a2⟩ := hu
    rw [e]
    refine evalResidual_withCaches cs (evalProps s jg xg) r w c f _ res rdt _ _ htp
      (by rw [hpts]; exact hN) w1 (by rw [hpts]; exact w2) ?_ ?_
    · intro n h1 h2 h3
      rw [hpts] at h3
      refine a1 n ⟨?_, ?_⟩
      · unfold faceLo
        omega
      · rw [w3]
        omega
    · intro k m hk h1 h2 h3
      rw [hpts] at h3
      refine a2 _ ⟨k, m, hk, ?_, ?_, rfl⟩
      · unfold faceLo
        omega
      · rw [w3]
        omega
  have hres : (evalLocal cs (s.withCaches rho wtm cp fl) jg xg rg diagg rdt).res = (evalLocal cs s jg xg rg diagg rdt).res :=
    hc (evalProps (s.withCaches rho wtm cp fl) jg xg) ⟨shiftPtr rg s.loc, shiftPtr diagg s.loc⟩ hb
  obtain ⟨_, t2, t3⟩ := eval_inside cs (s.withCaches rho wtm cp fl) jg xg rg diagg rdt hg
  obtain ⟨_, s2, s3⟩ := eval_inside cs s jg xg rg diagg rdt hg
  refine ⟨⟨w1, w2, ?_, w3, ?_⟩, hb, hc, ?_, ?_⟩
  · unfold faceLo
    omega
  · rw [w3]
    omega
  · rw [t2, s2, hres]
    rfl
  · rw [t3, s3, hres]
    rfl


/-- Witness for `eval_reads_refreshed_caches`: the concrete stagnation-flow
domain on four points, evaluated at the global point 2, with the four caches
overwritten by other values of the same sizes. -/
theorem eval_reads_refreshed_caches_witness :
    demoFlow.domainType = DomainType.cAxisymmetricStagnationFlow
      ∧ 2 ≤ demoFlow.m_points
      ∧ demoFlow.firstPoint ≤ 2 ∧ 2 ≤ demoFlow.lastPoint
      ∧ ((demoFlow.withCaches [5, 5, 5, 5] [7, 7, 7, 7] [9, 9, 9, 9] [1, 2, 3, 4, 5, 6, 7, 8]).eval demoConsts 2 demoXg demoRg demoDiagg 0).state.rg
          = (demoFlow.eval demoConsts 2 demoXg demoRg demoDiagg 0).state.rg
      ∧ ((demoFlow.withCaches [5, 5, 5, 5] [7, 7, 7, 7] [9, 9, 9, 9] [1, 2, 3, 4, 5, 6, 7, 8]).eval demoConsts 2 demoXg demoRg demoDiagg 0).state.diagg
          = (demoFlow.eval demoConsts 2 demoXg demoRg demoDiagg 0).state.diagg :=
  ⟨rfl, by decide, by decide, by decide,
    (eval_reads_refreshed_caches demoConsts demoFlow 2 demoXg demoRg demoDiagg 0
      [5, 5, 5, 5] [7, 7, 7, 7] [9, 9, 9, 9] [1, 2, 3, 4, 5, 6, 7, 8] rfl (by decide)
      (by show 1 + 4 < 2 ^ 64; norm_num) (Or.inr ⟨by decide, by decide⟩)
      rfl rfl rfl rfl).2.2.2⟩

end StFlow

end Cantera
